import Mathlib

/-!
# slang: binding context (BindContext.cpp)

A shallow embedding of `source/binding/BindContext.cpp`.

* Diagnostics: `addDiag` appends to the diagnostic sink of the scope and never
  reads it, so every operation returns, next to its result, the list of
  diagnostics it emitted, in emission order.
* Types declared in headers that are not part of the sources (`SVInt`,
  `ConstantValue`, `Expression`, the syntax nodes, `BindFlags`) are modelled
  from the specification; each such definition says so.
-/

set_option autoImplicit false

namespace Slang

/-! ## Source locations and diagnostics -/

/-- Modelled from the spec: `SourceLocation` (SourceLocation.h), an opaque pair
of a buffer id and a byte offset. -/
structure SourceLocation where
  buffer : Nat
  offset : Nat
  deriving DecidableEq, Repr

/-- Modelled from the spec: `SourceRange` (SourceLocation.h), a closed-open pair
of locations. -/
structure SourceRange where
  startLoc : SourceLocation
  endLoc : SourceLocation
  deriving DecidableEq, Repr

/-- Modelled from the spec: the diagnostic codes (`DiagCode`, Diagnostics.h) that
the embedded sources name; `ExpectedToken` stands for a missing-token report
in the examples. -/
inductive DiagCode
  | ExpressionNotAssignable
  | ValueMustBeIntegral
  | ValueMustNotBeUnknown
  | ValueMustBePositive
  | ValueExceedsMaxBitWidth
  | ValueOutOfRange
  | DimensionRequiresConstRange
  | PackedDimsRequireFullRange
  | InvalidDimensionRange
  | ExpectedExpression
  | ExpectedForInitializer
  | ExpectedIdentifier
  | ExpectedOpenRangeElement
  | ExpectedStatement
  | InvalidTokenInSequentialBlock
  | ExpectedToken
  deriving DecidableEq, Repr

/-- Modelled from the spec: one bit of a four-valued integer (0, 1, X, Z). -/
inductive Logic
  | zero
  | one
  | x
  | z
  deriving DecidableEq, Repr

/-- A bit is unknown when it is X or Z. -/
def Logic.isUnknown : Logic → Bool
  | .x => true
  | .z => true
  | _ => false

/-- Numeric weight of a bit; unknown bits weigh nothing. -/
def Logic.toNat : Logic → Nat
  | .one => 1
  | _ => 0

/-- Modelled from the spec: `SVInt` (SVInt.h is not among the sources), "an
arbitrary-width integer whose bits may take values 0, 1, X or Z". The bits are
listed least significant first; `signFlag` says whether the value is read in
two's complement. -/
structure SVInt where
  signFlag : Bool
  bits : List Logic
  deriving DecidableEq, Repr

namespace SVInt

/-- Modelled from the spec: `SVInt::MAX_BITS`; the spec gives 16 777 215 as the
typical value. -/
def MAX_BITS : Nat := 16777215

/-- Width in bits. -/
def bitWidth (v : SVInt) : Nat := v.bits.length

/-- Modelled from the spec: `SVInt::isSigned`. -/
def isSigned (v : SVInt) : Bool := v.signFlag

/-- Modelled from the spec: `SVInt::hasUnknown`, some bit is X or Z. -/
def hasUnknown (v : SVInt) : Bool := v.bits.any Logic.isUnknown

/-- Unsigned reading of a bit list, least significant bit first. -/
def rawValue : List Logic → Nat
  | [] => 0
  | b :: bs => b.toNat + 2 * rawValue bs

/-- Modelled from the spec: `SVInt::isNegative`, the most significant bit is 1. -/
def isNegative (v : SVInt) : Bool := v.bits.getLast? == some Logic.one

/-- The true value of a fully known integer: two's complement when signed,
unsigned otherwise. -/
def toInt (v : SVInt) : Int :=
  if v.signFlag && v.isNegative then (rawValue v.bits : Int) - 2 ^ v.bitWidth
  else (rawValue v.bits : Int)

end SVInt

/-- Lower limit of `int32_t`. -/
def INT32_MIN : Int := -2147483648

/-- Upper limit of `int32_t`. -/
def INT32_MAX : Int := 2147483647

/-- Upper limit of `uint32_t` (`bitwidth_t`). -/
def UINT32_MAX : Int := 4294967295

/-- Two's complement wrap of an integer into `int32_t`. -/
def wrapInt32 (v : Int) : Int := (v + 2147483648) % 4294967296 - 2147483648

/-- Modelled from the spec: `SVInt::as<int32_t>()`. The spec: evalInteger
"coerces to 32-bit signed" and "returns absent whenever the true value lies
outside [INT32_MIN, INT32_MAX]"; a value with unknown bits has no conversion. -/
def SVInt.as_int32 (v : SVInt) : Option Int :=
  if v.hasUnknown then none
  else if INT32_MIN ≤ v.toInt ∧ v.toInt ≤ INT32_MAX then some v.toInt
  else none

/-- Modelled from the spec: `SVInt::as<bitwidth_t>()`, the conversion to an
unsigned 32-bit width, absent when the value does not fit. -/
def SVInt.as_bitwidth (v : SVInt) : Option Nat :=
  if v.hasUnknown then none
  else if 0 ≤ v.toInt ∧ v.toInt ≤ UINT32_MAX then some v.toInt.toNat
  else none

/-- Argument streamed into a diagnostic with `<<`. -/
inductive DiagArg
  | int (v : Int)
  | svint (v : SVInt)
  | range (r : SourceRange)
  deriving DecidableEq, Repr

/-- Where a diagnostic was reported: `addDiag` takes a location or a range. -/
inductive DiagSite
  | location (l : SourceLocation)
  | range (r : SourceRange)
  deriving DecidableEq, Repr

/-- Modelled from the spec: `Diagnostic`, a code, a primary site and the
arguments streamed into it. -/
structure Diagnostic where
  code : DiagCode
  site : DiagSite
  args : List DiagArg
  deriving DecidableEq, Repr

/-- The codes of a list of diagnostics, in order. -/
def codesOf (ds : List Diagnostic) : List DiagCode := ds.map Diagnostic.code

/-! ## Constants, expressions, flags -/

/-- Modelled from the spec: `ConstantValue` (ConstantValue.h), a tagged value
that is the `Bad` sentinel, a four-valued integer, or a non-integer value (a
real, kept as its bit pattern, or null). -/
inductive ConstantValue
  | badValue
  | integer (value : SVInt)
  | real (pattern : Nat)
  | null
  deriving DecidableEq, Repr

/-- Modelled from the spec: `ConstantValue::bad`. -/
def ConstantValue.bad : ConstantValue → Bool
  | .badValue => true
  | _ => false

/-- Modelled from the spec: `ConstantValue::isInteger`. -/
def ConstantValue.isInteger : ConstantValue → Bool
  | .integer _ => true
  | _ => false

/-- Modelled from the spec: the kinds of bound expression (`ExpressionKind`);
only `DataType` is told apart by the embedded code. -/
inductive ExpressionKind
  | Invalid
  | IntegerLiteral
  | RealLiteral
  | NamedValue
  | UnaryOp
  | BinaryOp
  | DataType
  deriving DecidableEq, Repr

/-- Modelled from the spec: `Expression`. "Every Expression carries a type, an
optional compile-time constant value, a source range, and an lvalue?
predicate." The type is a handle; for a `DataType` expression it is the data
type the expression names. -/
structure Expression where
  kind : ExpressionKind
  type : Nat
  constant : Option ConstantValue
  sourceRange : SourceRange
  isLValue : Bool
  deriving DecidableEq, Repr

/-- Modelled from the spec: the `BindFlags` enumeration (BindContext.h); one
bit per flag, in the order the spec lists them. A flag set
(`bitmask<BindFlags>`) is the word of its bits. -/
def BindFlags.None : Nat := 0

/-- Modelled from the spec: flag `InsideConcatenation` (non-sticky). -/
def BindFlags.InsideConcatenation : Nat := 1

/-- Modelled from the spec: flag `AllowDataType` (non-sticky). -/
def BindFlags.AllowDataType : Nat := 2

/-- Modelled from the spec: flag `Constant`. -/
def BindFlags.Constant : Nat := 4

/-- Modelled from the spec: flag `ProceduralContext`. -/
def BindFlags.ProceduralContext : Nat := 8

/-- Modelled from the spec: flag `AssignmentAllowed`. -/
def BindFlags.AssignmentAllowed : Nat := 16

/-- The word `a & ~m`: the bits of `a` that are not bits of `m`. The source
only complements a mask to clear it from a flag word, so the two steps are
one operation here and no word width is needed. -/
def bitmaskAndNot (a m : Nat) : Nat := a ^^^ (a &&& m)

/-- The binding context: the current scope (a handle) and a flag word. -/
structure BindContext where
  scope : Nat
  flags : Nat
  deriving DecidableEq, Repr

/-! ## Syntax nodes of dimensions -/

/-- Modelled from the spec: `ExpressionSyntax`. Expression syntax is opaque to
the embedded code: a node identity and the node's source range. -/
structure ExpressionSyntax where
  node : Nat
  sourceRange : SourceRange
  deriving DecidableEq, Repr

/-- Kinds of a range select: `[l:r]`, `[l+:r]`, `[l-:r]`. -/
inductive RangeSelectKind
  | SimpleRangeSelect
  | AscendingRangeSelect
  | DescendingRangeSelect
  deriving DecidableEq, Repr

/-- Modelled from the spec: `SelectorSyntax`, a bit select `[e]` or a range
select of one of three kinds, with the node's source range. -/
inductive SelectorSyntax
  | BitSelect (expr : ExpressionSyntax) (range : SourceRange)
  | RangeSelect (kind : RangeSelectKind) (left right : ExpressionSyntax)
      (range : SourceRange)
  deriving DecidableEq, Repr

/-- Source range of a selector node. -/
def SelectorSyntax.sourceRange : SelectorSyntax → SourceRange
  | .BitSelect _ r => r
  | .RangeSelect _ _ _ r => r

/-- Modelled from the spec: the dimension specifiers, `[$]` or `[$:max]`
(queue), `[*]` (wildcard) and `[selector]` (range). -/
inductive DimensionSpecifierSyntax
  | QueueDimensionSpecifier (maxSizeClause : Option ExpressionSyntax)
  | WildcardDimensionSpecifier
  | RangeDimensionSpecifier (selector : SelectorSyntax)
  deriving DecidableEq, Repr

/-- Modelled from the spec: `VariableDimensionSyntax`, brackets around an
optional specifier. -/
structure VariableDimensionSyntax where
  specifier : Option DimensionSpecifierSyntax
  sourceRange : SourceRange
  deriving DecidableEq, Repr

/-- Modelled from the spec: `ElementSelectSyntax`, brackets around an optional
selector. -/
structure ElementSelectSyntax where
  selector : Option SelectorSyntax
  sourceRange : SourceRange
  deriving DecidableEq, Repr

/-- Modelled from the spec: `DimensionKind`. -/
inductive DimensionKind
  | Unknown
  | Range
  | AbbreviatedRange
  | Dynamic
  | Associative
  | Queue
  deriving DecidableEq, Repr

/-- Modelled from the spec: `ConstantRange`, the two bounds as written. -/
structure ConstantRange where
  left : Int
  right : Int
  deriving DecidableEq, Repr

/-- Modelled from the spec: `EvaluatedDimension` with its default member
values (kind Unknown, an all-zero range, no associative type, no queue
bound). -/
structure EvaluatedDimension where
  kind : DimensionKind := DimensionKind.Unknown
  range : ConstantRange := ⟨0, 0⟩
  associativeType : Option Nat := none
  queueMaxSize : Nat := 0
  deriving DecidableEq, Repr

/-- Modelled from the spec: `EvaluatedDimension::isRange`, the kind is `Range`
or `AbbreviatedRange`. -/
def EvaluatedDimension.isRange (d : EvaluatedDimension) : Bool :=
  d.kind == DimensionKind.Range || d.kind == DimensionKind.AbbreviatedRange

/-- The binder `Expression::bind(syntax, context)` is not among the sources, so
it is a parameter of every operation that binds syntax: any function from a
syntax node and a context to the bound expression and the diagnostics that
binding appended to the sink. -/
abbrev Binder := ExpressionSyntax → BindContext → Expression × List Diagnostic

namespace BindContext

/-! ## The operations of BindContext.cpp -/

/-- `addDiag(code, SourceLocation)`: one diagnostic at a location, with the
arguments later streamed into it. -/
def addDiagAt (_self : BindContext) (code : DiagCode) (location : SourceLocation)
    (args : List DiagArg) : List Diagnostic :=
  [⟨code, DiagSite.location location, args⟩]

/-- `addDiag(code, SourceRange)`: one diagnostic at a range, with the arguments
later streamed into it. -/
def addDiag (_self : BindContext) (code : DiagCode) (sourceRange : SourceRange)
    (args : List DiagArg) : List Diagnostic :=
  [⟨code, DiagSite.range sourceRange, args⟩]

/-- `BindContext::requireLValue`. -/
def requireLValue (self : BindContext) (expr : Expression) (location : SourceLocation) :
    Bool × List Diagnostic :=
  if !expr.isLValue then
    (false, self.addDiagAt DiagCode.ExpressionNotAssignable location
      [DiagArg.range expr.sourceRange])
  else (true, [])

/-- `BindContext::requireIntegral`. -/
def requireIntegral (self : BindContext) (cv : ConstantValue) (range : SourceRange) :
    Bool × List Diagnostic :=
  if cv.bad then (false, [])
  else if !cv.isInteger then
    (false, self.addDiag DiagCode.ValueMustBeIntegral range [])
  else (true, [])

/-- `BindContext::requireNoUnknowns`. -/
def requireNoUnknowns (self : BindContext) (value : SVInt) (range : SourceRange) :
    Bool × List Diagnostic :=
  if value.hasUnknown then
    (false, self.addDiag DiagCode.ValueMustNotBeUnknown range [])
  else (true, [])

/-- `BindContext::requirePositive`. -/
def requirePositive (self : BindContext) (value : SVInt) (range : SourceRange) :
    Bool × List Diagnostic :=
  if value.isSigned && value.isNegative then
    (false, self.addDiag DiagCode.ValueMustBePositive range [])
  else (true, [])

/-- `BindContext::requireGtZero`. -/
def requireGtZero (self : BindContext) (value : Option Int) (range : SourceRange) :
    Bool × List Diagnostic :=
  match value with
  | none => (false, [])
  | some v =>
    if v ≤ 0 then (false, self.addDiag DiagCode.ValueMustBePositive range [])
    else (true, [])

/-- `BindContext::requireValidBitWidth(bitwidth_t, SourceRange)`. -/
def requireValidBitWidth (self : BindContext) (width : Nat) (range : SourceRange) :
    Bool × List Diagnostic :=
  if width > SVInt.MAX_BITS then
    (false, self.addDiag DiagCode.ValueExceedsMaxBitWidth range
      [DiagArg.int (SVInt.MAX_BITS : Int)])
  else (true, [])

/-- `BindContext::requireValidBitWidth(const SVInt&, SourceRange)`. -/
def requireValidBitWidthValue (self : BindContext) (value : SVInt) (range : SourceRange) :
    Option Nat × List Diagnostic :=
  let result := value.as_bitwidth
  match result with
  | none =>
    (result, self.addDiag DiagCode.ValueExceedsMaxBitWidth range
      [DiagArg.int (SVInt.MAX_BITS : Int)])
  | some w =>
    let (ok, ds) := self.requireValidBitWidth w range
    if !ok then (none, ds) else (result, ds)

/-- `BindContext::resetFlags`: a copy of the context with the non-sticky flags
removed and the added flags set. -/
def resetFlags (self : BindContext) (addedFlags : Nat) : BindContext :=
  let result := self
  let result := { result with
    flags := bitmaskAndNot result.flags
      (BindFlags.InsideConcatenation ||| BindFlags.AllowDataType) }
  let result := { result with flags := result.flags ||| addedFlags }
  result

/-- `BindContext::evalInteger(const Expression&)`. The branch for a constant
that passed `requireIntegral` and is not an integer stands for the throwing
`integer()` accessor; it is never taken. -/
def evalInteger (self : BindContext) (expr : Expression) : Option Int × List Diagnostic :=
  match expr.constant with
  | none => (none, [])
  | some constant =>
    let (ok, d1) := self.requireIntegral constant expr.sourceRange
    if !ok then (none, d1)
    else
      match constant with
      | ConstantValue.integer value =>
        let (ok2, d2) := self.requireNoUnknowns value expr.sourceRange
        if !ok2 then (none, d1 ++ d2)
        else
          let coerced := value.as_int32
          match coerced with
          | none =>
            (coerced, d1 ++ d2 ++ self.addDiag DiagCode.ValueOutOfRange expr.sourceRange
              [DiagArg.svint value, DiagArg.int INT32_MIN, DiagArg.int INT32_MAX])
          | some _ => (coerced, d1 ++ d2)
      | _ => (none, d1)

/-- `BindContext::evalInteger(const ExpressionSyntax&)`: bind with `Constant`,
then evaluate. -/
def evalIntegerOfSyntax (self : BindContext) (bind : Binder) (stx : ExpressionSyntax) :
    Option Int × List Diagnostic :=
  let (expr, d0) := bind stx (self.resetFlags BindFlags.Constant)
  let (value, d1) := self.evalInteger expr
  (value, d0 ++ d1)

/-- `BindContext::evalRangeDimension`: fills in `result` from a selector. The
dereferences `*value`, `*left`, `*right` happen only after the value was
found present; `*value - 1` is an `int32_t` subtraction. -/
def evalRangeDimension (self : BindContext) (bind : Binder) (stx : SelectorSyntax)
    (result : EvaluatedDimension) : EvaluatedDimension × List Diagnostic :=
  match stx with
  | SelectorSyntax.BitSelect e _ =>
    let (expr, d0) :=
      bind e (self.resetFlags (BindFlags.Constant ||| BindFlags.AllowDataType))
    if expr.kind == ExpressionKind.DataType then
      ({ result with
          kind := DimensionKind.Associative
          associativeType := some expr.type }, d0)
    else
      let (value, d1) := self.evalInteger expr
      let (ok, d2) := self.requireGtZero value stx.sourceRange
      if !ok then (result, d0 ++ d1 ++ d2)
      else
        ({ result with
            kind := DimensionKind.AbbreviatedRange
            range := ⟨0, wrapInt32 (value.getD 0 - 1)⟩ }, d0 ++ d1 ++ d2)
  | SelectorSyntax.RangeSelect RangeSelectKind.SimpleRangeSelect l r _ =>
    let (left, d1) := self.evalIntegerOfSyntax bind l
    let (right, d2) := self.evalIntegerOfSyntax bind r
    if left.isNone || right.isNone then (result, d1 ++ d2)
    else
      ({ result with
          kind := DimensionKind.Range
          range := ⟨left.getD 0, right.getD 0⟩ }, d1 ++ d2)
  | SelectorSyntax.RangeSelect _ _ _ _ =>
    (result, self.addDiag DiagCode.InvalidDimensionRange stx.sourceRange [])

/-- `BindContext::evalDimension`. The specifier kinds are exactly the three
constructors, so the `THROW_UNREACHABLE` default has no counterpart. -/
def evalDimension (self : BindContext) (bind : Binder) (stx : VariableDimensionSyntax)
    (requireRange : Bool) : EvaluatedDimension × List Diagnostic :=
  let result : EvaluatedDimension := {}
  let (result, ds) :=
    match stx.specifier with
    | none => ({ result with kind := DimensionKind.Dynamic }, [])
    | some (DimensionSpecifierSyntax.QueueDimensionSpecifier maxSizeClause) =>
      let result := { result with kind := DimensionKind.Queue }
      match maxSizeClause with
      | some expr =>
        let (value, d1) := self.evalIntegerOfSyntax bind expr
        let (ok, d2) := self.requireGtZero value expr.sourceRange
        if ok then ({ result with queueMaxSize := (value.getD 0).toNat }, d1 ++ d2)
        else (result, d1 ++ d2)
      | none => (result, [])
    | some DimensionSpecifierSyntax.WildcardDimensionSpecifier =>
      ({ result with kind := DimensionKind.Associative }, [])
    | some (DimensionSpecifierSyntax.RangeDimensionSpecifier selector) =>
      self.evalRangeDimension bind selector result
  if requireRange && !result.isRange && result.kind != DimensionKind.Unknown then
    (result, ds ++ self.addDiag DiagCode.DimensionRequiresConstRange stx.sourceRange [])
  else (result, ds)

/-- `BindContext::evalPackedDimension(const VariableDimensionSyntax&)`. -/
def evalPackedDimension (self : BindContext) (bind : Binder)
    (stx : VariableDimensionSyntax) : Option ConstantRange × List Diagnostic :=
  let (result, ds) := self.evalDimension bind stx true
  if !result.isRange then (none, ds)
  else if result.kind == DimensionKind.AbbreviatedRange then
    (some result.range,
      ds ++ self.addDiag DiagCode.PackedDimsRequireFullRange stx.sourceRange [])
  else (some result.range, ds)

/-- `BindContext::evalPackedDimension(const ElementSelectSyntax&)`. -/
def evalPackedDimensionOfSelect (self : BindContext) (bind : Binder)
    (stx : ElementSelectSyntax) : Option ConstantRange × List Diagnostic :=
  let result : EvaluatedDimension := {}
  let (result, d0) :=
    match stx.selector with
    | some selector => self.evalRangeDimension bind selector result
    | none => (result, [])
  let d1 :=
    if stx.selector.isNone || result.kind == DimensionKind.Associative then
      self.addDiag DiagCode.DimensionRequiresConstRange stx.sourceRange []
    else if result.kind == DimensionKind.AbbreviatedRange then
      self.addDiag DiagCode.PackedDimsRequireFullRange stx.sourceRange []
    else []
  if !result.isRange then (none, d0 ++ d1)
  else (some result.range, d0 ++ d1)

end BindContext

/-! ## Vocabulary of the statements -/

/-- An expression evaluates to `v`: it carries a constant that is not bad, is
an integer, has no unknown bit, and whose value is `v`, within the range of
`int32_t`. -/
def evaluatesTo (e : Expression) (v : Int) : Prop :=
  ∃ c, e.constant = some c ∧ c.bad = false ∧ c.isInteger = true ∧
    ∃ sv, c = ConstantValue.integer sv ∧ sv.hasUnknown = false ∧ sv.toInt = v ∧
      INT32_MIN ≤ v ∧ v ≤ INT32_MAX

/-- The flags under which the expression of a bit select `[e]` is bound. -/
def bitSelectFlags : Nat := BindFlags.Constant ||| BindFlags.AllowDataType

/-- The first statement of `evalDimension` on its own: the dimension read off
the specifier and the diagnostics of doing so, before the `requireRange`
check. `evalDimension_eq` relates it to `evalDimension`. -/
def specifierDimension (ctx : BindContext) (bind : Binder)
    (stx : VariableDimensionSyntax) : EvaluatedDimension × List Diagnostic :=
  match stx.specifier with
  | none => ({ kind := DimensionKind.Dynamic }, [])
  | some (DimensionSpecifierSyntax.QueueDimensionSpecifier maxSizeClause) =>
    match maxSizeClause with
    | some expr =>
      if (ctx.requireGtZero (ctx.evalIntegerOfSyntax bind expr).1 expr.sourceRange).1 then
        ({ kind := DimensionKind.Queue
           queueMaxSize := ((ctx.evalIntegerOfSyntax bind expr).1.getD 0).toNat },
          (ctx.evalIntegerOfSyntax bind expr).2 ++
            (ctx.requireGtZero (ctx.evalIntegerOfSyntax bind expr).1 expr.sourceRange).2)
      else
        ({ kind := DimensionKind.Queue },
          (ctx.evalIntegerOfSyntax bind expr).2 ++
            (ctx.requireGtZero (ctx.evalIntegerOfSyntax bind expr).1 expr.sourceRange).2)
    | none => ({ kind := DimensionKind.Queue }, [])
  | some DimensionSpecifierSyntax.WildcardDimensionSpecifier =>
    ({ kind := DimensionKind.Associative }, [])
  | some (DimensionSpecifierSyntax.RangeDimensionSpecifier selector) =>
    ctx.evalRangeDimension bind selector {}

/-- The codes that evaluating a specifier can emit by itself, apart from what
the binder emits. -/
def specifierCodes : List DiagCode :=
  [DiagCode.ValueMustBeIntegral, DiagCode.ValueMustNotBeUnknown, DiagCode.ValueOutOfRange,
    DiagCode.ValueMustBePositive, DiagCode.InvalidDimensionRange]

/-! ## Fixtures: concrete inputs for the checked instances -/

/-- The 32-bit signed `int` holding `v`, as a literal or parameter of type
`int` is stored. -/
def SVInt.ofInt32 (v : Int) : SVInt :=
  ⟨true, (List.range 32).map fun i =>
    if (v % 4294967296).toNat.testBit i then Logic.one else Logic.zero⟩

/-- An unsigned integer of the given width holding `n`. -/
def SVInt.ofNat (width n : Nat) : SVInt :=
  ⟨false, (List.range width).map fun i =>
    if n.testBit i then Logic.one else Logic.zero⟩

/-- A source range in buffer 1. -/
def rangeAt (a b : Nat) : SourceRange := ⟨⟨1, a⟩, ⟨1, b⟩⟩

/-- A bound integer expression with the given constant. -/
def constExpr (c : Option ConstantValue) (r : SourceRange) : Expression :=
  ⟨ExpressionKind.IntegerLiteral, 0, c, r, false⟩

/-- The dimension `[e]` (a bit select) of the fixtures, `e` given by its node. -/
def dimBitSelect (node : Nat) : VariableDimensionSyntax :=
  ⟨some (DimensionSpecifierSyntax.RangeDimensionSpecifier
    (SelectorSyntax.BitSelect ⟨node, rangeAt 1 2⟩ (rangeAt 1 2))), rangeAt 0 3⟩

/-- The dimension `[l:r]`, `[l+:r]` or `[l-:r]` of the fixtures, the bounds
given by their nodes. -/
def dimRangeSelect (kind : RangeSelectKind) (l r : Nat) : VariableDimensionSyntax :=
  ⟨some (DimensionSpecifierSyntax.RangeDimensionSpecifier
    (SelectorSyntax.RangeSelect kind ⟨l, rangeAt 1 2⟩ ⟨r, rangeAt 3 4⟩ (rangeAt 1 4))),
    rangeAt 0 5⟩

/-- The wildcard dimension `[*]` of the fixtures. -/
def dimWildcard : VariableDimensionSyntax :=
  ⟨some DimensionSpecifierSyntax.WildcardDimensionSpecifier, rangeAt 0 3⟩

/-- The queue dimension `[$]` or `[$:e]` of the fixtures, the expression of the
max-size clause given by its node. -/
def dimQueue (clause : Option Nat) : VariableDimensionSyntax :=
  ⟨some (DimensionSpecifierSyntax.QueueDimensionSpecifier
    (clause.map fun node => ⟨node, rangeAt 3 4⟩)), rangeAt 0 5⟩

/-- A binder for the fixtures: the node number of an expression is read as the
`int` value the expression evaluates to, offset by 100 (node 100 is 0, node 99
is -1, node 108 is 8); node 0 is a data type name (type handle 7) and node 1 an
expression without a constant. Binding emits nothing. -/
def fixtureBinder : Binder := fun stx _ctx =>
  if stx.node = 0 then
    (⟨ExpressionKind.DataType, 7, none, stx.sourceRange, false⟩, [])
  else if stx.node = 1 then (constExpr none stx.sourceRange, [])
  else
    (constExpr (some (ConstantValue.integer (SVInt.ofInt32 ((stx.node : Int) - 100))))
      stx.sourceRange, [])

/-- The context of the fixtures: scope 0, no flags. -/
def fixtureContext : BindContext := ⟨0, 0⟩

/-! # slang: statement parsing (Parser_statements.cpp)

A shallow embedding of `source/Parser_statements.cpp`. The parser is a state
(the tokens not yet consumed and the diagnostics reported so far) passed
through every parsing method. The methods of the file call each other
recursively without a bound, so `parseStatement` takes a fuel and the methods
that call it receive the statement parser to use.

The token window (`peek`, `consume`, `expect`), expression parsing and the
other methods declared in Parser.h but defined outside this file are not
among the sources: the window is modelled from the specification, the other
methods are the fields of `ParserEnv`. -/

/-- Modelled from the spec: `TokenKind`, the kinds of token that the embedded
source names, the end-of-file token and a few operators for the examples. -/
inductive TokenKind
  | Unknown
  | EndOfFile
  | Identifier
  | IntegerLiteral
  | Semicolon
  | Colon
  | Comma
  | Dot
  | OpenParenthesis
  | CloseParenthesis
  | Hash
  | DoubleHash
  | At
  | AtStar
  | Equals
  | TripleAnd
  | GreaterThan
  | Plus
  | UniqueKeyword
  | Unique0Keyword
  | PriorityKeyword
  | IfKeyword
  | ElseKeyword
  | CaseKeyword
  | CaseXKeyword
  | CaseZKeyword
  | EndCaseKeyword
  | MatchesKeyword
  | InsideKeyword
  | DefaultKeyword
  | ForeverKeyword
  | RepeatKeyword
  | WhileKeyword
  | DoKeyword
  | ForKeyword
  | ForeachKeyword
  | ReturnKeyword
  | BreakKeyword
  | ContinueKeyword
  | AssignKeyword
  | ForceKeyword
  | DeassignKeyword
  | ReleaseKeyword
  | DisableKeyword
  | BeginKeyword
  | EndKeyword
  | ForkKeyword
  | JoinKeyword
  | JoinAnyKeyword
  | JoinNoneKeyword
  | AssertKeyword
  | AssumeKeyword
  | CoverKeyword
  | RestrictKeyword
  | ExpectKeyword
  | PropertyKeyword
  | SequenceKeyword
  | FinalKeyword
  | IffKeyword
  | WaitKeyword
  | WaitOrderKeyword
  | RandCaseKeyword
  | VarKeyword
  | NewKeyword
  | TaggedKeyword
  | EndModuleKeyword
  deriving DecidableEq, Repr

/-- Modelled from the spec: `SyntaxKind`, the node kinds that the embedded
source names or builds. -/
inductive SyntaxKind
  | Unknown
  | EmptyStatement
  | ExpressionStatement
  | ConditionalStatement
  | CaseStatement
  | ForeverStatement
  | LoopStatement
  | DoWhileStatement
  | ForLoopStatement
  | ForeachLoopStatement
  | ReturnStatement
  | JumpStatement
  | TimingControlStatement
  | ProceduralAssignStatement
  | ProceduralForceStatement
  | ProceduralDeassignStatement
  | ProceduralReleaseStatement
  | DisableStatement
  | DisableForkStatement
  | SequentialBlockStatement
  | ParallelBlockStatement
  | ImmediateAssertStatement
  | ImmediateAssumeStatement
  | ImmediateCoverStatement
  | AssertPropertyStatement
  | AssumePropertyStatement
  | CoverSequenceStatement
  | CoverPropertyStatement
  | RestrictPropertyStatement
  | ExpectPropertyStatement
  | WaitStatement
  | WaitForkStatement
  | WaitOrderStatement
  | RandCaseStatement
  deriving DecidableEq, Repr

/-- Modelled from the spec: a token. `missing` marks the placeholder that
`expect` puts in the tree for a token that is not there; `skipped` holds the
tokens attached in front of it as skipped trivia, in source order. -/
structure Token where
  kind : TokenKind
  location : SourceLocation
  missing : Bool
  skipped : List (TokenKind × SourceLocation)
  deriving DecidableEq, Repr

/-- The default token `Token()`: no kind, no location. -/
def Token.empty : Token := ⟨TokenKind.Unknown, ⟨0, 0⟩, false, []⟩

/-- Modelled from the spec: the placeholder for a missing token of the given
kind ("in-tree MissingToken markers"). -/
def Token.createMissing (kind : TokenKind) (location : SourceLocation) : Token :=
  ⟨kind, location, true, []⟩

/-- A token is empty when it is the default token. -/
def Token.isEmpty (t : Token) : Bool := t == Token.empty

/-- Modelled from the spec: a node built by a parsing method that is not in
the sources (an expression, a pattern, a name, a declaration, an attribute
instance, a timing control): a tag and the tokens the node holds, in order. -/
structure SyntaxNode where
  tag : Nat
  tokens : List Token
  deriving DecidableEq, Repr

/-- An element of a separated list: a delimiter token or an element. -/
inductive TokenOrSyntax (α : Type)
  | token (t : Token)
  | node (n : α)
  deriving DecidableEq, Repr

/-- `NamedLabelSyntax(name, colon)`. -/
structure NamedLabelSyntax where
  name : Token
  colon : Token
  deriving DecidableEq, Repr

/-- `NamedBlockClauseSyntax(colon, name)`. -/
structure NamedBlockClauseSyntax where
  colon : Token
  name : Token
  deriving DecidableEq, Repr

/-- `DeferredAssertionSyntax(hash, zero, finalKeyword)`. -/
structure DeferredAssertionSyntax where
  hash : Token
  zero : Token
  finalKeyword : Token
  deriving DecidableEq, Repr

/-- `ParenthesizedExpressionSyntax(openParen, expression, closeParen)`. -/
structure ParenthesizedExpressionSyntax where
  openParen : Token
  expression : SyntaxNode
  closeParen : Token
  deriving DecidableEq, Repr

/-- `DisableIffSyntax(disable, iff, openParen, expr, closeParen)`. -/
structure DisableIffSyntax where
  disable : Token
  iff : Token
  openParen : Token
  expr : SyntaxNode
  closeParen : Token
  deriving DecidableEq, Repr

/-- `PropertySpecSyntax(timing, disable, expr)`. -/
structure PropertySpecSyntax where
  timing : Option SyntaxNode
  disable : Option DisableIffSyntax
  expr : SyntaxNode
  deriving DecidableEq, Repr

/-- What `parseForInitializer` returns: a `ForVariableDeclarationSyntax(varKeyword,
type, declarator)` or an expression. -/
inductive ForInitializerSyntax
  | ForVariableDeclaration (varKeyword : Token) (type : SyntaxNode) (declarator : SyntaxNode)
  | expression (expr : SyntaxNode)
  deriving DecidableEq, Repr

/-- `ForeachLoopListSyntax(openParen, arrayName, loopVariables, closeParen)`. -/
structure ForeachLoopListSyntax where
  openParen : Token
  arrayName : SyntaxNode
  loopVariables : List (TokenOrSyntax SyntaxNode)
  closeParen : Token
  deriving DecidableEq, Repr

mutual
/-- The statement nodes, one constructor per node class built in the file; the
arguments are those of the `alloc.emplace` call, in its order. -/
inductive StatementSyntax
  | ConditionalStatement (label : Option NamedLabelSyntax) (attributes : List SyntaxNode)
      (uniqueOrPriority ifKeyword openParen : Token) (predicate : SyntaxNode)
      (closeParen : Token) (statement : StatementSyntax)
      (elseClause : Option ElseClauseSyntax)
  | CaseStatement (label : Option NamedLabelSyntax) (attributes : List SyntaxNode)
      (uniqueOrPriority caseKeyword openParen : Token) (expr : SyntaxNode)
      (closeParen matchesOrInside : Token) (items : List CaseItemSyntax) (endcase : Token)
  | ForeverStatement (label : Option NamedLabelSyntax) (attributes : List SyntaxNode)
      (foreverKeyword : Token) (statement : StatementSyntax)
  | LoopStatement (label : Option NamedLabelSyntax) (attributes : List SyntaxNode)
      (keyword openParen : Token) (expr : SyntaxNode) (closeParen : Token)
      (statement : StatementSyntax)
  | DoWhileStatement (label : Option NamedLabelSyntax) (attributes : List SyntaxNode)
      (doKeyword : Token) (statement : StatementSyntax) (whileKeyword openParen : Token)
      (expr : SyntaxNode) (closeParen semi : Token)
  | ForLoopStatement (label : Option NamedLabelSyntax) (attributes : List SyntaxNode)
      (forKeyword openParen : Token) (initializers : List (TokenOrSyntax ForInitializerSyntax))
      (semi1 : Token) (stopExpr : SyntaxNode) (semi2 : Token)
      (steps : List (TokenOrSyntax SyntaxNode)) (closeParen : Token)
      (statement : StatementSyntax)
  | ForeachLoopStatement (label : Option NamedLabelSyntax) (attributes : List SyntaxNode)
      (keyword : Token) (loopList : ForeachLoopListSyntax) (statement : StatementSyntax)
  | ReturnStatement (label : Option NamedLabelSyntax) (attributes : List SyntaxNode)
      (returnKeyword : Token) (returnValue : Option SyntaxNode) (semi : Token)
  | JumpStatement (label : Option NamedLabelSyntax) (attributes : List SyntaxNode)
      (breakOrContinue semi : Token)
  | TimingControlStatement (label : Option NamedLabelSyntax) (attributes : List SyntaxNode)
      (timingControl : SyntaxNode) (statement : StatementSyntax)
  | ProceduralAssignStatement (kind : SyntaxKind) (label : Option NamedLabelSyntax)
      (attributes : List SyntaxNode) (keyword : Token) (lvalue : SyntaxNode)
      (equals : Token) (value : SyntaxNode) (semi : Token)
  | ProceduralDeassignStatement (kind : SyntaxKind) (label : Option NamedLabelSyntax)
      (attributes : List SyntaxNode) (keyword : Token) (variableExpr : SyntaxNode)
      (semi : Token)
  | DisableStatement (label : Option NamedLabelSyntax) (attributes : List SyntaxNode)
      (disable : Token) (name : SyntaxNode) (semi : Token)
  | DisableForkStatement (label : Option NamedLabelSyntax) (attributes : List SyntaxNode)
      (disable fork semi : Token)
  | BlockStatement (kind : SyntaxKind) (label : Option NamedLabelSyntax)
      (attributes : List SyntaxNode) (begin : Token)
      (blockName : Option NamedBlockClauseSyntax) (items : List BlockItemSyntax)
      (endToken : Token) (endBlockName : Option NamedBlockClauseSyntax)
  | ImmediateAssertionStatement (kind : SyntaxKind) (label : Option NamedLabelSyntax)
      (attributes : List SyntaxNode) (keyword : Token)
      (delay : Option DeferredAssertionSyntax) (expr : ParenthesizedExpressionSyntax)
      (action : ActionBlockSyntax)
  | ConcurrentAssertionStatement (kind : SyntaxKind) (label : Option NamedLabelSyntax)
      (attributes : List SyntaxNode) (keyword propertyOrSequence openParen : Token)
      (propertySpec : PropertySpecSyntax) (closeParen : Token) (action : ActionBlockSyntax)
  | WaitStatement (label : Option NamedLabelSyntax) (attributes : List SyntaxNode)
      (wait openParen : Token) (expr : SyntaxNode) (closeParen : Token)
      (statement : StatementSyntax)
  | WaitForkStatement (label : Option NamedLabelSyntax) (attributes : List SyntaxNode)
      (wait fork semi : Token)
  | WaitOrderStatement (label : Option NamedLabelSyntax) (attributes : List SyntaxNode)
      (keyword openParen : Token) (names : List (TokenOrSyntax SyntaxNode))
      (closeParen : Token) (action : ActionBlockSyntax)
  | RandCaseStatement (label : Option NamedLabelSyntax) (attributes : List SyntaxNode)
      (randCase : Token) (items : List RandCaseItemSyntax) (endCase : Token)
  | ExpressionStatement (label : Option NamedLabelSyntax) (attributes : List SyntaxNode)
      (expr : SyntaxNode) (semi : Token)
  | EmptyStatement (label : Option NamedLabelSyntax) (attributes : List SyntaxNode)
      (semicolon : Token)
/-- `ElseClauseSyntax(elseKeyword, clause)`. -/
inductive ElseClauseSyntax
  | mk (elseKeyword : Token) (clause : StatementSyntax)
/-- The three classes of case item. -/
inductive CaseItemSyntax
  | DefaultCaseItem (defaultKeyword colon : Token) (clause : StatementSyntax)
  | PatternCaseItem (pattern : SyntaxNode) (tripleAnd : Token) (expr : Option SyntaxNode)
      (colon : Token) (statement : StatementSyntax)
  | StandardCaseItem (expressions : List (TokenOrSyntax SyntaxNode)) (colon : Token)
      (clause : StatementSyntax)
/-- `ActionBlockSyntax(statement, elseClause)`. -/
inductive ActionBlockSyntax
  | mk (statement : Option StatementSyntax) (elseClause : Option ElseClauseSyntax)
/-- `RandCaseItemSyntax(expr, colon, statement)`. -/
inductive RandCaseItemSyntax
  | mk (expr : SyntaxNode) (colon : Token) (statement : StatementSyntax)
/-- Modelled from the spec: an item of a block after `prependSkippedTokens`: a
declaration or a statement, with the skipped tokens attached in front of it
("skipped trivia attached to the next valid node"). -/
inductive BlockItemSyntax
  | declaration (skipped : List Token) (node : SyntaxNode)
  | statement (skipped : List Token) (stmt : StatementSyntax)
end

/-- The parser state: the tokens not yet consumed (the end-of-file token is
not listed, it is what `peek` finds behind the last token), the location of
the end of file, and the diagnostics reported so far. -/
structure Parser where
  tokens : List Token
  eofLocation : SourceLocation
  diagnostics : List Diagnostic
  deriving DecidableEq, Repr

/-- How a parsing method can fail to return: the fuel of the embedding ran
out, the `ASSERT(false)` of `parseAssertionStatement` was reached, or
`parseConcurrentAssertion` went on with `kind` never assigned. -/
inductive ParseFailure
  | outOfFuel
  | assertFailed
  | uninitializedKind
  deriving DecidableEq, Repr

/-- A statement parser: from a state to a failure, or a statement and the new
state. -/
abbrev StatementParser := Parser → Except ParseFailure (StatementSyntax × Parser)

/-- The parts of the parser that are declared in Parser.h and defined outside
Parser_statements.cpp: lookahead predicates, the sub-parsers for expressions,
patterns, names, declarations, attributes and timing controls, the
separated-list driver, and the code `expect` reports for a missing token. -/
structure ParserEnv where
  isPossibleExpression : TokenKind → Bool
  isPossibleStatement : TokenKind → Bool
  isPossiblePattern : TokenKind → Bool
  isPossibleOpenRangeElement : TokenKind → Bool
  isPossibleExpressionOrComma : TokenKind → Bool
  isIdentifierOrComma : TokenKind → Bool
  isEndOfCaseItem : TokenKind → Bool
  isEndOfParenList : TokenKind → Bool
  isEndKeyword : TokenKind → Bool
  isPortDeclaration : Parser → Bool
  isVariableDeclaration : Parser → Bool
  expectedCode : TokenKind → DiagCode
  parseAttributes : Parser → List SyntaxNode × Parser
  parseExpression : Parser → SyntaxNode × Parser
  parseSubExpression : Parser → SyntaxNode × Parser
  parsePrimaryExpression : Parser → SyntaxNode × Parser
  parseExpressionOrDist : Parser → SyntaxNode × Parser
  parseSequenceExpression : Nat → Parser → SyntaxNode × Parser
  parsePropertyExpression : Nat → Parser → SyntaxNode × Parser
  parseConditionalPredicate : SyntaxNode → TokenKind → Parser → (SyntaxNode × Token) × Parser
  parsePattern : Parser → SyntaxNode × Parser
  parseOpenRangeElement : Parser → SyntaxNode × Parser
  parseName : Parser → SyntaxNode × Parser
  parseDataType : Bool → Parser → SyntaxNode × Parser
  parseVariableDeclarator : Bool → Parser → SyntaxNode × Parser
  parseTimingControl : Parser → SyntaxNode × Parser
  parsePortDeclaration : List SyntaxNode → Parser → SyntaxNode × Parser
  parseVariableDeclaration : List SyntaxNode → Parser → SyntaxNode × Parser
  parseSeparatedList : {α : Type} → (isPossibleItem isEnd : TokenKind → Bool) →
    (closeKind separatorKind : TokenKind) → DiagCode → (Parser → α × Parser) →
    Parser → (List (TokenOrSyntax α) × Token) × Parser

namespace Parser

/-- Modelled from the spec: the end-of-file token that ends the stream. -/
def endOfFile (p : Parser) : Token := ⟨TokenKind.EndOfFile, p.eofLocation, false, []⟩

/-- Modelled from the spec: `peek()`, the next token, not consumed. -/
def peek (p : Parser) : Token :=
  match p.tokens with
  | t :: _ => t
  | [] => p.endOfFile

/-- Modelled from the spec: `peek(offset)`, lookahead past the next token. -/
def peekAt (p : Parser) (offset : Nat) : Token := p.tokens.getD offset p.endOfFile

/-- Modelled from the spec: `peek(kind)`, the next token is of that kind. -/
def peekKind (p : Parser) (kind : TokenKind) : Bool := p.peek.kind == kind

/-- Modelled from the spec: `consume()`, "consumes tokens one at a time"; at
the end of the stream the end-of-file token is handed out again. -/
def consume (p : Parser) : Token × Parser := (p.peek, { p with tokens := p.tokens.tail })

/-- Modelled from the spec: `consumeIf(kind)`, the next token if it is of that
kind, the default token otherwise. -/
def consumeIf (p : Parser) (kind : TokenKind) : Token × Parser :=
  if p.peekKind kind then p.consume else (Token.empty, p)

/-- Modelled from the spec: `addError(code, location)`. -/
def addError (p : Parser) (code : DiagCode) (location : SourceLocation) : Parser :=
  { p with diagnostics := p.diagnostics ++ [⟨code, DiagSite.location location, []⟩] }

/-- Modelled from the spec: `expect(kind)`. The next token is consumed when it
is of the expected kind; otherwise nothing is consumed, a diagnostic is
reported at the next token and a missing-token placeholder is returned. -/
def expect (p : Parser) (E : ParserEnv) (kind : TokenKind) : Token × Parser :=
  if p.peekKind kind then p.consume
  else (Token.createMissing kind p.peek.location,
    p.addError (E.expectedCode kind) p.peek.location)

/-- Modelled from the spec: `prependSkippedTokens(token, skipped)`: the skipped
tokens become skipped trivia in front of the token and the buffer is emptied. -/
def prependSkippedTokens (token : Token) (skipped : List Token) : Token × List Token :=
  ({ token with skipped := skipped.map (fun t => (t.kind, t.location)) ++ token.skipped }, [])

/-- Modelled from the spec: `prependSkippedTokens(node, skipped)` for a
declaration node. -/
def prependSkippedToDeclaration (node : SyntaxNode) (skipped : List Token) :
    BlockItemSyntax × List Token :=
  (BlockItemSyntax.declaration skipped node, [])

/-- Modelled from the spec: `prependSkippedTokens(node, skipped)` for a
statement node. -/
def prependSkippedToStatement (node : StatementSyntax) (skipped : List Token) :
    BlockItemSyntax × List Token :=
  (BlockItemSyntax.statement skipped node, [])

/-! ## The methods of Parser_statements.cpp -/

/-- `Parser::parseElseClause`. -/
def parseElseClause (parseStatement : StatementParser) (p : Parser) :
    Except ParseFailure (Option ElseClauseSyntax × Parser) :=
  if p.peekKind TokenKind.ElseKeyword then do
    let (elseKeyword, p) := p.consume
    let (clause, p) ← parseStatement p
    pure (some (ElseClauseSyntax.mk elseKeyword clause), p)
  else pure (none, p)

/-- `Parser::parseConditionalStatement`. -/
def parseConditionalStatement (E : ParserEnv)
    (parseStatement : StatementParser)
    (label : Option NamedLabelSyntax) (attributes : List SyntaxNode)
    (uniqueOrPriority : Token) (p : Parser) :
    Except ParseFailure (StatementSyntax × Parser) := do
  let (ifKeyword, p) := p.expect E TokenKind.IfKeyword
  let (openParen, p) := p.expect E TokenKind.OpenParenthesis
  let (first, p) := E.parseSubExpression p
  let ((predicate, closeParen), p) :=
    E.parseConditionalPredicate first TokenKind.CloseParenthesis p
  let (statement, p) ← parseStatement p
  let (elseClause, p) ← parseElseClause parseStatement p
  pure (StatementSyntax.ConditionalStatement label attributes uniqueOrPriority ifKeyword
    openParen predicate closeParen statement elseClause, p)

/-- `Parser::parseDefaultCaseItem`. -/
def parseDefaultCaseItem (parseStatement : StatementParser)
    (p : Parser) : Except ParseFailure (CaseItemSyntax × Parser) := do
  let (defaultKeyword, p) := p.consume
  let (colon, p) := if p.peekKind TokenKind.Colon then p.consume else (Token.empty, p)
  let (clause, p) ← parseStatement p
  pure (CaseItemSyntax.DefaultCaseItem defaultKeyword colon clause, p)

/-- The `while (true)` loop of `parseCaseStatement` for `matches`. -/
def parsePatternCaseItems (E : ParserEnv)
    (parseStatement : StatementParser) :
    Nat → List CaseItemSyntax → Parser → Except ParseFailure (List CaseItemSyntax × Parser)
  | 0, _, _ => throw ParseFailure.outOfFuel
  | fuel + 1, itemBuffer, p =>
    let kind := p.peek.kind
    if kind == TokenKind.DefaultKeyword then do
      let (item, p) ← parseDefaultCaseItem parseStatement p
      parsePatternCaseItems E parseStatement fuel (itemBuffer ++ [item]) p
    else if E.isPossiblePattern kind then do
      let (pattern, p) := E.parsePattern p
      let (tripleAnd, patternExpr, p) :=
        if p.peekKind TokenKind.TripleAnd then
          let (tripleAnd, p) := p.consume
          let (patternExpr, p) := E.parseExpression p
          (tripleAnd, some patternExpr, p)
        else (Token.empty, none, p)
      let (colon, p) := p.expect E TokenKind.Colon
      let (statement, p) ← parseStatement p
      parsePatternCaseItems E parseStatement fuel
        (itemBuffer ++ [CaseItemSyntax.PatternCaseItem pattern tripleAnd patternExpr colon
          statement]) p
    else pure (itemBuffer, p)

/-- The `while (true)` loop of `parseCaseStatement` for `inside`. -/
def parseInsideCaseItems (E : ParserEnv)
    (parseStatement : StatementParser) :
    Nat → List CaseItemSyntax → Parser → Except ParseFailure (List CaseItemSyntax × Parser)
  | 0, _, _ => throw ParseFailure.outOfFuel
  | fuel + 1, itemBuffer, p =>
    let kind := p.peek.kind
    if kind == TokenKind.DefaultKeyword then do
      let (item, p) ← parseDefaultCaseItem parseStatement p
      parseInsideCaseItems E parseStatement fuel (itemBuffer ++ [item]) p
    else if E.isPossibleOpenRangeElement kind then do
      let ((buffer, colon), p) :=
        E.parseSeparatedList E.isPossibleOpenRangeElement E.isEndOfCaseItem TokenKind.Colon
          TokenKind.Comma DiagCode.ExpectedOpenRangeElement E.parseOpenRangeElement p
      let (clause, p) ← parseStatement p
      parseInsideCaseItems E parseStatement fuel
        (itemBuffer ++ [CaseItemSyntax.StandardCaseItem buffer colon clause]) p
    else pure (itemBuffer, p)

/-- The `while (true)` loop of `parseCaseStatement` for a normal case. -/
def parseStandardCaseItems (E : ParserEnv)
    (parseStatement : StatementParser) :
    Nat → List CaseItemSyntax → Parser → Except ParseFailure (List CaseItemSyntax × Parser)
  | 0, _, _ => throw ParseFailure.outOfFuel
  | fuel + 1, itemBuffer, p =>
    let kind := p.peek.kind
    if kind == TokenKind.DefaultKeyword then do
      let (item, p) ← parseDefaultCaseItem parseStatement p
      parseStandardCaseItems E parseStatement fuel (itemBuffer ++ [item]) p
    else if E.isPossibleExpression kind then do
      let ((buffer, colon), p) :=
        E.parseSeparatedList E.isPossibleExpressionOrComma E.isEndOfCaseItem TokenKind.Colon
          TokenKind.Comma DiagCode.ExpectedExpression E.parseExpression p
      let (clause, p) ← parseStatement p
      parseStandardCaseItems E parseStatement fuel
        (itemBuffer ++ [CaseItemSyntax.StandardCaseItem buffer colon clause]) p
    else pure (itemBuffer, p)

/-- `Parser::parseCaseStatement`; `fuel` bounds the item loops. -/
def parseCaseStatement (E : ParserEnv) (fuel : Nat)
    (parseStatement : StatementParser)
    (label : Option NamedLabelSyntax) (attributes : List SyntaxNode)
    (uniqueOrPriority caseKeyword : Token) (p : Parser) :
    Except ParseFailure (StatementSyntax × Parser) := do
  let (openParen, p) := p.expect E TokenKind.OpenParenthesis
  let (caseExpr, p) := E.parseExpression p
  let (closeParen, p) := p.expect E TokenKind.CloseParenthesis
  let (matchesOrInside, items, p) ←
    match p.peek.kind with
    | TokenKind.MatchesKeyword => do
      let (matchesOrInside, p) := p.consume
      let (items, p) ← parsePatternCaseItems E parseStatement fuel [] p
      pure (matchesOrInside, items, p)
    | TokenKind.InsideKeyword => do
      let (matchesOrInside, p) := p.consume
      let (items, p) ← parseInsideCaseItems E parseStatement fuel [] p
      pure (matchesOrInside, items, p)
    | _ => do
      let (items, p) ← parseStandardCaseItems E parseStatement fuel [] p
      pure (Token.empty, items, p)
  let (endcase, p) := p.expect E TokenKind.EndCaseKeyword
  pure (StatementSyntax.CaseStatement label attributes uniqueOrPriority caseKeyword openParen
    caseExpr closeParen matchesOrInside items endcase, p)

/-- `Parser::parseLoopStatement`. -/
def parseLoopStatement (E : ParserEnv)
    (parseStatement : StatementParser)
    (label : Option NamedLabelSyntax) (attributes : List SyntaxNode) (p : Parser) :
    Except ParseFailure (StatementSyntax × Parser) := do
  let (keyword, p) := p.consume
  let (openParen, p) := p.expect E TokenKind.OpenParenthesis
  let (expr, p) := E.parseExpression p
  let (closeParen, p) := p.expect E TokenKind.CloseParenthesis
  let (statement, p) ← parseStatement p
  pure (StatementSyntax.LoopStatement label attributes keyword openParen expr closeParen
    statement, p)

/-- `Parser::parseDoWhileStatement`. -/
def parseDoWhileStatement (E : ParserEnv)
    (parseStatement : StatementParser)
    (label : Option NamedLabelSyntax) (attributes : List SyntaxNode) (p : Parser) :
    Except ParseFailure (StatementSyntax × Parser) := do
  let (doKeyword, p) := p.consume
  let (statement, p) ← parseStatement p
  let (whileKeyword, p) := p.expect E TokenKind.WhileKeyword
  let (openParen, p) := p.expect E TokenKind.OpenParenthesis
  let (expr, p) := E.parseExpression p
  let (closeParen, p) := p.expect E TokenKind.CloseParenthesis
  let (semi, p) := p.expect E TokenKind.Semicolon
  pure (StatementSyntax.DoWhileStatement label attributes doKeyword statement whileKeyword
    openParen expr closeParen semi, p)

/-- `Parser::parseForInitializer`. -/
def parseForInitializer (E : ParserEnv) (p : Parser) : ForInitializerSyntax × Parser :=
  if E.isVariableDeclaration p then
    let (varKeyword, p) := p.consumeIf TokenKind.VarKeyword
    let (type, p) := E.parseDataType false p
    let (declarator, p) := E.parseVariableDeclarator true p
    (ForInitializerSyntax.ForVariableDeclaration varKeyword type declarator, p)
  else
    let (expr, p) := E.parseExpression p
    (ForInitializerSyntax.expression expr, p)

/-- `Parser::parseForLoopStatement`. -/
def parseForLoopStatement (E : ParserEnv)
    (parseStatement : StatementParser)
    (label : Option NamedLabelSyntax) (attributes : List SyntaxNode) (p : Parser) :
    Except ParseFailure (StatementSyntax × Parser) := do
  let (forKeyword, p) := p.consume
  let (openParen, p) := p.expect E TokenKind.OpenParenthesis
  let ((initializers, semi1), p) :=
    E.parseSeparatedList E.isPossibleExpressionOrComma E.isEndOfParenList TokenKind.Semicolon
      TokenKind.Comma DiagCode.ExpectedForInitializer (parseForInitializer E) p
  let (stopExpr, p) := E.parseExpression p
  let (semi2, p) := p.expect E TokenKind.Semicolon
  let ((steps, closeParen), p) :=
    E.parseSeparatedList E.isPossibleExpressionOrComma E.isEndOfParenList
      TokenKind.CloseParenthesis TokenKind.Comma DiagCode.ExpectedExpression
      E.parseExpression p
  let (statement, p) ← parseStatement p
  pure (StatementSyntax.ForLoopStatement label attributes forKeyword openParen initializers
    semi1 stopExpr semi2 steps closeParen statement, p)

/-- `Parser::parseForeachLoopVariables`. -/
def parseForeachLoopVariables (E : ParserEnv) (p : Parser) : ForeachLoopListSyntax × Parser :=
  let (openParen, p) := p.expect E TokenKind.OpenParenthesis
  let (arrayName, p) := E.parseName p
  let ((buffer, closeParen), p) :=
    E.parseSeparatedList E.isIdentifierOrComma E.isEndOfParenList TokenKind.CloseParenthesis
      TokenKind.Comma DiagCode.ExpectedIdentifier E.parseName p
  (⟨openParen, arrayName, buffer, closeParen⟩, p)

/-- `Parser::parseForeachLoopStatement`. -/
def parseForeachLoopStatement (E : ParserEnv)
    (parseStatement : StatementParser)
    (label : Option NamedLabelSyntax) (attributes : List SyntaxNode) (p : Parser) :
    Except ParseFailure (StatementSyntax × Parser) := do
  let (keyword, p) := p.consume
  let (vars, p) := parseForeachLoopVariables E p
  let (statement, p) ← parseStatement p
  pure (StatementSyntax.ForeachLoopStatement label attributes keyword vars statement, p)

/-- `Parser::parseReturnStatement`. -/
def parseReturnStatement (E : ParserEnv) (label : Option NamedLabelSyntax)
    (attributes : List SyntaxNode) (p : Parser) : StatementSyntax × Parser :=
  let (keyword, p) := p.consume
  let (expr, p) :=
    if !p.peekKind TokenKind.Semicolon then
      let (expr, p) := E.parseExpression p
      (some expr, p)
    else (none, p)
  let (semi, p) := p.expect E TokenKind.Semicolon
  (StatementSyntax.ReturnStatement label attributes keyword expr semi, p)

/-- `Parser::parseJumpStatement`. -/
def parseJumpStatement (E : ParserEnv) (label : Option NamedLabelSyntax)
    (attributes : List SyntaxNode) (p : Parser) : StatementSyntax × Parser :=
  let (keyword, p) := p.consume
  let (semi, p) := p.expect E TokenKind.Semicolon
  (StatementSyntax.JumpStatement label attributes keyword semi, p)

/-- `Parser::parseProceduralAssignStatement`. -/
def parseProceduralAssignStatement (E : ParserEnv) (label : Option NamedLabelSyntax)
    (attributes : List SyntaxNode) (kind : SyntaxKind) (p : Parser) :
    StatementSyntax × Parser :=
  let (keyword, p) := p.consume
  let (lvalue, p) := E.parsePrimaryExpression p
  let (equals, p) := p.expect E TokenKind.Equals
  let (expr, p) := E.parseExpression p
  let (semi, p) := p.expect E TokenKind.Semicolon
  (StatementSyntax.ProceduralAssignStatement kind label attributes keyword lvalue equals expr
    semi, p)

/-- `Parser::parseProceduralDeassignStatement`. -/
def parseProceduralDeassignStatement (E : ParserEnv) (label : Option NamedLabelSyntax)
    (attributes : List SyntaxNode) (kind : SyntaxKind) (p : Parser) :
    StatementSyntax × Parser :=
  let (keyword, p) := p.consume
  let (variableExpr, p) := E.parsePrimaryExpression p
  let (semi, p) := p.expect E TokenKind.Semicolon
  (StatementSyntax.ProceduralDeassignStatement kind label attributes keyword variableExpr
    semi, p)

/-- `Parser::parseDisableStatement`. -/
def parseDisableStatement (E : ParserEnv) (label : Option NamedLabelSyntax)
    (attributes : List SyntaxNode) (p : Parser) : StatementSyntax × Parser :=
  let (disable, p) := p.consume
  if p.peekKind TokenKind.ForkKeyword then
    let (fork, p) := p.consume
    let (semi, p) := p.expect E TokenKind.Semicolon
    (StatementSyntax.DisableForkStatement label attributes disable fork semi, p)
  else
    let (name, p) := E.parseName p
    let (semi, p) := p.expect E TokenKind.Semicolon
    (StatementSyntax.DisableStatement label attributes disable name semi, p)

/-- `Parser::parseActionBlock`. -/
def parseActionBlock (parseStatement : StatementParser) (p : Parser) :
    Except ParseFailure (ActionBlockSyntax × Parser) :=
  if p.peekKind TokenKind.ElseKeyword then do
    let (elseClause, p) ← parseElseClause parseStatement p
    pure (ActionBlockSyntax.mk none elseClause, p)
  else do
    let (statement, p) ← parseStatement p
    let (elseClause, p) ← parseElseClause parseStatement p
    pure (ActionBlockSyntax.mk (some statement) elseClause, p)

/-- `Parser::parsePropertySpec`. -/
def parsePropertySpec (E : ParserEnv) (isSequence : Bool) (p : Parser) :
    PropertySpecSyntax × Parser :=
  let (timing, p) :=
    if p.peekKind TokenKind.At then
      let (timing, p) := E.parseTimingControl p
      (some timing, p)
    else (none, p)
  let (disable, p) :=
    if p.peekKind TokenKind.DisableKeyword then
      let (keyword, p) := p.consume
      let (iff, p) := p.expect E TokenKind.IffKeyword
      let (openParen, p) := p.expect E TokenKind.OpenParenthesis
      let (expr, p) := E.parseExpressionOrDist p
      let (closeParen, p) := p.expect E TokenKind.CloseParenthesis
      (some (DisableIffSyntax.mk keyword iff openParen expr closeParen), p)
    else (none, p)
  let (expr, p) :=
    if isSequence then E.parseSequenceExpression 0 p else E.parsePropertyExpression 0 p
  (⟨timing, disable, expr⟩, p)

/-- `Parser::parseConcurrentAssertion`. The switch on the keyword has no
default: for any other keyword `kind` would be used unassigned. -/
def parseConcurrentAssertion (E : ParserEnv)
    (parseStatement : StatementParser)
    (label : Option NamedLabelSyntax) (attributes : List SyntaxNode) (p : Parser) :
    Except ParseFailure (StatementSyntax × Parser) := do
  let (keyword, p) := p.consume
  let (kind, propertyOrSequence, p) ←
    match keyword.kind with
    | TokenKind.AssertKeyword =>
      let (propertyOrSequence, p) := p.expect E TokenKind.PropertyKeyword
      pure (SyntaxKind.AssertPropertyStatement, propertyOrSequence, p)
    | TokenKind.AssumeKeyword =>
      let (propertyOrSequence, p) := p.expect E TokenKind.PropertyKeyword
      pure (SyntaxKind.AssumePropertyStatement, propertyOrSequence, p)
    | TokenKind.CoverKeyword =>
      if p.peekKind TokenKind.SequenceKeyword then
        let (propertyOrSequence, p) := p.consume
        pure (SyntaxKind.CoverSequenceStatement, propertyOrSequence, p)
      else
        let (propertyOrSequence, p) := p.expect E TokenKind.PropertyKeyword
        pure (SyntaxKind.CoverPropertyStatement, propertyOrSequence, p)
    | TokenKind.RestrictKeyword =>
      let (propertyOrSequence, p) := p.expect E TokenKind.PropertyKeyword
      pure (SyntaxKind.RestrictPropertyStatement, propertyOrSequence, p)
    | TokenKind.ExpectKeyword =>
      pure (SyntaxKind.ExpectPropertyStatement, Token.empty, p)
    | _ => throw ParseFailure.uninitializedKind
  let (openParen, p) := p.expect E TokenKind.OpenParenthesis
  let (spec, p) := parsePropertySpec E (propertyOrSequence.kind == TokenKind.SequenceKeyword) p
  let (closeParen, p) := p.expect E TokenKind.CloseParenthesis
  let (action, p) ← parseActionBlock parseStatement p
  pure (StatementSyntax.ConcurrentAssertionStatement kind label attributes keyword
    propertyOrSequence openParen spec closeParen action, p)

/-- The part of `parseAssertionStatement` after its switch: an immediate
assertion of the kind the switch chose. -/
def parseImmediateAssertion (E : ParserEnv)
    (parseStatement : StatementParser)
    (label : Option NamedLabelSyntax) (attributes : List SyntaxNode)
    (assertionKind : SyntaxKind) (p : Parser) :
    Except ParseFailure (StatementSyntax × Parser) := do
  let (keyword, p) := p.consume
  let (deferred, p) :=
    if p.peekKind TokenKind.Hash then
      let (hash, p) := p.consume
      let (zero, p) := p.expect E TokenKind.IntegerLiteral
      (some (DeferredAssertionSyntax.mk hash zero Token.empty), p)
    else if p.peekKind TokenKind.FinalKeyword then
      let (finalKeyword, p) := p.consume
      (some (DeferredAssertionSyntax.mk Token.empty Token.empty finalKeyword), p)
    else (none, p)
  let (openParen, p) := p.expect E TokenKind.OpenParenthesis
  let (expr, p) := E.parseExpression p
  let (closeParen, p) := p.expect E TokenKind.CloseParenthesis
  let (actionBlock, p) ← parseActionBlock parseStatement p
  pure (StatementSyntax.ImmediateAssertionStatement assertionKind label attributes keyword
    deferred ⟨openParen, expr, closeParen⟩ actionBlock, p)

/-- `Parser::parseAssertionStatement`. -/
def parseAssertionStatement (E : ParserEnv)
    (parseStatement : StatementParser)
    (label : Option NamedLabelSyntax) (attributes : List SyntaxNode) (p : Parser) :
    Except ParseFailure (StatementSyntax × Parser) :=
  let nextKind := (p.peekAt 1).kind
  match p.peek.kind with
  | TokenKind.AssertKeyword =>
    if nextKind == TokenKind.PropertyKeyword then
      parseConcurrentAssertion E parseStatement label attributes p
    else
      parseImmediateAssertion E parseStatement label attributes
        SyntaxKind.ImmediateAssertStatement p
  | TokenKind.AssumeKeyword =>
    if nextKind == TokenKind.PropertyKeyword then
      parseConcurrentAssertion E parseStatement label attributes p
    else
      parseImmediateAssertion E parseStatement label attributes
        SyntaxKind.ImmediateAssumeStatement p
  | TokenKind.CoverKeyword =>
    if nextKind == TokenKind.PropertyKeyword || nextKind == TokenKind.SequenceKeyword then
      parseConcurrentAssertion E parseStatement label attributes p
    else
      parseImmediateAssertion E parseStatement label attributes
        SyntaxKind.ImmediateCoverStatement p
  | _ => throw ParseFailure.assertFailed

/-- `Parser::parseNamedBlockClause`. -/
def parseNamedBlockClause (E : ParserEnv) (p : Parser) :
    Option NamedBlockClauseSyntax × Parser :=
  if p.peekKind TokenKind.Colon then
    let (colon, p) := p.consume
    let (name, p) :=
      if p.peekKind TokenKind.NewKeyword then p.consume
      else p.expect E TokenKind.Identifier
    (some ⟨colon, name⟩, p)
  else (none, p)

/-- The `while` loop of `parseBlockItems`: the item buffer, the buffer of
skipped tokens and the `error` flag are carried from one round to the next. -/
def parseBlockItemsLoop (E : ParserEnv)
    (parseStatement : StatementParser) :
    Nat → List BlockItemSyntax → List Token → Bool → Parser →
      Except ParseFailure ((List BlockItemSyntax × List Token) × Parser)
  | 0, _, _, _, _ => throw ParseFailure.outOfFuel
  | fuel + 1, buffer, skipped, error, p =>
    let kind := p.peek.kind
    if !E.isEndKeyword kind && kind != TokenKind.EndOfFile then
      if E.isPortDeclaration p then
        let (attributes, p) := E.parseAttributes p
        let (newNode, p) := E.parsePortDeclaration attributes p
        let (item, skipped) := prependSkippedToDeclaration newNode skipped
        parseBlockItemsLoop E parseStatement fuel (buffer ++ [item]) skipped false p
      else if E.isVariableDeclaration p then
        let (attributes, p) := E.parseAttributes p
        let (newNode, p) := E.parseVariableDeclaration attributes p
        let (item, skipped) := prependSkippedToDeclaration newNode skipped
        parseBlockItemsLoop E parseStatement fuel (buffer ++ [item]) skipped false p
      else if E.isPossibleStatement kind then do
        let (newNode, p) ← parseStatement p
        let (item, skipped) := prependSkippedToStatement newNode skipped
        parseBlockItemsLoop E parseStatement fuel (buffer ++ [item]) skipped false p
      else
        let (token, p) := p.consume
        let skipped := skipped ++ [token]
        let p :=
          if !error then p.addError DiagCode.InvalidTokenInSequentialBlock token.location
          else p
        parseBlockItemsLoop E parseStatement fuel buffer skipped true p
    else pure ((buffer, skipped), p)

/-- `Parser::parseBlockItems`: the items and the `end` token. -/
def parseBlockItems (E : ParserEnv) (fuel : Nat)
    (parseStatement : StatementParser) (endKind : TokenKind)
    (p : Parser) : Except ParseFailure ((List BlockItemSyntax × Token) × Parser) := do
  let ((buffer, skipped), p) ← parseBlockItemsLoop E parseStatement fuel [] [] false p
  let kind := p.peek.kind
  let (endToken, p) :=
    if endKind == TokenKind.JoinKeyword then
      match kind with
      | TokenKind.JoinKeyword => p.consume
      | TokenKind.JoinAnyKeyword => p.consume
      | TokenKind.JoinNoneKeyword => p.consume
      | _ => p.expect E endKind
    else p.expect E endKind
  let (endToken, _) := prependSkippedTokens endToken skipped
  pure ((buffer, endToken), p)

/-- `Parser::parseBlock`. -/
def parseBlock (E : ParserEnv) (fuel : Nat)
    (parseStatement : StatementParser) (blockKind : SyntaxKind)
    (endKind : TokenKind) (label : Option NamedLabelSyntax) (attributes : List SyntaxNode)
    (p : Parser) : Except ParseFailure (StatementSyntax × Parser) := do
  let (begin, p) := p.consume
  let (name, p) := parseNamedBlockClause E p
  let ((items, endToken), p) ← parseBlockItems E fuel parseStatement endKind p
  let (endName, p) := parseNamedBlockClause E p
  pure (StatementSyntax.BlockStatement blockKind label attributes begin name items endToken
    endName, p)

/-- `Parser::parseWaitStatement`. -/
def parseWaitStatement (E : ParserEnv)
    (parseStatement : StatementParser)
    (label : Option NamedLabelSyntax) (attributes : List SyntaxNode) (p : Parser) :
    Except ParseFailure (StatementSyntax × Parser) := do
  let (wait, p) := p.consume
  if p.peekKind TokenKind.ForkKeyword then
    let (fork, p) := p.consume
    let (semi, p) := p.expect E TokenKind.Semicolon
    pure (StatementSyntax.WaitForkStatement label attributes wait fork semi, p)
  else
    let (openParen, p) := p.expect E TokenKind.OpenParenthesis
    let (expr, p) := E.parseExpression p
    let (closeParen, p) := p.expect E TokenKind.CloseParenthesis
    let (statement, p) ← parseStatement p
    pure (StatementSyntax.WaitStatement label attributes wait openParen expr closeParen
      statement, p)

/-- `Parser::parseWaitOrderStatement`. -/
def parseWaitOrderStatement (E : ParserEnv)
    (parseStatement : StatementParser)
    (label : Option NamedLabelSyntax) (attributes : List SyntaxNode) (p : Parser) :
    Except ParseFailure (StatementSyntax × Parser) := do
  let (keyword, p) := p.consume
  let (openParen, p) := p.expect E TokenKind.OpenParenthesis
  let ((buffer, closeParen), p) :=
    E.parseSeparatedList E.isIdentifierOrComma E.isEndOfParenList TokenKind.CloseParenthesis
      TokenKind.Comma DiagCode.ExpectedIdentifier E.parseName p
  let (action, p) ← parseActionBlock parseStatement p
  pure (StatementSyntax.WaitOrderStatement label attributes keyword openParen buffer
    closeParen action, p)

/-- The `while` loop of `parseRandCaseStatement`. -/
def parseRandCaseItems (E : ParserEnv)
    (parseStatement : StatementParser) :
    Nat → List RandCaseItemSyntax → Parser →
      Except ParseFailure (List RandCaseItemSyntax × Parser)
  | 0, _, _ => throw ParseFailure.outOfFuel
  | fuel + 1, itemBuffer, p =>
    if E.isPossibleExpression p.peek.kind then do
      let (expr, p) := E.parseExpression p
      let (colon, p) := p.expect E TokenKind.Colon
      let (statement, p) ← parseStatement p
      parseRandCaseItems E parseStatement fuel
        (itemBuffer ++ [RandCaseItemSyntax.mk expr colon statement]) p
    else pure (itemBuffer, p)

/-- `Parser::parseRandCaseStatement`; `fuel` bounds the item loop. -/
def parseRandCaseStatement (E : ParserEnv) (fuel : Nat)
    (parseStatement : StatementParser)
    (label : Option NamedLabelSyntax) (attributes : List SyntaxNode) (p : Parser) :
    Except ParseFailure (StatementSyntax × Parser) := do
  let (randCase, p) := p.consume
  let (items, p) ← parseRandCaseItems E parseStatement fuel [] p
  let (endcase, p) := p.expect E TokenKind.EndCaseKeyword
  pure (StatementSyntax.RandCaseStatement label attributes randCase items endcase, p)

/-- The end of `parseStatement`, reached when the switch returned nothing:
an expression statement if the next token can begin an expression, otherwise
the `ExpectedStatement` diagnostic and an empty statement. -/
def parseStatementRest (E : ParserEnv) (label : Option NamedLabelSyntax)
    (attributes : List SyntaxNode) (p : Parser) : StatementSyntax × Parser :=
  if E.isPossibleExpression p.peek.kind then
    let (expr, p) := E.parseExpression p
    let (semi, p) := p.expect E TokenKind.Semicolon
    (StatementSyntax.ExpressionStatement label attributes expr semi, p)
  else
    let p := p.addError DiagCode.ExpectedStatement p.peek.location
    let (semi, p) := p.expect E TokenKind.Semicolon
    (StatementSyntax.EmptyStatement label attributes semi, p)

/-- The first statement of `parseStatement`: the optional `label :`. -/
def parseLabel (p : Parser) : Option NamedLabelSyntax × Parser :=
  if p.peek.kind == TokenKind.Identifier && (p.peekAt 1).kind == TokenKind.Colon then
    let (name, p) := p.consume
    let (colon, p) := p.consume
    (some (NamedLabelSyntax.mk name colon), p)
  else (none, p)

/-- The switch of `parseStatement` on the kind of the next token, and what
follows it. -/
def parseStatementSwitch (E : ParserEnv) (fuel : Nat) (parseStatement : StatementParser)
    (label : Option NamedLabelSyntax) (attributes : List SyntaxNode) (p : Parser) :
    Except ParseFailure (StatementSyntax × Parser) :=
  match p.peek.kind with
  | TokenKind.UniqueKeyword | TokenKind.Unique0Keyword | TokenKind.PriorityKeyword =>
    let (modifier, p) := p.consume
    match p.peek.kind with
    | TokenKind.IfKeyword =>
      parseConditionalStatement E parseStatement label attributes modifier p
    | TokenKind.CaseKeyword | TokenKind.CaseXKeyword | TokenKind.CaseZKeyword =>
      let (caseKeyword, p) := p.consume
      parseCaseStatement E fuel parseStatement label attributes modifier caseKeyword p
    | _ => pure (parseStatementRest E label attributes p)
  | TokenKind.CaseKeyword | TokenKind.CaseXKeyword | TokenKind.CaseZKeyword =>
    let (caseKeyword, p) := p.consume
    parseCaseStatement E fuel parseStatement label attributes Token.empty caseKeyword p
  | TokenKind.IfKeyword =>
    parseConditionalStatement E parseStatement label attributes Token.empty p
  | TokenKind.ForeverKeyword => do
    let (forever, p) := p.consume
    let (statement, p) ← parseStatement p
    pure (StatementSyntax.ForeverStatement label attributes forever statement, p)
  | TokenKind.RepeatKeyword | TokenKind.WhileKeyword =>
    parseLoopStatement E parseStatement label attributes p
  | TokenKind.DoKeyword => parseDoWhileStatement E parseStatement label attributes p
  | TokenKind.ForKeyword => parseForLoopStatement E parseStatement label attributes p
  | TokenKind.ForeachKeyword => parseForeachLoopStatement E parseStatement label attributes p
  | TokenKind.ReturnKeyword => pure (parseReturnStatement E label attributes p)
  | TokenKind.BreakKeyword | TokenKind.ContinueKeyword =>
    pure (parseJumpStatement E label attributes p)
  | TokenKind.Hash | TokenKind.DoubleHash | TokenKind.At | TokenKind.AtStar => do
    let (timingControl, p) := E.parseTimingControl p
    let (statement, p) ← parseStatement p
    pure (StatementSyntax.TimingControlStatement label attributes timingControl statement, p)
  | TokenKind.AssignKeyword =>
    pure (parseProceduralAssignStatement E label attributes
      SyntaxKind.ProceduralAssignStatement p)
  | TokenKind.ForceKeyword =>
    pure (parseProceduralAssignStatement E label attributes
      SyntaxKind.ProceduralForceStatement p)
  | TokenKind.DeassignKeyword =>
    pure (parseProceduralDeassignStatement E label attributes
      SyntaxKind.ProceduralDeassignStatement p)
  | TokenKind.ReleaseKeyword =>
    pure (parseProceduralDeassignStatement E label attributes
      SyntaxKind.ProceduralReleaseStatement p)
  | TokenKind.DisableKeyword => pure (parseDisableStatement E label attributes p)
  | TokenKind.BeginKeyword =>
    parseBlock E fuel parseStatement SyntaxKind.SequentialBlockStatement TokenKind.EndKeyword
      label attributes p
  | TokenKind.ForkKeyword =>
    parseBlock E fuel parseStatement SyntaxKind.ParallelBlockStatement TokenKind.JoinKeyword
      label attributes p
  | TokenKind.AssertKeyword | TokenKind.AssumeKeyword | TokenKind.CoverKeyword =>
    parseAssertionStatement E parseStatement label attributes p
  | TokenKind.RestrictKeyword => parseConcurrentAssertion E parseStatement label attributes p
  | TokenKind.ExpectKeyword => parseConcurrentAssertion E parseStatement label attributes p
  | TokenKind.WaitKeyword => parseWaitStatement E parseStatement label attributes p
  | TokenKind.WaitOrderKeyword => parseWaitOrderStatement E parseStatement label attributes p
  | TokenKind.RandCaseKeyword =>
    parseRandCaseStatement E fuel parseStatement label attributes p
  | TokenKind.Semicolon =>
    let (semi, p) := p.consume
    pure (StatementSyntax.EmptyStatement label attributes semi, p)
  | _ => pure (parseStatementRest E label attributes p)

/-- The body of `Parser::parseStatement`: the label, the attributes, the
switch. `parseStatement` is the statement parser for the nested statements
and `fuel` bounds the loops of the methods called. -/
def parseStatementBody (E : ParserEnv) (fuel : Nat) (parseStatement : StatementParser)
    (p : Parser) : Except ParseFailure (StatementSyntax × Parser) :=
  let (label, p) := parseLabel p
  let (attributes, p) := E.parseAttributes p
  parseStatementSwitch E fuel parseStatement label attributes p

/-- `Parser::parseStatement`. One unit of fuel is spent on each nested
statement; the loops of one statement get the fuel that is left. -/
def parseStatement (E : ParserEnv) : Nat → StatementParser
  | 0, _ => throw ParseFailure.outOfFuel
  | fuel + 1, p => parseStatementBody E fuel (parseStatement E fuel) p

end Parser

/-! ## Vocabulary of the statements about the parser -/

/-- A token as it stands in the source text: its kind and its location. -/
abbrev SourceToken := TokenKind × SourceLocation

/-- The source tokens a tree token stands for: the skipped tokens attached in
front of it, then the token itself unless it is the default token or a
placeholder for a missing token. -/
def Token.written (t : Token) : List SourceToken :=
  t.skipped ++ (if t.missing || t.isEmpty then [] else [(t.kind, t.location)])

/-- The source tokens of a list of tree tokens. -/
def writtenTokens (ts : List Token) : List SourceToken := (ts.map Token.written).flatten

/-- The source tokens of a node built outside the file. -/
def SyntaxNode.written (n : SyntaxNode) : List SourceToken := writtenTokens n.tokens

/-- The source tokens of a list of nodes. -/
def writtenNodes (ns : List SyntaxNode) : List SourceToken :=
  (ns.map SyntaxNode.written).flatten

/-- The source tokens of an optional node. -/
def writtenOptNode : Option SyntaxNode → List SourceToken
  | none => []
  | some n => n.written

/-- The source tokens of a separated list. -/
def writtenList {α : Type} (f : α → List SourceToken) (l : List (TokenOrSyntax α)) :
    List SourceToken :=
  (l.map fun x =>
    match x with
    | TokenOrSyntax.token t => t.written
    | TokenOrSyntax.node n => f n).flatten

/-- The source tokens of an optional label. -/
def writtenLabel : Option NamedLabelSyntax → List SourceToken
  | none => []
  | some l => l.name.written ++ l.colon.written

/-- The source tokens of an optional block name. -/
def writtenBlockName : Option NamedBlockClauseSyntax → List SourceToken
  | none => []
  | some c => c.colon.written ++ c.name.written

/-- The source tokens of a for-loop initializer. -/
def ForInitializerSyntax.written : ForInitializerSyntax → List SourceToken
  | .ForVariableDeclaration v t d => v.written ++ t.written ++ d.written
  | .expression e => e.written

/-- The source tokens of an optional deferred-assertion marker. -/
def writtenDeferred : Option DeferredAssertionSyntax → List SourceToken
  | none => []
  | some d => d.hash.written ++ d.zero.written ++ d.finalKeyword.written

/-- The source tokens of a property spec. -/
def PropertySpecSyntax.written (s : PropertySpecSyntax) : List SourceToken :=
  writtenOptNode s.timing ++
    (match s.disable with
      | none => []
      | some d =>
        d.disable.written ++ d.iff.written ++ d.openParen.written ++ d.expr.written ++
          d.closeParen.written) ++
    s.expr.written

mutual
/-- The source tokens of a statement, in the order of its children. -/
def StatementSyntax.written : StatementSyntax → List SourceToken
  | .ConditionalStatement l a m i o pr c st el =>
    writtenLabel l ++ writtenNodes a ++ m.written ++ i.written ++ o.written ++ pr.written ++
      c.written ++ st.written ++ ElseClauseSyntax.writtenOpt el
  | .CaseStatement l a m ck o e c mi items ec =>
    writtenLabel l ++ writtenNodes a ++ m.written ++ ck.written ++ o.written ++ e.written ++
      c.written ++ mi.written ++ CaseItemSyntax.writtenAll items ++ ec.written
  | .ForeverStatement l a k st => writtenLabel l ++ writtenNodes a ++ k.written ++ st.written
  | .LoopStatement l a k o e c st =>
    writtenLabel l ++ writtenNodes a ++ k.written ++ o.written ++ e.written ++ c.written ++
      st.written
  | .DoWhileStatement l a d st w o e c sm =>
    writtenLabel l ++ writtenNodes a ++ d.written ++ st.written ++ w.written ++ o.written ++
      e.written ++ c.written ++ sm.written
  | .ForLoopStatement l a f o ini s1 stop s2 steps c st =>
    writtenLabel l ++ writtenNodes a ++ f.written ++ o.written ++
      writtenList ForInitializerSyntax.written ini ++ s1.written ++ stop.written ++
      s2.written ++ writtenList SyntaxNode.written steps ++ c.written ++ st.written
  | .ForeachLoopStatement l a k vars st =>
    writtenLabel l ++ writtenNodes a ++ k.written ++ vars.openParen.written ++
      vars.arrayName.written ++ writtenList SyntaxNode.written vars.loopVariables ++
      vars.closeParen.written ++ st.written
  | .ReturnStatement l a k v sm =>
    writtenLabel l ++ writtenNodes a ++ k.written ++ writtenOptNode v ++ sm.written
  | .JumpStatement l a k sm => writtenLabel l ++ writtenNodes a ++ k.written ++ sm.written
  | .TimingControlStatement l a t st =>
    writtenLabel l ++ writtenNodes a ++ t.written ++ st.written
  | .ProceduralAssignStatement _ l a k lv eq v sm =>
    writtenLabel l ++ writtenNodes a ++ k.written ++ lv.written ++ eq.written ++ v.written ++
      sm.written
  | .ProceduralDeassignStatement _ l a k v sm =>
    writtenLabel l ++ writtenNodes a ++ k.written ++ v.written ++ sm.written
  | .DisableStatement l a d n sm =>
    writtenLabel l ++ writtenNodes a ++ d.written ++ n.written ++ sm.written
  | .DisableForkStatement l a d f sm =>
    writtenLabel l ++ writtenNodes a ++ d.written ++ f.written ++ sm.written
  | .BlockStatement _ l a b n items e en =>
    writtenLabel l ++ writtenNodes a ++ b.written ++ writtenBlockName n ++
      BlockItemSyntax.writtenAll items ++ e.written ++ writtenBlockName en
  | .ImmediateAssertionStatement _ l a k d e act =>
    writtenLabel l ++ writtenNodes a ++ k.written ++ writtenDeferred d ++
      e.openParen.written ++ e.expression.written ++ e.closeParen.written ++ act.written
  | .ConcurrentAssertionStatement _ l a k ps o spec c act =>
    writtenLabel l ++ writtenNodes a ++ k.written ++ ps.written ++ o.written ++
      spec.written ++ c.written ++ act.written
  | .WaitStatement l a w o e c st =>
    writtenLabel l ++ writtenNodes a ++ w.written ++ o.written ++ e.written ++ c.written ++
      st.written
  | .WaitForkStatement l a w f sm =>
    writtenLabel l ++ writtenNodes a ++ w.written ++ f.written ++ sm.written
  | .WaitOrderStatement l a k o names c act =>
    writtenLabel l ++ writtenNodes a ++ k.written ++ o.written ++
      writtenList SyntaxNode.written names ++ c.written ++ act.written
  | .RandCaseStatement l a r items ec =>
    writtenLabel l ++ writtenNodes a ++ r.written ++ RandCaseItemSyntax.writtenAll items ++
      ec.written
  | .ExpressionStatement l a e sm => writtenLabel l ++ writtenNodes a ++ e.written ++ sm.written
  | .EmptyStatement l a sm => writtenLabel l ++ writtenNodes a ++ sm.written
/-- The source tokens of an optional else clause. -/
def ElseClauseSyntax.writtenOpt : Option ElseClauseSyntax → List SourceToken
  | none => []
  | some (.mk k st) => k.written ++ st.written
/-- The source tokens of a case item. -/
def CaseItemSyntax.written : CaseItemSyntax → List SourceToken
  | .DefaultCaseItem d c st => d.written ++ c.written ++ st.written
  | .PatternCaseItem pt ta e c st =>
    pt.written ++ ta.written ++ writtenOptNode e ++ c.written ++ st.written
  | .StandardCaseItem es c st => writtenList SyntaxNode.written es ++ c.written ++ st.written
/-- The source tokens of a list of case items. -/
def CaseItemSyntax.writtenAll : List CaseItemSyntax → List SourceToken
  | [] => []
  | i :: is => i.written ++ CaseItemSyntax.writtenAll is
/-- The source tokens of an action block. -/
def ActionBlockSyntax.written : ActionBlockSyntax → List SourceToken
  | .mk none el => ElseClauseSyntax.writtenOpt el
  | .mk (some st) el => st.written ++ ElseClauseSyntax.writtenOpt el
/-- The source tokens of a list of randcase items. -/
def RandCaseItemSyntax.writtenAll : List RandCaseItemSyntax → List SourceToken
  | [] => []
  | (.mk e c st) :: is => e.written ++ c.written ++ st.written ++
      RandCaseItemSyntax.writtenAll is
/-- The source tokens of a list of block items. -/
def BlockItemSyntax.writtenAll : List BlockItemSyntax → List SourceToken
  | [] => []
  | (.declaration sk n) :: is =>
    sk.map (fun t => (t.kind, t.location)) ++ n.written ++ BlockItemSyntax.writtenAll is
  | (.statement sk st) :: is =>
    sk.map (fun t => (t.kind, t.location)) ++ st.written ++ BlockItemSyntax.writtenAll is
end

/-- The node kind of a statement: the class of the node, or the kind given to a
node class that serves several kinds. -/
def StatementSyntax.kind : StatementSyntax → SyntaxKind
  | .ConditionalStatement .. => SyntaxKind.ConditionalStatement
  | .CaseStatement .. => SyntaxKind.CaseStatement
  | .ForeverStatement .. => SyntaxKind.ForeverStatement
  | .LoopStatement .. => SyntaxKind.LoopStatement
  | .DoWhileStatement .. => SyntaxKind.DoWhileStatement
  | .ForLoopStatement .. => SyntaxKind.ForLoopStatement
  | .ForeachLoopStatement .. => SyntaxKind.ForeachLoopStatement
  | .ReturnStatement .. => SyntaxKind.ReturnStatement
  | .JumpStatement .. => SyntaxKind.JumpStatement
  | .TimingControlStatement .. => SyntaxKind.TimingControlStatement
  | .ProceduralAssignStatement k .. => k
  | .ProceduralDeassignStatement k .. => k
  | .DisableStatement .. => SyntaxKind.DisableStatement
  | .DisableForkStatement .. => SyntaxKind.DisableForkStatement
  | .BlockStatement k .. => k
  | .ImmediateAssertionStatement k .. => k
  | .ConcurrentAssertionStatement k .. => k
  | .WaitStatement .. => SyntaxKind.WaitStatement
  | .WaitForkStatement .. => SyntaxKind.WaitForkStatement
  | .WaitOrderStatement .. => SyntaxKind.WaitOrderStatement
  | .RandCaseStatement .. => SyntaxKind.RandCaseStatement
  | .ExpressionStatement .. => SyntaxKind.ExpressionStatement
  | .EmptyStatement .. => SyntaxKind.EmptyStatement

/-- The `uniqueOrPriority` token of a conditional or case statement. -/
def StatementSyntax.uniqueOrPriority? : StatementSyntax → Option Token
  | .ConditionalStatement _ _ m .. => some m
  | .CaseStatement _ _ m .. => some m
  | _ => none

/-- The `if` keyword of a conditional, the case keyword of a case statement. -/
def StatementSyntax.keyword? : StatementSyntax → Option Token
  | .ConditionalStatement _ _ _ i .. => some i
  | .CaseStatement _ _ _ ck .. => some ck
  | _ => none

/-- The `matchesOrInside` token of a case statement. -/
def StatementSyntax.matchesOrInside? : StatementSyntax → Option Token
  | .CaseStatement _ _ _ _ _ _ _ mi _ _ => some mi
  | _ => none

/-- The items of a case statement. -/
def StatementSyntax.caseItems : StatementSyntax → List CaseItemSyntax
  | .CaseStatement _ _ _ _ _ _ _ _ items _ => items
  | _ => []

/-- The label and the attributes of a statement. -/
def StatementSyntax.header : StatementSyntax → Option NamedLabelSyntax × List SyntaxNode
  | .ConditionalStatement l a .. => (l, a)
  | .CaseStatement l a .. => (l, a)
  | .ForeverStatement l a .. => (l, a)
  | .LoopStatement l a .. => (l, a)
  | .DoWhileStatement l a .. => (l, a)
  | .ForLoopStatement l a .. => (l, a)
  | .ForeachLoopStatement l a .. => (l, a)
  | .ReturnStatement l a .. => (l, a)
  | .JumpStatement l a .. => (l, a)
  | .TimingControlStatement l a .. => (l, a)
  | .ProceduralAssignStatement _ l a .. => (l, a)
  | .ProceduralDeassignStatement _ l a .. => (l, a)
  | .DisableStatement l a .. => (l, a)
  | .DisableForkStatement l a .. => (l, a)
  | .BlockStatement _ l a .. => (l, a)
  | .ImmediateAssertionStatement _ l a .. => (l, a)
  | .ConcurrentAssertionStatement _ l a .. => (l, a)
  | .WaitStatement l a .. => (l, a)
  | .WaitForkStatement l a .. => (l, a)
  | .WaitOrderStatement l a .. => (l, a)
  | .RandCaseStatement l a .. => (l, a)
  | .ExpressionStatement l a .. => (l, a)
  | .EmptyStatement l a .. => (l, a)

/-- A case item is a default item. -/
def CaseItemSyntax.isDefault : CaseItemSyntax → Bool
  | .DefaultCaseItem .. => true
  | _ => false

/-- A case item is a pattern item. -/
def CaseItemSyntax.isPattern : CaseItemSyntax → Bool
  | .PatternCaseItem .. => true
  | _ => false

/-- A case item is a standard item. -/
def CaseItemSyntax.isStandard : CaseItemSyntax → Bool
  | .StandardCaseItem .. => true
  | _ => false

/-- The state in which `parseStatement` looks at its first significant token:
after the optional label and the attributes. -/
def statementStart (E : ParserEnv) (p : Parser) : Parser :=
  (E.parseAttributes (Parser.parseLabel p).2).2

/-- The kinds on which the switch of `parseStatement` returns a statement. -/
def isStatementKeyword (k : TokenKind) : Bool :=
  [TokenKind.UniqueKeyword, TokenKind.Unique0Keyword, TokenKind.PriorityKeyword,
    TokenKind.CaseKeyword, TokenKind.CaseXKeyword, TokenKind.CaseZKeyword,
    TokenKind.IfKeyword, TokenKind.ForeverKeyword, TokenKind.RepeatKeyword,
    TokenKind.WhileKeyword, TokenKind.DoKeyword, TokenKind.ForKeyword,
    TokenKind.ForeachKeyword, TokenKind.ReturnKeyword, TokenKind.BreakKeyword,
    TokenKind.ContinueKeyword, TokenKind.Hash, TokenKind.DoubleHash, TokenKind.At,
    TokenKind.AtStar, TokenKind.AssignKeyword, TokenKind.ForceKeyword,
    TokenKind.DeassignKeyword, TokenKind.ReleaseKeyword, TokenKind.DisableKeyword,
    TokenKind.BeginKeyword, TokenKind.ForkKeyword, TokenKind.AssertKeyword,
    TokenKind.AssumeKeyword, TokenKind.CoverKeyword, TokenKind.RestrictKeyword,
    TokenKind.ExpectKeyword, TokenKind.WaitKeyword, TokenKind.WaitOrderKeyword,
    TokenKind.RandCaseKeyword, TokenKind.Semicolon].contains k

/-- The diagnostics a state has beyond those of an earlier state. -/
def Parser.diagnosticsSince (q p : Parser) : List Diagnostic :=
  q.diagnostics.drop p.diagnostics.length

/-- A result is returned and leaves at most `n` tokens. -/
def ReturnsWithin {α : Type} (r : Except ParseFailure (α × Parser)) (n : Nat) : Prop :=
  ∃ a q, r = Except.ok (a, q) ∧ q.tokens.length ≤ n

/-- A statement parser terminates on every state of at most `n` tokens: it
returns, it gives no token back, and it consumes at least one token when the
next token can begin a statement. -/
def Terminates (E : ParserEnv) (rec : StatementParser) (n : Nat) : Prop :=
  ∀ p : Parser, p.tokens.length ≤ n →
    ∃ s q, rec p = Except.ok (s, q) ∧ q.tokens.length ≤ p.tokens.length ∧
      (E.isPossibleStatement p.peek.kind = true → q.tokens.length < p.tokens.length)

/-- The kinds on which the source calls `parseTimingControl` from
`parseStatement`: `#`, `##`, `@` and `@*`; `parsePropertySpec` calls it on `@`. -/
def isTimingControlKind (k : TokenKind) : Bool :=
  k == TokenKind.Hash || k == TokenKind.DoubleHash || k == TokenKind.At ||
    k == TokenKind.AtStar

/-- The assumptions on the sub-parsers that are not among the sources: none
gives tokens back, and each consumes at least one token when the lookahead
predicate that guards its call holds. -/
structure ParserEnv.SubParsersConsume (E : ParserEnv) : Prop where
  attributes_le : ∀ p, (E.parseAttributes p).2.tokens.length ≤ p.tokens.length
  attributes_peek : ∀ p, (E.parseAttributes p).2.tokens.length = p.tokens.length →
    (E.parseAttributes p).2.peek.kind = p.peek.kind
  expression_le : ∀ p, (E.parseExpression p).2.tokens.length ≤ p.tokens.length
  expression_lt : ∀ p, E.isPossibleExpression p.peek.kind = true →
    (E.parseExpression p).2.tokens.length < p.tokens.length
  subExpression_le : ∀ p, (E.parseSubExpression p).2.tokens.length ≤ p.tokens.length
  primaryExpression_le : ∀ p, (E.parsePrimaryExpression p).2.tokens.length ≤ p.tokens.length
  expressionOrDist_le : ∀ p, (E.parseExpressionOrDist p).2.tokens.length ≤ p.tokens.length
  sequenceExpression_le : ∀ k p,
    (E.parseSequenceExpression k p).2.tokens.length ≤ p.tokens.length
  propertyExpression_le : ∀ k p,
    (E.parsePropertyExpression k p).2.tokens.length ≤ p.tokens.length
  conditionalPredicate_le : ∀ e k p,
    (E.parseConditionalPredicate e k p).2.tokens.length ≤ p.tokens.length
  pattern_le : ∀ p, (E.parsePattern p).2.tokens.length ≤ p.tokens.length
  pattern_lt : ∀ p, E.isPossiblePattern p.peek.kind = true →
    (E.parsePattern p).2.tokens.length < p.tokens.length
  name_le : ∀ p, (E.parseName p).2.tokens.length ≤ p.tokens.length
  dataType_le : ∀ b p, (E.parseDataType b p).2.tokens.length ≤ p.tokens.length
  variableDeclarator_le : ∀ b p,
    (E.parseVariableDeclarator b p).2.tokens.length ≤ p.tokens.length
  timingControl_le : ∀ p, (E.parseTimingControl p).2.tokens.length ≤ p.tokens.length
  timingControl_lt : ∀ p, isTimingControlKind p.peek.kind = true →
    (E.parseTimingControl p).2.tokens.length < p.tokens.length
  portDeclaration_lt : ∀ p, E.isPortDeclaration p = true →
    (E.parsePortDeclaration (E.parseAttributes p).1 (E.parseAttributes p).2).2.tokens.length <
      p.tokens.length
  variableDeclaration_lt : ∀ p, E.isVariableDeclaration p = true →
    (E.parseVariableDeclaration (E.parseAttributes p).1
      (E.parseAttributes p).2).2.tokens.length < p.tokens.length
  separatedList_le : ∀ {α : Type} (isPossibleItem isEnd : TokenKind → Bool)
    (closeKind separatorKind : TokenKind) (code : DiagCode) (item : Parser → α × Parser),
    (∀ q, (item q).2.tokens.length ≤ q.tokens.length) →
    ∀ p, (E.parseSeparatedList isPossibleItem isEnd closeKind separatorKind code
      item p).2.tokens.length ≤ p.tokens.length
  openRangeList_lt : ∀ p, E.isPossibleOpenRangeElement p.peek.kind = true →
    (E.parseSeparatedList E.isPossibleOpenRangeElement E.isEndOfCaseItem TokenKind.Colon
      TokenKind.Comma DiagCode.ExpectedOpenRangeElement
      E.parseOpenRangeElement p).2.tokens.length < p.tokens.length
  expressionList_lt : ∀ p, E.isPossibleExpression p.peek.kind = true →
    (E.parseSeparatedList E.isPossibleExpressionOrComma E.isEndOfCaseItem TokenKind.Colon
      TokenKind.Comma DiagCode.ExpectedExpression
      E.parseExpression p).2.tokens.length < p.tokens.length
  openRangeElement_le : ∀ p, (E.parseOpenRangeElement p).2.tokens.length ≤ p.tokens.length

/-- The assumptions on the environment under which statement parsing
terminates: those on the sub-parsers, and that `isPossibleStatement` is a
lookahead for `parseStatement`: it holds only on a token on which
`parseStatement` consumes, that is, a keyword of its switch, a token that can
begin an expression, or a token at which `parseAttributes` consumes. -/
structure ParserEnv.WellBehaved (E : ParserEnv) extends E.SubParsersConsume : Prop where
  statement_progress : ∀ p, E.isPossibleStatement p.peek.kind = true →
    isStatementKeyword p.peek.kind = true ∨ E.isPossibleExpression p.peek.kind = true ∨
      (E.parseAttributes p).2.tokens.length < p.tokens.length

/-! ## Fixtures of the parser: a small environment and token streams -/

/-- The token of the given kind at offset `i` of buffer 1. -/
def tokenAt (kind : TokenKind) (i : Nat) : Token := ⟨kind, ⟨1, i⟩, false, []⟩

/-- Tokens of the given kinds at offsets `i`, `i + 1`, ... -/
def tokensFrom : Nat → List TokenKind → List Token
  | _, [] => []
  | i, k :: ks => tokenAt k i :: tokensFrom (i + 1) ks

/-- The initial parser state over a stream of tokens of the given kinds. -/
def parserOf (kinds : List TokenKind) : Parser :=
  ⟨tokensFrom 0 kinds, ⟨1, kinds.length⟩, []⟩

/-- Kinds that can begin an expression in the fixture environment. -/
def fixtureIsPossibleExpression (k : TokenKind) : Bool :=
  k == TokenKind.Identifier || k == TokenKind.IntegerLiteral ||
    k == TokenKind.OpenParenthesis

/-- Kinds that continue an expression in the fixture environment. -/
def fixtureIsExpressionToken (k : TokenKind) : Bool :=
  k == TokenKind.Identifier || k == TokenKind.IntegerLiteral || k == TokenKind.Equals ||
    k == TokenKind.GreaterThan || k == TokenKind.Plus || k == TokenKind.Dot

/-- The tokens of the expression at the head of a stream, and the rest: operands
and operators, and parentheses as long as they balance. -/
def fixtureExpressionSpan : Nat → List Token → List Token × List Token
  | _, [] => ([], [])
  | depth, t :: ts =>
    if t.kind == TokenKind.OpenParenthesis then
      ((t :: (fixtureExpressionSpan (depth + 1) ts).1), (fixtureExpressionSpan (depth + 1) ts).2)
    else if t.kind == TokenKind.CloseParenthesis then
      match depth with
      | 0 => ([], t :: ts)
      | d + 1 => ((t :: (fixtureExpressionSpan d ts).1), (fixtureExpressionSpan d ts).2)
    else if fixtureIsExpressionToken t.kind then
      ((t :: (fixtureExpressionSpan depth ts).1), (fixtureExpressionSpan depth ts).2)
    else ([], t :: ts)

/-- Expression parser of the fixtures: the node holds the tokens of the span. -/
def fixtureParseExpression (p : Parser) : SyntaxNode × Parser :=
  (⟨1, (fixtureExpressionSpan 0 p.tokens).1⟩,
    { p with tokens := (fixtureExpressionSpan 0 p.tokens).2 })

/-- Kinds that belong to a pattern in the fixture environment. -/
def fixtureIsPatternToken (k : TokenKind) : Bool :=
  k == TokenKind.TaggedKeyword || k == TokenKind.Identifier || k == TokenKind.Dot

/-- Pattern parser of the fixtures: the longest run of pattern tokens. -/
def fixtureParsePattern (p : Parser) : SyntaxNode × Parser :=
  (⟨2, p.tokens.takeWhile fun t => fixtureIsPatternToken t.kind⟩,
    { p with tokens := p.tokens.dropWhile fun t => fixtureIsPatternToken t.kind })

/-- A sub-parser of the fixtures that takes `n` tokens. -/
def fixtureTake (tag n : Nat) (p : Parser) : SyntaxNode × Parser :=
  (⟨tag, p.tokens.take n⟩, { p with tokens := p.tokens.drop n })

/-- Missing-token report of the fixtures. -/
def fixtureExpect (kind : TokenKind) (p : Parser) : Token × Parser :=
  if p.peekKind kind then p.consume
  else (Token.createMissing kind p.peek.location,
    p.addError DiagCode.ExpectedToken p.peek.location)

/-- The loop of the separated-list driver of the fixtures: items while the next
token can begin one, each followed by a separator or the end of the list. -/
def fixtureSeparatedItems {α : Type} (isPossibleItem : TokenKind → Bool)
    (separatorKind : TokenKind) (item : Parser → α × Parser) :
    Nat → Parser → List (TokenOrSyntax α) × Parser
  | 0, p => ([], p)
  | n + 1, p =>
    if isPossibleItem p.peek.kind && p.peek.kind != separatorKind then
      if (item p).2.peekKind separatorKind then
        ((TokenOrSyntax.node (item p).1 :: TokenOrSyntax.token (item p).2.consume.1 ::
            (fixtureSeparatedItems isPossibleItem separatorKind item n
              (item p).2.consume.2).1),
          (fixtureSeparatedItems isPossibleItem separatorKind item n (item p).2.consume.2).2)
      else ([TokenOrSyntax.node (item p).1], (item p).2)
    else ([], p)

/-- Separated-list driver of the fixtures: the items, then the closing token. -/
def fixtureParseSeparatedList {α : Type} (isPossibleItem _isEnd : TokenKind → Bool)
    (closeKind separatorKind : TokenKind) (_code : DiagCode) (item : Parser → α × Parser)
    (p : Parser) : (List (TokenOrSyntax α) × Token) × Parser :=
  (((fixtureSeparatedItems isPossibleItem separatorKind item (p.tokens.length + 1) p).1,
      (fixtureExpect closeKind
        (fixtureSeparatedItems isPossibleItem separatorKind item (p.tokens.length + 1) p).2).1),
    (fixtureExpect closeKind
      (fixtureSeparatedItems isPossibleItem separatorKind item (p.tokens.length + 1) p).2).2)

/-- The environment of the fixtures: expressions are spans of operands and
operators, patterns are runs of `tagged`, identifiers and dots, names and
primary expressions are single tokens, a timing control is two tokens, there
are no attributes and no declarations, and a missing token is reported as
`ExpectedToken`. -/
def fixtureEnv : ParserEnv where
  isPossibleExpression := fixtureIsPossibleExpression
  isPossibleStatement := fun k => isStatementKeyword k || fixtureIsPossibleExpression k
  isPossiblePattern := fun k => k == TokenKind.TaggedKeyword || k == TokenKind.Dot
  isPossibleOpenRangeElement := fixtureIsPossibleExpression
  isPossibleExpressionOrComma := fun k => fixtureIsPossibleExpression k || k == TokenKind.Comma
  isIdentifierOrComma := fun k => k == TokenKind.Identifier || k == TokenKind.Comma
  isEndOfCaseItem := fun k => k == TokenKind.Colon || k == TokenKind.Semicolon
  isEndOfParenList := fun k => k == TokenKind.CloseParenthesis || k == TokenKind.Semicolon
  isEndKeyword := fun k =>
    k == TokenKind.EndKeyword || k == TokenKind.EndCaseKeyword ||
      k == TokenKind.JoinKeyword || k == TokenKind.JoinAnyKeyword ||
      k == TokenKind.JoinNoneKeyword || k == TokenKind.EndModuleKeyword
  isPortDeclaration := fun _ => false
  isVariableDeclaration := fun _ => false
  expectedCode := fun _ => DiagCode.ExpectedToken
  parseAttributes := fun p => ([], p)
  parseExpression := fixtureParseExpression
  parseSubExpression := fixtureParseExpression
  parsePrimaryExpression := fixtureTake 3 1
  parseExpressionOrDist := fixtureParseExpression
  parseSequenceExpression := fun _ => fixtureParseExpression
  parsePropertyExpression := fun _ => fixtureParseExpression
  parseConditionalPredicate := fun first endKind p =>
    ((⟨4, first.tokens⟩, (fixtureExpect endKind p).1), (fixtureExpect endKind p).2)
  parsePattern := fixtureParsePattern
  parseOpenRangeElement := fixtureParseExpression
  parseName := fixtureTake 5 1
  parseDataType := fun _ => fixtureTake 6 1
  parseVariableDeclarator := fun _ => fixtureTake 7 1
  parseTimingControl := fixtureTake 8 2
  parsePortDeclaration := fun _ => fixtureTake 9 1
  parseVariableDeclaration := fun _ => fixtureTake 10 1
  parseSeparatedList := fixtureParseSeparatedList

/-- The state over the stream of the given kinds after its first `i` tokens
were consumed, no diagnostic reported. -/
def stateAt (kinds : List TokenKind) (i : Nat) : Parser :=
  ⟨tokensFrom i (kinds.drop i), ⟨1, kinds.length⟩, []⟩

/-- Scenario S4, the statement `if (1) begin end`. -/
def scenarioS4 : List TokenKind :=
  [TokenKind.IfKeyword, TokenKind.OpenParenthesis, TokenKind.IntegerLiteral,
    TokenKind.CloseParenthesis, TokenKind.BeginKeyword, TokenKind.EndKeyword]

/-- Scenario S5, the statement
`case (t) matches tagged Valid .x &&& (x > 0): y = x; default: ; endcase`. -/
def scenarioS5 : List TokenKind :=
  [TokenKind.CaseKeyword, TokenKind.OpenParenthesis, TokenKind.Identifier,
    TokenKind.CloseParenthesis, TokenKind.MatchesKeyword, TokenKind.TaggedKeyword,
    TokenKind.Identifier, TokenKind.Dot, TokenKind.Identifier, TokenKind.TripleAnd,
    TokenKind.OpenParenthesis, TokenKind.Identifier, TokenKind.GreaterThan,
    TokenKind.IntegerLiteral, TokenKind.CloseParenthesis, TokenKind.Colon,
    TokenKind.Identifier, TokenKind.Equals, TokenKind.Identifier, TokenKind.Semicolon,
    TokenKind.DefaultKeyword, TokenKind.Colon, TokenKind.Semicolon,
    TokenKind.EndCaseKeyword]

/-! ## Vocabulary of the statements about case items -/

/-- The kinds `unique`, `unique0` and `priority`. -/
def isModifierKeyword (k : TokenKind) : Bool :=
  k == TokenKind.UniqueKeyword || k == TokenKind.Unique0Keyword ||
    k == TokenKind.PriorityKeyword

/-- The kinds `case`, `casex` and `casez`. -/
def isCaseKeyword (k : TokenKind) : Bool :=
  k == TokenKind.CaseKeyword || k == TokenKind.CaseXKeyword || k == TokenKind.CaseZKeyword

/-- The state of `parseCaseStatement` after `( selector )`; the next token
decides the flavour of the items. -/
def afterSelector (E : ParserEnv) (p : Parser) : Parser :=
  ((E.parseExpression (p.expect E TokenKind.OpenParenthesis).2).2.expect E
    TokenKind.CloseParenthesis).2

/-- A standard item of open-range elements: its list and its colon are what the
separated-list driver returns on some state with the open-range element parser,
as in the `inside` loop of `parseCaseStatement`. -/
def CaseItemSyntax.isOpenRangeItem (E : ParserEnv) : CaseItemSyntax → Prop
  | .StandardCaseItem expressions colon _ => ∃ q : Parser,
    (expressions, colon) =
      (E.parseSeparatedList E.isPossibleOpenRangeElement E.isEndOfCaseItem TokenKind.Colon
        TokenKind.Comma DiagCode.ExpectedOpenRangeElement E.parseOpenRangeElement q).1
  | _ => False

/-- A standard item of expressions: its list and its colon are what the
separated-list driver returns on some state with the expression parser, as in
the normal loop of `parseCaseStatement`. -/
def CaseItemSyntax.isExpressionItem (E : ParserEnv) : CaseItemSyntax → Prop
  | .StandardCaseItem expressions colon _ => ∃ q : Parser,
    (expressions, colon) =
      (E.parseSeparatedList E.isPossibleExpressionOrComma E.isEndOfCaseItem TokenKind.Colon
        TokenKind.Comma DiagCode.ExpectedExpression E.parseExpression q).1
  | _ => False

/-- The guard of a pattern item agrees with the tokens: the pattern was parsed
on some state `q`; if the token after the pattern is `&&&`, the item holds that
token and the expression parsed after it; otherwise it holds the empty token
and no expression. Other items carry no guard. -/
def CaseItemSyntax.guardAgrees (E : ParserEnv) : CaseItemSyntax → Prop
  | .PatternCaseItem pattern tripleAnd patternExpr _ _ => ∃ q : Parser,
    pattern = (E.parsePattern q).1 ∧
    ((E.parsePattern q).2.peek.kind = TokenKind.TripleAnd →
      tripleAnd = (E.parsePattern q).2.peek ∧
      patternExpr = some (E.parseExpression (E.parsePattern q).2.consume.2).1) ∧
    ((E.parsePattern q).2.peek.kind ≠ TokenKind.TripleAnd →
      tripleAnd = Token.empty ∧ patternExpr = none)
  | _ => True

/-- The nested conditionals `if ( a ) if ( b ) s1 ; else s2 ;`. -/
def scenarioDanglingElse : List TokenKind :=
  [TokenKind.IfKeyword, TokenKind.OpenParenthesis, TokenKind.Identifier,
    TokenKind.CloseParenthesis, TokenKind.IfKeyword, TokenKind.OpenParenthesis,
    TokenKind.Identifier, TokenKind.CloseParenthesis, TokenKind.Identifier,
    TokenKind.Semicolon, TokenKind.ElseKeyword, TokenKind.Identifier, TokenKind.Semicolon]

/-- A block with tokens that start no item: `begin ) , x ; : end`. -/
def recoveryBlock : List TokenKind :=
  [TokenKind.BeginKeyword, TokenKind.CloseParenthesis, TokenKind.Comma, TokenKind.Identifier,
    TokenKind.Semicolon, TokenKind.Colon, TokenKind.EndKeyword]

/-- A block with a skipped token in front of a declaration: `begin ) T x ; end`. -/
def declarationBlock : List TokenKind :=
  [TokenKind.BeginKeyword, TokenKind.CloseParenthesis, TokenKind.Identifier,
    TokenKind.Identifier, TokenKind.Semicolon, TokenKind.EndKeyword]

/-- Lookahead for a declaration in the fixtures: two identifiers in a row. -/
def fixtureIsDeclaration (p : Parser) : Bool :=
  p.peek.kind == TokenKind.Identifier && (p.peekAt 1).kind == TokenKind.Identifier

/-- The environment of the fixtures with declarations of three tokens, `T x ;`,
taken as port declarations (`port` set) or as variable declarations. -/
def fixtureDeclEnv (port : Bool) : ParserEnv :=
  { fixtureEnv with
    isPortDeclaration := fun p => port && fixtureIsDeclaration p
    isVariableDeclaration := fun p => !port && fixtureIsDeclaration p
    parsePortDeclaration := fun _ => fixtureTake 9 3
    parseVariableDeclaration := fun _ => fixtureTake 10 3 }

/-- The environment of the fixtures with sequence expressions and property
expressions told apart: the node of a sequence expression has tag 11, the node
of a property expression tag 12. -/
def assertionEnv : ParserEnv :=
  { fixtureEnv with
    parseSequenceExpression := fun _ p =>
      (⟨11, (fixtureParseExpression p).1.tokens⟩, (fixtureParseExpression p).2)
    parsePropertyExpression := fun _ p =>
      (⟨12, (fixtureParseExpression p).1.tokens⟩, (fixtureParseExpression p).2) }

/-- The end token of a block statement. -/
def StatementSyntax.blockEnd? : StatementSyntax → Option Token
  | .BlockStatement _ _ _ _ _ _ e _ => some e
  | _ => none

/-- The items of a block statement. -/
def StatementSyntax.blockItems : StatementSyntax → List BlockItemSyntax
  | .BlockStatement _ _ _ _ _ items _ _ => items
  | _ => []

/-- The skipped tokens attached in front of a block item. -/
def BlockItemSyntax.skippedTokens : BlockItemSyntax → List Token
  | .declaration skipped _ => skipped
  | .statement skipped _ => skipped

/-- The skipped tokens attached to the items of a block, in the order of the
items. -/
def skippedOfItems (items : List BlockItemSyntax) : List Token :=
  (items.map BlockItemSyntax.skippedTokens).flatten

/-- The tokens that the loop of `parseBlockItems` consumes as skipped, in the
order in which it consumes them: the branches of the loop, of which only the
last one, `skipped->append(consume())`, contributes a token. -/
def skippedInLoop (E : ParserEnv) (parseStatement : StatementParser) :
    Nat → Bool → Parser → List Token
  | 0, _, _ => []
  | fuel + 1, error, p =>
    if !E.isEndKeyword p.peek.kind && p.peek.kind != TokenKind.EndOfFile then
      if E.isPortDeclaration p then
        skippedInLoop E parseStatement fuel false
          (E.parsePortDeclaration (E.parseAttributes p).1 (E.parseAttributes p).2).2
      else if E.isVariableDeclaration p then
        skippedInLoop E parseStatement fuel false
          (E.parseVariableDeclaration (E.parseAttributes p).1 (E.parseAttributes p).2).2
      else if E.isPossibleStatement p.peek.kind then
        match parseStatement p with
        | Except.ok (_, q) => skippedInLoop E parseStatement fuel false q
        | Except.error _ => []
      else
        p.consume.1 :: skippedInLoop E parseStatement fuel true
          (if !error then
            p.consume.2.addError DiagCode.InvalidTokenInSequentialBlock p.consume.1.location
          else p.consume.2)
    else []

/-- The diagnostic of a run of skipped tokens: `InvalidTokenInSequentialBlock`
at the first token of the run. An empty run has none. -/
def runDiagnostic : List Token → List Diagnostic
  | [] => []
  | token :: _ =>
    [⟨DiagCode.InvalidTokenInSequentialBlock, DiagSite.location token.location, []⟩]

/-- The first run of skipped tokens of a block: the tokens in front of the
first item, or in front of the end token when there is no item. -/
def firstRun (items : List BlockItemSyntax) (trailing : List Token) : List Token :=
  match items with
  | [] => trailing
  | item :: _ => item.skippedTokens

/-- The rounds of the loop of `parseBlockItems` in which an item is parsed,
in order: the state at the start of the round and the state in which the
sub-parsers of the item (`parseAttributes` and a declaration parser, or
`parseStatement`) left the parser. -/
def itemRounds (E : ParserEnv) (parseStatement : StatementParser) :
    Nat → Bool → Parser → List (Parser × Parser)
  | 0, _, _ => []
  | fuel + 1, error, p =>
    if !E.isEndKeyword p.peek.kind && p.peek.kind != TokenKind.EndOfFile then
      if E.isPortDeclaration p then
        (p, (E.parsePortDeclaration (E.parseAttributes p).1 (E.parseAttributes p).2).2) ::
          itemRounds E parseStatement fuel false
            (E.parsePortDeclaration (E.parseAttributes p).1 (E.parseAttributes p).2).2
      else if E.isVariableDeclaration p then
        (p, (E.parseVariableDeclaration (E.parseAttributes p).1 (E.parseAttributes p).2).2) ::
          itemRounds E parseStatement fuel false
            (E.parseVariableDeclaration (E.parseAttributes p).1 (E.parseAttributes p).2).2
      else if E.isPossibleStatement p.peek.kind then
        match parseStatement p with
        | Except.ok (_, q) => (p, q) :: itemRounds E parseStatement fuel false q
        | Except.error _ => []
      else
        itemRounds E parseStatement fuel true
          (if !error then
            p.consume.2.addError DiagCode.InvalidTokenInSequentialBlock p.consume.1.location
          else p.consume.2)
    else []

/-- The diagnostics expected of the loop of `parseBlockItems` when every
maximal run of skipped tokens is reported once, at its first token: for each
item, in order, the diagnostic of the run of skipped tokens in front of it and
then what the sub-parsers of the item reported; at the end, the diagnostic of
the run of skipped tokens in front of the end token. -/
def expectedBlockDiagnostics :
    List BlockItemSyntax → List (Parser × Parser) → List Token → List Diagnostic
  | item :: items, round :: rounds, trailing =>
    runDiagnostic item.skippedTokens ++
      (round.2.diagnosticsSince round.1 ++ expectedBlockDiagnostics items rounds trailing)
  | _, _, trailing => runDiagnostic trailing

/-- The `property` or `sequence` token of a concurrent assertion. -/
def StatementSyntax.propertyOrSequence? : StatementSyntax → Option Token
  | .ConcurrentAssertionStatement _ _ _ _ ps _ _ _ _ => some ps
  | _ => none

/-- The property spec of a concurrent assertion. -/
def StatementSyntax.propertySpec? : StatementSyntax → Option PropertySpecSyntax
  | .ConcurrentAssertionStatement _ _ _ _ _ _ spec _ _ => some spec
  | _ => none

/-- The state in which `parsePropertySpec` parses the expression of the spec:
after the timing control, if the next token is `@`, and after
`disable iff ( ... )`, if the next token is then `disable`. -/
def propertyExpressionStart (E : ParserEnv) (p : Parser) : Parser :=
  let p := if p.peekKind TokenKind.At then (E.parseTimingControl p).2 else p
  if p.peekKind TokenKind.DisableKeyword then
    ((E.parseExpressionOrDist
      ((p.consume.2.expect E TokenKind.IffKeyword).2.expect E
        TokenKind.OpenParenthesis).2).2.expect E TokenKind.CloseParenthesis).2
  else p

/-- The statement of a conditional statement and its else clause. -/
def StatementSyntax.conditionalParts? :
    StatementSyntax → Option (StatementSyntax × Option ElseClauseSyntax)
  | .ConditionalStatement _ _ _ _ _ _ _ statement elseClause => some (statement, elseClause)
  | _ => none

/-- A parse does not abort: if it fails, it is for lack of fuel, not on the
`ASSERT(false)` of `parseAssertionStatement` and not on the unassigned `kind`
of `parseConcurrentAssertion`. -/
def NeverAborts {α : Type} (r : Except ParseFailure α) : Prop :=
  ∀ e, r = Except.error e → e = ParseFailure.outOfFuel

/-! # slang: member symbols (MemberSymbols.h) -/

/-- Modelled from the spec: `SymbolKind`, the kinds named in MemberSymbols.h. -/
inductive SymbolKind
  | Unknown
  | TransparentMember
  | ExplicitImport
  | WildcardImport
  | Parameter
  | Port
  | InterfacePort
  | Net
  | Variable
  | FormalArgument
  | Field
  | Subroutine
  | Modport
  | ContinuousAssign
  deriving DecidableEq, Repr

/-- Modelled from the spec: the base class `Symbol`, "every symbol carries
kind, name, location, parent scope"; the constructor `Symbol(kind, name,
location)` sets the first three and leaves the symbol without a parent. -/
structure Symbol where
  kind : SymbolKind
  name : String
  location : SourceLocation
  parentScope : Option Nat := none
  deriving DecidableEq, Repr

/-- A C++ reference `const Symbol&`: the address of the object referred to,
and the object found there. Two references to the same object have the same
address; a copy of the object lives at another address. -/
structure SymbolRef where
  address : Nat
  target : Symbol
  deriving DecidableEq, Repr

/-- `class TransparentMemberSymbol : public Symbol`: the base part and the
member `const Symbol& wrapped`. -/
structure TransparentMemberSymbol where
  toSymbol : Symbol
  wrapped : SymbolRef
  deriving DecidableEq, Repr

/-- The constructor `TransparentMemberSymbol(const Symbol& wrapped_)`:
`Symbol(SymbolKind::TransparentMember, wrapped_.name, wrapped_.location),
wrapped(wrapped_)`. -/
def TransparentMemberSymbol.new (wrapped_ : SymbolRef) : TransparentMemberSymbol :=
  { toSymbol := { kind := SymbolKind.TransparentMember
                  name := wrapped_.target.name
                  location := wrapped_.target.location }
    wrapped := wrapped_ }

/-- `TransparentMemberSymbol::isKind`. -/
def TransparentMemberSymbol.isKind (kind : SymbolKind) : Bool :=
  kind == SymbolKind.TransparentMember

/-! ## evalInteger -/

/-- The conversion to `int32_t` yields `w` exactly for a fully known value `w`
within the limits. -/
theorem SVInt.as_int32_eq_some (sv : SVInt) (w : Int) :
    sv.as_int32 = some w ↔
      sv.hasUnknown = false ∧ sv.toInt = w ∧ INT32_MIN ≤ w ∧ w ≤ INT32_MAX := by
  unfold SVInt.as_int32
  by_cases hu : sv.hasUnknown = true
  · simp [hu]
  · by_cases hr : INT32_MIN ≤ sv.toInt ∧ sv.toInt ≤ INT32_MAX
    · simp only [hu, hr]
      constructor
      · intro h
        have hw : sv.toInt = w := by simpa using h
        subst hw
        exact ⟨by simp [hu], rfl, hr.1, hr.2⟩
      · rintro ⟨_, hw, _, _⟩
        simp [hw]
    · simp only [hu, hr]
      constructor
      · intro h
        simp at h
      · rintro ⟨_, hw, hlo, hhi⟩
        subst hw
        exact absurd ⟨hlo, hhi⟩ hr

/-- What `evalInteger` does on an integer constant: unknown bits give
`ValueMustNotBeUnknown`, a value that does not convert gives `ValueOutOfRange`,
any other value is returned silently. -/
theorem evalInteger_integer (ctx : BindContext) (e : Expression) (sv : SVInt)
    (h : e.constant = some (ConstantValue.integer sv)) :
    ctx.evalInteger e =
      if sv.hasUnknown then
        (none, [⟨DiagCode.ValueMustNotBeUnknown, DiagSite.range e.sourceRange, []⟩])
      else
        match sv.as_int32 with
        | some v => (some v, [])
        | none =>
          (none, [⟨DiagCode.ValueOutOfRange, DiagSite.range e.sourceRange,
            [DiagArg.svint sv, DiagArg.int INT32_MIN, DiagArg.int INT32_MAX]⟩]) := by
  unfold BindContext.evalInteger
  rw [h]
  by_cases hu : sv.hasUnknown = true
  · simp [BindContext.requireIntegral, BindContext.requireNoUnknowns, ConstantValue.bad,
      ConstantValue.isInteger, BindContext.addDiag, hu]
  · cases hc : sv.as_int32 <;>
      simp [BindContext.requireIntegral, BindContext.requireNoUnknowns, ConstantValue.bad,
        ConstantValue.isInteger, BindContext.addDiag, hu, hc]

/-- Without an integer constant `evalInteger` returns absent. -/
theorem evalInteger_not_integer (ctx : BindContext) (e : Expression)
    (h : ∀ sv, e.constant ≠ some (ConstantValue.integer sv)) :
    (ctx.evalInteger e).1 = none := by
  unfold BindContext.evalInteger
  cases hc : e.constant with
  | none => rfl
  | some c =>
    cases c with
    | integer sv => exact absurd hc (h sv)
    | badValue => simp [BindContext.requireIntegral, ConstantValue.bad]
    | real p =>
      simp [BindContext.requireIntegral, ConstantValue.bad, ConstantValue.isInteger]
    | null =>
      simp [BindContext.requireIntegral, ConstantValue.bad, ConstantValue.isInteger]

/-- A present result of `evalInteger` comes with no diagnostic and lies in the
range of `int32_t`. -/
theorem evalInteger_some (ctx : BindContext) (e : Expression) (v : Int)
    (h : (ctx.evalInteger e).1 = some v) :
    (ctx.evalInteger e).2 = [] ∧ INT32_MIN ≤ v ∧ v ≤ INT32_MAX := by
  by_cases hi : ∃ sv, e.constant = some (ConstantValue.integer sv)
  · obtain ⟨sv, hsv⟩ := hi
    rw [evalInteger_integer ctx e sv hsv] at h ⊢
    by_cases hu : sv.hasUnknown = true
    · simp [hu] at h
    · cases hc : sv.as_int32 with
      | none => simp [hu, hc] at h
      | some w =>
        simp [hu, hc] at h ⊢
        subst h
        exact ((SVInt.as_int32_eq_some sv w).1 hc).2.2
  · rw [evalInteger_not_integer ctx e (fun sv hsv => hi ⟨sv, hsv⟩)] at h
    simp at h

/-- C1: `evalInteger(e)` returns `v` exactly when `e` carries a constant that is
not bad, is an integer, has no unknown (X/Z) bits and whose value `v` lies in
[INT32_MIN, INT32_MAX]; when no value satisfies this it returns absent. -/
theorem evalInteger_iff (ctx : BindContext) (e : Expression) :
    (∀ v, (ctx.evalInteger e).1 = some v ↔ evaluatesTo e v) ∧
      ((∀ v, ¬ evaluatesTo e v) → (ctx.evalInteger e).1 = none) := by
  have key : ∀ v, (ctx.evalInteger e).1 = some v ↔ evaluatesTo e v := by
    intro v
    constructor
    · intro h
      by_cases hi : ∃ sv, e.constant = some (ConstantValue.integer sv)
      · obtain ⟨sv, hsv⟩ := hi
        have hb := evalInteger_some ctx e v h
        rw [evalInteger_integer ctx e sv hsv] at h
        by_cases hu : sv.hasUnknown = true
        · simp [hu] at h
        · have hu2 : sv.hasUnknown = false := by simpa using hu
          refine ⟨ConstantValue.integer sv, hsv, rfl, rfl, sv, rfl, hu2, ?_, hb.2.1, hb.2.2⟩
          cases hc : sv.as_int32 with
          | none => simp [hu, hc] at h
          | some w =>
            simp [hu, hc] at h
            subst h
            exact ((SVInt.as_int32_eq_some sv w).1 hc).2.1
      · rw [evalInteger_not_integer ctx e (fun sv hsv => hi ⟨sv, hsv⟩)] at h
        simp at h
    · rintro ⟨c, hc, _, _, sv, rfl, hu, hv, hlo, hhi⟩
      rw [evalInteger_integer ctx e sv hc]
      have has : sv.as_int32 = some v :=
        (SVInt.as_int32_eq_some sv v).2 ⟨hu, hv, hlo, hhi⟩
      simp [hu, has]
  refine ⟨key, fun hno => ?_⟩
  cases hr : (ctx.evalInteger e).1 with
  | none => rfl
  | some v => exact absurd ((key v).1 hr) (hno v)

/-- C1 at concrete inputs: the 32-bit `int` 7 evaluates to 7, and an
expression without a constant evaluates to nothing. -/
theorem evalInteger_iff_witness :
    (fixtureContext.evalInteger
        (constExpr (some (ConstantValue.integer (SVInt.ofInt32 7))) (rangeAt 0 1))).1 = some 7 ∧
      (fixtureContext.evalInteger (constExpr none (rangeAt 0 1))).1 = none :=
  ⟨((evalInteger_iff fixtureContext _).1 7).2
      ⟨_, rfl, rfl, rfl, _, rfl, by decide, by decide, by decide, by decide⟩,
    (evalInteger_iff fixtureContext _).2 (by
      rintro v ⟨c, hc, _⟩
      exact Option.noConfusion hc)⟩

/-- C2: for an expression whose constant is a fully known integer whose true
value lies outside [INT32_MIN, INT32_MAX], `evalInteger` returns absent and
emits exactly one diagnostic: `ValueOutOfRange` at the source range of the
expression, carrying the value and the two limits. -/
theorem evalInteger_out_of_range (ctx : BindContext) (e : Expression) (sv : SVInt)
    (hc : e.constant = some (ConstantValue.integer sv))
    (hu : sv.hasUnknown = false)
    (hr : sv.toInt < INT32_MIN ∨ INT32_MAX < sv.toInt) :
    ctx.evalInteger e =
      (none, [⟨DiagCode.ValueOutOfRange, DiagSite.range e.sourceRange,
        [DiagArg.svint sv, DiagArg.int INT32_MIN, DiagArg.int INT32_MAX]⟩]) := by
  rw [evalInteger_integer ctx e sv hc]
  have hn : sv.as_int32 = none := by
    cases h : sv.as_int32 with
    | none => rfl
    | some w =>
      obtain ⟨_, hw, hlo, hhi⟩ := (SVInt.as_int32_eq_some sv w).1 h
      subst hw
      rcases hr with hr | hr
      · exact absurd hlo (not_le.2 hr)
      · exact absurd hhi (not_le.2 hr)
  simp [hu, hn]

/-- C2 at a concrete input: the 33-bit unsigned value 2^32 is out of range. -/
theorem evalInteger_out_of_range_witness :
    fixtureContext.evalInteger
        (constExpr (some (ConstantValue.integer (SVInt.ofNat 33 4294967296))) (rangeAt 0 1)) =
      (none, [⟨DiagCode.ValueOutOfRange, DiagSite.range (rangeAt 0 1),
        [DiagArg.svint (SVInt.ofNat 33 4294967296), DiagArg.int INT32_MIN,
          DiagArg.int INT32_MAX]⟩]) :=
  evalInteger_out_of_range fixtureContext
    (constExpr (some (ConstantValue.integer (SVInt.ofNat 33 4294967296))) (rangeAt 0 1))
    (SVInt.ofNat 33 4294967296) rfl (by decide) (Or.inr (by decide))

/-! ## resetFlags -/

/-- Bits of `a & ~m`. -/
theorem testBit_bitmaskAndNot (a m i : Nat) :
    (bitmaskAndNot a m).testBit i = (a.testBit i && !m.testBit i) := by
  unfold bitmaskAndNot
  rw [Nat.testBit_xor, Nat.testBit_and]
  cases a.testBit i <;> cases m.testBit i <;> rfl

/-- The non-sticky mask has exactly the bits of `InsideConcatenation` (bit 0)
and `AllowDataType` (bit 1). -/
theorem testBit_nonSticky (i : Nat) :
    (BindFlags.InsideConcatenation ||| BindFlags.AllowDataType).testBit i =
      decide (i < 2) := by
  have h : BindFlags.InsideConcatenation ||| BindFlags.AllowDataType = 2 ^ 2 - 1 := by
    decide
  rw [h, Nat.testBit_two_pow_sub_one]

/-- C3: `resetFlags(added)` returns a context with the scope of `c` whose flag
word is `c.flags` with `InsideConcatenation` and `AllowDataType` removed,
united with `added`. Bit by bit: a flag is set in the result exactly when it
is set in `added`, or is set in `c` and is neither of the two non-sticky
flags. So every sticky flag of `c` is kept, every flag of `added` is set, and a
non-sticky flag is set exactly when `added` names it. -/
theorem resetFlags_flags (c : BindContext) (added : Nat) :
    (c.resetFlags added).scope = c.scope ∧
      (∀ i, (c.resetFlags added).flags.testBit i =
        ((c.flags.testBit i &&
            !(BindFlags.InsideConcatenation ||| BindFlags.AllowDataType).testBit i) ||
          added.testBit i)) ∧
      (∀ i, 2 ≤ i → c.flags.testBit i = true → (c.resetFlags added).flags.testBit i = true) ∧
      (∀ i, added.testBit i = true → (c.resetFlags added).flags.testBit i = true) ∧
      (∀ i, i < 2 → (c.resetFlags added).flags.testBit i = added.testBit i) := by
  have hbit : ∀ i, (c.resetFlags added).flags.testBit i =
      ((c.flags.testBit i &&
          !(BindFlags.InsideConcatenation ||| BindFlags.AllowDataType).testBit i) ||
        added.testBit i) := by
    intro i
    show (bitmaskAndNot c.flags
      (BindFlags.InsideConcatenation ||| BindFlags.AllowDataType) ||| added).testBit i = _
    rw [Nat.testBit_or, testBit_bitmaskAndNot]
  refine ⟨rfl, hbit, ?_, ?_, ?_⟩
  · intro i hi hc
    rw [hbit, testBit_nonSticky, hc]
    have : ¬ i < 2 := not_lt.2 hi
    simp [this]
  · intro i ha
    rw [hbit, ha]
    simp
  · intro i hi
    rw [hbit, testBit_nonSticky]
    simp [hi]

/-- C3 at a concrete input: from flags {InsideConcatenation, AllowDataType,
Constant, ProceduralContext} adding {AllowDataType} leaves {AllowDataType,
Constant, ProceduralContext} in the same scope. -/
theorem resetFlags_flags_witness :
    ((⟨3, 15⟩ : BindContext).resetFlags BindFlags.AllowDataType).scope = 3 ∧
      ((⟨3, 15⟩ : BindContext).resetFlags BindFlags.AllowDataType).flags = 14 ∧
      ((⟨3, 15⟩ : BindContext).resetFlags BindFlags.AllowDataType).flags.testBit 3 = true :=
  ⟨(resetFlags_flags ⟨3, 15⟩ BindFlags.AllowDataType).1, by decide,
    (resetFlags_flags ⟨3, 15⟩ BindFlags.AllowDataType).2.2.1 3 (by decide) (by decide)⟩

/-! ## evalDimension: classification -/

/-- `requireGtZero` on a present positive value. -/
theorem requireGtZero_pos (ctx : BindContext) (n : Int) (r : SourceRange) (h : 0 < n) :
    ctx.requireGtZero (some n) r = (true, []) := by
  simp [BindContext.requireGtZero, not_le.2 h]

/-- `requireGtZero` on a present value that is not positive. -/
theorem requireGtZero_nonpos (ctx : BindContext) (n : Int) (r : SourceRange) (h : n ≤ 0) :
    ctx.requireGtZero (some n) r =
      (false, [⟨DiagCode.ValueMustBePositive, DiagSite.range r, []⟩]) := by
  simp [BindContext.requireGtZero, h, BindContext.addDiag]

/-- Subtracting one from a positive `int32_t` does not wrap. -/
theorem wrapInt32_pred (n : Int) (h0 : 0 < n) (h1 : n ≤ INT32_MAX) :
    wrapInt32 (n - 1) = n - 1 := by
  unfold wrapInt32
  unfold INT32_MAX at h1
  omega

/-- A bit select `[e]` whose expression is a data type. -/
theorem evalRangeDimension_dataType (ctx : BindContext) (bind : Binder)
    (e : ExpressionSyntax) (r : SourceRange) (res : EvaluatedDimension)
    (hk : (bind e (ctx.resetFlags bitSelectFlags)).1.kind = ExpressionKind.DataType) :
    ctx.evalRangeDimension bind (SelectorSyntax.BitSelect e r) res =
      ({ res with
          kind := DimensionKind.Associative
          associativeType := some (bind e (ctx.resetFlags bitSelectFlags)).1.type },
        (bind e (ctx.resetFlags bitSelectFlags)).2) := by
  unfold bitSelectFlags at hk ⊢
  simp [BindContext.evalRangeDimension, hk]

/-- A bit select `[e]` whose expression evaluates to a positive value. -/
theorem evalRangeDimension_abbreviated (ctx : BindContext) (bind : Binder)
    (e : ExpressionSyntax) (r : SourceRange) (res : EvaluatedDimension) (n : Int)
    (hk : (bind e (ctx.resetFlags bitSelectFlags)).1.kind ≠ ExpressionKind.DataType)
    (hv : (ctx.evalInteger (bind e (ctx.resetFlags bitSelectFlags)).1).1 = some n)
    (hn : 0 < n) :
    ctx.evalRangeDimension bind (SelectorSyntax.BitSelect e r) res =
      ({ res with
          kind := DimensionKind.AbbreviatedRange
          range := ⟨0, n - 1⟩ },
        (bind e (ctx.resetFlags bitSelectFlags)).2) := by
  obtain ⟨hd, _, hmax⟩ := evalInteger_some ctx _ n hv
  unfold bitSelectFlags at hk hv hd ⊢
  simp [BindContext.evalRangeDimension, hk, hv, hd, requireGtZero_pos ctx n _ hn,
    wrapInt32_pred n hn hmax]

/-- A bit select `[e]` whose expression is not a data type and does not
evaluate to a positive value leaves the result as it was. -/
theorem evalRangeDimension_bitSelect_fail (ctx : BindContext) (bind : Binder)
    (e : ExpressionSyntax) (r : SourceRange) (res : EvaluatedDimension)
    (hk : (bind e (ctx.resetFlags bitSelectFlags)).1.kind ≠ ExpressionKind.DataType)
    (hv : ∀ n, (ctx.evalInteger (bind e (ctx.resetFlags bitSelectFlags)).1).1 = some n →
      n ≤ 0) :
    (ctx.evalRangeDimension bind (SelectorSyntax.BitSelect e r) res).1 = res := by
  unfold bitSelectFlags at hk hv
  cases hval : (ctx.evalInteger (bind e (ctx.resetFlags
      (BindFlags.Constant ||| BindFlags.AllowDataType))).1).1 with
  | none => simp [BindContext.evalRangeDimension, hk, hval, BindContext.requireGtZero]
  | some n =>
    simp [BindContext.evalRangeDimension, hk, hval, requireGtZero_nonpos ctx n _ (hv n hval)]

/-- A simple range `[l:r]` whose two bounds evaluate. -/
theorem evalRangeDimension_simpleRange (ctx : BindContext) (bind : Binder)
    (l r : ExpressionSyntax) (rg : SourceRange) (res : EvaluatedDimension) (lv rv : Int)
    (hl : (ctx.evalIntegerOfSyntax bind l).1 = some lv)
    (hr : (ctx.evalIntegerOfSyntax bind r).1 = some rv) :
    ctx.evalRangeDimension bind
        (SelectorSyntax.RangeSelect RangeSelectKind.SimpleRangeSelect l r rg) res =
      ({ res with
          kind := DimensionKind.Range
          range := ⟨lv, rv⟩ },
        (ctx.evalIntegerOfSyntax bind l).2 ++ (ctx.evalIntegerOfSyntax bind r).2) := by
  simp [BindContext.evalRangeDimension, hl, hr]

/-- A simple range `[l:r]` with a bound that does not evaluate leaves the
result as it was. -/
theorem evalRangeDimension_simpleRange_fail (ctx : BindContext) (bind : Binder)
    (l r : ExpressionSyntax) (rg : SourceRange) (res : EvaluatedDimension)
    (h : (ctx.evalIntegerOfSyntax bind l).1 = none ∨
      (ctx.evalIntegerOfSyntax bind r).1 = none) :
    (ctx.evalRangeDimension bind
        (SelectorSyntax.RangeSelect RangeSelectKind.SimpleRangeSelect l r rg) res).1 = res := by
  rcases h with h | h <;> simp [BindContext.evalRangeDimension, h]

/-- A range select that is not `[l:r]` is an invalid dimension range. -/
theorem evalRangeDimension_other (ctx : BindContext) (bind : Binder)
    (k : RangeSelectKind) (l r : ExpressionSyntax) (rg : SourceRange)
    (res : EvaluatedDimension) (hk : k ≠ RangeSelectKind.SimpleRangeSelect) :
    ctx.evalRangeDimension bind (SelectorSyntax.RangeSelect k l r rg) res =
      (res, [⟨DiagCode.InvalidDimensionRange, DiagSite.range rg, []⟩]) := by
  cases k with
  | SimpleRangeSelect => exact absurd rfl hk
  | AscendingRangeSelect =>
    simp [BindContext.evalRangeDimension, BindContext.addDiag, SelectorSyntax.sourceRange]
  | DescendingRangeSelect =>
    simp [BindContext.evalRangeDimension, BindContext.addDiag, SelectorSyntax.sourceRange]

/-- `evalDimension` is the dimension read off the specifier, followed by the
`requireRange` check. -/
theorem evalDimension_eq (ctx : BindContext) (bind : Binder)
    (stx : VariableDimensionSyntax) (requireRange : Bool) :
    ctx.evalDimension bind stx requireRange =
      ((specifierDimension ctx bind stx).1,
        (specifierDimension ctx bind stx).2 ++
          if requireRange && !(specifierDimension ctx bind stx).1.isRange &&
              (specifierDimension ctx bind stx).1.kind != DimensionKind.Unknown then
            [⟨DiagCode.DimensionRequiresConstRange, DiagSite.range stx.sourceRange, []⟩]
          else []) := by
  unfold BindContext.evalDimension specifierDimension BindContext.addDiag
  rcases stx with ⟨spec, rg⟩
  rcases spec with _ | (_ | e) | _ | sel
  · cases requireRange <;> simp [EvaluatedDimension.isRange]
  · cases requireRange <;> simp [EvaluatedDimension.isRange]
  · cases hok : (ctx.requireGtZero (ctx.evalIntegerOfSyntax bind e).1 e.sourceRange).1 <;>
      cases requireRange <;> simp [EvaluatedDimension.isRange, hok]
  · cases requireRange <;> simp [EvaluatedDimension.isRange]
  · simp only []
    generalize ctx.evalRangeDimension bind sel {} = q
    rcases q with ⟨d, ds⟩
    by_cases hc : (requireRange && !d.isRange && d.kind != DimensionKind.Unknown) = true
    · simp only [hc, if_true]
    · simp [hc]

/-- The result of `evalDimension` does not depend on `requireRange`, and for a
range specifier it is the result of `evalRangeDimension` on the default
dimension. -/
theorem evalDimension_range_fst (ctx : BindContext) (bind : Binder)
    (stx : VariableDimensionSyntax) (sel : SelectorSyntax) (requireRange : Bool)
    (hs : stx.specifier = some (DimensionSpecifierSyntax.RangeDimensionSpecifier sel)) :
    (ctx.evalDimension bind stx requireRange).1 = (ctx.evalRangeDimension bind sel {}).1 := by
  rw [evalDimension_eq]
  simp [specifierDimension, hs]

/-- C4: `evalDimension` classifies a dimension, whatever `requireRange` is:
Dynamic when the specifier is absent; Queue for a queue specifier; Associative
for a wildcard specifier and for `[T]` where `T` binds to a data type, whose
type is recorded; AbbreviatedRange for `[N]` where `N` evaluates to an int32
greater than zero; Range for `[l:r]` where both bounds evaluate to an int32;
Unknown in every remaining case (`[N]` that does not evaluate to a positive
value, `[l:r]` with a bound that does not evaluate, any other selector). -/
theorem evalDimension_kind (ctx : BindContext) (bind : Binder)
    (stx : VariableDimensionSyntax) (requireRange : Bool) :
    (stx.specifier = none →
        (ctx.evalDimension bind stx requireRange).1.kind = DimensionKind.Dynamic) ∧
      (∀ m, stx.specifier = some (DimensionSpecifierSyntax.QueueDimensionSpecifier m) →
        (ctx.evalDimension bind stx requireRange).1.kind = DimensionKind.Queue) ∧
      (stx.specifier = some DimensionSpecifierSyntax.WildcardDimensionSpecifier →
        (ctx.evalDimension bind stx requireRange).1.kind = DimensionKind.Associative) ∧
      (∀ e r, stx.specifier = some (DimensionSpecifierSyntax.RangeDimensionSpecifier
            (SelectorSyntax.BitSelect e r)) →
          (bind e (ctx.resetFlags bitSelectFlags)).1.kind = ExpressionKind.DataType →
        (ctx.evalDimension bind stx requireRange).1.kind = DimensionKind.Associative ∧
          (ctx.evalDimension bind stx requireRange).1.associativeType =
            some (bind e (ctx.resetFlags bitSelectFlags)).1.type) ∧
      (∀ e r n, stx.specifier = some (DimensionSpecifierSyntax.RangeDimensionSpecifier
            (SelectorSyntax.BitSelect e r)) →
          (bind e (ctx.resetFlags bitSelectFlags)).1.kind ≠ ExpressionKind.DataType →
          (ctx.evalInteger (bind e (ctx.resetFlags bitSelectFlags)).1).1 = some n →
          0 < n →
        (ctx.evalDimension bind stx requireRange).1.kind = DimensionKind.AbbreviatedRange) ∧
      (∀ e r, stx.specifier = some (DimensionSpecifierSyntax.RangeDimensionSpecifier
            (SelectorSyntax.BitSelect e r)) →
          (bind e (ctx.resetFlags bitSelectFlags)).1.kind ≠ ExpressionKind.DataType →
          (∀ n, (ctx.evalInteger (bind e (ctx.resetFlags bitSelectFlags)).1).1 = some n →
            n ≤ 0) →
        (ctx.evalDimension bind stx requireRange).1.kind = DimensionKind.Unknown) ∧
      (∀ l r rg lv rv, stx.specifier = some (DimensionSpecifierSyntax.RangeDimensionSpecifier
            (SelectorSyntax.RangeSelect RangeSelectKind.SimpleRangeSelect l r rg)) →
          (ctx.evalIntegerOfSyntax bind l).1 = some lv →
          (ctx.evalIntegerOfSyntax bind r).1 = some rv →
        (ctx.evalDimension bind stx requireRange).1.kind = DimensionKind.Range) ∧
      (∀ l r rg, stx.specifier = some (DimensionSpecifierSyntax.RangeDimensionSpecifier
            (SelectorSyntax.RangeSelect RangeSelectKind.SimpleRangeSelect l r rg)) →
          ((ctx.evalIntegerOfSyntax bind l).1 = none ∨
            (ctx.evalIntegerOfSyntax bind r).1 = none) →
        (ctx.evalDimension bind stx requireRange).1.kind = DimensionKind.Unknown) ∧
      (∀ k l r rg, stx.specifier = some (DimensionSpecifierSyntax.RangeDimensionSpecifier
            (SelectorSyntax.RangeSelect k l r rg)) →
          k ≠ RangeSelectKind.SimpleRangeSelect →
        (ctx.evalDimension bind stx requireRange).1.kind = DimensionKind.Unknown) := by
  refine ⟨?_, ?_, ?_, ?_, ?_, ?_, ?_, ?_, ?_⟩
  · intro hs
    rw [evalDimension_eq]
    simp [specifierDimension, hs]
  · intro m hs
    rw [evalDimension_eq]
    cases m with
    | none => simp [specifierDimension, hs]
    | some e =>
      simp only [specifierDimension, hs]
      split <;> rfl
  · intro hs
    rw [evalDimension_eq]
    simp [specifierDimension, hs]
  · intro e r hs hk
    rw [evalDimension_range_fst ctx bind stx _ requireRange hs,
      evalRangeDimension_dataType ctx bind e r {} hk]
    exact ⟨rfl, rfl⟩
  · intro e r n hs hk hv hn
    rw [evalDimension_range_fst ctx bind stx _ requireRange hs,
      evalRangeDimension_abbreviated ctx bind e r {} n hk hv hn]
  · intro e r hs hk hv
    rw [evalDimension_range_fst ctx bind stx _ requireRange hs,
      evalRangeDimension_bitSelect_fail ctx bind e r {} hk hv]
  · intro l r rg lv rv hs hl hr
    rw [evalDimension_range_fst ctx bind stx _ requireRange hs,
      evalRangeDimension_simpleRange ctx bind l r rg {} lv rv hl hr]
  · intro l r rg hs h
    rw [evalDimension_range_fst ctx bind stx _ requireRange hs,
      evalRangeDimension_simpleRange_fail ctx bind l r rg {} h]
  · intro k l r rg hs hk
    rw [evalDimension_range_fst ctx bind stx _ requireRange hs,
      evalRangeDimension_other ctx bind k l r rg {} hk]

/-! ## Which codes the evaluation of a dimension can emit -/

/-- `evalInteger` emits only codes of `specifierCodes`. -/
theorem evalInteger_codes (ctx : BindContext) (e : Expression) :
    ∀ d ∈ (ctx.evalInteger e).2, d.code ∈ specifierCodes := by
  intro d hd
  cases hc : e.constant with
  | none =>
    simp [BindContext.evalInteger, hc] at hd
  | some c =>
    cases c with
    | integer sv =>
      rw [evalInteger_integer ctx e sv hc] at hd
      by_cases hu : sv.hasUnknown = true
      · simp [hu] at hd
        subst hd
        simp [specifierCodes]
      · cases hv : sv.as_int32 with
        | none =>
          simp [hu, hv] at hd
          subst hd
          simp [specifierCodes]
        | some w => simp [hu, hv] at hd
    | badValue =>
      simp [BindContext.evalInteger, hc, BindContext.requireIntegral, ConstantValue.bad] at hd
    | real q =>
      simp [BindContext.evalInteger, hc, BindContext.requireIntegral, ConstantValue.bad,
        ConstantValue.isInteger, BindContext.addDiag] at hd
      subst hd
      simp [specifierCodes]
    | null =>
      simp [BindContext.evalInteger, hc, BindContext.requireIntegral, ConstantValue.bad,
        ConstantValue.isInteger, BindContext.addDiag] at hd
      subst hd
      simp [specifierCodes]

/-- `requireGtZero` emits only `ValueMustBePositive`. -/
theorem requireGtZero_codes (ctx : BindContext) (v : Option Int) (r : SourceRange) :
    ∀ d ∈ (ctx.requireGtZero v r).2, d.code ∈ specifierCodes := by
  intro d hd
  cases v with
  | none => simp [BindContext.requireGtZero] at hd
  | some n =>
    by_cases hn : n ≤ 0
    · rw [requireGtZero_nonpos ctx n r hn] at hd
      simp at hd
      subst hd
      simp [specifierCodes]
    · rw [requireGtZero_pos ctx n r (not_le.1 hn)] at hd
      simp at hd

/-- Diagnostics of `evalInteger` on syntax: the binder's, or of `specifierCodes`. -/
theorem evalIntegerOfSyntax_codes (ctx : BindContext) (bind : Binder)
    (Q : Diagnostic → Prop) (hb : ∀ s c, ∀ d ∈ (bind s c).2, Q d) (e : ExpressionSyntax) :
    ∀ d ∈ (ctx.evalIntegerOfSyntax bind e).2, Q d ∨ d.code ∈ specifierCodes := by
  intro d hd
  simp only [BindContext.evalIntegerOfSyntax, List.mem_append] at hd
  rcases hd with hd | hd
  · exact Or.inl (hb _ _ d hd)
  · exact Or.inr (evalInteger_codes ctx _ d hd)

/-- Diagnostics of `evalRangeDimension`: the binder's, or of `specifierCodes`. -/
theorem evalRangeDimension_codes (ctx : BindContext) (bind : Binder)
    (Q : Diagnostic → Prop) (hb : ∀ s c, ∀ d ∈ (bind s c).2, Q d) (sel : SelectorSyntax)
    (res : EvaluatedDimension) :
    ∀ d ∈ (ctx.evalRangeDimension bind sel res).2, Q d ∨ d.code ∈ specifierCodes := by
  intro d hd
  rcases sel with ⟨e, r⟩ | ⟨k, l, r, rg⟩
  · have hmem : d ∈ (bind e (ctx.resetFlags
          (BindFlags.Constant ||| BindFlags.AllowDataType))).2 ∨
        d ∈ (ctx.evalInteger (bind e (ctx.resetFlags
          (BindFlags.Constant ||| BindFlags.AllowDataType))).1).2 ∨
        d ∈ (ctx.requireGtZero (ctx.evalInteger (bind e (ctx.resetFlags
          (BindFlags.Constant ||| BindFlags.AllowDataType))).1).1 r).2 := by
      simp only [BindContext.evalRangeDimension, SelectorSyntax.sourceRange] at hd
      split at hd
      · exact Or.inl hd
      · split at hd <;> simp only [List.mem_append] at hd <;> tauto
    rcases hmem with h | h | h
    · exact Or.inl (hb _ _ d h)
    · exact Or.inr (evalInteger_codes ctx _ d h)
    · exact Or.inr (requireGtZero_codes ctx _ _ d h)
  · cases k with
    | SimpleRangeSelect =>
      have hmem : d ∈ (ctx.evalIntegerOfSyntax bind l).2 ∨
          d ∈ (ctx.evalIntegerOfSyntax bind r).2 := by
        simp only [BindContext.evalRangeDimension] at hd
        split at hd <;> simp only [List.mem_append] at hd <;> exact hd
      rcases hmem with h | h
      · exact evalIntegerOfSyntax_codes ctx bind Q hb l d h
      · exact evalIntegerOfSyntax_codes ctx bind Q hb r d h
    | AscendingRangeSelect =>
      rw [evalRangeDimension_other ctx bind _ l r rg res (by decide)] at hd
      simp at hd
      subst hd
      exact Or.inr (by simp [specifierCodes])
    | DescendingRangeSelect =>
      rw [evalRangeDimension_other ctx bind _ l r rg res (by decide)] at hd
      simp at hd
      subst hd
      exact Or.inr (by simp [specifierCodes])

/-- Diagnostics of reading a specifier: the binder's, or of `specifierCodes`. -/
theorem specifierDimension_codes (ctx : BindContext) (bind : Binder)
    (Q : Diagnostic → Prop) (hb : ∀ s c, ∀ d ∈ (bind s c).2, Q d)
    (stx : VariableDimensionSyntax) :
    ∀ d ∈ (specifierDimension ctx bind stx).2, Q d ∨ d.code ∈ specifierCodes := by
  intro d hd
  rcases stx with ⟨spec, rg⟩
  rcases spec with _ | (_ | e) | _ | sel
  · simp [specifierDimension] at hd
  · simp [specifierDimension] at hd
  · have hmem : d ∈ (ctx.evalIntegerOfSyntax bind e).2 ∨
        d ∈ (ctx.requireGtZero (ctx.evalIntegerOfSyntax bind e).1 e.sourceRange).2 := by
      simp only [specifierDimension] at hd
      split at hd <;> simp only [List.mem_append] at hd <;> exact hd
    rcases hmem with h | h
    · exact evalIntegerOfSyntax_codes ctx bind Q hb e d h
    · exact Or.inr (requireGtZero_codes ctx _ _ d h)
  · simp [specifierDimension] at hd
  · exact evalRangeDimension_codes ctx bind Q hb sel {} d hd

/-- A code that neither the binder emits nor `specifierCodes` lists does not
occur among the diagnostics of reading a specifier. -/
theorem specifierDimension_count (ctx : BindContext) (bind : Binder) (code : DiagCode)
    (hb : ∀ s c, code ∉ codesOf (bind s c).2) (hc : code ∉ specifierCodes)
    (stx : VariableDimensionSyntax) :
    (codesOf (specifierDimension ctx bind stx).2).count code = 0 := by
  rw [List.count_eq_zero]
  intro hmem
  obtain ⟨d, hd, hcode⟩ := List.mem_map.1 hmem
  have hq := specifierDimension_codes ctx bind (fun d => d.code ≠ code)
    (fun s c d hd hcd => hb s c (List.mem_map.2 ⟨d, hd, hcd⟩)) stx d hd
  rcases hq with hq | hq
  · exact hq hcode
  · exact hc (hcode ▸ hq)

/-! ## evalDimension and evalPackedDimension: the claims -/

/-- The binder of the fixtures emits nothing. -/
theorem fixtureBinder_silent (s : ExpressionSyntax) (c : BindContext) :
    (fixtureBinder s c).2 = [] := by
  unfold fixtureBinder
  split
  · rfl
  · split <;> rfl

/-- C4 at concrete inputs: `[8]` is an abbreviated range, `[T]` with `T` a data
type is associative and records the type. -/
theorem evalDimension_kind_witness :
    (fixtureContext.evalDimension fixtureBinder (dimBitSelect 108) false).1.kind =
        DimensionKind.AbbreviatedRange ∧
      (fixtureContext.evalDimension fixtureBinder (dimBitSelect 0) false).1.associativeType =
        some 7 :=
  ⟨(evalDimension_kind fixtureContext fixtureBinder (dimBitSelect 108) false).2.2.2.2.1
      ⟨108, rangeAt 1 2⟩ (rangeAt 1 2) 8 rfl (by decide) (by decide) (by decide),
    ((evalDimension_kind fixtureContext fixtureBinder (dimBitSelect 0) false).2.2.2.1
      ⟨0, rangeAt 1 2⟩ (rangeAt 1 2) rfl (by decide)).2⟩

/-- C5: for an abbreviated dimension `[N]` whose expression (not a data type)
evaluates to an int32 `N > 0`, `evalDimension` yields kind AbbreviatedRange
with range exactly {left = 0, right = N - 1}: the range has `N` elements, and
the 32-bit subtraction `N - 1` does not wrap. -/
theorem evalDimension_abbreviatedRange (ctx : BindContext) (bind : Binder)
    (stx : VariableDimensionSyntax) (e : ExpressionSyntax) (r : SourceRange)
    (requireRange : Bool) (n : Int)
    (hs : stx.specifier = some (DimensionSpecifierSyntax.RangeDimensionSpecifier
      (SelectorSyntax.BitSelect e r)))
    (hk : (bind e (ctx.resetFlags bitSelectFlags)).1.kind ≠ ExpressionKind.DataType)
    (hv : (ctx.evalInteger (bind e (ctx.resetFlags bitSelectFlags)).1).1 = some n)
    (hn : 0 < n) :
    (ctx.evalDimension bind stx requireRange).1.kind = DimensionKind.AbbreviatedRange ∧
      (ctx.evalDimension bind stx requireRange).1.range = ⟨0, n - 1⟩ ∧
      (ctx.evalDimension bind stx requireRange).1.range.right -
        (ctx.evalDimension bind stx requireRange).1.range.left + 1 = n ∧
      wrapInt32 (n - 1) = n - 1 ∧ INT32_MIN ≤ n - 1 ∧ n - 1 ≤ INT32_MAX := by
  obtain ⟨_, hmin, hmax⟩ := evalInteger_some ctx _ n hv
  rw [evalDimension_range_fst ctx bind stx _ requireRange hs,
    evalRangeDimension_abbreviated ctx bind e r {} n hk hv hn]
  refine ⟨rfl, rfl, ?_, wrapInt32_pred n hn hmax, ?_, ?_⟩
  · show n - 1 - 0 + 1 = n
    omega
  · unfold INT32_MIN
    omega
  · omega

/-- C5 at a concrete input: `[8]` is the range [0:7]. -/
theorem evalDimension_abbreviatedRange_witness :
    (fixtureContext.evalDimension fixtureBinder (dimBitSelect 108) true).1.kind =
        DimensionKind.AbbreviatedRange ∧
      (fixtureContext.evalDimension fixtureBinder (dimBitSelect 108) true).1.range = ⟨0, 7⟩ :=
  ⟨(evalDimension_abbreviatedRange fixtureContext fixtureBinder (dimBitSelect 108)
      ⟨108, rangeAt 1 2⟩ (rangeAt 1 2) true 8 rfl (by decide) (by decide) (by decide)).1,
    (evalDimension_abbreviatedRange fixtureContext fixtureBinder (dimBitSelect 108)
      ⟨108, rangeAt 1 2⟩ (rangeAt 1 2) true 8 rfl (by decide) (by decide) (by decide)).2.1⟩

/-- C6 fails as stated: the dimension `[0]`, evaluated with `requireRange` set,
has kind Unknown (it is not a range) and the only diagnostic emitted is
`ValueMustBePositive`; `DimensionRequiresConstRange` is not emitted. -/
theorem evalDimension_unknown_no_requireRange_diag :
    fixtureContext.evalDimension fixtureBinder (dimBitSelect 100) true =
      ({ kind := DimensionKind.Unknown },
        [⟨DiagCode.ValueMustBePositive, DiagSite.range (rangeAt 1 2), []⟩]) ∧
      (fixtureContext.evalDimension fixtureBinder (dimBitSelect 100) true).1.isRange = false ∧
      (codesOf (fixtureContext.evalDimension fixtureBinder (dimBitSelect 100) true).2).count
        DiagCode.DimensionRequiresConstRange = 0 := by
  decide

/-- C6, amended: with `requireRange` set, `evalDimension` emits
`DimensionRequiresConstRange` (once, last, at the source range of the
dimension) when the resulting kind is Queue, Dynamic or Associative, and does
not emit it when the result is a range (Range, AbbreviatedRange) or Unknown.
The dimension itself is the one computed without `requireRange`. The count of
that code among all diagnostics is given for a binder that does not emit the
code itself. -/
theorem evalDimension_requireRange (ctx : BindContext) (bind : Binder)
    (stx : VariableDimensionSyntax) :
    (ctx.evalDimension bind stx true).1 = (ctx.evalDimension bind stx false).1 ∧
      (ctx.evalDimension bind stx true).2 =
        (ctx.evalDimension bind stx false).2 ++
          (if (ctx.evalDimension bind stx true).1.kind = DimensionKind.Queue ∨
              (ctx.evalDimension bind stx true).1.kind = DimensionKind.Dynamic ∨
              (ctx.evalDimension bind stx true).1.kind = DimensionKind.Associative then
            [⟨DiagCode.DimensionRequiresConstRange, DiagSite.range stx.sourceRange, []⟩]
          else []) ∧
      ((∀ s c, DiagCode.DimensionRequiresConstRange ∉ codesOf (bind s c).2) →
        (codesOf (ctx.evalDimension bind stx true).2).count
            DiagCode.DimensionRequiresConstRange =
          (if (ctx.evalDimension bind stx true).1.kind = DimensionKind.Queue ∨
              (ctx.evalDimension bind stx true).1.kind = DimensionKind.Dynamic ∨
              (ctx.evalDimension bind stx true).1.kind = DimensionKind.Associative then 1
          else 0)) := by
  refine ⟨?_, ?_, ?_⟩
  · simp only [evalDimension_eq]
  · simp only [evalDimension_eq]
    generalize specifierDimension ctx bind stx = q
    rcases q with ⟨d, ds⟩
    rcases d with ⟨k, rng, ty, qm⟩
    cases k <;> simp [EvaluatedDimension.isRange]
  · intro hb
    have h0 := specifierDimension_count ctx bind DiagCode.DimensionRequiresConstRange hb
      (by decide) stx
    simp only [evalDimension_eq]
    generalize specifierDimension ctx bind stx = q at h0
    rcases q with ⟨d, ds⟩
    rcases d with ⟨k, rng, ty, qm⟩
    simp only at h0
    cases k <;>
      simp [EvaluatedDimension.isRange, codesOf, List.count_append] <;>
      simpa [codesOf] using h0

/-- C6 (amended) at concrete inputs: `[*]` with `requireRange` set is
associative and gets exactly the one diagnostic. -/
theorem evalDimension_requireRange_witness :
    (fixtureContext.evalDimension fixtureBinder dimWildcard true).1.kind =
        DimensionKind.Associative ∧
      (codesOf (fixtureContext.evalDimension fixtureBinder dimWildcard true).2).count
        DiagCode.DimensionRequiresConstRange = 1 :=
  ⟨by decide,
    ((evalDimension_requireRange fixtureContext fixtureBinder dimWildcard).2.2
      (fun s c => by simp [fixtureBinder_silent, codesOf])).trans (by decide)⟩

/-- A range select never yields an abbreviated range. -/
theorem evalRangeDimension_rangeSelect_kind (ctx : BindContext) (bind : Binder)
    (k : RangeSelectKind) (l r : ExpressionSyntax) (rg : SourceRange) :
    (ctx.evalRangeDimension bind (SelectorSyntax.RangeSelect k l r rg) {}).1.kind ≠
      DimensionKind.AbbreviatedRange := by
  by_cases hk : k = RangeSelectKind.SimpleRangeSelect
  · subst hk
    cases hl : (ctx.evalIntegerOfSyntax bind l).1 with
    | none =>
      rw [evalRangeDimension_simpleRange_fail ctx bind l r rg {} (Or.inl hl)]
      decide
    | some lv =>
      cases hr : (ctx.evalIntegerOfSyntax bind r).1 with
      | none =>
        rw [evalRangeDimension_simpleRange_fail ctx bind l r rg {} (Or.inr hr)]
        decide
      | some rv =>
        rw [evalRangeDimension_simpleRange ctx bind l r rg {} lv rv hl hr]
        simp
  · rw [evalRangeDimension_other ctx bind k l r rg {} hk]
    simp

/-- `evalPackedDimension` is `evalDimension` with `requireRange` set, followed
by the check for the abbreviated form. -/
theorem evalPackedDimension_eq (ctx : BindContext) (bind : Binder)
    (stx : VariableDimensionSyntax) :
    ctx.evalPackedDimension bind stx =
      (if (ctx.evalDimension bind stx true).1.isRange then
          some (ctx.evalDimension bind stx true).1.range
        else none,
        (ctx.evalDimension bind stx true).2 ++
          if (ctx.evalDimension bind stx true).1.kind = DimensionKind.AbbreviatedRange then
            [⟨DiagCode.PackedDimsRequireFullRange, DiagSite.range stx.sourceRange, []⟩]
          else []) := by
  unfold BindContext.evalPackedDimension BindContext.addDiag
  generalize ctx.evalDimension bind stx true = q
  rcases q with ⟨d, ds⟩
  rcases d with ⟨k, rng, ty, qm⟩
  cases k <;> simp [EvaluatedDimension.isRange]

/-- When evaluation succeeds, `evalInteger` on syntax emits what the binder
emitted and nothing else. -/
theorem evalIntegerOfSyntax_some (ctx : BindContext) (bind : Binder)
    (e : ExpressionSyntax) (v : Int) (h : (ctx.evalIntegerOfSyntax bind e).1 = some v) :
    (ctx.evalIntegerOfSyntax bind e).2 = (bind e (ctx.resetFlags BindFlags.Constant)).2 := by
  have h2 : (ctx.evalInteger (bind e (ctx.resetFlags BindFlags.Constant)).1).1 = some v := h
  have h3 := (evalInteger_some ctx _ v h2).1
  show (bind e (ctx.resetFlags BindFlags.Constant)).2 ++
    (ctx.evalInteger (bind e (ctx.resetFlags BindFlags.Constant)).1).2 = _
  rw [h3, List.append_nil]

/-- A full range `[l:r]` whose bounds evaluate is returned as written, with no
diagnostic besides the binder's. -/
theorem evalPackedDimension_simpleRange (ctx : BindContext) (bind : Binder)
    (stx : VariableDimensionSyntax) (l r : ExpressionSyntax) (rg : SourceRange)
    (lv rv : Int)
    (hs : stx.specifier = some (DimensionSpecifierSyntax.RangeDimensionSpecifier
      (SelectorSyntax.RangeSelect RangeSelectKind.SimpleRangeSelect l r rg)))
    (hl : (ctx.evalIntegerOfSyntax bind l).1 = some lv)
    (hr : (ctx.evalIntegerOfSyntax bind r).1 = some rv) :
    ctx.evalPackedDimension bind stx =
      (some ⟨lv, rv⟩,
        (bind l (ctx.resetFlags BindFlags.Constant)).2 ++
          (bind r (ctx.resetFlags BindFlags.Constant)).2) := by
  have hspec : specifierDimension ctx bind stx =
      ({ kind := DimensionKind.Range
         range := ⟨lv, rv⟩ },
        (ctx.evalIntegerOfSyntax bind l).2 ++ (ctx.evalIntegerOfSyntax bind r).2) := by
    simp only [specifierDimension, hs]
    exact evalRangeDimension_simpleRange ctx bind l r rg {} lv rv hl hr
  rw [evalPackedDimension_eq, evalDimension_eq, hspec,
    evalIntegerOfSyntax_some ctx bind l lv hl, evalIntegerOfSyntax_some ctx bind r rv hr]
  simp [EvaluatedDimension.isRange]

/-- C7: `evalPackedDimension` on a variable dimension emits
`PackedDimsRequireFullRange` exactly when the dimension evaluates to an
AbbreviatedRange (once, last, at the source range of the dimension), and for a
dimension written with a range select, `[hi:lo]` in particular, it never emits
it: it adds nothing to the diagnostics of `evalDimension`. The statements
about the code among all diagnostics are for a binder that does not emit the
code itself. -/
theorem evalPackedDimension_fullRange_diag (ctx : BindContext) (bind : Binder)
    (stx : VariableDimensionSyntax) :
    (ctx.evalPackedDimension bind stx).2 =
        (ctx.evalDimension bind stx true).2 ++
          (if (ctx.evalDimension bind stx true).1.kind = DimensionKind.AbbreviatedRange then
            [⟨DiagCode.PackedDimsRequireFullRange, DiagSite.range stx.sourceRange, []⟩]
          else []) ∧
      (∀ k l r rg, stx.specifier = some (DimensionSpecifierSyntax.RangeDimensionSpecifier
          (SelectorSyntax.RangeSelect k l r rg)) →
        (ctx.evalPackedDimension bind stx).2 = (ctx.evalDimension bind stx true).2) ∧
      ((∀ s c, DiagCode.PackedDimsRequireFullRange ∉ codesOf (bind s c).2) →
        (codesOf (ctx.evalPackedDimension bind stx).2).count
            DiagCode.PackedDimsRequireFullRange =
          (if (ctx.evalDimension bind stx true).1.kind = DimensionKind.AbbreviatedRange then 1
          else 0) ∧
        (DiagCode.PackedDimsRequireFullRange ∈ codesOf (ctx.evalPackedDimension bind stx).2 ↔
          (ctx.evalDimension bind stx true).1.kind = DimensionKind.AbbreviatedRange) ∧
        (∀ k l r rg, stx.specifier = some (DimensionSpecifierSyntax.RangeDimensionSpecifier
            (SelectorSyntax.RangeSelect k l r rg)) →
          DiagCode.PackedDimsRequireFullRange ∉
            codesOf (ctx.evalPackedDimension bind stx).2)) := by
  refine ⟨by rw [evalPackedDimension_eq], ?_, ?_⟩
  · intro k l r rg hs
    have hk := evalRangeDimension_rangeSelect_kind ctx bind k l r rg
    rw [← evalDimension_range_fst ctx bind stx _ true hs] at hk
    rw [evalPackedDimension_eq]
    simp [hk]
  intro hb
  have h0 : (codesOf (ctx.evalDimension bind stx true).2).count
      DiagCode.PackedDimsRequireFullRange = 0 := by
    have h := specifierDimension_count ctx bind DiagCode.PackedDimsRequireFullRange hb
      (by decide) stx
    rw [evalDimension_eq]
    simp only [codesOf, List.map_append, List.count_append] at h ⊢
    rw [h]
    split <;> simp
  have hcount : (codesOf (ctx.evalPackedDimension bind stx).2).count
        DiagCode.PackedDimsRequireFullRange =
      (if (ctx.evalDimension bind stx true).1.kind = DimensionKind.AbbreviatedRange then 1
      else 0) := by
    rw [evalPackedDimension_eq]
    simp only [codesOf, List.map_append, List.count_append] at h0 ⊢
    rw [h0]
    split <;> simp
  have hiff : DiagCode.PackedDimsRequireFullRange ∈
        codesOf (ctx.evalPackedDimension bind stx).2 ↔
      (ctx.evalDimension bind stx true).1.kind = DimensionKind.AbbreviatedRange := by
    rw [← List.count_pos_iff, hcount]
    split <;> simp_all
  refine ⟨hcount, hiff, ?_⟩
  intro k l r rg hs hmem
  have hk := hiff.1 hmem
  rw [evalDimension_range_fst ctx bind stx _ true hs] at hk
  exact evalRangeDimension_rangeSelect_kind ctx bind k l r rg hk

/-- C7 at concrete inputs: `[8]` gets `PackedDimsRequireFullRange`, `[7:0]`
does not. -/
theorem evalPackedDimension_fullRange_diag_witness :
    DiagCode.PackedDimsRequireFullRange ∈
        codesOf (fixtureContext.evalPackedDimension fixtureBinder (dimBitSelect 108)).2 ∧
      DiagCode.PackedDimsRequireFullRange ∉
        codesOf (fixtureContext.evalPackedDimension fixtureBinder
          (dimRangeSelect RangeSelectKind.SimpleRangeSelect 107 100)).2 :=
  ⟨((evalPackedDimension_fullRange_diag fixtureContext fixtureBinder (dimBitSelect 108)).2.2
      (fun s c => by simp [fixtureBinder_silent, codesOf])).2.1.2 (by decide),
    ((evalPackedDimension_fullRange_diag fixtureContext fixtureBinder
      (dimRangeSelect RangeSelectKind.SimpleRangeSelect 107 100)).2.2
      (fun s c => by simp [fixtureBinder_silent, codesOf])).2.2 _ _ _ _ rfl⟩

/-- C8: for a full range dimension `[l:r]` whose bounds evaluate to int32 values
`lv` and `rv`, `evalPackedDimension` returns exactly {left = lv, right = rv},
in the written order, and emits nothing besides what the binder emitted for
the two bounds. In scenario S1, `[W-1:0]` with `W = 8` (the bounds evaluate to
7 and 0) yields the packed range [7:0] and no diagnostic. -/
theorem evalPackedDimension_range (ctx : BindContext) (bind : Binder) :
    (∀ (stx : VariableDimensionSyntax) (l r : ExpressionSyntax) (rg : SourceRange)
        (lv rv : Int),
        stx.specifier = some (DimensionSpecifierSyntax.RangeDimensionSpecifier
          (SelectorSyntax.RangeSelect RangeSelectKind.SimpleRangeSelect l r rg)) →
        (ctx.evalIntegerOfSyntax bind l).1 = some lv →
        (ctx.evalIntegerOfSyntax bind r).1 = some rv →
        ctx.evalPackedDimension bind stx =
          (some ⟨lv, rv⟩,
            (bind l (ctx.resetFlags BindFlags.Constant)).2 ++
              (bind r (ctx.resetFlags BindFlags.Constant)).2)) ∧
      fixtureContext.evalPackedDimension fixtureBinder
          (dimRangeSelect RangeSelectKind.SimpleRangeSelect 107 100) =
        (some ⟨7, 0⟩, []) :=
  ⟨fun stx l r rg lv rv hs hl hr =>
      evalPackedDimension_simpleRange ctx bind stx l r rg lv rv hs hl hr,
    by decide⟩

/-- C8 at a concrete input: `[0:7]` is returned as [0:7], not reordered. -/
theorem evalPackedDimension_range_witness :
    fixtureContext.evalPackedDimension fixtureBinder
        (dimRangeSelect RangeSelectKind.SimpleRangeSelect 100 107) =
      (some ⟨0, 7⟩, []) :=
  ((evalPackedDimension_range fixtureContext fixtureBinder).1
    (dimRangeSelect RangeSelectKind.SimpleRangeSelect 100 107) _ _ _ 0 7 rfl
    (by decide) (by decide)).trans (by decide)

/-- C9 fails as stated: in scenario S3 the packed dimension `[N-1:0]` with
`N = 0` (the bounds evaluate to -1 and 0) is returned as the range [-1:0] and
no diagnostic at all is emitted, so no `ValueMustBePositive`. -/
theorem evalPackedDimension_S3_no_diag :
    fixtureContext.evalPackedDimension fixtureBinder
        (dimRangeSelect RangeSelectKind.SimpleRangeSelect 99 100) =
      (some ⟨-1, 0⟩, []) := by
  decide

/-- C9, amended: evaluating a packed dimension `[l:r]` whose left bound
evaluates to -1 and whose right bound evaluates to 0 returns the range
{left = -1, right = 0} and emits nothing besides what the binder emitted for
the two bounds; no `ValueMustBePositive` is added. -/
theorem evalPackedDimension_negative_left (ctx : BindContext) (bind : Binder)
    (stx : VariableDimensionSyntax) (l r : ExpressionSyntax) (rg : SourceRange)
    (hs : stx.specifier = some (DimensionSpecifierSyntax.RangeDimensionSpecifier
      (SelectorSyntax.RangeSelect RangeSelectKind.SimpleRangeSelect l r rg)))
    (hl : (ctx.evalIntegerOfSyntax bind l).1 = some (-1))
    (hr : (ctx.evalIntegerOfSyntax bind r).1 = some 0) :
    ctx.evalPackedDimension bind stx =
        (some ⟨-1, 0⟩,
          (bind l (ctx.resetFlags BindFlags.Constant)).2 ++
            (bind r (ctx.resetFlags BindFlags.Constant)).2) ∧
      (codesOf (ctx.evalPackedDimension bind stx).2).count DiagCode.ValueMustBePositive =
        (codesOf (bind l (ctx.resetFlags BindFlags.Constant)).2).count
            DiagCode.ValueMustBePositive +
          (codesOf (bind r (ctx.resetFlags BindFlags.Constant)).2).count
            DiagCode.ValueMustBePositive := by
  rw [evalPackedDimension_simpleRange ctx bind stx l r rg (-1) 0 hs hl hr]
  exact ⟨rfl, by simp [codesOf, List.count_append]⟩

/-- C9 (amended) at the input of scenario S3. -/
theorem evalPackedDimension_negative_left_witness :
    (fixtureContext.evalPackedDimension fixtureBinder
        (dimRangeSelect RangeSelectKind.SimpleRangeSelect 99 100)).1 = some ⟨-1, 0⟩ ∧
      (codesOf (fixtureContext.evalPackedDimension fixtureBinder
        (dimRangeSelect RangeSelectKind.SimpleRangeSelect 99 100)).2).count
          DiagCode.ValueMustBePositive = 0 :=
  ⟨congrArg Prod.fst (evalPackedDimension_negative_left fixtureContext fixtureBinder
      (dimRangeSelect RangeSelectKind.SimpleRangeSelect 99 100) _ _ _ rfl
      (by decide) (by decide)).1,
    (evalPackedDimension_negative_left fixtureContext fixtureBinder
      (dimRangeSelect RangeSelectKind.SimpleRangeSelect 99 100) _ _ _ rfl
      (by decide) (by decide)).2.trans (by decide)⟩

/-! ## requireIntegral -/

/-- C10: `requireIntegral(cv)` returns true iff `cv` is not bad and is an
integer; it emits `ValueMustBeIntegral` (once, at the given range, and nothing
else) exactly when `cv` is not bad and not an integer; on the `Bad` sentinel it
returns false and emits nothing. -/
theorem requireIntegral_spec (ctx : BindContext) (cv : ConstantValue) (r : SourceRange) :
    ((ctx.requireIntegral cv r).1 = true ↔ (cv.bad = false ∧ cv.isInteger = true)) ∧
      ((ctx.requireIntegral cv r).2 =
        if cv.bad = false ∧ cv.isInteger = false then
          [⟨DiagCode.ValueMustBeIntegral, DiagSite.range r, []⟩]
        else []) ∧
      (DiagCode.ValueMustBeIntegral ∈ codesOf (ctx.requireIntegral cv r).2 ↔
        (cv.bad = false ∧ cv.isInteger = false)) ∧
      (cv.bad = true → ctx.requireIntegral cv r = (false, [])) := by
  cases cv <;>
    simp [BindContext.requireIntegral, ConstantValue.bad, ConstantValue.isInteger,
      BindContext.addDiag, codesOf]

/-- C10 at concrete inputs: the sentinel is rejected silently, a real is
rejected with the diagnostic, an integer is accepted. -/
theorem requireIntegral_spec_witness :
    fixtureContext.requireIntegral ConstantValue.badValue (rangeAt 0 1) = (false, []) ∧
      DiagCode.ValueMustBeIntegral ∈
        codesOf (fixtureContext.requireIntegral (ConstantValue.real 0) (rangeAt 0 1)).2 ∧
      (fixtureContext.requireIntegral (ConstantValue.integer (SVInt.ofInt32 3))
        (rangeAt 0 1)).1 = true :=
  ⟨(requireIntegral_spec fixtureContext ConstantValue.badValue (rangeAt 0 1)).2.2.2 rfl,
    (requireIntegral_spec fixtureContext (ConstantValue.real 0) (rangeAt 0 1)).2.2.1.2
      ⟨rfl, rfl⟩,
    (requireIntegral_spec fixtureContext (ConstantValue.integer (SVInt.ofInt32 3))
      (rangeAt 0 1)).1.2 ⟨rfl, rfl⟩⟩

/-! ## requireGtZero, requirePositive, requireValidBitWidth -/

/-- C11: `requireGtZero(v)` returns true iff `v` is present and `v > 0`; it emits
`ValueMustBePositive` (once, at the given range, and nothing else) exactly when
`v` is present and `v <= 0`, zero included; on an absent value it returns
false without a diagnostic. -/
theorem requireGtZero_spec (ctx : BindContext) (v : Option Int) (r : SourceRange) :
    ((ctx.requireGtZero v r).1 = true ↔ ∃ n, v = some n ∧ 0 < n) ∧
      (DiagCode.ValueMustBePositive ∈ codesOf (ctx.requireGtZero v r).2 ↔
        ∃ n, v = some n ∧ n ≤ 0) ∧
      (∀ n, v = some n → n ≤ 0 →
        ctx.requireGtZero v r =
          (false, [⟨DiagCode.ValueMustBePositive, DiagSite.range r, []⟩])) ∧
      (∀ n, v = some n → 0 < n → ctx.requireGtZero v r = (true, [])) ∧
      (v = none → ctx.requireGtZero v r = (false, [])) ∧
      ctx.requireGtZero (some 0) r =
        (false, [⟨DiagCode.ValueMustBePositive, DiagSite.range r, []⟩]) := by
  refine ⟨?_, ?_, ?_, ?_, ?_, requireGtZero_nonpos ctx 0 r (le_refl 0)⟩
  · cases v with
    | none => simp [BindContext.requireGtZero]
    | some n =>
      by_cases hn : n ≤ 0
      · rw [requireGtZero_nonpos ctx n r hn]
        simp [hn]
      · rw [requireGtZero_pos ctx n r (not_le.1 hn)]
        simp [not_le.1 hn]
  · cases v with
    | none => simp [BindContext.requireGtZero, codesOf]
    | some n =>
      by_cases hn : n ≤ 0
      · rw [requireGtZero_nonpos ctx n r hn]
        simp [hn, codesOf]
      · rw [requireGtZero_pos ctx n r (not_le.1 hn)]
        simp [hn, codesOf]
  · intro n hv hn
    rw [hv]
    exact requireGtZero_nonpos ctx n r hn
  · intro n hv hn
    rw [hv]
    exact requireGtZero_pos ctx n r hn
  · intro hv
    rw [hv]
    rfl

/-- C11 at concrete inputs: 5 is accepted, -3 is rejected with the diagnostic,
an absent value is rejected silently. -/
theorem requireGtZero_spec_witness :
    fixtureContext.requireGtZero (some 5) (rangeAt 0 1) = (true, []) ∧
      fixtureContext.requireGtZero (some (-3)) (rangeAt 0 1) =
        (false, [⟨DiagCode.ValueMustBePositive, DiagSite.range (rangeAt 0 1), []⟩]) ∧
      fixtureContext.requireGtZero none (rangeAt 0 1) = (false, []) :=
  ⟨(requireGtZero_spec fixtureContext (some 5) (rangeAt 0 1)).2.2.2.1 5 rfl (by decide),
    (requireGtZero_spec fixtureContext (some (-3)) (rangeAt 0 1)).2.2.1 (-3) rfl (by decide),
    (requireGtZero_spec fixtureContext none (rangeAt 0 1)).2.2.2.2.1 rfl⟩

/-- The unsigned reading of a bit list is below two to its length. -/
theorem SVInt.rawValue_lt (bits : List Logic) : SVInt.rawValue bits < 2 ^ bits.length := by
  induction bits with
  | nil => simp [SVInt.rawValue]
  | cons b bs ih =>
    have hb : b.toNat ≤ 1 := by cases b <;> simp [Logic.toNat]
    simp only [SVInt.rawValue, List.length_cons, pow_succ]
    omega

/-- The value of an integer is negative exactly when the integer is signed and
its sign bit is set. -/
theorem SVInt.toInt_neg_iff (v : SVInt) :
    v.toInt < 0 ↔ (v.isSigned && v.isNegative) = true := by
  have hlt := SVInt.rawValue_lt v.bits
  have hlt2 : (SVInt.rawValue v.bits : Int) < (2 : Int) ^ v.bits.length := by
    exact_mod_cast hlt
  have hnn : (0 : Int) ≤ (SVInt.rawValue v.bits : Int) := Int.natCast_nonneg _
  unfold SVInt.toInt SVInt.isSigned SVInt.bitWidth
  by_cases h : (v.signFlag && v.isNegative) = true
  · rw [if_pos h]
    exact ⟨fun _ => h, fun _ => by linarith⟩
  · rw [if_neg h]
    exact ⟨fun hn => absurd hn (not_lt.2 hnn), fun hh => absurd hh h⟩

/-- C12 fails as stated: zero, as a 32-bit signed integer, is accepted by
`requirePositive`, without a diagnostic. -/
theorem requirePositive_zero_accepted :
    fixtureContext.requirePositive (SVInt.ofInt32 0) (rangeAt 0 1) = (true, []) ∧
      (SVInt.ofInt32 0).toInt = 0 := by
  decide

/-- C12, amended: `requirePositive(v)` returns true iff `v` is not negative: it
returns false and emits `ValueMustBePositive` (once, at the given range) for
every value that is signed with its sign bit set, that is, whose value is
below zero, and returns true with no diagnostic otherwise; zero and every
unsigned value are accepted. -/
theorem requirePositive_spec (ctx : BindContext) (v : SVInt) (r : SourceRange) :
    ((ctx.requirePositive v r).1 = true ↔ 0 ≤ v.toInt) ∧
      (v.toInt < 0 →
        ctx.requirePositive v r =
          (false, [⟨DiagCode.ValueMustBePositive, DiagSite.range r, []⟩])) ∧
      (0 ≤ v.toInt → ctx.requirePositive v r = (true, [])) ∧
      (v.isSigned = false → ctx.requirePositive v r = (true, [])) := by
  have key := SVInt.toInt_neg_iff v
  by_cases h : (v.isSigned && v.isNegative) = true
  · have hneg : v.toInt < 0 := key.2 h
    have hres : ctx.requirePositive v r =
        (false, [⟨DiagCode.ValueMustBePositive, DiagSite.range r, []⟩]) := by
      simp [BindContext.requirePositive, BindContext.addDiag, h]
    refine ⟨?_, fun _ => hres, fun h0 => absurd hneg (not_lt.2 h0), ?_⟩
    · rw [hres]
      simp [hneg]
    · intro hs
      rw [hs] at h
      simp at h
  · have hpos : 0 ≤ v.toInt := not_lt.1 (fun hn => h (key.1 hn))
    have hres : ctx.requirePositive v r = (true, []) := by
      simp [BindContext.requirePositive, h]
    exact ⟨by rw [hres]; simp [hpos], fun hn => absurd hn (not_lt.2 hpos), fun _ => hres,
      fun _ => hres⟩

/-- C12 (amended) at concrete inputs: -1 is rejected, 0 and 7 are accepted. -/
theorem requirePositive_spec_witness :
    fixtureContext.requirePositive (SVInt.ofInt32 (-1)) (rangeAt 0 1) =
        (false, [⟨DiagCode.ValueMustBePositive, DiagSite.range (rangeAt 0 1), []⟩]) ∧
      fixtureContext.requirePositive (SVInt.ofInt32 0) (rangeAt 0 1) = (true, []) ∧
      fixtureContext.requirePositive (SVInt.ofInt32 7) (rangeAt 0 1) = (true, []) :=
  ⟨(requirePositive_spec fixtureContext (SVInt.ofInt32 (-1)) (rangeAt 0 1)).2.1 (by decide),
    (requirePositive_spec fixtureContext (SVInt.ofInt32 0) (rangeAt 0 1)).2.2.1 (by decide),
    (requirePositive_spec fixtureContext (SVInt.ofInt32 7) (rangeAt 0 1)).2.2.1 (by decide)⟩

/-- C13: `requireValidBitWidth(width)` returns true iff `width <= MAX_BITS`, so
the maximum itself is accepted; it emits `ValueExceedsMaxBitWidth`, with the
maximum as its argument (once, at the given range), exactly when it returns
false. -/
theorem requireValidBitWidth_spec (ctx : BindContext) (width : Nat) (r : SourceRange) :
    ((ctx.requireValidBitWidth width r).1 = true ↔ width ≤ SVInt.MAX_BITS) ∧
      (width ≤ SVInt.MAX_BITS → ctx.requireValidBitWidth width r = (true, [])) ∧
      (SVInt.MAX_BITS < width →
        ctx.requireValidBitWidth width r =
          (false, [⟨DiagCode.ValueExceedsMaxBitWidth, DiagSite.range r,
            [DiagArg.int (SVInt.MAX_BITS : Int)]⟩])) ∧
      (DiagCode.ValueExceedsMaxBitWidth ∈ codesOf (ctx.requireValidBitWidth width r).2 ↔
        (ctx.requireValidBitWidth width r).1 = false) ∧
      ctx.requireValidBitWidth SVInt.MAX_BITS r = (true, []) := by
  have hmax : ctx.requireValidBitWidth SVInt.MAX_BITS r = (true, []) := by
    simp [BindContext.requireValidBitWidth]
  by_cases h : width ≤ SVInt.MAX_BITS
  · have hres : ctx.requireValidBitWidth width r = (true, []) := by
      simp [BindContext.requireValidBitWidth, not_lt.2 h]
    refine ⟨by rw [hres]; simp [h], fun _ => hres, fun hw => absurd hw (not_lt.2 h), ?_, hmax⟩
    rw [hres]
    simp [codesOf]
  · have hres : ctx.requireValidBitWidth width r =
        (false, [⟨DiagCode.ValueExceedsMaxBitWidth, DiagSite.range r,
          [DiagArg.int (SVInt.MAX_BITS : Int)]⟩]) := by
      simp [BindContext.requireValidBitWidth, BindContext.addDiag, not_le.1 h]
    refine ⟨by rw [hres]; simp [h], fun hw => absurd hw h, fun _ => hres, ?_, hmax⟩
    rw [hres]
    simp [codesOf]

/-- C13 at concrete inputs: the maximum is accepted, the maximum plus one is
rejected with the diagnostic carrying the maximum. -/
theorem requireValidBitWidth_spec_witness :
    fixtureContext.requireValidBitWidth 16777215 (rangeAt 0 1) = (true, []) ∧
      fixtureContext.requireValidBitWidth 16777216 (rangeAt 0 1) =
        (false, [⟨DiagCode.ValueExceedsMaxBitWidth, DiagSite.range (rangeAt 0 1),
          [DiagArg.int 16777215]⟩]) :=
  ⟨(requireValidBitWidth_spec fixtureContext 16777215 (rangeAt 0 1)).2.1 (by decide),
    (requireValidBitWidth_spec fixtureContext 16777216 (rangeAt 0 1)).2.2.1 (by decide)⟩

/-! ## parseStatement: dispatch -/

namespace Parser

/-- `parseStatement` with fuel left is its body, the nested statements being
parsed with one unit of fuel less. -/
theorem parseStatement_succ (E : ParserEnv) (fuel : Nat) (p : Parser) :
    parseStatement E (fuel + 1) p =
      parseStatementSwitch E fuel (parseStatement E fuel) (parseLabel p).1
        (E.parseAttributes (parseLabel p).2).1 (statementStart E p) := rfl

/-- On a token that is none of the kinds of the switch, the switch falls
through to the end of `parseStatement`. -/
theorem parseStatementSwitch_default (E : ParserEnv) (fuel : Nat)
    (rec : StatementParser) (label : Option NamedLabelSyntax)
    (attributes : List SyntaxNode) (p : Parser)
    (hk : isStatementKeyword p.peek.kind = false) :
    parseStatementSwitch E fuel rec label attributes p =
      Except.ok (parseStatementRest E label attributes p) := by
  unfold parseStatementSwitch
  generalize p.peek.kind = k at hk
  cases k <;> first | rfl | exact absurd hk (by decide)

/-- `expect` on a token of the expected kind consumes it. -/
theorem expect_of_kind (E : ParserEnv) (p : Parser) (kind : TokenKind)
    (h : p.peek.kind = kind) : p.expect E kind = p.consume := by
  simp [expect, peekKind, h]

/-- `expect` on a token of another kind consumes nothing, reports the missing
token at the next token and returns a placeholder. -/
theorem expect_of_other (E : ParserEnv) (p : Parser) (kind : TokenKind)
    (h : p.peek.kind ≠ kind) :
    p.expect E kind =
      (Token.createMissing kind p.peek.location,
        { p with diagnostics := p.diagnostics ++
            [⟨E.expectedCode kind, DiagSite.location p.peek.location, []⟩] }) := by
  simp [expect, peekKind, h, addError]

end Parser

/-- C14 fails on the code: on the stream `unique ;` the statement parser
consumes both tokens (nothing is left) and returns an empty statement whose
only source token is the semicolon; the consumed `unique` is in no node. -/
theorem parseStatement_drops_modifier :
    Parser.parseStatement fixtureEnv 1
        (parserOf [TokenKind.UniqueKeyword, TokenKind.Semicolon]) =
      Except.ok (StatementSyntax.EmptyStatement none [] (tokenAt TokenKind.Semicolon 1),
        ⟨[], ⟨1, 2⟩, [⟨DiagCode.ExpectedStatement, DiagSite.location ⟨1, 1⟩, []⟩]⟩) ∧
      (StatementSyntax.EmptyStatement none [] (tokenAt TokenKind.Semicolon 1)).written =
        [(TokenKind.Semicolon, ⟨1, 1⟩)] ∧
      (parserOf [TokenKind.UniqueKeyword, TokenKind.Semicolon]).tokens.map
          (fun t => (t.kind, t.location)) =
        [(TokenKind.UniqueKeyword, ⟨1, 0⟩), (TokenKind.Semicolon, ⟨1, 1⟩)] :=
  ⟨rfl, by decide, by decide⟩

/-- C16 fails on the code: on the stream `unique x = 1 ;` the statement parser
drops `unique`, returns the expression statement `x = 1;` and reports no
diagnostic at all, so no `ExpectedStatement`. -/
theorem parseStatement_unique_expression :
    Parser.parseStatement fixtureEnv 1
        (parserOf [TokenKind.UniqueKeyword, TokenKind.Identifier, TokenKind.Equals,
          TokenKind.IntegerLiteral, TokenKind.Semicolon]) =
      Except.ok (StatementSyntax.ExpressionStatement none []
          ⟨1, [tokenAt TokenKind.Identifier 1, tokenAt TokenKind.Equals 2,
            tokenAt TokenKind.IntegerLiteral 3]⟩ (tokenAt TokenKind.Semicolon 4),
        ⟨[], ⟨1, 5⟩, []⟩) :=
  rfl

/-- C20: when the first token after the optional label and the attributes is
none of the kinds of the switch, `parseStatement` does not recurse. If the
token cannot begin an expression, it reports `ExpectedStatement` at that token,
then the missing semicolon, and returns an empty statement holding the
placeholder; nothing is consumed. If the token can begin an expression, it
returns an expression statement made of the parsed expression and the
expected semicolon, and adds no diagnostic of its own besides that of a
missing semicolon. -/
theorem parseStatement_default (E : ParserEnv) (fuel : Nat) (p : Parser)
    (hk : isStatementKeyword (statementStart E p).peek.kind = false) :
    (E.isPossibleExpression (statementStart E p).peek.kind = false →
        Parser.parseStatement E (fuel + 1) p =
          Except.ok (StatementSyntax.EmptyStatement (Parser.parseLabel p).1
              (E.parseAttributes (Parser.parseLabel p).2).1
              (Token.createMissing TokenKind.Semicolon (statementStart E p).peek.location),
            { statementStart E p with
              diagnostics := (statementStart E p).diagnostics ++
                [⟨DiagCode.ExpectedStatement,
                    DiagSite.location (statementStart E p).peek.location, []⟩,
                  ⟨E.expectedCode TokenKind.Semicolon,
                    DiagSite.location (statementStart E p).peek.location, []⟩] })) ∧
      (E.isPossibleExpression (statementStart E p).peek.kind = true →
        Parser.parseStatement E (fuel + 1) p =
          Except.ok (StatementSyntax.ExpressionStatement (Parser.parseLabel p).1
              (E.parseAttributes (Parser.parseLabel p).2).1
              (E.parseExpression (statementStart E p)).1
              ((E.parseExpression (statementStart E p)).2.expect E TokenKind.Semicolon).1,
            ((E.parseExpression (statementStart E p)).2.expect E TokenKind.Semicolon).2) ∧
        (((E.parseExpression (statementStart E p)).2.expect E
            TokenKind.Semicolon).2.diagnostics =
          (E.parseExpression (statementStart E p)).2.diagnostics ∨
        ((E.parseExpression (statementStart E p)).2.expect E
            TokenKind.Semicolon).2.diagnostics =
          (E.parseExpression (statementStart E p)).2.diagnostics ++
            [⟨E.expectedCode TokenKind.Semicolon,
              DiagSite.location (E.parseExpression (statementStart E p)).2.peek.location,
              []⟩])) := by
  have hne : (statementStart E p).peek.kind ≠ TokenKind.Semicolon := by
    intro h
    rw [h] at hk
    exact absurd hk (by decide)
  rw [Parser.parseStatement_succ, Parser.parseStatementSwitch_default E fuel _ _ _ _ hk]
  constructor
  · intro hx
    have hne2 : ((statementStart E p).addError DiagCode.ExpectedStatement
        (statementStart E p).peek.location).peek.kind ≠ TokenKind.Semicolon := hne
    simp only [Parser.parseStatementRest, hx]
    rw [Parser.expect_of_other E _ _ hne2]
    simp [Parser.addError, Parser.peek, Parser.endOfFile]
  · intro hx
    refine ⟨by simp only [Parser.parseStatementRest, hx, if_true], ?_⟩
    by_cases hs : (E.parseExpression (statementStart E p)).2.peek.kind = TokenKind.Semicolon
    · left
      rw [Parser.expect_of_kind E _ _ hs]
      rfl
    · right
      rw [Parser.expect_of_other E _ _ hs]

/-- C20 at concrete streams: `) ;` gives an empty statement with exactly one
`ExpectedStatement`, at the parenthesis; `x ;` gives an expression statement
and no diagnostic. -/
theorem parseStatement_default_witness :
    Parser.parseStatement fixtureEnv 1
        (parserOf [TokenKind.CloseParenthesis, TokenKind.Semicolon]) =
      Except.ok (StatementSyntax.EmptyStatement none []
          (Token.createMissing TokenKind.Semicolon ⟨1, 0⟩),
        ⟨tokensFrom 0 [TokenKind.CloseParenthesis, TokenKind.Semicolon], ⟨1, 2⟩,
          [⟨DiagCode.ExpectedStatement, DiagSite.location ⟨1, 0⟩, []⟩,
            ⟨DiagCode.ExpectedToken, DiagSite.location ⟨1, 0⟩, []⟩]⟩) ∧
      Parser.parseStatement fixtureEnv 1
          (parserOf [TokenKind.Identifier, TokenKind.Semicolon]) =
        Except.ok (StatementSyntax.ExpressionStatement none []
            ⟨1, [tokenAt TokenKind.Identifier 0]⟩ (tokenAt TokenKind.Semicolon 1),
          ⟨[], ⟨1, 2⟩, []⟩) :=
  ⟨((parseStatement_default fixtureEnv 0
      (parserOf [TokenKind.CloseParenthesis, TokenKind.Semicolon]) (by decide)).1
        (by decide)).trans rfl,
    ((parseStatement_default fixtureEnv 0
      (parserOf [TokenKind.Identifier, TokenKind.Semicolon]) (by decide)).2
        (by decide)).1.trans rfl⟩

/-! ## Termination of statement parsing -/

/-- A result that is returned within `n` tokens, fed to a continuation that
returns within `n` tokens on every such input. -/
theorem ReturnsWithin.bind {α β : Type} {x : Except ParseFailure (α × Parser)}
    {k : α × Parser → Except ParseFailure (β × Parser)} {m n : Nat}
    (hx : ReturnsWithin x m)
    (hk : ∀ v : α × Parser, v.2.tokens.length ≤ m → ReturnsWithin (k v) n) :
    ReturnsWithin (x >>= k) n := by
  obtain ⟨a, q, rfl, hq⟩ := hx
  exact hk (a, q) hq

/-- A returned pair whose state has at most `n` tokens. -/
theorem ReturnsWithin.pure {α : Type} (a : α) (q : Parser) (n : Nat)
    (h : q.tokens.length ≤ n) :
    ReturnsWithin (Pure.pure (a, q) : Except ParseFailure (α × Parser)) n :=
  ⟨a, q, rfl, h⟩

/-- A returned pair, written with the constructor. -/
theorem ReturnsWithin.ok {α : Type} (v : α × Parser) (n : Nat) (h : v.2.tokens.length ≤ n) :
    ReturnsWithin (Except.ok v : Except ParseFailure (α × Parser)) n :=
  ⟨v.1, v.2, rfl, h⟩

/-- A larger bound. -/
theorem ReturnsWithin.of_le {α : Type} {r : Except ParseFailure (α × Parser)} {m n : Nat}
    (h : ReturnsWithin r m) (hmn : m ≤ n) : ReturnsWithin r n := by
  obtain ⟨a, q, hr, hq⟩ := h
  exact ⟨a, q, hr, le_trans hq hmn⟩

/-- A terminating statement parser returns within the bound of its input. -/
theorem Terminates.returns {E : ParserEnv} {rec : StatementParser} {n : Nat}
    (h : Terminates E rec n) (p : Parser) (hp : p.tokens.length ≤ n) :
    ReturnsWithin (rec p) n := by
  obtain ⟨s, q, hq, hle, -⟩ := h p hp
  exact ⟨s, q, hq, le_trans hle hp⟩

/-- Termination up to `n` tokens gives termination up to fewer tokens. -/
theorem Terminates.mono {E : ParserEnv} {rec : StatementParser} {m n : Nat}
    (h : Terminates E rec n) (hmn : m ≤ n) : Terminates E rec m :=
  fun p hp => h p (le_trans hp hmn)

namespace Parser

/-- `consume` removes one token, if there is one. -/
theorem consume_length (p : Parser) : p.consume.2.tokens.length = p.tokens.length - 1 := by
  simp [consume]

/-- `consume` gives no token back. -/
theorem le_consume (p : Parser) (n : Nat) (h : p.tokens.length ≤ n) :
    p.consume.2.tokens.length ≤ n := by
  rw [consume_length]
  omega

/-- After `consume` one token less is left. -/
theorem le_consume_succ (p : Parser) (n : Nat) (h : p.tokens.length ≤ n + 1) :
    p.consume.2.tokens.length ≤ n := by
  rw [consume_length]
  omega

/-- Behind the last token `peek` finds the end of file. -/
theorem peek_nil (p : Parser) (h : p.tokens = []) : p.peek.kind = TokenKind.EndOfFile := by
  simp [peek, h, endOfFile]

/-- A next token that is not the end of file is a token of the stream. -/
theorem tokens_ne_nil (p : Parser) (h : p.peek.kind ≠ TokenKind.EndOfFile) : p.tokens ≠ [] :=
  fun hn => h (peek_nil p hn)

/-- A stream with a token has a positive length. -/
theorem length_pos_of_kind (p : Parser) (h : p.peek.kind ≠ TokenKind.EndOfFile) :
    0 < p.tokens.length :=
  List.length_pos.2 (tokens_ne_nil p h)

/-- `addError` leaves the tokens alone. -/
theorem addError_tokens (p : Parser) (c : DiagCode) (l : SourceLocation) :
    (p.addError c l).tokens = p.tokens := rfl

/-- `addError` does not change what `peek` finds. -/
theorem addError_peek (p : Parser) (c : DiagCode) (l : SourceLocation) :
    (p.addError c l).peek = p.peek := rfl

/-- `expect` gives no token back. -/
theorem le_expect (E : ParserEnv) (p : Parser) (k : TokenKind) (n : Nat)
    (h : p.tokens.length ≤ n) : (p.expect E k).2.tokens.length ≤ n := by
  unfold expect
  split
  · exact le_consume p n h
  · exact h

/-- `expect` on a token of the expected kind leaves one token less. -/
theorem le_expect_succ (E : ParserEnv) (p : Parser) (k : TokenKind) (n : Nat)
    (hk : p.peek.kind = k) (h : p.tokens.length ≤ n + 1) :
    (p.expect E k).2.tokens.length ≤ n := by
  rw [expect_of_kind E p k hk]
  exact le_consume_succ p n h

/-- `consumeIf` gives no token back. -/
theorem le_consumeIf (p : Parser) (k : TokenKind) (n : Nat) (h : p.tokens.length ≤ n) :
    (p.consumeIf k).2.tokens.length ≤ n := by
  unfold consumeIf
  split
  · exact le_consume p n h
  · exact h

/-- `parseLabel` gives no token back. -/
theorem le_parseLabel (p : Parser) (n : Nat) (h : p.tokens.length ≤ n) :
    (parseLabel p).2.tokens.length ≤ n := by
  unfold parseLabel
  split
  · exact le_consume _ n (le_consume p n h)
  · exact h

end Parser

/-- `parseAttributes` gives no token back. -/
theorem le_attributes {E : ParserEnv} (hE : E.WellBehaved)
    (p : Parser) (n : Nat) (h : p.tokens.length ≤ n) :
    (E.parseAttributes p).2.tokens.length ≤ n := le_trans (hE.attributes_le p) h

/-- `parseExpression` gives no token back. -/
theorem le_expression {E : ParserEnv} (hE : E.WellBehaved)
    (p : Parser) (n : Nat) (h : p.tokens.length ≤ n) :
    (E.parseExpression p).2.tokens.length ≤ n := le_trans (hE.expression_le p) h

/-- `parseSubExpression` gives no token back. -/
theorem le_subExpression {E : ParserEnv} (hE : E.WellBehaved)
    (p : Parser) (n : Nat) (h : p.tokens.length ≤ n) :
    (E.parseSubExpression p).2.tokens.length ≤ n := le_trans (hE.subExpression_le p) h

/-- `parsePrimaryExpression` gives no token back. -/
theorem le_primaryExpression {E : ParserEnv} (hE : E.WellBehaved)
    (p : Parser) (n : Nat) (h : p.tokens.length ≤ n) :
    (E.parsePrimaryExpression p).2.tokens.length ≤ n :=
  le_trans (hE.primaryExpression_le p) h

/-- `parseExpressionOrDist` gives no token back. -/
theorem le_expressionOrDist {E : ParserEnv} (hE : E.WellBehaved)
    (p : Parser) (n : Nat) (h : p.tokens.length ≤ n) :
    (E.parseExpressionOrDist p).2.tokens.length ≤ n :=
  le_trans (hE.expressionOrDist_le p) h

/-- `parseSequenceExpression` gives no token back. -/
theorem le_sequenceExpression {E : ParserEnv} (hE : E.WellBehaved)
    (k : Nat) (p : Parser) (n : Nat) (h : p.tokens.length ≤ n) :
    (E.parseSequenceExpression k p).2.tokens.length ≤ n :=
  le_trans (hE.sequenceExpression_le k p) h

/-- `parsePropertyExpression` gives no token back. -/
theorem le_propertyExpression {E : ParserEnv} (hE : E.WellBehaved)
    (k : Nat) (p : Parser) (n : Nat) (h : p.tokens.length ≤ n) :
    (E.parsePropertyExpression k p).2.tokens.length ≤ n :=
  le_trans (hE.propertyExpression_le k p) h

/-- `parseConditionalPredicate` gives no token back. -/
theorem le_conditionalPredicate {E : ParserEnv} (hE : E.WellBehaved) (e : SyntaxNode)
    (k : TokenKind) (p : Parser) (n : Nat)
    (h : p.tokens.length ≤ n) : (E.parseConditionalPredicate e k p).2.tokens.length ≤ n :=
  le_trans (hE.conditionalPredicate_le e k p) h

/-- `parsePattern` gives no token back. -/
theorem le_pattern {E : ParserEnv} (hE : E.WellBehaved)
    (p : Parser) (n : Nat) (h : p.tokens.length ≤ n) :
    (E.parsePattern p).2.tokens.length ≤ n := le_trans (hE.pattern_le p) h

/-- `parseName` gives no token back. -/
theorem le_name {E : ParserEnv} (hE : E.WellBehaved)
    (p : Parser) (n : Nat) (h : p.tokens.length ≤ n) :
    (E.parseName p).2.tokens.length ≤ n := le_trans (hE.name_le p) h

/-- `parseDataType` gives no token back. -/
theorem le_dataType {E : ParserEnv} (hE : E.WellBehaved)
    (b : Bool) (p : Parser) (n : Nat) (h : p.tokens.length ≤ n) :
    (E.parseDataType b p).2.tokens.length ≤ n := le_trans (hE.dataType_le b p) h

/-- `parseVariableDeclarator` gives no token back. -/
theorem le_variableDeclarator {E : ParserEnv} (hE : E.WellBehaved)
    (b : Bool) (p : Parser) (n : Nat) (h : p.tokens.length ≤ n) :
    (E.parseVariableDeclarator b p).2.tokens.length ≤ n :=
  le_trans (hE.variableDeclarator_le b p) h

/-- `parseTimingControl` gives no token back. -/
theorem le_timingControl {E : ParserEnv} (hE : E.WellBehaved)
    (p : Parser) (n : Nat) (h : p.tokens.length ≤ n) :
    (E.parseTimingControl p).2.tokens.length ≤ n := le_trans (hE.timingControl_le p) h

/-- The separated-list driver gives no token back when its items give none
back. -/
theorem le_separatedList {E : ParserEnv} (hE : E.WellBehaved) {α : Type}
    (isPossibleItem isEnd : TokenKind → Bool)
    (closeKind separatorKind : TokenKind) (code : DiagCode) (item : Parser → α × Parser)
    (hitem : ∀ q, (item q).2.tokens.length ≤ q.tokens.length) (p : Parser) (n : Nat)
    (h : p.tokens.length ≤ n) :
    (E.parseSeparatedList isPossibleItem isEnd closeKind separatorKind code
      item p).2.tokens.length ≤ n :=
  le_trans (hE.separatedList_le isPossibleItem isEnd closeKind separatorKind code item hitem p) h

/-- `parseForInitializer` gives no token back. -/
theorem parseForInitializer_le {E : ParserEnv} (hE : E.WellBehaved) (q : Parser) :
    (Parser.parseForInitializer E q).2.tokens.length ≤ q.tokens.length := by
  unfold Parser.parseForInitializer
  split
  · exact le_variableDeclarator hE _ _ _
      (le_dataType hE _ _ _ (Parser.le_consumeIf _ _ _ (le_refl _)))
  · exact hE.expression_le q

namespace Parser

/-- `parseStatementRest` gives no token back. -/
theorem parseStatementRest_le {E : ParserEnv} (hE : E.WellBehaved)
    (l : Option NamedLabelSyntax) (a : List SyntaxNode) (p : Parser) (n : Nat)
    (hp : p.tokens.length ≤ n) : (parseStatementRest E l a p).2.tokens.length ≤ n := by
  unfold parseStatementRest
  split
  · exact le_expect E _ _ _ (le_expression hE _ _ hp)
  · exact le_expect E _ _ _ hp

/-- `parseStatementRest` consumes a token when the next one can begin an
expression. -/
theorem parseStatementRest_lt {E : ParserEnv} (hE : E.WellBehaved)
    (l : Option NamedLabelSyntax) (a : List SyntaxNode) (p : Parser)
    (hx : E.isPossibleExpression p.peek.kind = true) :
    (parseStatementRest E l a p).2.tokens.length < p.tokens.length := by
  unfold parseStatementRest
  rw [if_pos hx]
  exact lt_of_le_of_lt (le_expect E _ _ _ (le_refl _)) (hE.expression_lt p hx)

/-- `parseReturnStatement` consumes its keyword and gives nothing back. -/
theorem parseReturnStatement_le {E : ParserEnv} (hE : E.WellBehaved)
    (l : Option NamedLabelSyntax) (a : List SyntaxNode) (p : Parser) (n : Nat)
    (hp : p.tokens.length ≤ n + 1) : (parseReturnStatement E l a p).2.tokens.length ≤ n := by
  have hc := le_consume_succ p n hp
  simp only [parseReturnStatement]
  split <;> apply_rules [le_expect, le_expression hE]

/-- `parseJumpStatement` consumes its keyword and gives nothing back. -/
theorem parseJumpStatement_le (E : ParserEnv)
    (l : Option NamedLabelSyntax) (a : List SyntaxNode) (p : Parser) (n : Nat)
    (hp : p.tokens.length ≤ n + 1) : (parseJumpStatement E l a p).2.tokens.length ≤ n :=
  le_expect E _ _ _ (le_consume_succ p n hp)

/-- `parseProceduralAssignStatement` consumes its keyword and gives nothing
back. -/
theorem parseProceduralAssignStatement_le {E : ParserEnv} (hE : E.WellBehaved)
    (l : Option NamedLabelSyntax) (a : List SyntaxNode) (k : SyntaxKind) (p : Parser)
    (n : Nat) (hp : p.tokens.length ≤ n + 1) :
    (parseProceduralAssignStatement E l a k p).2.tokens.length ≤ n :=
  le_expect E _ _ _ (le_expression hE _ _ (le_expect E _ _ _
    (le_primaryExpression hE _ _ (le_consume_succ p n hp))))

/-- `parseProceduralDeassignStatement` consumes its keyword and gives nothing
back. -/
theorem parseProceduralDeassignStatement_le {E : ParserEnv} (hE : E.WellBehaved)
    (l : Option NamedLabelSyntax) (a : List SyntaxNode) (k : SyntaxKind) (p : Parser)
    (n : Nat) (hp : p.tokens.length ≤ n + 1) :
    (parseProceduralDeassignStatement E l a k p).2.tokens.length ≤ n :=
  le_expect E _ _ _ (le_primaryExpression hE _ _ (le_consume_succ p n hp))

/-- `parseDisableStatement` consumes its keyword and gives nothing back. -/
theorem parseDisableStatement_le {E : ParserEnv} (hE : E.WellBehaved)
    (l : Option NamedLabelSyntax) (a : List SyntaxNode) (p : Parser) (n : Nat)
    (hp : p.tokens.length ≤ n + 1) : (parseDisableStatement E l a p).2.tokens.length ≤ n := by
  have hc := le_consume_succ p n hp
  simp only [parseDisableStatement]
  split <;> apply_rules [le_expect, le_consume, le_name hE]

/-- `parseNamedBlockClause` gives no token back. -/
theorem le_parseNamedBlockClause (E : ParserEnv) (p : Parser) (n : Nat)
    (hp : p.tokens.length ≤ n) : (parseNamedBlockClause E p).2.tokens.length ≤ n := by
  simp only [parseNamedBlockClause]
  split
  · split <;> apply_rules [le_expect, le_consume]
  · exact hp

/-- `parsePropertySpec` gives no token back. -/
theorem le_parsePropertySpec {E : ParserEnv} (hE : E.WellBehaved) (b : Bool) (p : Parser)
    (n : Nat) (hp : p.tokens.length ≤ n) : (parsePropertySpec E b p).2.tokens.length ≤ n := by
  simp only [parsePropertySpec]
  split <;> split <;> split <;>
    apply_rules [le_expect, le_consume, le_timingControl hE, le_expressionOrDist hE,
      le_sequenceExpression hE, le_propertyExpression hE]

/-- `parseForeachLoopVariables` gives no token back. -/
theorem le_parseForeachLoopVariables {E : ParserEnv} (hE : E.WellBehaved) (p : Parser)
    (n : Nat) (hp : p.tokens.length ≤ n) :
    (parseForeachLoopVariables E p).2.tokens.length ≤ n :=
  le_separatedList hE _ _ _ _ _ _ hE.name_le _ _ (le_name hE _ _ (le_expect E _ _ _ hp))

end Parser

namespace Parser

/-- `parseElseClause` returns and gives no token back. -/
theorem parseElseClause_returns {E : ParserEnv} {rec : StatementParser} {n : Nat}
    (hrec : Terminates E rec n) (p : Parser) (hp : p.tokens.length ≤ n) :
    ReturnsWithin (parseElseClause rec p) n := by
  simp only [parseElseClause]
  split
  · refine ReturnsWithin.bind (hrec.returns _ (le_consume _ _ hp)) ?_
    intro v hv
    exact ReturnsWithin.pure _ _ _ hv
  · exact ReturnsWithin.pure _ _ _ hp

/-- `parseActionBlock` returns and gives no token back. -/
theorem parseActionBlock_returns {E : ParserEnv} {rec : StatementParser} {n : Nat}
    (hrec : Terminates E rec n) (p : Parser) (hp : p.tokens.length ≤ n) :
    ReturnsWithin (parseActionBlock rec p) n := by
  simp only [parseActionBlock]
  split
  · refine ReturnsWithin.bind (parseElseClause_returns hrec _ hp) ?_
    intro v hv
    exact ReturnsWithin.pure _ _ _ hv
  · refine ReturnsWithin.bind (hrec.returns _ hp) ?_
    intro v hv
    refine ReturnsWithin.bind (parseElseClause_returns hrec _ hv) ?_
    intro w hw
    exact ReturnsWithin.pure _ _ _ hw

/-- `parseConditionalStatement` on `if` returns, having consumed a token. -/
theorem parseConditionalStatement_returns {E : ParserEnv} (hE : E.WellBehaved)
    {rec : StatementParser} {n : Nat} (hrec : Terminates E rec n)
    (l : Option NamedLabelSyntax) (a : List SyntaxNode) (m : Token) (p : Parser)
    (hk : p.peek.kind = TokenKind.IfKeyword) (hp : p.tokens.length ≤ n + 1) :
    ReturnsWithin (parseConditionalStatement E rec l a m p) n := by
  have hc := le_expect_succ E p _ n hk hp
  simp only [parseConditionalStatement]
  refine ReturnsWithin.bind (hrec.returns _ ?_) ?_
  · apply_rules [le_expect, le_subExpression hE, le_conditionalPredicate hE]
  · intro v hv
    refine ReturnsWithin.bind (parseElseClause_returns hrec _ hv) ?_
    intro w hw
    exact ReturnsWithin.pure _ _ _ hw

/-- `parseDefaultCaseItem` returns, having consumed a token. -/
theorem parseDefaultCaseItem_returns {E : ParserEnv} {rec : StatementParser} {n : Nat}
    (hrec : Terminates E rec n) (p : Parser) (hp : p.tokens.length ≤ n + 1) :
    ReturnsWithin (parseDefaultCaseItem rec p) n := by
  have hc := le_consume_succ p n hp
  simp only [parseDefaultCaseItem]
  refine ReturnsWithin.bind (hrec.returns _ ?_) ?_
  · split
    · exact le_consume _ _ hc
    · exact hc
  · intro v hv
    exact ReturnsWithin.pure _ _ _ hv

/-- `parseLoopStatement` returns, having consumed a token. -/
theorem parseLoopStatement_returns {E : ParserEnv} (hE : E.WellBehaved)
    {rec : StatementParser} {n : Nat} (hrec : Terminates E rec n)
    (l : Option NamedLabelSyntax) (a : List SyntaxNode) (p : Parser)
    (hp : p.tokens.length ≤ n + 1) : ReturnsWithin (parseLoopStatement E rec l a p) n := by
  have hc := le_consume_succ p n hp
  simp only [parseLoopStatement]
  refine ReturnsWithin.bind (hrec.returns _ ?_) ?_
  · apply_rules [le_expect, le_expression hE]
  · intro v hv
    exact ReturnsWithin.pure _ _ _ hv

/-- `parseDoWhileStatement` returns, having consumed a token. -/
theorem parseDoWhileStatement_returns {E : ParserEnv} (hE : E.WellBehaved)
    {rec : StatementParser} {n : Nat} (hrec : Terminates E rec n)
    (l : Option NamedLabelSyntax) (a : List SyntaxNode) (p : Parser)
    (hp : p.tokens.length ≤ n + 1) : ReturnsWithin (parseDoWhileStatement E rec l a p) n := by
  have hc := le_consume_succ p n hp
  simp only [parseDoWhileStatement]
  refine ReturnsWithin.bind (hrec.returns _ hc) ?_
  intro v hv
  refine ReturnsWithin.pure _ _ _ ?_
  apply_rules [le_expect, le_expression hE]

/-- `parseForLoopStatement` returns, having consumed a token. -/
theorem parseForLoopStatement_returns {E : ParserEnv} (hE : E.WellBehaved)
    {rec : StatementParser} {n : Nat} (hrec : Terminates E rec n)
    (l : Option NamedLabelSyntax) (a : List SyntaxNode) (p : Parser)
    (hp : p.tokens.length ≤ n + 1) : ReturnsWithin (parseForLoopStatement E rec l a p) n := by
  have hc := le_consume_succ p n hp
  simp only [parseForLoopStatement]
  refine ReturnsWithin.bind (hrec.returns _ ?_) ?_
  · refine le_separatedList hE _ _ _ _ _ _ hE.expression_le _ _ ?_
    refine le_expect E _ _ _ (le_expression hE _ _ ?_)
    refine le_separatedList hE _ _ _ _ _ _ (parseForInitializer_le hE) _ _ ?_
    exact le_expect E _ _ _ hc
  · intro v hv
    exact ReturnsWithin.pure _ _ _ hv

/-- `parseForeachLoopStatement` returns, having consumed a token. -/
theorem parseForeachLoopStatement_returns {E : ParserEnv} (hE : E.WellBehaved)
    {rec : StatementParser} {n : Nat} (hrec : Terminates E rec n)
    (l : Option NamedLabelSyntax) (a : List SyntaxNode) (p : Parser)
    (hp : p.tokens.length ≤ n + 1) :
    ReturnsWithin (parseForeachLoopStatement E rec l a p) n := by
  have hc := le_consume_succ p n hp
  simp only [parseForeachLoopStatement]
  refine ReturnsWithin.bind (hrec.returns _ (le_parseForeachLoopVariables hE _ _ hc)) ?_
  intro v hv
  exact ReturnsWithin.pure _ _ _ hv

/-- `parseWaitStatement` returns, having consumed a token. -/
theorem parseWaitStatement_returns {E : ParserEnv} (hE : E.WellBehaved)
    {rec : StatementParser} {n : Nat} (hrec : Terminates E rec n)
    (l : Option NamedLabelSyntax) (a : List SyntaxNode) (p : Parser)
    (hp : p.tokens.length ≤ n + 1) : ReturnsWithin (parseWaitStatement E rec l a p) n := by
  have hc := le_consume_succ p n hp
  simp only [parseWaitStatement]
  split
  · refine ReturnsWithin.pure _ _ _ ?_
    apply_rules [le_expect, le_consume]
  · refine ReturnsWithin.bind (hrec.returns _ ?_) ?_
    · apply_rules [le_expect, le_expression hE]
    · intro v hv
      exact ReturnsWithin.pure _ _ _ hv

/-- `parseWaitOrderStatement` returns, having consumed a token. -/
theorem parseWaitOrderStatement_returns {E : ParserEnv} (hE : E.WellBehaved)
    {rec : StatementParser} {n : Nat} (hrec : Terminates E rec n)
    (l : Option NamedLabelSyntax) (a : List SyntaxNode) (p : Parser)
    (hp : p.tokens.length ≤ n + 1) :
    ReturnsWithin (parseWaitOrderStatement E rec l a p) n := by
  have hc := le_consume_succ p n hp
  simp only [parseWaitOrderStatement]
  refine ReturnsWithin.bind (parseActionBlock_returns hrec _ ?_) ?_
  · exact le_separatedList hE _ _ _ _ _ _ hE.name_le _ _ (le_expect E _ _ _ hc)
  · intro v hv
    exact ReturnsWithin.pure _ _ _ hv

end Parser

namespace Parser

/-- `parseConcurrentAssertion` on one of its five keywords returns, having
consumed a token. -/
theorem parseConcurrentAssertion_returns {E : ParserEnv} (hE : E.WellBehaved)
    {rec : StatementParser} {n : Nat} (hrec : Terminates E rec n)
    (l : Option NamedLabelSyntax) (a : List SyntaxNode) (p : Parser)
    (hk : p.peek.kind = TokenKind.AssertKeyword ∨ p.peek.kind = TokenKind.AssumeKeyword ∨
      p.peek.kind = TokenKind.CoverKeyword ∨ p.peek.kind = TokenKind.RestrictKeyword ∨
      p.peek.kind = TokenKind.ExpectKeyword)
    (hp : p.tokens.length ≤ n + 1) :
    ReturnsWithin (parseConcurrentAssertion E rec l a p) n := by
  have hc := le_consume_succ p n hp
  have hkind : p.consume.1.kind = p.peek.kind := rfl
  rcases hk with h | h | h | h | h
  all_goals
    simp only [parseConcurrentAssertion, hkind, h, pure_bind]
    try split
  all_goals
    try simp only [pure_bind]
    refine ReturnsWithin.bind (parseActionBlock_returns hrec _ ?_) ?_
    · refine le_expect E _ _ _ (le_parsePropertySpec hE _ _ _ ?_)
      apply_rules [le_expect, le_consume]
    · intro v hv
      exact ReturnsWithin.pure _ _ _ hv

/-- `parseImmediateAssertion` returns, having consumed a token. -/
theorem parseImmediateAssertion_returns {E : ParserEnv} (hE : E.WellBehaved)
    {rec : StatementParser} {n : Nat} (hrec : Terminates E rec n)
    (l : Option NamedLabelSyntax) (a : List SyntaxNode) (k : SyntaxKind) (p : Parser)
    (hp : p.tokens.length ≤ n + 1) :
    ReturnsWithin (parseImmediateAssertion E rec l a k p) n := by
  have hc := le_consume_succ p n hp
  simp only [parseImmediateAssertion]
  refine ReturnsWithin.bind (parseActionBlock_returns hrec _ ?_) ?_
  · refine le_expect E _ _ _ (le_expression hE _ _ (le_expect E _ _ _ ?_))
    split
    · exact le_expect E _ _ _ (le_consume _ _ hc)
    · split
      · exact le_consume _ _ hc
      · exact hc
  · intro v hv
    exact ReturnsWithin.pure _ _ _ hv

/-- `parseAssertionStatement` on `assert`, `assume` or `cover` returns, having
consumed a token. -/
theorem parseAssertionStatement_returns {E : ParserEnv} (hE : E.WellBehaved)
    {rec : StatementParser} {n : Nat} (hrec : Terminates E rec n)
    (l : Option NamedLabelSyntax) (a : List SyntaxNode) (p : Parser)
    (hk : p.peek.kind = TokenKind.AssertKeyword ∨ p.peek.kind = TokenKind.AssumeKeyword ∨
      p.peek.kind = TokenKind.CoverKeyword)
    (hp : p.tokens.length ≤ n + 1) :
    ReturnsWithin (parseAssertionStatement E rec l a p) n := by
  rcases hk with h | h | h
  · simp only [parseAssertionStatement, h]
    split
    · exact parseConcurrentAssertion_returns hE hrec l a p (Or.inl h) hp
    · exact parseImmediateAssertion_returns hE hrec l a _ p hp
  · simp only [parseAssertionStatement, h]
    split
    · exact parseConcurrentAssertion_returns hE hrec l a p (Or.inr (Or.inl h)) hp
    · exact parseImmediateAssertion_returns hE hrec l a _ p hp
  · simp only [parseAssertionStatement, h]
    split
    · exact parseConcurrentAssertion_returns hE hrec l a p (Or.inr (Or.inr (Or.inl h))) hp
    · exact parseImmediateAssertion_returns hE hrec l a _ p hp

/-- The loop of `parseBlockItems` returns when its fuel exceeds the number of
tokens left. -/
theorem parseBlockItemsLoop_returns {E : ParserEnv} (hE : E.WellBehaved)
    {rec : StatementParser} {n : Nat} (hrec : Terminates E rec n) :
    ∀ (fuel : Nat) (buffer : List BlockItemSyntax) (skipped : List Token) (error : Bool)
      (p : Parser), p.tokens.length < fuel → p.tokens.length ≤ n →
      ReturnsWithin (parseBlockItemsLoop E rec fuel buffer skipped error p) n := by
  intro fuel
  induction fuel with
  | zero => intro _ _ _ p h; exact absurd h (Nat.not_lt_zero _)
  | succ f ih =>
    intro buffer skipped error p hf hp
    simp only [parseBlockItemsLoop, prependSkippedToDeclaration, prependSkippedToStatement]
    split
    · rename_i hcond
      have hne : p.peek.kind ≠ TokenKind.EndOfFile := by
        intro h
        simp [h] at hcond
      have hpos := length_pos_of_kind p hne
      split
      · rename_i hport
        have hlt := hE.portDeclaration_lt p hport
        exact ih _ _ _ _ (Nat.lt_of_lt_of_le hlt (Nat.lt_succ_iff.1 hf))
          (le_trans (le_of_lt hlt) hp)
      · split
        · rename_i hvar
          have hlt := hE.variableDeclaration_lt p hvar
          exact ih _ _ _ _ (Nat.lt_of_lt_of_le hlt (Nat.lt_succ_iff.1 hf))
            (le_trans (le_of_lt hlt) hp)
        · split
          · rename_i hst
            obtain ⟨s, q, hq, hle, hprog⟩ := hrec p hp
            have hlt := hprog hst
            refine ReturnsWithin.bind (m := p.tokens.length - 1) ⟨s, q, hq, by omega⟩ ?_
            intro v hv
            exact ih _ _ _ _ (by omega) (by omega)
          · have hc := consume_length p
            refine ih _ _ _ _ ?_ ?_
            · split
              · rw [addError_tokens]; omega
              · omega
            · split
              · rw [addError_tokens]; omega
              · omega
    · exact ReturnsWithin.pure _ _ _ hp

/-- `parseBlockItems` returns and gives no token back. -/
theorem parseBlockItems_returns {E : ParserEnv} (hE : E.WellBehaved)
    {rec : StatementParser} {n : Nat} (hrec : Terminates E rec n) (fuel : Nat)
    (hfuel : n < fuel) (endKind : TokenKind) (p : Parser) (hp : p.tokens.length ≤ n) :
    ReturnsWithin (parseBlockItems E fuel rec endKind p) n := by
  simp only [parseBlockItems, prependSkippedTokens]
  refine ReturnsWithin.bind
    (parseBlockItemsLoop_returns hE hrec fuel [] [] false p (by omega) hp) ?_
  intro v hv
  refine ReturnsWithin.pure _ _ _ ?_
  split
  · split
    · exact le_consume _ _ hv
    · exact le_consume _ _ hv
    · exact le_consume _ _ hv
    · exact le_expect E _ _ _ hv
  · exact le_expect E _ _ _ hv

/-- `parseBlock` returns, having consumed a token. -/
theorem parseBlock_returns {E : ParserEnv} (hE : E.WellBehaved)
    {rec : StatementParser} {n : Nat} (hrec : Terminates E rec n) (fuel : Nat)
    (hfuel : n < fuel) (blockKind : SyntaxKind) (endKind : TokenKind)
    (l : Option NamedLabelSyntax) (a : List SyntaxNode) (p : Parser)
    (hp : p.tokens.length ≤ n + 1) :
    ReturnsWithin (parseBlock E fuel rec blockKind endKind l a p) n := by
  have hc := le_consume_succ p n hp
  simp only [parseBlock]
  refine ReturnsWithin.bind
    (parseBlockItems_returns hE hrec fuel hfuel endKind _
      (le_parseNamedBlockClause E _ _ hc)) ?_
  intro v hv
  exact ReturnsWithin.pure _ _ _ (le_parseNamedBlockClause E _ _ hv)

/-- The loop of `parseRandCaseStatement` returns when its fuel exceeds the
number of tokens left. -/
theorem parseRandCaseItems_returns {E : ParserEnv} (hE : E.WellBehaved)
    {rec : StatementParser} {n : Nat} (hrec : Terminates E rec n) :
    ∀ (fuel : Nat) (itemBuffer : List RandCaseItemSyntax) (p : Parser),
      p.tokens.length < fuel → p.tokens.length ≤ n →
      ReturnsWithin (parseRandCaseItems E rec fuel itemBuffer p) n := by
  intro fuel
  induction fuel with
  | zero => intro _ p h; exact absurd h (Nat.not_lt_zero _)
  | succ f ih =>
    intro itemBuffer p hf hp
    simp only [parseRandCaseItems]
    split
    · rename_i hx
      have hlt := hE.expression_lt p hx
      have hle := le_expect E (E.parseExpression p).2 TokenKind.Colon
        (p.tokens.length - 1) (by omega)
      refine ReturnsWithin.bind (m := p.tokens.length - 1)
        ((hrec.mono (by omega)).returns _ hle) ?_
      intro v hv
      exact ih _ _ (by omega) (by omega)
    · exact ReturnsWithin.pure _ _ _ hp

/-- `parseRandCaseStatement` returns, having consumed a token. -/
theorem parseRandCaseStatement_returns {E : ParserEnv} (hE : E.WellBehaved)
    {rec : StatementParser} {n : Nat} (hrec : Terminates E rec n) (fuel : Nat)
    (hfuel : n < fuel) (l : Option NamedLabelSyntax) (a : List SyntaxNode) (p : Parser)
    (hp : p.tokens.length ≤ n + 1) :
    ReturnsWithin (parseRandCaseStatement E fuel rec l a p) n := by
  have hc := le_consume_succ p n hp
  simp only [parseRandCaseStatement]
  refine ReturnsWithin.bind
    (parseRandCaseItems_returns hE hrec fuel [] _ (by omega) hc) ?_
  intro v hv
  exact ReturnsWithin.pure _ _ _ (le_expect E _ _ _ hv)

end Parser


namespace Parser

/-- The state after the optional guard of a pattern item holds no more tokens
than the state before it. -/
theorem le_patternGuard {E : ParserEnv} (hE : E.WellBehaved) (p : Parser) (n : Nat)
    (h : p.tokens.length ≤ n) :
    (if p.peekKind TokenKind.TripleAnd = true then
      (p.consume.1, some (E.parseExpression p.consume.2).1, (E.parseExpression p.consume.2).2)
    else (Token.empty, (none : Option SyntaxNode), p)).2.2.tokens.length ≤ n := by
  split
  · exact le_expression hE _ _ (le_consume _ _ h)
  · exact h

/-- The item loop of a `case ... matches` returns when its fuel exceeds the
number of tokens left. -/
theorem parsePatternCaseItems_returns {E : ParserEnv} (hE : E.WellBehaved)
    {rec : StatementParser} {n : Nat} (hrec : Terminates E rec n) :
    ∀ (fuel : Nat) (itemBuffer : List CaseItemSyntax) (p : Parser),
      p.tokens.length < fuel → p.tokens.length ≤ n →
      ReturnsWithin (parsePatternCaseItems E rec fuel itemBuffer p) n := by
  intro fuel
  induction fuel with
  | zero => intro _ p h; exact absurd h (Nat.not_lt_zero _)
  | succ f ih =>
    intro itemBuffer p hf hp
    simp only [parsePatternCaseItems]
    split
    · rename_i hd
      have hne : p.peek.kind ≠ TokenKind.EndOfFile := by
        intro h
        simp [h] at hd
      have hpos := length_pos_of_kind p hne
      refine ReturnsWithin.bind (m := p.tokens.length - 1)
        (parseDefaultCaseItem_returns (hrec.mono (by omega)) p (by omega)) ?_
      intro v hv
      exact ih _ _ (by omega) (by omega)
    · split
      · rename_i hpat
        have hlt := hE.pattern_lt p hpat
        have hle := le_expect E _ TokenKind.Colon (p.tokens.length - 1)
          (le_patternGuard hE (E.parsePattern p).2 (p.tokens.length - 1) (by omega))
        refine ReturnsWithin.bind (m := p.tokens.length - 1)
          ((hrec.mono (by omega)).returns _ hle) ?_
        intro v hv
        exact ih _ _ (by omega) (by omega)
      · exact ReturnsWithin.pure _ _ _ hp

/-- The item loop of a `case ... inside` returns when its fuel exceeds the
number of tokens left. -/
theorem parseInsideCaseItems_returns {E : ParserEnv} (hE : E.WellBehaved)
    {rec : StatementParser} {n : Nat} (hrec : Terminates E rec n) :
    ∀ (fuel : Nat) (itemBuffer : List CaseItemSyntax) (p : Parser),
      p.tokens.length < fuel → p.tokens.length ≤ n →
      ReturnsWithin (parseInsideCaseItems E rec fuel itemBuffer p) n := by
  intro fuel
  induction fuel with
  | zero => intro _ p h; exact absurd h (Nat.not_lt_zero _)
  | succ f ih =>
    intro itemBuffer p hf hp
    simp only [parseInsideCaseItems]
    split
    · rename_i hd
      have hne : p.peek.kind ≠ TokenKind.EndOfFile := by
        intro h
        simp [h] at hd
      have hpos := length_pos_of_kind p hne
      refine ReturnsWithin.bind (m := p.tokens.length - 1)
        (parseDefaultCaseItem_returns (hrec.mono (by omega)) p (by omega)) ?_
      intro v hv
      exact ih _ _ (by omega) (by omega)
    · split
      · rename_i hx
        have hlt := hE.openRangeList_lt p hx
        refine ReturnsWithin.bind (m := p.tokens.length - 1)
          ((hrec.mono (by omega)).returns _ (Nat.le_sub_one_of_lt hlt)) ?_
        intro v hv
        exact ih _ _ (by omega) (by omega)
      · exact ReturnsWithin.pure _ _ _ hp

/-- The item loop of a normal `case` returns when its fuel exceeds the number
of tokens left. -/
theorem parseStandardCaseItems_returns {E : ParserEnv} (hE : E.WellBehaved)
    {rec : StatementParser} {n : Nat} (hrec : Terminates E rec n) :
    ∀ (fuel : Nat) (itemBuffer : List CaseItemSyntax) (p : Parser),
      p.tokens.length < fuel → p.tokens.length ≤ n →
      ReturnsWithin (parseStandardCaseItems E rec fuel itemBuffer p) n := by
  intro fuel
  induction fuel with
  | zero => intro _ p h; exact absurd h (Nat.not_lt_zero _)
  | succ f ih =>
    intro itemBuffer p hf hp
    simp only [parseStandardCaseItems]
    split
    · rename_i hd
      have hne : p.peek.kind ≠ TokenKind.EndOfFile := by
        intro h
        simp [h] at hd
      have hpos := length_pos_of_kind p hne
      refine ReturnsWithin.bind (m := p.tokens.length - 1)
        (parseDefaultCaseItem_returns (hrec.mono (by omega)) p (by omega)) ?_
      intro v hv
      exact ih _ _ (by omega) (by omega)
    · split
      · rename_i hx
        have hlt := hE.expressionList_lt p hx
        refine ReturnsWithin.bind (m := p.tokens.length - 1)
          ((hrec.mono (by omega)).returns _ (Nat.le_sub_one_of_lt hlt)) ?_
        intro v hv
        exact ih _ _ (by omega) (by omega)
      · exact ReturnsWithin.pure _ _ _ hp

/-- `parseCaseStatement` returns and gives no token back. -/
theorem parseCaseStatement_returns {E : ParserEnv} (hE : E.WellBehaved)
    {rec : StatementParser} {n : Nat} (hrec : Terminates E rec n) (fuel : Nat)
    (hfuel : n < fuel) (l : Option NamedLabelSyntax) (a : List SyntaxNode)
    (m caseKeyword : Token) (p : Parser) (hp : p.tokens.length ≤ n) :
    ReturnsWithin (parseCaseStatement E fuel rec l a m caseKeyword p) n := by
  have h3 : ((E.parseExpression (p.expect E TokenKind.OpenParenthesis).2).2.expect E
      TokenKind.CloseParenthesis).2.tokens.length ≤ n :=
    le_expect E _ _ _ (le_expression hE _ _ (le_expect E _ _ _ hp))
  simp only [parseCaseStatement]
  split
  · refine ReturnsWithin.bind
      (parsePatternCaseItems_returns hE hrec fuel [] _
        (lt_of_le_of_lt (le_consume _ _ h3) hfuel) (le_consume _ _ h3)) ?_
    intro v hv
    exact ReturnsWithin.pure _ _ _ (le_expect E _ _ _ hv)
  · refine ReturnsWithin.bind
      (parseInsideCaseItems_returns hE hrec fuel [] _
        (lt_of_le_of_lt (le_consume _ _ h3) hfuel) (le_consume _ _ h3)) ?_
    intro v hv
    exact ReturnsWithin.pure _ _ _ (le_expect E _ _ _ hv)
  · refine ReturnsWithin.bind
      (parseStandardCaseItems_returns hE hrec fuel [] _ (lt_of_le_of_lt h3 hfuel) h3) ?_
    intro v hv
    exact ReturnsWithin.pure _ _ _ (le_expect E _ _ _ hv)

end Parser

namespace Parser

/-- The switch of `parseStatement` on one of its keywords returns, having
consumed a token. -/
theorem parseStatementSwitch_returns {E : ParserEnv} (hE : E.WellBehaved)
    {rec : StatementParser} {n : Nat} (hrec : Terminates E rec n) (fuel : Nat)
    (hfuel : n < fuel) (l : Option NamedLabelSyntax) (a : List SyntaxNode) (p : Parser)
    (hk : isStatementKeyword p.peek.kind = true) (hp : p.tokens.length ≤ n + 1) :
    ReturnsWithin (parseStatementSwitch E fuel rec l a p) n := by
  have hc := le_consume_succ p n hp
  have hmod : ReturnsWithin
      (match p.consume.2.peek.kind with
        | TokenKind.IfKeyword => parseConditionalStatement E rec l a p.consume.1 p.consume.2
        | TokenKind.CaseKeyword | TokenKind.CaseXKeyword | TokenKind.CaseZKeyword =>
          parseCaseStatement E fuel rec l a p.consume.1 p.consume.2.consume.1
            p.consume.2.consume.2
        | _ => pure (parseStatementRest E l a p.consume.2)) n := by
    split
    · rename_i hif
      exact parseConditionalStatement_returns hE hrec l a _ _ hif (Nat.le_succ_of_le hc)
    · exact parseCaseStatement_returns hE hrec fuel hfuel l a _ _ _ (le_consume _ _ hc)
    · exact parseCaseStatement_returns hE hrec fuel hfuel l a _ _ _ (le_consume _ _ hc)
    · exact parseCaseStatement_returns hE hrec fuel hfuel l a _ _ _ (le_consume _ _ hc)
    · exact ReturnsWithin.ok _ _ (parseStatementRest_le hE l a _ n hc)
  have htc : isTimingControlKind p.peek.kind = true →
      (E.parseTimingControl p).2.tokens.length ≤ n :=
    fun htk => Nat.le_of_lt_succ (lt_of_lt_of_le (hE.timingControl_lt p htk) hp)
  have hst : ReturnsWithin (rec p.consume.2) n := hrec.returns _ hc
  cases hkk : p.peek.kind
  all_goals rw [hkk] at hk
  all_goals first
    | exact absurd hk (by decide)
    | (simp only [parseStatementSwitch, hkk]
       first
        | exact hmod
        | exact parseCaseStatement_returns hE hrec fuel hfuel l a _ _ _ hc
        | exact parseConditionalStatement_returns hE hrec l a _ p hkk hp
        | exact parseLoopStatement_returns hE hrec l a p hp
        | exact parseDoWhileStatement_returns hE hrec l a p hp
        | exact parseForLoopStatement_returns hE hrec l a p hp
        | exact parseForeachLoopStatement_returns hE hrec l a p hp
        | exact ReturnsWithin.ok _ _ (parseReturnStatement_le hE l a p n hp)
        | exact ReturnsWithin.ok _ _ (parseJumpStatement_le E l a p n hp)
        | exact ReturnsWithin.ok _ _ (parseProceduralAssignStatement_le hE l a _ p n hp)
        | exact ReturnsWithin.ok _ _ (parseProceduralDeassignStatement_le hE l a _ p n hp)
        | exact ReturnsWithin.ok _ _ (parseDisableStatement_le hE l a p n hp)
        | exact parseBlock_returns hE hrec fuel hfuel _ _ l a p hp
        | exact parseAssertionStatement_returns hE hrec l a p (Or.inl hkk) hp
        | exact parseAssertionStatement_returns hE hrec l a p (Or.inr (Or.inl hkk)) hp
        | exact parseAssertionStatement_returns hE hrec l a p (Or.inr (Or.inr hkk)) hp
        | exact parseConcurrentAssertion_returns hE hrec l a p
            (Or.inr (Or.inr (Or.inr (Or.inl hkk)))) hp
        | exact parseConcurrentAssertion_returns hE hrec l a p
            (Or.inr (Or.inr (Or.inr (Or.inr hkk)))) hp
        | exact parseWaitStatement_returns hE hrec l a p hp
        | exact parseWaitOrderStatement_returns hE hrec l a p hp
        | exact parseRandCaseStatement_returns hE hrec fuel hfuel l a p hp
        | exact ReturnsWithin.pure _ _ _ hc
        | (refine ReturnsWithin.bind hst ?_
           intro v hv
           exact ReturnsWithin.pure _ _ _ hv)
        | (refine ReturnsWithin.bind (hrec.returns _ (htc (by rw [hkk]; rfl))) ?_
           intro v hv
           exact ReturnsWithin.pure _ _ _ hv))

/-- The switch of `parseStatement` returns on every state for which the nested
statement parser terminates on shorter streams; it gives no token back, and it
consumes a token when the next token is one of its keywords or can begin an
expression. -/
theorem parseStatementSwitch_terminates {E : ParserEnv} (hE : E.WellBehaved)
    (rec : StatementParser) (fuel : Nat) (l : Option NamedLabelSyntax) (a : List SyntaxNode)
    (p : Parser)
    (hrec : ∀ n, n + 1 = p.tokens.length → Terminates E rec n ∧ n < fuel) :
    ∃ s q, parseStatementSwitch E fuel rec l a p = Except.ok (s, q) ∧
      q.tokens.length ≤ p.tokens.length ∧
      (isStatementKeyword p.peek.kind = true ∨ E.isPossibleExpression p.peek.kind = true →
        q.tokens.length < p.tokens.length) := by
  by_cases hk : isStatementKeyword p.peek.kind = true
  · have hne : p.peek.kind ≠ TokenKind.EndOfFile := by
      intro h
      rw [h] at hk
      exact absurd hk (by decide)
    have hpos := length_pos_of_kind p hne
    obtain ⟨hterm, hfuel⟩ := hrec (p.tokens.length - 1) (by omega)
    obtain ⟨s, q, hq, hle⟩ :=
      parseStatementSwitch_returns hE hterm fuel hfuel l a p hk (by omega)
    exact ⟨s, q, hq, by omega, fun _ => by omega⟩
  · have hk0 : isStatementKeyword p.peek.kind = false := by simpa using hk
    refine ⟨(parseStatementRest E l a p).1, (parseStatementRest E l a p).2,
      parseStatementSwitch_default E fuel rec l a p hk0,
      parseStatementRest_le hE l a p _ (le_refl _), ?_⟩
    intro h
    rcases h with h | h
    · exact absurd h hk
    · exact parseStatementRest_lt hE l a p h

/-- `parseLabel` either consumes tokens or leaves the state as it was. -/
theorem parseLabel_eq_or_lt (p : Parser) :
    (parseLabel p).2 = p ∨ (parseLabel p).2.tokens.length < p.tokens.length := by
  unfold parseLabel
  split
  · rename_i h
    right
    have hne : p.peek.kind ≠ TokenKind.EndOfFile := by
      intro h0
      simp [h0] at h
    have hpos := length_pos_of_kind p hne
    have h1 := consume_length p
    have h2 := consume_length p.consume.2
    show p.consume.2.consume.2.tokens.length < p.tokens.length
    omega
  · exact Or.inl rfl

end Parser

/-- Statement parsing terminates: with more fuel than tokens, `parseStatement`
returns a statement, gives no token back, and consumes at least one token when
the next token can begin a statement. -/
theorem parseStatement_terminates {E : ParserEnv} (hE : E.WellBehaved) :
    ∀ fuel : Nat, Terminates E (Parser.parseStatement E (fuel + 1)) fuel := by
  have key : ∀ (fuel : Nat) (p : Parser),
      (∀ n, n + 1 = (statementStart E p).tokens.length →
        Terminates E (Parser.parseStatement E fuel) n ∧ n < fuel) →
      ∃ s q, Parser.parseStatement E (fuel + 1) p = Except.ok (s, q) ∧
        q.tokens.length ≤ p.tokens.length ∧
        (E.isPossibleStatement p.peek.kind = true → q.tokens.length < p.tokens.length) := by
    intro fuel p hrec
    obtain ⟨s, q, hq, hle, hprog⟩ :=
      Parser.parseStatementSwitch_terminates hE (Parser.parseStatement E fuel) fuel
        (Parser.parseLabel p).1 (E.parseAttributes (Parser.parseLabel p).2).1
        (statementStart E p) hrec
    have hattr : (statementStart E p).tokens.length ≤ (Parser.parseLabel p).2.tokens.length :=
      hE.attributes_le _
    have hlab := Parser.le_parseLabel p _ (le_refl _)
    refine ⟨s, q, (Parser.parseStatement_succ E fuel p).trans hq, by omega, ?_⟩
    intro hps
    rcases Parser.parseLabel_eq_or_lt p with hl | hl
    · by_cases hlt : (statementStart E p).tokens.length < p.tokens.length
      · omega
      · have heq : (E.parseAttributes p).2.tokens.length = p.tokens.length := by
          have h1 : (statementStart E p).tokens.length = (E.parseAttributes p).2.tokens.length := by
            unfold statementStart
            rw [hl]
          have h2 := hE.attributes_le p
          omega
        have hkind : (statementStart E p).peek.kind = p.peek.kind := by
          unfold statementStart
          rw [hl]
          exact hE.attributes_peek p heq
        rcases hE.statement_progress p hps with h | h | h
        · have := hprog (Or.inl (hkind ▸ h))
          omega
        · have := hprog (Or.inr (hkind ▸ h))
          omega
        · omega
    · omega
  intro fuel
  induction fuel with
  | zero =>
    intro p hp
    refine key 0 p ?_
    intro n hn
    have h1 : (statementStart E p).tokens.length ≤ (Parser.parseLabel p).2.tokens.length :=
      hE.attributes_le _
    have h2 := Parser.le_parseLabel p _ (le_refl _)
    omega
  | succ f ih =>
    intro p hp
    refine key (f + 1) p ?_
    intro n hn
    have h1 : (statementStart E p).tokens.length ≤ (Parser.parseLabel p).2.tokens.length :=
      hE.attributes_le _
    have h2 := Parser.le_parseLabel p _ (le_refl _)
    exact ⟨ih.mono (by omega), by omega⟩

/-! ## The environment of the fixtures is well behaved -/

/-- The expression span of the fixtures leaves no more tokens than it got. -/
theorem fixtureExpressionSpan_le (ts : List Token) :
    ∀ depth : Nat, (fixtureExpressionSpan depth ts).2.length ≤ ts.length := by
  induction ts with
  | nil => intro depth; simp [fixtureExpressionSpan]
  | cons t ts ih =>
    intro depth
    unfold fixtureExpressionSpan
    split
    · exact Nat.le_succ_of_le (ih _)
    · split
      · cases depth with
        | zero => exact le_refl _
        | succ d => exact Nat.le_succ_of_le (ih _)
      · split
        · exact Nat.le_succ_of_le (ih _)
        · exact le_refl _

/-- The expression parser of the fixtures gives no token back. -/
theorem fixtureParseExpression_le (p : Parser) :
    (fixtureParseExpression p).2.tokens.length ≤ p.tokens.length :=
  fixtureExpressionSpan_le p.tokens 0

/-- The expression parser of the fixtures consumes a token that can begin an
expression. -/
theorem fixtureParseExpression_lt (p : Parser)
    (h : fixtureIsPossibleExpression p.peek.kind = true) :
    (fixtureParseExpression p).2.tokens.length < p.tokens.length := by
  obtain ⟨tokens, eof, diags⟩ := p
  cases tokens with
  | nil => simp [Parser.peek, Parser.endOfFile, fixtureIsPossibleExpression] at h
  | cons t ts =>
    have ht : fixtureIsPossibleExpression t.kind = true := h
    show (fixtureExpressionSpan 0 (t :: ts)).2.length < (t :: ts).length
    unfold fixtureExpressionSpan
    split
    · exact Nat.lt_succ_of_le (fixtureExpressionSpan_le ts _)
    · rename_i hopen
      split
      · rename_i hclose
        simp only [fixtureIsPossibleExpression, Bool.or_eq_true, beq_iff_eq] at ht hopen hclose
        rcases ht with (ht | ht) | ht <;> rw [ht] at hclose <;> exact absurd hclose (by decide)
      · split
        · exact Nat.lt_succ_of_le (fixtureExpressionSpan_le ts _)
        · rename_i hx
          simp only [fixtureIsPossibleExpression, fixtureIsExpressionToken, Bool.or_eq_true,
            beq_iff_eq] at ht hopen hx
          rcases ht with (ht | ht) | ht
          · exact absurd (Or.inl (Or.inl (Or.inl (Or.inl (Or.inl ht))))) hx
          · exact absurd (Or.inl (Or.inl (Or.inl (Or.inl (Or.inr ht))))) hx
          · exact absurd ht hopen

/-- A sub-parser of the fixtures that takes tokens gives none back. -/
theorem fixtureTake_le (tag n : Nat) (p : Parser) :
    (fixtureTake tag n p).2.tokens.length ≤ p.tokens.length := by
  simp [fixtureTake]

/-- The missing-token report of the fixtures gives no token back. -/
theorem fixtureExpect_le (kind : TokenKind) (p : Parser) :
    (fixtureExpect kind p).2.tokens.length ≤ p.tokens.length := by
  unfold fixtureExpect
  split
  · exact Parser.le_consume p _ (le_refl _)
  · exact le_refl _

/-- The item loop of the separated lists of the fixtures gives no token back. -/
theorem fixtureSeparatedItems_le {α : Type} (isPossibleItem : TokenKind → Bool)
    (separatorKind : TokenKind) (item : Parser → α × Parser)
    (hitem : ∀ q, (item q).2.tokens.length ≤ q.tokens.length) :
    ∀ (n : Nat) (p : Parser),
      (fixtureSeparatedItems isPossibleItem separatorKind item n p).2.tokens.length ≤
        p.tokens.length := by
  intro n
  induction n with
  | zero => intro p; exact le_refl _
  | succ n ih =>
    intro p
    unfold fixtureSeparatedItems
    split
    · split
      · exact le_trans (ih _) (Parser.le_consume _ _ (hitem p))
      · exact hitem p
    · exact le_refl _

/-- The separated lists of the fixtures give no token back. -/
theorem fixtureParseSeparatedList_le {α : Type} (isPossibleItem isEnd : TokenKind → Bool)
    (closeKind separatorKind : TokenKind) (code : DiagCode) (item : Parser → α × Parser)
    (hitem : ∀ q, (item q).2.tokens.length ≤ q.tokens.length) (p : Parser) :
    (fixtureParseSeparatedList isPossibleItem isEnd closeKind separatorKind code
      item p).2.tokens.length ≤ p.tokens.length :=
  le_trans (fixtureExpect_le _ _)
    (fixtureSeparatedItems_le isPossibleItem separatorKind item hitem _ p)

/-- A separated list of the fixtures consumes a token when its first token can
begin an item, is not the separator, and the item parser consumes it. -/
theorem fixtureParseSeparatedList_lt {α : Type} (isPossibleItem isEnd : TokenKind → Bool)
    (closeKind separatorKind : TokenKind) (code : DiagCode) (item : Parser → α × Parser)
    (hitem : ∀ q, (item q).2.tokens.length ≤ q.tokens.length) (p : Parser)
    (h1 : isPossibleItem p.peek.kind = true) (h2 : p.peek.kind ≠ separatorKind)
    (h3 : (item p).2.tokens.length < p.tokens.length) :
    (fixtureParseSeparatedList isPossibleItem isEnd closeKind separatorKind code
      item p).2.tokens.length < p.tokens.length := by
  refine lt_of_le_of_lt (fixtureExpect_le _ _) ?_
  unfold fixtureSeparatedItems
  rw [if_pos (by simp [h1, h2])]
  split
  · exact lt_of_le_of_lt
      (le_trans (fixtureSeparatedItems_le isPossibleItem separatorKind item hitem _ _)
        (Parser.le_consume _ _ (le_refl _))) h3
  · exact h3

/-- The pattern parser of the fixtures gives no token back. -/
theorem fixtureParsePattern_le (p : Parser) :
    (fixtureParsePattern p).2.tokens.length ≤ p.tokens.length :=
  (List.dropWhile_sublist _).length_le

/-- The pattern parser of the fixtures consumes a token that can begin a
pattern. -/
theorem fixtureParsePattern_lt (p : Parser)
    (h : (p.peek.kind == TokenKind.TaggedKeyword || p.peek.kind == TokenKind.Dot) = true) :
    (fixtureParsePattern p).2.tokens.length < p.tokens.length := by
  obtain ⟨tokens, eof, diags⟩ := p
  cases tokens with
  | nil => simp [Parser.peek, Parser.endOfFile] at h
  | cons t ts =>
    have ht : (t.kind == TokenKind.TaggedKeyword || t.kind == TokenKind.Dot) = true := h
    have hp : fixtureIsPatternToken t.kind = true := by
      simp only [fixtureIsPatternToken, Bool.or_eq_true, beq_iff_eq] at ht ⊢
      rcases ht with ht | ht
      · exact Or.inl (Or.inl ht)
      · exact Or.inr ht
    show (List.dropWhile (fun t => fixtureIsPatternToken t.kind) (t :: ts)).length <
      (t :: ts).length
    have hd : List.dropWhile (fun t : Token => fixtureIsPatternToken t.kind) (t :: ts) =
        List.dropWhile (fun t : Token => fixtureIsPatternToken t.kind) ts :=
      List.dropWhile_cons_of_pos (p := fun t : Token => fixtureIsPatternToken t.kind) hp
    rw [hd]
    exact Nat.lt_succ_of_le (List.dropWhile_sublist _).length_le

/-- The environment of the fixtures satisfies the assumptions of termination. -/
theorem fixtureEnv_wellBehaved : fixtureEnv.WellBehaved where
  attributes_le := fun _ => le_refl _
  attributes_peek := fun _ _ => rfl
  expression_le := fixtureParseExpression_le
  expression_lt := fixtureParseExpression_lt
  subExpression_le := fixtureParseExpression_le
  primaryExpression_le := fixtureTake_le 3 1
  expressionOrDist_le := fixtureParseExpression_le
  sequenceExpression_le := fun _ => fixtureParseExpression_le
  propertyExpression_le := fun _ => fixtureParseExpression_le
  conditionalPredicate_le := fun _ k p => fixtureExpect_le k p
  pattern_le := fixtureParsePattern_le
  pattern_lt := fixtureParsePattern_lt
  name_le := fixtureTake_le 5 1
  dataType_le := fun _ => fixtureTake_le 6 1
  variableDeclarator_le := fun _ => fixtureTake_le 7 1
  timingControl_le := fixtureTake_le 8 2
  timingControl_lt := by
    intro p hk
    have hpos : 0 < p.tokens.length := by
      apply Parser.length_pos_of_kind
      intro h
      rw [h] at hk
      exact absurd hk (by decide)
    show (p.tokens.drop 2).length < p.tokens.length
    rw [List.length_drop]
    omega
  portDeclaration_lt := fun _ h => Bool.noConfusion h
  variableDeclaration_lt := fun _ h => Bool.noConfusion h
  separatedList_le := fun isPossibleItem isEnd closeKind separatorKind code item hitem p =>
    fixtureParseSeparatedList_le isPossibleItem isEnd closeKind separatorKind code item hitem p
  openRangeList_lt := by
    intro p h
    have h0 : fixtureIsPossibleExpression p.peek.kind = true := h
    refine fixtureParseSeparatedList_lt fixtureIsPossibleExpression
      fixtureEnv.isEndOfCaseItem TokenKind.Colon TokenKind.Comma
      DiagCode.ExpectedOpenRangeElement fixtureParseExpression fixtureParseExpression_le p h0 ?_
      (fixtureParseExpression_lt p h0)
    intro hc
    rw [hc] at h0
    exact absurd h0 (by decide)
  expressionList_lt := by
    intro p h
    have h0 : fixtureIsPossibleExpression p.peek.kind = true := h
    refine fixtureParseSeparatedList_lt fixtureEnv.isPossibleExpressionOrComma
      fixtureEnv.isEndOfCaseItem TokenKind.Colon TokenKind.Comma
      DiagCode.ExpectedExpression fixtureParseExpression fixtureParseExpression_le p ?_ ?_
      (fixtureParseExpression_lt p h0)
    · show (fixtureIsPossibleExpression p.peek.kind || p.peek.kind == TokenKind.Comma) = true
      rw [h0]
      rfl
    · intro hc
      rw [hc] at h0
      exact absurd h0 (by decide)
  openRangeElement_le := fixtureParseExpression_le
  statement_progress := by
    intro p h
    have h0 : (isStatementKeyword p.peek.kind || fixtureIsPossibleExpression p.peek.kind) =
        true := h
    rcases Bool.or_eq_true _ _ ▸ h0 with h1 | h1
    · exact Or.inl h1
    · exact Or.inr (Or.inl h1)

/-! ## Scenario S4 -/

/-- C19, scenario S4: on the stream `if (1) begin end`, for every environment
whose attribute parser finds no attribute before `if` and before `begin`, whose
expression parser reads `1`, whose predicate parser reads up to `)`, and for
which `end` is an end keyword, `parseStatement` returns a conditional statement
with no label, no attributes and the empty modifier token, whose statement is a
sequential block with no item, ended by `end`, with no block name, and with no
else clause; every token is consumed and no diagnostic is reported. -/
theorem parseStatement_S4 (E : ParserEnv) (fuel : Nat) (first predicate : SyntaxNode)
    (ha0 : E.parseAttributes (stateAt scenarioS4 0) = ([], stateAt scenarioS4 0))
    (hsub : E.parseSubExpression (stateAt scenarioS4 2) = (first, stateAt scenarioS4 3))
    (hpred : E.parseConditionalPredicate first TokenKind.CloseParenthesis
        (stateAt scenarioS4 3) =
      ((predicate, tokenAt TokenKind.CloseParenthesis 3), stateAt scenarioS4 4))
    (ha1 : E.parseAttributes (stateAt scenarioS4 4) = ([], stateAt scenarioS4 4))
    (hend : E.isEndKeyword TokenKind.EndKeyword = true) :
    Parser.parseStatement E (fuel + 3) (stateAt scenarioS4 0) =
      Except.ok (StatementSyntax.ConditionalStatement none [] Token.empty
          (tokenAt TokenKind.IfKeyword 0) (tokenAt TokenKind.OpenParenthesis 1) predicate
          (tokenAt TokenKind.CloseParenthesis 3)
          (StatementSyntax.BlockStatement SyntaxKind.SequentialBlockStatement none []
            (tokenAt TokenKind.BeginKeyword 4) none [] (tokenAt TokenKind.EndKeyword 5) none)
          none,
        stateAt scenarioS4 6) := by
  have hl0 : Parser.parseLabel (stateAt scenarioS4 0) = (none, stateAt scenarioS4 0) := rfl
  have hl1 : Parser.parseLabel (stateAt scenarioS4 4) = (none, stateAt scenarioS4 4) := rfl
  have inner : Parser.parseStatement E (fuel + 2) (stateAt scenarioS4 4) =
      Except.ok (StatementSyntax.BlockStatement SyntaxKind.SequentialBlockStatement none []
          (tokenAt TokenKind.BeginKeyword 4) none [] (tokenAt TokenKind.EndKeyword 5) none,
        stateAt scenarioS4 6) := by
    rw [Parser.parseStatement_succ]
    simp only [statementStart, hl1, ha1]
    simp [stateAt, scenarioS4, Parser.parseStatementSwitch, Parser.parseBlock,
      Parser.parseBlockItems, Parser.parseBlockItemsLoop, Parser.parseNamedBlockClause,
      Parser.peek, Parser.peekKind, Parser.consume, Parser.expect, tokensFrom, tokenAt, hend,
      Parser.prependSkippedTokens, bind, Except.bind, pure, Except.pure, Parser.endOfFile]
  rw [Parser.parseStatement_succ]
  simp only [statementStart, hl0, ha0]
  simp only [stateAt, scenarioS4, List.drop, tokensFrom, tokenAt, List.length,
    Nat.reduceAdd] at hsub hpred inner ⊢
  simp [Parser.parseStatementSwitch, Parser.parseConditionalStatement,
    Parser.parseElseClause, Parser.peek, Parser.peekKind, Parser.consume, Parser.expect, hsub,
    hpred, inner, bind, Except.bind, pure, Except.pure, Parser.endOfFile, Token.empty]

/-- C19 on the environment of the fixtures: the hypotheses on the environment
hold there, the predicate being the node of the expression `1`. -/
theorem parseStatement_S4_witness :
    Parser.parseStatement fixtureEnv 3 (stateAt scenarioS4 0) =
      Except.ok (StatementSyntax.ConditionalStatement none [] Token.empty
          (tokenAt TokenKind.IfKeyword 0) (tokenAt TokenKind.OpenParenthesis 1)
          ⟨4, [tokenAt TokenKind.IntegerLiteral 2]⟩
          (tokenAt TokenKind.CloseParenthesis 3)
          (StatementSyntax.BlockStatement SyntaxKind.SequentialBlockStatement none []
            (tokenAt TokenKind.BeginKeyword 4) none [] (tokenAt TokenKind.EndKeyword 5) none)
          none,
        stateAt scenarioS4 6) :=
  parseStatement_S4 fixtureEnv 0 ⟨1, [tokenAt TokenKind.IntegerLiteral 2]⟩
    ⟨4, [tokenAt TokenKind.IntegerLiteral 2]⟩ rfl rfl rfl rfl rfl

/-! ## Case statements: the flavour of the items -/

/-- A sequence of two steps that returns has a first step that returns. -/
theorem bind_ok_inv {ε α β : Type} {x : Except ε α} {f : α → Except ε β} {b : β}
    (h : x >>= f = Except.ok b) : ∃ a, x = Except.ok a ∧ f a = Except.ok b := by
  cases x with
  | error e => cases h
  | ok a => exact ⟨a, rfl, h⟩

namespace Parser

/-- The item returned by `parseDefaultCaseItem` is a default item. -/
theorem parseDefaultCaseItem_isDefault {rec : StatementParser} {p q : Parser}
    {item : CaseItemSyntax} (h : parseDefaultCaseItem rec p = Except.ok (item, q)) :
    item.isDefault = true := by
  simp only [parseDefaultCaseItem] at h
  obtain ⟨v, -, hk⟩ := bind_ok_inv h
  cases hk
  rfl

/-- Every item returned by the loop of `case ... matches` is a default item or
a pattern item built from the pattern at the state of its iteration and the
optional guard after it. -/
theorem parsePatternCaseItems_all {E : ParserEnv} {rec : StatementParser}
    (P : CaseItemSyntax → Prop)
    (hdef : ∀ item : CaseItemSyntax, item.isDefault = true → P item)
    (hpat : ∀ (q : Parser) (colon : Token) (s : StatementSyntax),
      P (CaseItemSyntax.PatternCaseItem (E.parsePattern q).1
        (if (E.parsePattern q).2.peekKind TokenKind.TripleAnd = true then
          ((E.parsePattern q).2.consume.1,
            some (E.parseExpression (E.parsePattern q).2.consume.2).1,
            (E.parseExpression (E.parsePattern q).2.consume.2).2)
        else (Token.empty, (none : Option SyntaxNode), (E.parsePattern q).2)).1
        (if (E.parsePattern q).2.peekKind TokenKind.TripleAnd = true then
          ((E.parsePattern q).2.consume.1,
            some (E.parseExpression (E.parsePattern q).2.consume.2).1,
            (E.parseExpression (E.parsePattern q).2.consume.2).2)
        else (Token.empty, (none : Option SyntaxNode), (E.parsePattern q).2)).2.1
        colon s)) :
    ∀ (fuel : Nat) (itemBuffer : List CaseItemSyntax) (p : Parser)
      (items : List CaseItemSyntax) (q : Parser),
      parsePatternCaseItems E rec fuel itemBuffer p = Except.ok (items, q) →
      (∀ item ∈ itemBuffer, P item) → ∀ item ∈ items, P item := by
  intro fuel
  induction fuel with
  | zero =>
    intro itemBuffer p items q h
    cases h
  | succ f ih =>
    intro itemBuffer p items q h hbuf
    simp only [parsePatternCaseItems] at h
    split at h
    · obtain ⟨v, hv, hk⟩ := bind_ok_inv h
      refine ih _ _ _ _ hk ?_
      intro item hi
      rcases List.mem_append.1 hi with hi | hi
      · exact hbuf item hi
      · rw [List.mem_singleton.1 hi]
        exact hdef _ (parseDefaultCaseItem_isDefault hv)
    · split at h
      · obtain ⟨v, hv, hk⟩ := bind_ok_inv h
        refine ih _ _ _ _ hk ?_
        intro item hi
        rcases List.mem_append.1 hi with hi | hi
        · exact hbuf item hi
        · rw [List.mem_singleton.1 hi]
          exact hpat p _ _
      · cases h
        exact hbuf

/-- Every item returned by the loop of `case ... inside` is a default item or
a standard item built from the list of open-range elements at the state of its
iteration. -/
theorem parseInsideCaseItems_all {E : ParserEnv} {rec : StatementParser}
    (P : CaseItemSyntax → Prop)
    (hdef : ∀ item : CaseItemSyntax, item.isDefault = true → P item)
    (hstd : ∀ (q : Parser) (s : StatementSyntax),
      P (CaseItemSyntax.StandardCaseItem
        (E.parseSeparatedList E.isPossibleOpenRangeElement E.isEndOfCaseItem TokenKind.Colon
          TokenKind.Comma DiagCode.ExpectedOpenRangeElement E.parseOpenRangeElement q).1.1
        (E.parseSeparatedList E.isPossibleOpenRangeElement E.isEndOfCaseItem TokenKind.Colon
          TokenKind.Comma DiagCode.ExpectedOpenRangeElement E.parseOpenRangeElement q).1.2
        s)) :
    ∀ (fuel : Nat) (itemBuffer : List CaseItemSyntax) (p : Parser)
      (items : List CaseItemSyntax) (q : Parser),
      parseInsideCaseItems E rec fuel itemBuffer p = Except.ok (items, q) →
      (∀ item ∈ itemBuffer, P item) → ∀ item ∈ items, P item := by
  intro fuel
  induction fuel with
  | zero =>
    intro itemBuffer p items q h
    cases h
  | succ f ih =>
    intro itemBuffer p items q h hbuf
    simp only [parseInsideCaseItems] at h
    split at h
    · obtain ⟨v, hv, hk⟩ := bind_ok_inv h
      refine ih _ _ _ _ hk ?_
      intro item hi
      rcases List.mem_append.1 hi with hi | hi
      · exact hbuf item hi
      · rw [List.mem_singleton.1 hi]
        exact hdef _ (parseDefaultCaseItem_isDefault hv)
    · split at h
      · obtain ⟨v, hv, hk⟩ := bind_ok_inv h
        refine ih _ _ _ _ hk ?_
        intro item hi
        rcases List.mem_append.1 hi with hi | hi
        · exact hbuf item hi
        · rw [List.mem_singleton.1 hi]
          exact hstd p _
      · cases h
        exact hbuf

/-- Every item returned by the loop of a normal `case` is a default item or a
standard item built from the list of expressions at the state of its
iteration. -/
theorem parseStandardCaseItems_all {E : ParserEnv} {rec : StatementParser}
    (P : CaseItemSyntax → Prop)
    (hdef : ∀ item : CaseItemSyntax, item.isDefault = true → P item)
    (hstd : ∀ (q : Parser) (s : StatementSyntax),
      P (CaseItemSyntax.StandardCaseItem
        (E.parseSeparatedList E.isPossibleExpressionOrComma E.isEndOfCaseItem TokenKind.Colon
          TokenKind.Comma DiagCode.ExpectedExpression E.parseExpression q).1.1
        (E.parseSeparatedList E.isPossibleExpressionOrComma E.isEndOfCaseItem TokenKind.Colon
          TokenKind.Comma DiagCode.ExpectedExpression E.parseExpression q).1.2
        s)) :
    ∀ (fuel : Nat) (itemBuffer : List CaseItemSyntax) (p : Parser)
      (items : List CaseItemSyntax) (q : Parser),
      parseStandardCaseItems E rec fuel itemBuffer p = Except.ok (items, q) →
      (∀ item ∈ itemBuffer, P item) → ∀ item ∈ items, P item := by
  intro fuel
  induction fuel with
  | zero =>
    intro itemBuffer p items q h
    cases h
  | succ f ih =>
    intro itemBuffer p items q h hbuf
    simp only [parseStandardCaseItems] at h
    split at h
    · obtain ⟨v, hv, hk⟩ := bind_ok_inv h
      refine ih _ _ _ _ hk ?_
      intro item hi
      rcases List.mem_append.1 hi with hi | hi
      · exact hbuf item hi
      · rw [List.mem_singleton.1 hi]
        exact hdef _ (parseDefaultCaseItem_isDefault hv)
    · split at h
      · obtain ⟨v, hv, hk⟩ := bind_ok_inv h
        refine ih _ _ _ _ hk ?_
        intro item hi
        rcases List.mem_append.1 hi with hi | hi
        · exact hbuf item hi
        · rw [List.mem_singleton.1 hi]
          exact hstd p _
      · cases h
        exact hbuf

end Parser

namespace Parser

/-- The shape of what `parseCaseStatement` returns: a case statement with the
given label, attributes, modifier and case keyword, whose `matchesOrInside`
token and items come from the loop chosen by the token after the selector. -/
theorem parseCaseStatement_shape {E : ParserEnv} {rec : StatementParser} {fuel : Nat}
    {l : Option NamedLabelSyntax} {a : List SyntaxNode} {m caseKeyword : Token}
    {p q : Parser} {s : StatementSyntax}
    (h : parseCaseStatement E fuel rec l a m caseKeyword p = Except.ok (s, q)) :
    ∃ (openParen : Token) (caseExpr : SyntaxNode) (closeParen matchesOrInside : Token)
      (items : List CaseItemSyntax) (endcase : Token) (q0 : Parser),
      s = StatementSyntax.CaseStatement l a m caseKeyword openParen caseExpr closeParen
        matchesOrInside items endcase ∧
      (((afterSelector E p).peek.kind = TokenKind.MatchesKeyword ∧
          matchesOrInside = (afterSelector E p).peek ∧
          parsePatternCaseItems E rec fuel [] (afterSelector E p).consume.2 =
            Except.ok (items, q0)) ∨
        ((afterSelector E p).peek.kind = TokenKind.InsideKeyword ∧
          matchesOrInside = (afterSelector E p).peek ∧
          parseInsideCaseItems E rec fuel [] (afterSelector E p).consume.2 =
            Except.ok (items, q0)) ∨
        ((afterSelector E p).peek.kind ≠ TokenKind.MatchesKeyword ∧
          (afterSelector E p).peek.kind ≠ TokenKind.InsideKeyword ∧
          matchesOrInside = Token.empty ∧
          parseStandardCaseItems E rec fuel [] (afterSelector E p) =
            Except.ok (items, q0))) := by
  simp only [parseCaseStatement] at h
  split at h
  · rename_i hkind
    obtain ⟨v, hv, hk⟩ := bind_ok_inv h
    cases hk
    exact ⟨_, _, _, _, _, _, v.2, rfl, Or.inl ⟨hkind, rfl, hv⟩⟩
  · rename_i hkind
    obtain ⟨v, hv, hk⟩ := bind_ok_inv h
    cases hk
    exact ⟨_, _, _, _, _, _, v.2, rfl, Or.inr (Or.inl ⟨hkind, rfl, hv⟩)⟩
  · rename_i hm hi
    obtain ⟨v, hv, hk⟩ := bind_ok_inv h
    cases hk
    exact ⟨_, _, _, _, _, _, v.2, rfl, Or.inr (Or.inr ⟨hm, hi, rfl, hv⟩)⟩

end Parser

/-- C17: under the assumptions of termination, `parseCaseStatement` returns a
case statement in which the token after `( selector )` alone decides the
flavour of the items. If it is `matches`, `matchesOrInside` is that token and
every item is a pattern item or a default item; if it is `inside`,
`matchesOrInside` is that token and every item is a standard item of open-range
elements or a default item; otherwise `matchesOrInside` is the empty token and
every item is a standard item of expressions or a default item. -/
theorem parseCaseStatement_flavour (E : ParserEnv) (hE : E.WellBehaved)
    (rec : StatementParser) (n : Nat) (hrec : Terminates E rec n) (fuel : Nat)
    (hfuel : n < fuel) (l : Option NamedLabelSyntax) (a : List SyntaxNode)
    (m caseKeyword : Token) (p : Parser) (hp : p.tokens.length ≤ n) :
    ∃ s q, Parser.parseCaseStatement E fuel rec l a m caseKeyword p = Except.ok (s, q) ∧
      s.kind = SyntaxKind.CaseStatement ∧
      ((afterSelector E p).peek.kind = TokenKind.MatchesKeyword →
        s.matchesOrInside? = some (afterSelector E p).peek ∧
        ∀ item ∈ s.caseItems, item.isPattern = true ∨ item.isDefault = true) ∧
      ((afterSelector E p).peek.kind = TokenKind.InsideKeyword →
        s.matchesOrInside? = some (afterSelector E p).peek ∧
        ∀ item ∈ s.caseItems, item.isOpenRangeItem E ∨ item.isDefault = true) ∧
      ((afterSelector E p).peek.kind ≠ TokenKind.MatchesKeyword →
        (afterSelector E p).peek.kind ≠ TokenKind.InsideKeyword →
        s.matchesOrInside? = some Token.empty ∧
        ∀ item ∈ s.caseItems, item.isExpressionItem E ∨ item.isDefault = true) := by
  obtain ⟨s, q, hq, -⟩ :=
    Parser.parseCaseStatement_returns hE hrec fuel hfuel l a m caseKeyword p hp
  obtain ⟨op, ce, cp, mi, items, ec, q0, rfl, hcase⟩ := Parser.parseCaseStatement_shape hq
  refine ⟨_, q, hq, rfl, ?_, ?_, ?_⟩
  · intro hk
    rcases hcase with ⟨-, hmi, hloop⟩ | ⟨h2, -⟩ | ⟨h2, -⟩
    · refine ⟨congrArg some hmi, ?_⟩
      exact Parser.parsePatternCaseItems_all
        (fun item => item.isPattern = true ∨ item.isDefault = true)
        (fun _ h => Or.inr h) (fun _ _ _ => Or.inl rfl) fuel [] _ items q0 hloop
        (fun _ h => absurd h (List.not_mem_nil _))
    · rw [hk] at h2
      exact absurd h2 (by decide)
    · exact absurd hk h2
  · intro hk
    rcases hcase with ⟨h2, -⟩ | ⟨-, hmi, hloop⟩ | ⟨-, h2, -⟩
    · rw [hk] at h2
      exact absurd h2 (by decide)
    · refine ⟨congrArg some hmi, ?_⟩
      exact Parser.parseInsideCaseItems_all
        (fun item => item.isOpenRangeItem E ∨ item.isDefault = true)
        (fun _ h => Or.inr h) (fun q _ => Or.inl ⟨q, rfl⟩) fuel [] _ items q0 hloop
        (fun _ h => absurd h (List.not_mem_nil _))
    · exact absurd hk h2
  · intro hm hi
    rcases hcase with ⟨h2, -⟩ | ⟨h2, -⟩ | ⟨-, -, hmi, hloop⟩
    · exact absurd h2 hm
    · exact absurd h2 hi
    · refine ⟨congrArg some hmi, ?_⟩
      exact Parser.parseStandardCaseItems_all
        (fun item => item.isExpressionItem E ∨ item.isDefault = true)
        (fun _ h => Or.inr h) (fun q _ => Or.inl ⟨q, rfl⟩) fuel [] _ items q0 hloop
        (fun _ h => absurd h (List.not_mem_nil _))

/-- C17 on scenario S5: the token after the selector is `matches`, so the
statement holds that token and its items are pattern items or default items. -/
theorem parseCaseStatement_flavour_witness :
    ∃ s q, Parser.parseCaseStatement fixtureEnv 25 (Parser.parseStatement fixtureEnv 25) none
        [] Token.empty (tokenAt TokenKind.CaseKeyword 0) (stateAt scenarioS5 1) =
          Except.ok (s, q) ∧
      s.matchesOrInside? = some (tokenAt TokenKind.MatchesKeyword 4) ∧
      ∀ item ∈ s.caseItems, item.isPattern = true ∨ item.isDefault = true := by
  obtain ⟨s, q, h, -, h1, -, -⟩ :=
    parseCaseStatement_flavour fixtureEnv fixtureEnv_wellBehaved
      (Parser.parseStatement fixtureEnv 25) 24
      (parseStatement_terminates fixtureEnv_wellBehaved 24) 25 (by decide) none []
      Token.empty (tokenAt TokenKind.CaseKeyword 0) (stateAt scenarioS5 1) (by decide)
  exact ⟨s, q, h, h1 (by decide)⟩

/-- The pattern item built by an iteration of the `matches` loop carries the
guard that the tokens after its pattern ask for. -/
theorem guardAgrees_patternItem (E : ParserEnv) (q : Parser) (colon : Token)
    (s : StatementSyntax) :
    (CaseItemSyntax.PatternCaseItem (E.parsePattern q).1
      (if (E.parsePattern q).2.peekKind TokenKind.TripleAnd = true then
        ((E.parsePattern q).2.consume.1,
          some (E.parseExpression (E.parsePattern q).2.consume.2).1,
          (E.parseExpression (E.parsePattern q).2.consume.2).2)
      else (Token.empty, (none : Option SyntaxNode), (E.parsePattern q).2)).1
      (if (E.parsePattern q).2.peekKind TokenKind.TripleAnd = true then
        ((E.parsePattern q).2.consume.1,
          some (E.parseExpression (E.parsePattern q).2.consume.2).1,
          (E.parseExpression (E.parsePattern q).2.consume.2).2)
      else (Token.empty, (none : Option SyntaxNode), (E.parsePattern q).2)).2.1
      colon s).guardAgrees E := by
  refine ⟨q, rfl, ?_, ?_⟩
  · intro hk
    have hpk : (E.parsePattern q).2.peekKind TokenKind.TripleAnd = true := by
      simp [Parser.peekKind, hk]
    rw [if_pos hpk]
    exact ⟨rfl, rfl⟩
  · intro hk
    have hpk : ¬ (E.parsePattern q).2.peekKind TokenKind.TripleAnd = true := by
      simpa [Parser.peekKind] using hk
    rw [if_neg hpk]
    exact ⟨rfl, rfl⟩

/-- A default item carries no guard. -/
theorem guardAgrees_of_isDefault (E : ParserEnv) (item : CaseItemSyntax)
    (h : item.isDefault = true) : item.guardAgrees E := by
  cases item with
  | DefaultCaseItem d c s => exact True.intro
  | PatternCaseItem pat t g c s => exact Bool.noConfusion h
  | StandardCaseItem b c s => exact True.intro

/-- C18: in a case statement returned by `parseCaseStatement` every pattern
item carries a guard expression and a `&&&` token exactly when its pattern is
followed by `&&&`, and otherwise no guard and the empty token
(`guardAgrees`). On scenario S5, for every environment whose sub-parsers read
the selector `t`, the pattern `tagged Valid .x`, the guard `(x > 0)` and the
expression `y = x`, and find no attributes, `parseStatement` returns a case
statement with two items: a pattern item holding the pattern, the `&&&` token
and the guard, whose statement is the expression statement, then a default
item whose statement is the empty statement; no diagnostic is reported. -/
theorem parseCaseStatement_guard (E : ParserEnv) :
    (E.WellBehaved → ∀ (rec : StatementParser) (n : Nat), Terminates E rec n →
      ∀ fuel : Nat, n < fuel →
      ∀ (l : Option NamedLabelSyntax) (a : List SyntaxNode) (m caseKeyword : Token)
        (p : Parser), p.tokens.length ≤ n →
      ∃ s q, Parser.parseCaseStatement E fuel rec l a m caseKeyword p = Except.ok (s, q) ∧
        ∀ item ∈ s.caseItems, item.guardAgrees E) ∧
    (∀ (fuel : Nat) (selector pattern guard expr : SyntaxNode),
      E.parseAttributes (stateAt scenarioS5 0) = ([], stateAt scenarioS5 0) →
      E.parseExpression (stateAt scenarioS5 2) = (selector, stateAt scenarioS5 3) →
      E.isPossiblePattern TokenKind.TaggedKeyword = true →
      E.parsePattern (stateAt scenarioS5 5) = (pattern, stateAt scenarioS5 9) →
      E.parseExpression (stateAt scenarioS5 10) = (guard, stateAt scenarioS5 15) →
      E.parseAttributes (stateAt scenarioS5 16) = ([], stateAt scenarioS5 16) →
      E.isPossibleExpression TokenKind.Identifier = true →
      E.parseExpression (stateAt scenarioS5 16) = (expr, stateAt scenarioS5 19) →
      E.parseAttributes (stateAt scenarioS5 22) = ([], stateAt scenarioS5 22) →
      E.isPossiblePattern TokenKind.EndCaseKeyword = false →
      Parser.parseStatement E (fuel + 4) (stateAt scenarioS5 0) =
        Except.ok (StatementSyntax.CaseStatement none [] Token.empty
            (tokenAt TokenKind.CaseKeyword 0) (tokenAt TokenKind.OpenParenthesis 1) selector
            (tokenAt TokenKind.CloseParenthesis 3) (tokenAt TokenKind.MatchesKeyword 4)
            [CaseItemSyntax.PatternCaseItem pattern (tokenAt TokenKind.TripleAnd 9)
                (some guard) (tokenAt TokenKind.Colon 15)
                (StatementSyntax.ExpressionStatement none [] expr
                  (tokenAt TokenKind.Semicolon 19)),
              CaseItemSyntax.DefaultCaseItem (tokenAt TokenKind.DefaultKeyword 20)
                (tokenAt TokenKind.Colon 21)
                (StatementSyntax.EmptyStatement none [] (tokenAt TokenKind.Semicolon 22))]
            (tokenAt TokenKind.EndCaseKeyword 23),
          stateAt scenarioS5 24)) := by
  constructor
  · intro hE rec n hrec fuel hfuel l a m caseKeyword p hp
    obtain ⟨s, q, hq, -⟩ :=
      Parser.parseCaseStatement_returns hE hrec fuel hfuel l a m caseKeyword p hp
    obtain ⟨op, ce, cp, mi, items, ec, q0, rfl, hcase⟩ := Parser.parseCaseStatement_shape hq
    refine ⟨_, q, hq, ?_⟩
    have hnil : ∀ item ∈ ([] : List CaseItemSyntax), item.guardAgrees E :=
      fun _ h => absurd h (List.not_mem_nil _)
    rcases hcase with ⟨-, -, hloop⟩ | ⟨-, -, hloop⟩ | ⟨-, -, -, hloop⟩
    · exact Parser.parsePatternCaseItems_all (fun item => item.guardAgrees E)
        (guardAgrees_of_isDefault E) (guardAgrees_patternItem E) fuel [] _ items q0 hloop hnil
    · exact Parser.parseInsideCaseItems_all (fun item => item.guardAgrees E)
        (guardAgrees_of_isDefault E) (fun _ _ => True.intro) fuel [] _ items q0 hloop hnil
    · exact Parser.parseStandardCaseItems_all (fun item => item.guardAgrees E)
        (guardAgrees_of_isDefault E) (fun _ _ => True.intro) fuel [] _ items q0 hloop hnil
  · intro fuel selector pattern guard expr ha0 hsel hpp hpat hguard ha1 hpe hexpr ha2 hstop
    have hl0 : Parser.parseLabel (stateAt scenarioS5 0) = (none, stateAt scenarioS5 0) := rfl
    have hl1 : Parser.parseLabel (stateAt scenarioS5 16) = (none, stateAt scenarioS5 16) :=
      rfl
    have hl2 : Parser.parseLabel (stateAt scenarioS5 22) = (none, stateAt scenarioS5 22) :=
      rfl
    have inner1 : Parser.parseStatement E (fuel + 3) (stateAt scenarioS5 16) =
        Except.ok (StatementSyntax.ExpressionStatement none [] expr
          (tokenAt TokenKind.Semicolon 19), stateAt scenarioS5 20) := by
      rw [Parser.parseStatement_succ]
      simp only [statementStart, hl1, ha1]
      simp only [stateAt, scenarioS5, List.drop, tokensFrom, tokenAt, List.length,
        Nat.reduceAdd] at hexpr ⊢
      simp [Parser.parseStatementSwitch, Parser.parseStatementRest, Parser.peek,
        Parser.peekKind, Parser.consume, Parser.expect, hexpr, hpe, Parser.endOfFile, pure,
        Except.pure]
    have inner2 : Parser.parseStatement E (fuel + 3) (stateAt scenarioS5 22) =
        Except.ok (StatementSyntax.EmptyStatement none [] (tokenAt TokenKind.Semicolon 22),
          stateAt scenarioS5 23) := by
      rw [Parser.parseStatement_succ]
      simp only [statementStart, hl2, ha2]
      simp [stateAt, scenarioS5, tokensFrom, tokenAt, Parser.parseStatementSwitch,
        Parser.peek, Parser.consume, pure, Except.pure]
    rw [Parser.parseStatement_succ]
    simp only [statementStart, hl0, ha0]
    simp only [stateAt, scenarioS5, List.drop, tokensFrom, tokenAt, List.length,
      Nat.reduceAdd] at hsel hpat hguard inner1 inner2 ⊢
    simp [Parser.parseStatementSwitch, Parser.parseCaseStatement,
      Parser.parsePatternCaseItems, Parser.parseDefaultCaseItem, Parser.peek,
      Parser.peekKind, Parser.consume, Parser.expect, hsel, hpp, hpat, hguard, hstop, inner1,
      inner2, bind, Except.bind, pure, Except.pure, Parser.endOfFile, Token.empty]

/-- C18 on the environment of the fixtures: the items of the case statement of
scenario S5 carry the guards their tokens ask for, and the statement is the
case statement with the pattern item and the default item. -/
theorem parseCaseStatement_guard_witness :
    (∃ s q, Parser.parseCaseStatement fixtureEnv 25 (Parser.parseStatement fixtureEnv 25)
        none [] Token.empty (tokenAt TokenKind.CaseKeyword 0) (stateAt scenarioS5 1) =
          Except.ok (s, q) ∧
      ∀ item ∈ s.caseItems, item.guardAgrees fixtureEnv) ∧
    Parser.parseStatement fixtureEnv 4 (stateAt scenarioS5 0) =
      Except.ok (StatementSyntax.CaseStatement none [] Token.empty
          (tokenAt TokenKind.CaseKeyword 0) (tokenAt TokenKind.OpenParenthesis 1)
          ⟨1, [tokenAt TokenKind.Identifier 2]⟩
          (tokenAt TokenKind.CloseParenthesis 3) (tokenAt TokenKind.MatchesKeyword 4)
          [CaseItemSyntax.PatternCaseItem
              ⟨2, [tokenAt TokenKind.TaggedKeyword 5, tokenAt TokenKind.Identifier 6,
                tokenAt TokenKind.Dot 7, tokenAt TokenKind.Identifier 8]⟩
              (tokenAt TokenKind.TripleAnd 9)
              (some ⟨1, [tokenAt TokenKind.OpenParenthesis 10, tokenAt TokenKind.Identifier 11,
                tokenAt TokenKind.GreaterThan 12, tokenAt TokenKind.IntegerLiteral 13,
                tokenAt TokenKind.CloseParenthesis 14]⟩)
              (tokenAt TokenKind.Colon 15)
              (StatementSyntax.ExpressionStatement none []
                ⟨1, [tokenAt TokenKind.Identifier 16, tokenAt TokenKind.Equals 17,
                  tokenAt TokenKind.Identifier 18]⟩
                (tokenAt TokenKind.Semicolon 19)),
            CaseItemSyntax.DefaultCaseItem (tokenAt TokenKind.DefaultKeyword 20)
              (tokenAt TokenKind.Colon 21)
              (StatementSyntax.EmptyStatement none [] (tokenAt TokenKind.Semicolon 22))]
          (tokenAt TokenKind.EndCaseKeyword 23),
        stateAt scenarioS5 24) :=
  ⟨(parseCaseStatement_guard fixtureEnv).1 fixtureEnv_wellBehaved
      (Parser.parseStatement fixtureEnv 25) 24
      (parseStatement_terminates fixtureEnv_wellBehaved 24) 25 (by decide) none []
      Token.empty (tokenAt TokenKind.CaseKeyword 0) (stateAt scenarioS5 1) (by decide),
    (parseCaseStatement_guard fixtureEnv).2 0 _ _ _ _ rfl rfl rfl rfl rfl rfl rfl rfl rfl rfl⟩

/-! ## parseStatement: the modifiers `unique`, `unique0` and `priority` -/

namespace Parser

/-- The shape of what `parseConditionalStatement` returns: a conditional
statement with the given label, attributes and modifier, whose `if` keyword is
the expected `if`. -/
theorem parseConditionalStatement_shape {E : ParserEnv} {rec : StatementParser}
    {l : Option NamedLabelSyntax} {a : List SyntaxNode} {m : Token} {p q : Parser}
    {s : StatementSyntax}
    (h : parseConditionalStatement E rec l a m p = Except.ok (s, q)) :
    ∃ (openParen : Token) (predicate : SyntaxNode) (closeParen : Token)
      (statement : StatementSyntax) (elseClause : Option ElseClauseSyntax),
      s = StatementSyntax.ConditionalStatement l a m (p.expect E TokenKind.IfKeyword).1
        openParen predicate closeParen statement elseClause := by
  simp only [parseConditionalStatement] at h
  obtain ⟨v, -, hk⟩ := bind_ok_inv h
  obtain ⟨w, -, hk2⟩ := bind_ok_inv hk
  cases hk2
  exact ⟨_, _, _, _, _, rfl⟩

/-- After a modifier followed by `if`, the switch calls
`parseConditionalStatement` with the modifier. -/
theorem parseStatementSwitch_modifier_if (E : ParserEnv) (fuel : Nat)
    (rec : StatementParser) (l : Option NamedLabelSyntax) (a : List SyntaxNode) (p : Parser)
    (hm : isModifierKeyword p.peek.kind = true)
    (hif : p.consume.2.peek.kind = TokenKind.IfKeyword) :
    parseStatementSwitch E fuel rec l a p =
      parseConditionalStatement E rec l a p.consume.1 p.consume.2 := by
  unfold parseStatementSwitch
  generalize p.peek.kind = k at hm
  cases k <;> first | exact absurd hm (by decide) | simp only [hif]

/-- After a modifier followed by a case keyword, the switch consumes the case
keyword and calls `parseCaseStatement` with the modifier and that keyword. -/
theorem parseStatementSwitch_modifier_case (E : ParserEnv) (fuel : Nat)
    (rec : StatementParser) (l : Option NamedLabelSyntax) (a : List SyntaxNode) (p : Parser)
    (hm : isModifierKeyword p.peek.kind = true)
    (hcase : isCaseKeyword p.consume.2.peek.kind = true) :
    parseStatementSwitch E fuel rec l a p =
      parseCaseStatement E fuel rec l a p.consume.1 p.consume.2.consume.1
        p.consume.2.consume.2 := by
  unfold parseStatementSwitch
  generalize p.peek.kind = k at hm
  generalize hk2 : p.consume.2.peek.kind = k2 at hcase
  cases k <;> first
    | exact absurd hm (by decide)
    | (cases k2 <;> first | exact absurd hcase (by decide) | simp only [hk2])

/-- On `if` the switch calls `parseConditionalStatement` with the empty
modifier. -/
theorem parseStatementSwitch_if (E : ParserEnv) (fuel : Nat)
    (rec : StatementParser) (l : Option NamedLabelSyntax) (a : List SyntaxNode) (p : Parser)
    (hif : p.peek.kind = TokenKind.IfKeyword) :
    parseStatementSwitch E fuel rec l a p =
      parseConditionalStatement E rec l a Token.empty p := by
  unfold parseStatementSwitch
  simp only [hif]

/-- On a case keyword the switch consumes it and calls `parseCaseStatement`
with the empty modifier and that keyword. -/
theorem parseStatementSwitch_case (E : ParserEnv) (fuel : Nat)
    (rec : StatementParser) (l : Option NamedLabelSyntax) (a : List SyntaxNode) (p : Parser)
    (hcase : isCaseKeyword p.peek.kind = true) :
    parseStatementSwitch E fuel rec l a p =
      parseCaseStatement E fuel rec l a Token.empty p.consume.1 p.consume.2 := by
  unfold parseStatementSwitch
  generalize p.peek.kind = k at hcase
  cases k <;> first | exact absurd hcase (by decide) | rfl

end Parser

/-- C15: under the assumptions of termination and with more fuel than tokens,
`parseStatement` returns a statement such that, for the first token after the
label and the attributes: if it is `unique`, `unique0` or `priority` and the
next token is `if`, the statement is a conditional statement whose modifier is
that token and whose keyword is the `if`; if the next token is `case`, `casex`
or `casez`, it is a case statement with that modifier and that case keyword;
if the first token is `if`, it is a conditional statement with the empty
modifier; if it is a case keyword, it is a case statement with the empty
modifier and that keyword. -/
theorem parseStatement_modifier (E : ParserEnv) (hE : E.WellBehaved) (fuel : Nat)
    (p : Parser) (hp : p.tokens.length ≤ fuel) :
    ∃ s q, Parser.parseStatement E (fuel + 1) p = Except.ok (s, q) ∧
      (isModifierKeyword (statementStart E p).peek.kind = true →
        (statementStart E p).consume.2.peek.kind = TokenKind.IfKeyword →
        s.kind = SyntaxKind.ConditionalStatement ∧
        s.uniqueOrPriority? = some (statementStart E p).peek ∧
        s.keyword? = some (statementStart E p).consume.2.peek) ∧
      (isModifierKeyword (statementStart E p).peek.kind = true →
        isCaseKeyword (statementStart E p).consume.2.peek.kind = true →
        s.kind = SyntaxKind.CaseStatement ∧
        s.uniqueOrPriority? = some (statementStart E p).peek ∧
        s.keyword? = some (statementStart E p).consume.2.peek) ∧
      ((statementStart E p).peek.kind = TokenKind.IfKeyword →
        s.kind = SyntaxKind.ConditionalStatement ∧
        s.uniqueOrPriority? = some Token.empty ∧
        s.keyword? = some (statementStart E p).peek) ∧
      (isCaseKeyword (statementStart E p).peek.kind = true →
        s.kind = SyntaxKind.CaseStatement ∧
        s.uniqueOrPriority? = some Token.empty ∧
        s.keyword? = some (statementStart E p).peek) := by
  obtain ⟨s, q, hq, -, -⟩ := parseStatement_terminates hE fuel p hp
  refine ⟨s, q, hq, ?_, ?_, ?_, ?_⟩
  · intro hm hif
    rw [Parser.parseStatement_succ, Parser.parseStatementSwitch_modifier_if E _ _ _ _ _ hm hif]
      at hq
    obtain ⟨op, pr, cp, st, el, rfl⟩ := Parser.parseConditionalStatement_shape hq
    exact ⟨rfl, rfl, congrArg (fun t : Token × Parser => some t.1)
      (Parser.expect_of_kind E _ _ hif)⟩
  · intro hm hcase
    rw [Parser.parseStatement_succ,
      Parser.parseStatementSwitch_modifier_case E _ _ _ _ _ hm hcase] at hq
    obtain ⟨op, ce, cp, mi, items, ec, q0, rfl, -⟩ := Parser.parseCaseStatement_shape hq
    exact ⟨rfl, rfl, rfl⟩
  · intro hif
    rw [Parser.parseStatement_succ, Parser.parseStatementSwitch_if E _ _ _ _ _ hif] at hq
    obtain ⟨op, pr, cp, st, el, rfl⟩ := Parser.parseConditionalStatement_shape hq
    exact ⟨rfl, rfl, congrArg (fun t : Token × Parser => some t.1)
      (Parser.expect_of_kind E _ _ hif)⟩
  · intro hcase
    rw [Parser.parseStatement_succ, Parser.parseStatementSwitch_case E _ _ _ _ _ hcase] at hq
    obtain ⟨op, ce, cp, mi, items, ec, q0, rfl, -⟩ := Parser.parseCaseStatement_shape hq
    exact ⟨rfl, rfl, rfl⟩

/-- C15 at concrete streams: `unique if (1) begin end` gives a conditional
statement whose modifier is the `unique` token; `priority casez (t) endcase`
gives a case statement with the `priority` modifier and the `casez` keyword;
`if (1) begin end` gives a conditional statement with the empty modifier. -/
theorem parseStatement_modifier_witness :
    (∃ s q, Parser.parseStatement fixtureEnv 8
        (parserOf (TokenKind.UniqueKeyword :: scenarioS4)) = Except.ok (s, q) ∧
      s.kind = SyntaxKind.ConditionalStatement ∧
      s.uniqueOrPriority? = some (tokenAt TokenKind.UniqueKeyword 0) ∧
      s.keyword? = some (tokenAt TokenKind.IfKeyword 1)) ∧
    (∃ s q, Parser.parseStatement fixtureEnv 7
        (parserOf [TokenKind.PriorityKeyword, TokenKind.CaseZKeyword,
          TokenKind.OpenParenthesis, TokenKind.Identifier, TokenKind.CloseParenthesis,
          TokenKind.EndCaseKeyword]) = Except.ok (s, q) ∧
      s.kind = SyntaxKind.CaseStatement ∧
      s.uniqueOrPriority? = some (tokenAt TokenKind.PriorityKeyword 0) ∧
      s.keyword? = some (tokenAt TokenKind.CaseZKeyword 1)) ∧
    (∃ s q, Parser.parseStatement fixtureEnv 7 (parserOf scenarioS4) = Except.ok (s, q) ∧
      s.kind = SyntaxKind.ConditionalStatement ∧
      s.uniqueOrPriority? = some Token.empty ∧
      s.keyword? = some (tokenAt TokenKind.IfKeyword 0)) := by
  refine ⟨?_, ?_, ?_⟩
  · obtain ⟨s, q, h, h1, -, -, -⟩ :=
      parseStatement_modifier fixtureEnv fixtureEnv_wellBehaved 7
        (parserOf (TokenKind.UniqueKeyword :: scenarioS4)) (by decide)
    exact ⟨s, q, h, h1 (by decide) (by decide)⟩
  · obtain ⟨s, q, h, -, h2, -, -⟩ :=
      parseStatement_modifier fixtureEnv fixtureEnv_wellBehaved 6
        (parserOf [TokenKind.PriorityKeyword, TokenKind.CaseZKeyword,
          TokenKind.OpenParenthesis, TokenKind.Identifier, TokenKind.CloseParenthesis,
          TokenKind.EndCaseKeyword]) (by decide)
    exact ⟨s, q, h, h2 (by decide) (by decide)⟩
  · obtain ⟨s, q, h, -, -, h3, -⟩ :=
      parseStatement_modifier fixtureEnv fixtureEnv_wellBehaved 6 (parserOf scenarioS4)
        (by decide)
    exact ⟨s, q, h, h3 (by decide)⟩

/-! ## requireValidBitWidth on a value -/

/-- C27: `requireValidBitWidth(value)` returns the width `w` iff the value
converts to a bit width `w` and `w <= MAX_BITS`, then without a diagnostic; in
every other case it returns absent and its whole output is one
`ValueExceedsMaxBitWidth`, at the given range, carrying the maximum. -/
theorem requireValidBitWidthValue_spec (ctx : BindContext) (v : SVInt) (r : SourceRange) :
    (∀ w, (ctx.requireValidBitWidthValue v r).1 = some w ↔
        (v.as_bitwidth = some w ∧ w ≤ SVInt.MAX_BITS)) ∧
      ((ctx.requireValidBitWidthValue v r).1 ≠ none →
        (ctx.requireValidBitWidthValue v r).2 = []) ∧
      ((ctx.requireValidBitWidthValue v r).1 = none →
        (ctx.requireValidBitWidthValue v r).2 =
          [⟨DiagCode.ValueExceedsMaxBitWidth, DiagSite.range r,
            [DiagArg.int (SVInt.MAX_BITS : Int)]⟩]) := by
  cases hb : v.as_bitwidth with
  | none =>
    have hres : ctx.requireValidBitWidthValue v r =
        (none, [⟨DiagCode.ValueExceedsMaxBitWidth, DiagSite.range r,
          [DiagArg.int (SVInt.MAX_BITS : Int)]⟩]) := by
      simp [BindContext.requireValidBitWidthValue, hb, BindContext.addDiag]
    rw [hres]
    simp
  | some w0 =>
    by_cases hw : w0 ≤ SVInt.MAX_BITS
    · have hres : ctx.requireValidBitWidthValue v r = (some w0, []) := by
        simp [BindContext.requireValidBitWidthValue, hb, BindContext.requireValidBitWidth,
          not_lt.2 hw]
      rw [hres]
      refine ⟨?_, fun _ => rfl, fun h => absurd h (by simp)⟩
      intro w
      constructor
      · intro h
        have hw0 : w0 = w := Option.some.inj h
        exact ⟨congrArg some hw0, hw0 ▸ hw⟩
      · intro h
        exact h.1
    · have hres : ctx.requireValidBitWidthValue v r =
          (none, [⟨DiagCode.ValueExceedsMaxBitWidth, DiagSite.range r,
            [DiagArg.int (SVInt.MAX_BITS : Int)]⟩]) := by
        simp [BindContext.requireValidBitWidthValue, hb, BindContext.requireValidBitWidth,
          not_le.1 hw, BindContext.addDiag]
      rw [hres]
      refine ⟨?_, fun h => absurd rfl h, fun _ => rfl⟩
      intro w
      constructor
      · intro h
        exact absurd h (by simp)
      · intro h
        have hw0 : w0 = w := Option.some.inj h.1
        exact absurd (hw0 ▸ h.2) hw

/-- C27 at concrete inputs: the 32-bit value 8 is a valid width, returned
without a diagnostic; the 32-bit value 16777216, one more than the maximum, is
rejected with one diagnostic; so is -1, which converts to no width. -/
theorem requireValidBitWidthValue_spec_witness :
    fixtureContext.requireValidBitWidthValue (SVInt.ofNat 32 8) (rangeAt 0 1) = (some 8, []) ∧
      fixtureContext.requireValidBitWidthValue (SVInt.ofNat 32 16777216) (rangeAt 0 1) =
        (none, [⟨DiagCode.ValueExceedsMaxBitWidth, DiagSite.range (rangeAt 0 1),
          [DiagArg.int (SVInt.MAX_BITS : Int)]⟩]) ∧
      fixtureContext.requireValidBitWidthValue (SVInt.ofInt32 (-1)) (rangeAt 0 1) =
        (none, [⟨DiagCode.ValueExceedsMaxBitWidth, DiagSite.range (rangeAt 0 1),
          [DiagArg.int (SVInt.MAX_BITS : Int)]⟩]) :=
  ⟨Prod.ext
      (((requireValidBitWidthValue_spec fixtureContext (SVInt.ofNat 32 8)
        (rangeAt 0 1)).1 8).2 (by decide))
      ((requireValidBitWidthValue_spec fixtureContext (SVInt.ofNat 32 8)
        (rangeAt 0 1)).2.1 (by decide)),
    Prod.ext (by decide)
      ((requireValidBitWidthValue_spec fixtureContext (SVInt.ofNat 32 16777216)
        (rangeAt 0 1)).2.2 (by decide)),
    Prod.ext (by decide)
      ((requireValidBitWidthValue_spec fixtureContext (SVInt.ofInt32 (-1))
        (rangeAt 0 1)).2.2 (by decide))⟩

/-! ## The two overloads of evalPackedDimension -/

/-- The kind that `evalRangeDimension` leaves in a dimension: the kind it had,
or Associative, AbbreviatedRange or Range. -/
theorem evalRangeDimension_kind_cases (ctx : BindContext) (bind : Binder)
    (sel : SelectorSyntax) (res : EvaluatedDimension) :
    (ctx.evalRangeDimension bind sel res).1.kind = res.kind ∨
      (ctx.evalRangeDimension bind sel res).1.kind = DimensionKind.Associative ∨
      (ctx.evalRangeDimension bind sel res).1.kind = DimensionKind.AbbreviatedRange ∨
      (ctx.evalRangeDimension bind sel res).1.kind = DimensionKind.Range := by
  cases sel with
  | BitSelect e r =>
    simp only [BindContext.evalRangeDimension]
    split
    · exact Or.inr (Or.inl rfl)
    · split
      · exact Or.inl rfl
      · exact Or.inr (Or.inr (Or.inl rfl))
  | RangeSelect k l r rg =>
    cases k
    · simp only [BindContext.evalRangeDimension]
      split
      · exact Or.inl rfl
      · exact Or.inr (Or.inr (Or.inr rfl))
    · exact Or.inl rfl
    · exact Or.inl rfl

/-- C28: the two overloads of `evalPackedDimension` agree. For the same
selector, present or absent, the overload on an element select and the
overload on a variable dimension (whose specifier is the range specifier of
that selector, or no specifier when the selector is absent) return the same
optional range and emit diagnostics with the same codes in the same order; the
diagnostics differ at most in the source range of the node they are reported
at, and are the same when the two nodes have the same source range. -/
theorem evalPackedDimension_overloads_agree (ctx : BindContext) (bind : Binder)
    (selector : Option SelectorSyntax) (r1 r2 : SourceRange) :
    (ctx.evalPackedDimension bind
        ⟨selector.map DimensionSpecifierSyntax.RangeDimensionSpecifier, r1⟩).1 =
      (ctx.evalPackedDimensionOfSelect bind ⟨selector, r2⟩).1 ∧
    codesOf (ctx.evalPackedDimension bind
        ⟨selector.map DimensionSpecifierSyntax.RangeDimensionSpecifier, r1⟩).2 =
      codesOf (ctx.evalPackedDimensionOfSelect bind ⟨selector, r2⟩).2 ∧
    ctx.evalPackedDimension bind
        ⟨selector.map DimensionSpecifierSyntax.RangeDimensionSpecifier, r1⟩ =
      ctx.evalPackedDimensionOfSelect bind ⟨selector, r1⟩ := by
  cases selector with
  | none =>
    simp [BindContext.evalPackedDimension, BindContext.evalDimension,
      BindContext.evalPackedDimensionOfSelect, EvaluatedDimension.isRange,
      BindContext.addDiag, codesOf]
  | some sel =>
    have hkind := evalRangeDimension_kind_cases ctx bind sel {}
    simp only [BindContext.evalPackedDimension, BindContext.evalDimension,
      BindContext.evalPackedDimensionOfSelect, Option.map_some']
    generalize ctx.evalRangeDimension bind sel {} = x at hkind
    obtain ⟨res, ds⟩ := x
    simp only at hkind
    rcases hkind with h | h | h | h <;>
      simp [h, EvaluatedDimension.isRange, BindContext.addDiag, codesOf]

/-! ## A dimension whose size is not positive -/

/-- C30: for a dimension `[e]` whose expression is not a data type and
evaluates to an `int32_t` value `n <= 0`, `evalDimension` returns the default
dimension (kind Unknown, no range) and emits, after what binding `e` emitted,
exactly one diagnostic, `ValueMustBePositive` at the selector; this is so with
and without `requireRange`, so `DimensionRequiresConstRange` is not emitted;
`evalPackedDimension` returns absent with the same diagnostics. -/
theorem evalDimension_nonpositive (ctx : BindContext) (bind : Binder)
    (e : ExpressionSyntax) (rs r : SourceRange) (n : Int)
    (hk : (bind e (ctx.resetFlags bitSelectFlags)).1.kind ≠ ExpressionKind.DataType)
    (hv : (ctx.evalInteger (bind e (ctx.resetFlags bitSelectFlags)).1).1 = some n)
    (hn : n ≤ 0) :
    (∀ requireRange : Bool,
      ctx.evalDimension bind
          ⟨some (DimensionSpecifierSyntax.RangeDimensionSpecifier
            (SelectorSyntax.BitSelect e rs)), r⟩ requireRange =
        ({ kind := DimensionKind.Unknown },
          (bind e (ctx.resetFlags bitSelectFlags)).2 ++
            [⟨DiagCode.ValueMustBePositive, DiagSite.range rs, []⟩])) ∧
      ctx.evalPackedDimension bind
          ⟨some (DimensionSpecifierSyntax.RangeDimensionSpecifier
            (SelectorSyntax.BitSelect e rs)), r⟩ =
        (none,
          (bind e (ctx.resetFlags bitSelectFlags)).2 ++
            [⟨DiagCode.ValueMustBePositive, DiagSite.range rs, []⟩]) := by
  have hd := (evalInteger_some ctx _ n hv).1
  unfold bitSelectFlags at hk hv hd ⊢
  have hsel : ctx.evalRangeDimension bind (SelectorSyntax.BitSelect e rs) {} =
      ({ kind := DimensionKind.Unknown },
        (bind e (ctx.resetFlags (BindFlags.Constant ||| BindFlags.AllowDataType))).2 ++
          [⟨DiagCode.ValueMustBePositive, DiagSite.range rs, []⟩]) := by
    simp [BindContext.evalRangeDimension, hk, hv, hd, requireGtZero_nonpos ctx n _ hn,
      SelectorSyntax.sourceRange]
  have hdim : ∀ requireRange : Bool,
      ctx.evalDimension bind
          ⟨some (DimensionSpecifierSyntax.RangeDimensionSpecifier
            (SelectorSyntax.BitSelect e rs)), r⟩ requireRange =
        ({ kind := DimensionKind.Unknown },
          (bind e (ctx.resetFlags (BindFlags.Constant ||| BindFlags.AllowDataType))).2 ++
            [⟨DiagCode.ValueMustBePositive, DiagSite.range rs, []⟩]) := by
    intro requireRange
    simp [BindContext.evalDimension, hsel, EvaluatedDimension.isRange]
  refine ⟨hdim, ?_⟩
  simp [BindContext.evalPackedDimension, hdim, EvaluatedDimension.isRange]

/-- C30 at concrete inputs: the dimensions `[0]` and `[-1]`, with
`requireRange` set, give kind Unknown and the single diagnostic
`ValueMustBePositive`; `evalPackedDimension` returns absent. -/
theorem evalDimension_nonpositive_witness :
    fixtureContext.evalDimension fixtureBinder (dimBitSelect 100) true =
        ({ kind := DimensionKind.Unknown },
          [⟨DiagCode.ValueMustBePositive, DiagSite.range (rangeAt 1 2), []⟩]) ∧
      fixtureContext.evalPackedDimension fixtureBinder (dimBitSelect 99) =
        (none, [⟨DiagCode.ValueMustBePositive, DiagSite.range (rangeAt 1 2), []⟩]) :=
  ⟨(evalDimension_nonpositive fixtureContext fixtureBinder ⟨100, rangeAt 1 2⟩ (rangeAt 1 2)
      (rangeAt 0 3) 0 (by decide) (by decide) (by decide)).1 true,
    (evalDimension_nonpositive fixtureContext fixtureBinder ⟨99, rangeAt 1 2⟩ (rangeAt 1 2)
      (rangeAt 0 3) (-1) (by decide) (by decide) (by decide)).2⟩

/-! ## The kind of the statement each method returns -/

namespace Parser

/-- `parseConditionalStatement` returns a conditional statement. -/
theorem parseConditionalStatement_kind {E : ParserEnv} {rec : StatementParser}
    {l : Option NamedLabelSyntax} {a : List SyntaxNode} {m : Token} {p q : Parser}
    {s : StatementSyntax}
    (h : parseConditionalStatement E rec l a m p = Except.ok (s, q)) :
    s.kind = SyntaxKind.ConditionalStatement := by
  obtain ⟨_, _, _, _, _, rfl⟩ := parseConditionalStatement_shape h
  rfl

/-- `parseCaseStatement` returns a case statement. -/
theorem parseCaseStatement_kind {E : ParserEnv} {rec : StatementParser} {fuel : Nat}
    {l : Option NamedLabelSyntax} {a : List SyntaxNode} {m caseKeyword : Token}
    {p q : Parser} {s : StatementSyntax}
    (h : parseCaseStatement E fuel rec l a m caseKeyword p = Except.ok (s, q)) :
    s.kind = SyntaxKind.CaseStatement := by
  obtain ⟨_, _, _, _, _, _, _, rfl, -⟩ := parseCaseStatement_shape h
  rfl

/-- `parseLoopStatement` returns a loop statement. -/
theorem parseLoopStatement_kind {E : ParserEnv} {rec : StatementParser}
    {l : Option NamedLabelSyntax} {a : List SyntaxNode} {p q : Parser} {s : StatementSyntax}
    (h : parseLoopStatement E rec l a p = Except.ok (s, q)) :
    s.kind = SyntaxKind.LoopStatement := by
  simp only [parseLoopStatement] at h
  obtain ⟨_, -, h⟩ := bind_ok_inv h
  cases h
  rfl

/-- `parseDoWhileStatement` returns a do-while statement. -/
theorem parseDoWhileStatement_kind {E : ParserEnv} {rec : StatementParser}
    {l : Option NamedLabelSyntax} {a : List SyntaxNode} {p q : Parser} {s : StatementSyntax}
    (h : parseDoWhileStatement E rec l a p = Except.ok (s, q)) :
    s.kind = SyntaxKind.DoWhileStatement := by
  simp only [parseDoWhileStatement] at h
  obtain ⟨_, -, h⟩ := bind_ok_inv h
  cases h
  rfl

/-- `parseForLoopStatement` returns a for-loop statement. -/
theorem parseForLoopStatement_kind {E : ParserEnv} {rec : StatementParser}
    {l : Option NamedLabelSyntax} {a : List SyntaxNode} {p q : Parser} {s : StatementSyntax}
    (h : parseForLoopStatement E rec l a p = Except.ok (s, q)) :
    s.kind = SyntaxKind.ForLoopStatement := by
  simp only [parseForLoopStatement] at h
  obtain ⟨_, -, h⟩ := bind_ok_inv h
  cases h
  rfl

/-- `parseForeachLoopStatement` returns a foreach-loop statement. -/
theorem parseForeachLoopStatement_kind {E : ParserEnv} {rec : StatementParser}
    {l : Option NamedLabelSyntax} {a : List SyntaxNode} {p q : Parser} {s : StatementSyntax}
    (h : parseForeachLoopStatement E rec l a p = Except.ok (s, q)) :
    s.kind = SyntaxKind.ForeachLoopStatement := by
  simp only [parseForeachLoopStatement] at h
  obtain ⟨_, -, h⟩ := bind_ok_inv h
  cases h
  rfl

/-- `parseReturnStatement` returns a return statement. -/
theorem parseReturnStatement_kind (E : ParserEnv) (l : Option NamedLabelSyntax)
    (a : List SyntaxNode) (p : Parser) :
    (parseReturnStatement E l a p).1.kind = SyntaxKind.ReturnStatement := by
  simp only [parseReturnStatement]
  split <;> rfl

/-- `parseJumpStatement` returns a jump statement. -/
theorem parseJumpStatement_kind (E : ParserEnv) (l : Option NamedLabelSyntax)
    (a : List SyntaxNode) (p : Parser) :
    (parseJumpStatement E l a p).1.kind = SyntaxKind.JumpStatement := rfl

/-- `parseProceduralAssignStatement` returns a statement of the kind given. -/
theorem parseProceduralAssignStatement_kind (E : ParserEnv) (l : Option NamedLabelSyntax)
    (a : List SyntaxNode) (k : SyntaxKind) (p : Parser) :
    (parseProceduralAssignStatement E l a k p).1.kind = k := rfl

/-- `parseProceduralDeassignStatement` returns a statement of the kind given. -/
theorem parseProceduralDeassignStatement_kind (E : ParserEnv) (l : Option NamedLabelSyntax)
    (a : List SyntaxNode) (k : SyntaxKind) (p : Parser) :
    (parseProceduralDeassignStatement E l a k p).1.kind = k := rfl

/-- `parseDisableStatement` returns a disable or a disable-fork statement. -/
theorem parseDisableStatement_kind (E : ParserEnv) (l : Option NamedLabelSyntax)
    (a : List SyntaxNode) (p : Parser) :
    (parseDisableStatement E l a p).1.kind = SyntaxKind.DisableStatement ∨
      (parseDisableStatement E l a p).1.kind = SyntaxKind.DisableForkStatement := by
  simp only [parseDisableStatement]
  split
  · exact Or.inr rfl
  · exact Or.inl rfl

/-- `parseStatementRest` returns an expression statement or an empty one. -/
theorem parseStatementRest_kind (E : ParserEnv) (l : Option NamedLabelSyntax)
    (a : List SyntaxNode) (p : Parser) :
    (parseStatementRest E l a p).1.kind = SyntaxKind.ExpressionStatement ∨
      (parseStatementRest E l a p).1.kind = SyntaxKind.EmptyStatement := by
  unfold parseStatementRest
  split
  · exact Or.inl rfl
  · exact Or.inr rfl

/-- `parseWaitStatement` returns a wait or a wait-fork statement. -/
theorem parseWaitStatement_kind {E : ParserEnv} {rec : StatementParser}
    {l : Option NamedLabelSyntax} {a : List SyntaxNode} {p q : Parser} {s : StatementSyntax}
    (h : parseWaitStatement E rec l a p = Except.ok (s, q)) :
    s.kind = SyntaxKind.WaitStatement ∨ s.kind = SyntaxKind.WaitForkStatement := by
  simp only [parseWaitStatement] at h
  split at h
  · cases h
    exact Or.inr rfl
  · obtain ⟨_, -, h⟩ := bind_ok_inv h
    cases h
    exact Or.inl rfl

/-- `parseWaitOrderStatement` returns a wait-order statement. -/
theorem parseWaitOrderStatement_kind {E : ParserEnv} {rec : StatementParser}
    {l : Option NamedLabelSyntax} {a : List SyntaxNode} {p q : Parser} {s : StatementSyntax}
    (h : parseWaitOrderStatement E rec l a p = Except.ok (s, q)) :
    s.kind = SyntaxKind.WaitOrderStatement := by
  simp only [parseWaitOrderStatement] at h
  obtain ⟨_, -, h⟩ := bind_ok_inv h
  cases h
  rfl

/-- `parseRandCaseStatement` returns a randcase statement. -/
theorem parseRandCaseStatement_kind {E : ParserEnv} {rec : StatementParser} {fuel : Nat}
    {l : Option NamedLabelSyntax} {a : List SyntaxNode} {p q : Parser} {s : StatementSyntax}
    (h : parseRandCaseStatement E fuel rec l a p = Except.ok (s, q)) :
    s.kind = SyntaxKind.RandCaseStatement := by
  simp only [parseRandCaseStatement] at h
  obtain ⟨_, -, h⟩ := bind_ok_inv h
  cases h
  rfl

end Parser

/-! ## TransparentMemberSymbol -/

/-- C26: for every symbol `s`, the transparent member wrapping `s` has kind
`TransparentMember` (so `isKind` accepts it), the name and the location of
`s`, and its `wrapped` reference is the reference it was given: it refers to
the object at the address of `s`, not to a copy. -/
theorem transparentMember_wraps (s : SymbolRef) :
    (TransparentMemberSymbol.new s).toSymbol.kind = SymbolKind.TransparentMember ∧
      TransparentMemberSymbol.isKind (TransparentMemberSymbol.new s).toSymbol.kind = true ∧
      (TransparentMemberSymbol.new s).toSymbol.name = s.target.name ∧
      (TransparentMemberSymbol.new s).toSymbol.location = s.target.location ∧
      (TransparentMemberSymbol.new s).wrapped = s ∧
      (TransparentMemberSymbol.new s).wrapped.address = s.address :=
  ⟨rfl, rfl, rfl, rfl, rfl, rfl⟩

/-! ## parseStatement: return, break, continue -/

/-- C25 fails as stated: `return ;` gives a node of class
`ReturnStatementSyntax`, of kind ReturnStatement, while `break ;` gives a node
of class `JumpStatementSyntax`, of kind JumpStatement. -/
theorem parseStatement_return_kind :
    Parser.parseStatement fixtureEnv 1
        (parserOf [TokenKind.ReturnKeyword, TokenKind.Semicolon]) =
      Except.ok (StatementSyntax.ReturnStatement none [] (tokenAt TokenKind.ReturnKeyword 0)
        none (tokenAt TokenKind.Semicolon 1), ⟨[], ⟨1, 2⟩, []⟩) ∧
    (StatementSyntax.ReturnStatement none [] (tokenAt TokenKind.ReturnKeyword 0)
        none (tokenAt TokenKind.Semicolon 1)).kind = SyntaxKind.ReturnStatement ∧
    Parser.parseStatement fixtureEnv 1
        (parserOf [TokenKind.BreakKeyword, TokenKind.Semicolon]) =
      Except.ok (StatementSyntax.JumpStatement none [] (tokenAt TokenKind.BreakKeyword 0)
        (tokenAt TokenKind.Semicolon 1), ⟨[], ⟨1, 2⟩, []⟩) ∧
    (StatementSyntax.JumpStatement none [] (tokenAt TokenKind.BreakKeyword 0)
        (tokenAt TokenKind.Semicolon 1)).kind = SyntaxKind.JumpStatement :=
  ⟨rfl, rfl, rfl, rfl⟩

/-- C25, amended: a statement whose first token after the label and the
attributes is `break` or `continue` is what `parseJumpStatement` returns, a
jump statement; a statement whose first token is `return` is what
`parseReturnStatement` returns, a return statement, which is another kind of
node. No nested statement is parsed, so any fuel will do. -/
theorem parseStatement_jump (E : ParserEnv) (fuel : Nat) (p : Parser) :
    ((statementStart E p).peek.kind = TokenKind.ReturnKeyword →
        Parser.parseStatement E (fuel + 1) p =
          Except.ok (Parser.parseReturnStatement E (Parser.parseLabel p).1
            (E.parseAttributes (Parser.parseLabel p).2).1 (statementStart E p)) ∧
        (Parser.parseReturnStatement E (Parser.parseLabel p).1
          (E.parseAttributes (Parser.parseLabel p).2).1 (statementStart E p)).1.kind =
            SyntaxKind.ReturnStatement) ∧
      ((statementStart E p).peek.kind = TokenKind.BreakKeyword ∨
          (statementStart E p).peek.kind = TokenKind.ContinueKeyword →
        Parser.parseStatement E (fuel + 1) p =
          Except.ok (Parser.parseJumpStatement E (Parser.parseLabel p).1
            (E.parseAttributes (Parser.parseLabel p).2).1 (statementStart E p)) ∧
        (Parser.parseJumpStatement E (Parser.parseLabel p).1
          (E.parseAttributes (Parser.parseLabel p).2).1 (statementStart E p)).1.kind =
            SyntaxKind.JumpStatement) := by
  constructor
  · intro hk
    refine ⟨?_, Parser.parseReturnStatement_kind E _ _ _⟩
    rw [Parser.parseStatement_succ]
    simp only [Parser.parseStatementSwitch, hk]
    rfl
  · intro hk
    refine ⟨?_, rfl⟩
    rw [Parser.parseStatement_succ]
    rcases hk with hk | hk <;>
    · simp only [Parser.parseStatementSwitch, hk]
      rfl

/-- C25 (amended) at concrete streams: `return x ;` gives a return statement,
`continue ;` a jump statement. -/
theorem parseStatement_jump_witness :
    (Parser.parseStatement fixtureEnv 1
        (parserOf [TokenKind.ReturnKeyword, TokenKind.Identifier, TokenKind.Semicolon]) =
      Except.ok (StatementSyntax.ReturnStatement none [] (tokenAt TokenKind.ReturnKeyword 0)
        (some ⟨1, [tokenAt TokenKind.Identifier 1]⟩) (tokenAt TokenKind.Semicolon 2),
        ⟨[], ⟨1, 3⟩, []⟩)) ∧
    (Parser.parseStatement fixtureEnv 1
        (parserOf [TokenKind.ContinueKeyword, TokenKind.Semicolon]) =
      Except.ok (StatementSyntax.JumpStatement none [] (tokenAt TokenKind.ContinueKeyword 0)
        (tokenAt TokenKind.Semicolon 1), ⟨[], ⟨1, 2⟩, []⟩)) :=
  ⟨((parseStatement_jump fixtureEnv 0
      (parserOf [TokenKind.ReturnKeyword, TokenKind.Identifier, TokenKind.Semicolon])).1
        rfl).1.trans rfl,
    ((parseStatement_jump fixtureEnv 0
      (parserOf [TokenKind.ContinueKeyword, TokenKind.Semicolon])).2 (Or.inr rfl)).1.trans
        rfl⟩

/-! ## Blocks -/

namespace Parser

/-- The token after the next one is the next token of the state after
`consume`. -/
theorem peekAt_one (p : Parser) : p.peekAt 1 = p.consume.2.peek := by
  obtain ⟨tokens, eof, diags⟩ := p
  cases tokens with
  | nil => rfl
  | cons t ts =>
    cases ts with
    | nil => rfl
    | cons u us => rfl

/-- The skipped tokens of the items after one more declaration. -/
theorem skippedOfItems_append_declaration (buffer : List BlockItemSyntax)
    (skipped : List Token) (node : SyntaxNode) :
    skippedOfItems (buffer ++ [BlockItemSyntax.declaration skipped node]) =
      skippedOfItems buffer ++ skipped := by
  simp [skippedOfItems, BlockItemSyntax.skippedTokens]

/-- The skipped tokens of the items after one more statement. -/
theorem skippedOfItems_append_statement (buffer : List BlockItemSyntax)
    (skipped : List Token) (stmt : StatementSyntax) :
    skippedOfItems (buffer ++ [BlockItemSyntax.statement skipped stmt]) =
      skippedOfItems buffer ++ skipped := by
  simp [skippedOfItems, BlockItemSyntax.skippedTokens]

/-- A round of the loop of `parseBlockItems` on a token that is no end keyword,
not the end of the file, and cannot start a declaration or a statement: the
token is consumed and appended to the skipped tokens, the diagnostic is
reported unless the previous round skipped a token too, and the items are left
as they are. -/
theorem parseBlockItemsLoop_skip (E : ParserEnv) (rec : StatementParser) (fuel : Nat)
    (buffer : List BlockItemSyntax) (skipped : List Token) (error : Bool) (p : Parser)
    (hend : E.isEndKeyword p.peek.kind = false) (heof : p.peek.kind ≠ TokenKind.EndOfFile)
    (hport : E.isPortDeclaration p = false) (hvar : E.isVariableDeclaration p = false)
    (hstmt : E.isPossibleStatement p.peek.kind = false) :
    parseBlockItemsLoop E rec (fuel + 1) buffer skipped error p =
      parseBlockItemsLoop E rec fuel buffer (skipped ++ [p.peek]) true
        (if error = true then p.consume.2
          else p.consume.2.addError DiagCode.InvalidTokenInSequentialBlock
            p.peek.location) := by
  cases error <;> simp [parseBlockItemsLoop, hend, heof, hport, hvar, hstmt, consume]

/-- A round of the loop of `parseBlockItems` on a token that can start a
statement (and no declaration): the statement is parsed, the skipped tokens
collected so far are attached in front of it, in their order, and the buffer
of skipped tokens is empty again. -/
theorem parseBlockItemsLoop_statement (E : ParserEnv) (rec : StatementParser) (fuel : Nat)
    (buffer : List BlockItemSyntax) (skipped : List Token) (error : Bool) (p : Parser)
    (hend : E.isEndKeyword p.peek.kind = false) (heof : p.peek.kind ≠ TokenKind.EndOfFile)
    (hport : E.isPortDeclaration p = false) (hvar : E.isVariableDeclaration p = false)
    (hstmt : E.isPossibleStatement p.peek.kind = true) :
    parseBlockItemsLoop E rec (fuel + 1) buffer skipped error p =
      rec p >>= fun v =>
        parseBlockItemsLoop E rec fuel (buffer ++ [BlockItemSyntax.statement skipped v.1]) []
          false v.2 := by
  simp [parseBlockItemsLoop, hend, heof, hport, hvar, hstmt, prependSkippedToStatement]

/-- A round of the loop of `parseBlockItems` at a declaration: the declaration
is parsed and the skipped tokens collected so far are attached in front of
it. -/
theorem parseBlockItemsLoop_declaration (E : ParserEnv) (rec : StatementParser) (fuel : Nat)
    (buffer : List BlockItemSyntax) (skipped : List Token) (error : Bool) (p : Parser)
    (hend : E.isEndKeyword p.peek.kind = false) (heof : p.peek.kind ≠ TokenKind.EndOfFile) :
    (E.isPortDeclaration p = true →
      parseBlockItemsLoop E rec (fuel + 1) buffer skipped error p =
        parseBlockItemsLoop E rec fuel
          (buffer ++ [BlockItemSyntax.declaration skipped
            (E.parsePortDeclaration (E.parseAttributes p).1 (E.parseAttributes p).2).1]) []
          false (E.parsePortDeclaration (E.parseAttributes p).1 (E.parseAttributes p).2).2) ∧
    (E.isPortDeclaration p = false → E.isVariableDeclaration p = true →
      parseBlockItemsLoop E rec (fuel + 1) buffer skipped error p =
        parseBlockItemsLoop E rec fuel
          (buffer ++ [BlockItemSyntax.declaration skipped
            (E.parseVariableDeclaration (E.parseAttributes p).1 (E.parseAttributes p).2).1])
          [] false
          (E.parseVariableDeclaration (E.parseAttributes p).1 (E.parseAttributes p).2).2) := by
  constructor
  · intro hport
    simp [parseBlockItemsLoop, hend, heof, hport, prependSkippedToDeclaration]
  · intro hport hvar
    simp [parseBlockItemsLoop, hend, heof, hport, hvar, prependSkippedToDeclaration]

/-- No skipped token is lost in the loop of `parseBlockItems`: the skipped
tokens attached to the items returned, followed by those still in the buffer,
are those of the items and the buffer at the start, followed by the tokens the
loop consumed as skipped, in their order. -/
theorem parseBlockItemsLoop_skipped {E : ParserEnv} {rec : StatementParser} :
    ∀ (fuel : Nat) (buffer : List BlockItemSyntax) (skipped : List Token) (error : Bool)
      (p : Parser) (items : List BlockItemSyntax) (skipped2 : List Token) (q : Parser),
      parseBlockItemsLoop E rec fuel buffer skipped error p =
        Except.ok ((items, skipped2), q) →
      skippedOfItems items ++ skipped2 =
        skippedOfItems buffer ++ skipped ++ skippedInLoop E rec fuel error p := by
  intro fuel
  induction fuel with
  | zero =>
    intro buffer skipped error p items skipped2 q h
    cases h
  | succ f ih =>
    intro buffer skipped error p items skipped2 q h
    by_cases hcond : (!E.isEndKeyword p.peek.kind && p.peek.kind != TokenKind.EndOfFile) = true
    · by_cases hport : E.isPortDeclaration p = true
      · simp only [parseBlockItemsLoop, hcond, hport, if_true,
          prependSkippedToDeclaration] at h
        rw [ih _ _ _ _ _ _ _ h, skippedOfItems_append_declaration]
        simp [skippedInLoop, hcond, hport]
      · by_cases hvar : E.isVariableDeclaration p = true
        · simp only [parseBlockItemsLoop, hcond, hport, hvar, if_true, if_false,
            prependSkippedToDeclaration] at h
          rw [ih _ _ _ _ _ _ _ h, skippedOfItems_append_declaration]
          simp [skippedInLoop, hcond, hport, hvar]
        · by_cases hstmt : E.isPossibleStatement p.peek.kind = true
          · simp only [parseBlockItemsLoop, hcond, hport, hvar, hstmt, if_true, if_false,
              prependSkippedToStatement] at h
            obtain ⟨v, hv, hk⟩ := bind_ok_inv h
            rw [ih _ _ _ _ _ _ _ hk, skippedOfItems_append_statement]
            simp [skippedInLoop, hcond, hport, hvar, hstmt, hv]
          · simp only [parseBlockItemsLoop, hcond, hport, hvar, hstmt, if_true, if_false] at h
            rw [ih _ _ _ _ _ _ _ h]
            simp [skippedInLoop, hcond, hport, hvar, hstmt]
    · simp only [parseBlockItemsLoop, hcond, if_false] at h
      cases h
      simp [skippedInLoop, hcond]

/-- The loop of `parseBlockItems` runs to the end of the block: it returns at
an end keyword or at the end of the file. -/
theorem parseBlockItemsLoop_stops {E : ParserEnv} {rec : StatementParser} :
    ∀ (fuel : Nat) (buffer : List BlockItemSyntax) (skipped : List Token) (error : Bool)
      (p : Parser) (items : List BlockItemSyntax) (skipped2 : List Token) (q : Parser),
      parseBlockItemsLoop E rec fuel buffer skipped error p =
        Except.ok ((items, skipped2), q) →
      E.isEndKeyword q.peek.kind = true ∨ q.peek.kind = TokenKind.EndOfFile := by
  intro fuel
  induction fuel with
  | zero =>
    intro buffer skipped error p items skipped2 q h
    cases h
  | succ f ih =>
    intro buffer skipped error p items skipped2 q h
    by_cases hcond : (!E.isEndKeyword p.peek.kind && p.peek.kind != TokenKind.EndOfFile) = true
    · by_cases hport : E.isPortDeclaration p = true
      · simp only [parseBlockItemsLoop, hcond, hport, if_true] at h
        exact ih _ _ _ _ _ _ _ h
      · by_cases hvar : E.isVariableDeclaration p = true
        · simp only [parseBlockItemsLoop, hcond, hport, hvar, if_true, if_false] at h
          exact ih _ _ _ _ _ _ _ h
        · by_cases hstmt : E.isPossibleStatement p.peek.kind = true
          · simp only [parseBlockItemsLoop, hcond, hport, hvar, hstmt, if_true, if_false] at h
            obtain ⟨v, hv, hk⟩ := bind_ok_inv h
            exact ih _ _ _ _ _ _ _ hk
          · simp only [parseBlockItemsLoop, hcond, hport, hvar, hstmt, if_true, if_false] at h
            exact ih _ _ _ _ _ _ _ h
    · simp only [parseBlockItemsLoop, hcond, if_false] at h
      cases h
      by_cases hend : E.isEndKeyword p.peek.kind = true
      · exact Or.inl hend
      · right
        by_contra hne
        exact hcond (by simp [hend, hne])

end Parser

namespace Parser

/-- The shape of what `parseBlockItems` returns: the items and the skipped
tokens left by the loop, and the end token taken at the state the loop
stopped in. For a parallel block any of the three join keywords is consumed
as it is; in every other case the end keyword is expected. The skipped tokens
left are put in front of the end token. -/
theorem parseBlockItems_shape {E : ParserEnv} {rec : StatementParser} {fuel : Nat}
    {endKind : TokenKind} {p q : Parser} {items : List BlockItemSyntax} {endToken : Token}
    (h : parseBlockItems E fuel rec endKind p = Except.ok ((items, endToken), q)) :
    ∃ (skipped : List Token) (q0 : Parser),
      parseBlockItemsLoop E rec fuel [] [] false p = Except.ok ((items, skipped), q0) ∧
      ((endKind = TokenKind.JoinKeyword ∧
          (q0.peek.kind = TokenKind.JoinKeyword ∨ q0.peek.kind = TokenKind.JoinAnyKeyword ∨
            q0.peek.kind = TokenKind.JoinNoneKeyword) ∧
          endToken = (prependSkippedTokens q0.peek skipped).1 ∧ q = q0.consume.2) ∨
        ((endKind ≠ TokenKind.JoinKeyword ∨
            (q0.peek.kind ≠ TokenKind.JoinKeyword ∧ q0.peek.kind ≠ TokenKind.JoinAnyKeyword ∧
              q0.peek.kind ≠ TokenKind.JoinNoneKeyword)) ∧
          endToken = (prependSkippedTokens (q0.expect E endKind).1 skipped).1 ∧
          q = (q0.expect E endKind).2)) := by
  simp only [parseBlockItems] at h
  obtain ⟨v, hv, hk⟩ := bind_ok_inv h
  obtain ⟨⟨items0, skipped⟩, q0⟩ := v
  refine ⟨skipped, q0, ?_, ?_⟩
  · have hi : items0 = items := by
      simp only [pure, Except.pure, Except.ok.injEq, Prod.mk.injEq] at hk
      exact hk.1.1
    rw [← hi]
    exact hv
  · by_cases hj : endKind = TokenKind.JoinKeyword
    · subst hj
      simp only [beq_self_eq_true, if_true, pure, Except.pure, Except.ok.injEq,
        Prod.mk.injEq] at hk
      obtain ⟨⟨-, he⟩, hq⟩ := hk
      by_cases h1 : q0.peek.kind = TokenKind.JoinKeyword
      · left
        simp only [h1] at he hq
        exact ⟨rfl, Or.inl h1, he.symm, hq.symm⟩
      · by_cases h2 : q0.peek.kind = TokenKind.JoinAnyKeyword
        · left
          simp only [h2] at he hq
          exact ⟨rfl, Or.inr (Or.inl h2), he.symm, hq.symm⟩
        · by_cases h3 : q0.peek.kind = TokenKind.JoinNoneKeyword
          · left
            simp only [h3] at he hq
            exact ⟨rfl, Or.inr (Or.inr h3), he.symm, hq.symm⟩
          · right
            refine ⟨Or.inr ⟨h1, h2, h3⟩, ?_, ?_⟩
            · rw [← he]
              split <;> first | rfl | contradiction
            · rw [← hq]
              split <;> first | rfl | contradiction
    · right
      have hb : (endKind == TokenKind.JoinKeyword) = false := by simpa using hj
      simp only [hb, pure, Except.pure, Except.ok.injEq, Prod.mk.injEq] at hk
      obtain ⟨⟨-, he⟩, hq⟩ := hk
      exact ⟨Or.inl hj, he.symm, hq.symm⟩

/-- The shape of what `parseBlock` returns: a block statement of the kind
given, whose items and end token are those of `parseBlockItems`. -/
theorem parseBlock_shape {E : ParserEnv} {rec : StatementParser} {fuel : Nat}
    {blockKind : SyntaxKind} {endKind : TokenKind} {l : Option NamedLabelSyntax}
    {a : List SyntaxNode} {p q : Parser} {s : StatementSyntax}
    (h : parseBlock E fuel rec blockKind endKind l a p = Except.ok (s, q)) :
    ∃ (items : List BlockItemSyntax) (endToken : Token) (q1 : Parser),
      parseBlockItems E fuel rec endKind (parseNamedBlockClause E p.consume.2).2 =
        Except.ok ((items, endToken), q1) ∧
      s = StatementSyntax.BlockStatement blockKind l a p.peek
        (parseNamedBlockClause E p.consume.2).1 items endToken
        (parseNamedBlockClause E q1).1 ∧
      q = (parseNamedBlockClause E q1).2 := by
  simp only [parseBlock] at h
  obtain ⟨v, hv, hk⟩ := bind_ok_inv h
  obtain ⟨⟨items, endToken⟩, q1⟩ := v
  cases hk
  exact ⟨items, endToken, q1, hv, rfl, rfl⟩

end Parser

/-- C22: under the assumptions of termination and with more fuel than tokens,
`parseStatement` returns a statement such that, for the first token after the
label and the attributes: if it is `begin`, the statement is a sequential
block; with `q0` the state in which the item loop stopped, its end token is
the next token of `q0` when that is `end`, and otherwise a missing-token
placeholder of kind `end`. If it is `fork`, the statement is a parallel block
whose end token is the next token of `q0` when that is `join`, `join_any` or
`join_none`, and otherwise a placeholder of kind `join`. In both cases the
skipped tokens left by the loop are put in front of the end token. When the end
token is taken from the stream, the state goes from `q0` to the end-name
clause by `consume` alone, so no diagnostic is reported for it. -/
theorem parseStatement_block (E : ParserEnv) (hE : E.WellBehaved) (fuel : Nat)
    (p : Parser) (hp : p.tokens.length ≤ fuel) :
    ∃ s q, Parser.parseStatement E (fuel + 1) p = Except.ok (s, q) ∧
      ((statementStart E p).peek.kind = TokenKind.BeginKeyword →
        s.kind = SyntaxKind.SequentialBlockStatement ∧
        ∃ (skipped : List Token) (q0 : Parser),
          Parser.parseBlockItemsLoop E (Parser.parseStatement E fuel) fuel [] [] false
              (Parser.parseNamedBlockClause E (statementStart E p).consume.2).2 =
            Except.ok ((s.blockItems, skipped), q0) ∧
          (q0.peek.kind = TokenKind.EndKeyword →
            s.blockEnd? = some (Parser.prependSkippedTokens q0.peek skipped).1 ∧
            q = (Parser.parseNamedBlockClause E q0.consume.2).2) ∧
          (q0.peek.kind ≠ TokenKind.EndKeyword →
            s.blockEnd? = some (Parser.prependSkippedTokens
              (Token.createMissing TokenKind.EndKeyword q0.peek.location) skipped).1)) ∧
      ((statementStart E p).peek.kind = TokenKind.ForkKeyword →
        s.kind = SyntaxKind.ParallelBlockStatement ∧
        ∃ (skipped : List Token) (q0 : Parser),
          Parser.parseBlockItemsLoop E (Parser.parseStatement E fuel) fuel [] [] false
              (Parser.parseNamedBlockClause E (statementStart E p).consume.2).2 =
            Except.ok ((s.blockItems, skipped), q0) ∧
          (q0.peek.kind = TokenKind.JoinKeyword ∨ q0.peek.kind = TokenKind.JoinAnyKeyword ∨
              q0.peek.kind = TokenKind.JoinNoneKeyword →
            s.blockEnd? = some (Parser.prependSkippedTokens q0.peek skipped).1 ∧
            q = (Parser.parseNamedBlockClause E q0.consume.2).2) ∧
          (q0.peek.kind ≠ TokenKind.JoinKeyword → q0.peek.kind ≠ TokenKind.JoinAnyKeyword →
              q0.peek.kind ≠ TokenKind.JoinNoneKeyword →
            s.blockEnd? = some (Parser.prependSkippedTokens
              (Token.createMissing TokenKind.JoinKeyword q0.peek.location) skipped).1)) := by
  obtain ⟨s, q, hq, -, -⟩ := parseStatement_terminates hE fuel p hp
  refine ⟨s, q, hq, ?_, ?_⟩
  · intro hk
    rw [Parser.parseStatement_succ] at hq
    simp only [Parser.parseStatementSwitch, hk] at hq
    obtain ⟨items, endToken, q1, hbi, rfl, rfl⟩ := Parser.parseBlock_shape hq
    obtain ⟨skipped, q0, hloop, hcase⟩ := Parser.parseBlockItems_shape hbi
    refine ⟨rfl, skipped, q0, hloop, ?_, ?_⟩
    · intro hend
      rcases hcase with ⟨hj, -⟩ | ⟨-, he, hq1⟩
      · exact absurd hj (by decide)
      · rw [Parser.expect_of_kind E _ _ hend] at he hq1
        rw [he, hq1]
        exact ⟨rfl, rfl⟩
    · intro hend
      rcases hcase with ⟨hj, -⟩ | ⟨-, he, -⟩
      · exact absurd hj (by decide)
      · rw [Parser.expect_of_other E _ _ hend] at he
        rw [he]
        rfl
  · intro hk
    rw [Parser.parseStatement_succ] at hq
    simp only [Parser.parseStatementSwitch, hk] at hq
    obtain ⟨items, endToken, q1, hbi, rfl, rfl⟩ := Parser.parseBlock_shape hq
    obtain ⟨skipped, q0, hloop, hcase⟩ := Parser.parseBlockItems_shape hbi
    refine ⟨rfl, skipped, q0, hloop, ?_, ?_⟩
    · intro hjoin
      rcases hcase with ⟨-, -, he, hq1⟩ | ⟨hno, -⟩
      · rw [he, hq1]
        exact ⟨rfl, rfl⟩
      · rcases hno with hno | ⟨h1, h2, h3⟩
        · exact absurd rfl hno
        · rcases hjoin with h | h | h
          · exact absurd h h1
          · exact absurd h h2
          · exact absurd h h3
    · intro h1 h2 h3
      rcases hcase with ⟨-, hjoin, -⟩ | ⟨-, he, -⟩
      · rcases hjoin with h | h | h
        · exact absurd h h1
        · exact absurd h h2
        · exact absurd h h3
      · rw [Parser.expect_of_other E _ _ h1] at he
        rw [he]
        rfl

/-- C22 at concrete streams: `begin x ; end` gives a sequential block ended by
the `end` token; `fork x ; join_any` gives a parallel block ended by the
`join_any` token, with no diagnostic; `begin x ;` gives a sequential block
ended by a placeholder of kind `end`. -/
theorem parseStatement_block_witness :
    Parser.parseStatement fixtureEnv 5
        (parserOf [TokenKind.BeginKeyword, TokenKind.Identifier, TokenKind.Semicolon,
          TokenKind.EndKeyword]) =
      Except.ok (StatementSyntax.BlockStatement SyntaxKind.SequentialBlockStatement none []
          (tokenAt TokenKind.BeginKeyword 0) none
          [BlockItemSyntax.statement [] (StatementSyntax.ExpressionStatement none []
            ⟨1, [tokenAt TokenKind.Identifier 1]⟩ (tokenAt TokenKind.Semicolon 2))]
          (tokenAt TokenKind.EndKeyword 3) none,
        ⟨[], ⟨1, 4⟩, []⟩) ∧
    Parser.parseStatement fixtureEnv 5
        (parserOf [TokenKind.ForkKeyword, TokenKind.Identifier, TokenKind.Semicolon,
          TokenKind.JoinAnyKeyword]) =
      Except.ok (StatementSyntax.BlockStatement SyntaxKind.ParallelBlockStatement none []
          (tokenAt TokenKind.ForkKeyword 0) none
          [BlockItemSyntax.statement [] (StatementSyntax.ExpressionStatement none []
            ⟨1, [tokenAt TokenKind.Identifier 1]⟩ (tokenAt TokenKind.Semicolon 2))]
          (tokenAt TokenKind.JoinAnyKeyword 3) none,
        ⟨[], ⟨1, 4⟩, []⟩) ∧
    (∃ s q, Parser.parseStatement fixtureEnv 5
        (parserOf [TokenKind.BeginKeyword, TokenKind.Identifier, TokenKind.Semicolon]) =
          Except.ok (s, q) ∧
      s.kind = SyntaxKind.SequentialBlockStatement ∧
      s.blockEnd? = some (Token.createMissing TokenKind.EndKeyword ⟨1, 3⟩)) ∧
    (∃ s q, Parser.parseStatement fixtureEnv 5
        (parserOf [TokenKind.ForkKeyword, TokenKind.Identifier, TokenKind.Semicolon,
          TokenKind.JoinNoneKeyword]) = Except.ok (s, q) ∧
      s.kind = SyntaxKind.ParallelBlockStatement ∧
      s.blockEnd? = some (tokenAt TokenKind.JoinNoneKeyword 3) ∧ q.diagnostics = []) := by
  refine ⟨rfl, rfl, ?_, ?_⟩
  · obtain ⟨s, q, hq, hbegin, -⟩ :=
      parseStatement_block fixtureEnv fixtureEnv_wellBehaved 4
        (parserOf [TokenKind.BeginKeyword, TokenKind.Identifier, TokenKind.Semicolon])
        (by decide)
    obtain ⟨hkind, skipped, q0, hloop, -, hmissing⟩ := hbegin rfl
    have hval : Parser.parseBlockItemsLoop fixtureEnv (Parser.parseStatement fixtureEnv 4) 4 []
        [] false (Parser.parseNamedBlockClause fixtureEnv
          (statementStart fixtureEnv (parserOf [TokenKind.BeginKeyword, TokenKind.Identifier,
            TokenKind.Semicolon])).consume.2).2 =
        Except.ok (([BlockItemSyntax.statement [] (StatementSyntax.ExpressionStatement none []
          ⟨1, [tokenAt TokenKind.Identifier 1]⟩ (tokenAt TokenKind.Semicolon 2))], []),
          ⟨[], ⟨1, 3⟩, []⟩) := rfl
    rw [hval] at hloop
    have hq0 : q0 = ⟨[], ⟨1, 3⟩, []⟩ := (congrArg Prod.snd (Except.ok.inj hloop)).symm
    have hsk : skipped = [] := (congrArg (fun x => x.1.2) (Except.ok.inj hloop)).symm
    subst hq0 hsk
    exact ⟨s, q, hq, hkind, hmissing (by decide)⟩
  · obtain ⟨s, q, hq, -, hfork⟩ :=
      parseStatement_block fixtureEnv fixtureEnv_wellBehaved 4
        (parserOf [TokenKind.ForkKeyword, TokenKind.Identifier, TokenKind.Semicolon,
          TokenKind.JoinNoneKeyword]) (by decide)
    obtain ⟨hkind, skipped, q0, hloop, hjoin, -⟩ := hfork rfl
    have hval : Parser.parseBlockItemsLoop fixtureEnv (Parser.parseStatement fixtureEnv 4) 4
        [] [] false (Parser.parseNamedBlockClause fixtureEnv
          (statementStart fixtureEnv (parserOf [TokenKind.ForkKeyword, TokenKind.Identifier,
            TokenKind.Semicolon, TokenKind.JoinNoneKeyword])).consume.2).2 =
        Except.ok (([BlockItemSyntax.statement [] (StatementSyntax.ExpressionStatement none
          [] ⟨1, [tokenAt TokenKind.Identifier 1]⟩ (tokenAt TokenKind.Semicolon 2))], []),
          ⟨[tokenAt TokenKind.JoinNoneKeyword 3], ⟨1, 4⟩, []⟩) := rfl
    rw [hval] at hloop
    have hq0 : q0 = ⟨[tokenAt TokenKind.JoinNoneKeyword 3], ⟨1, 4⟩, []⟩ :=
      (congrArg Prod.snd (Except.ok.inj hloop)).symm
    have hsk : skipped = [] := (congrArg (fun x => x.1.2) (Except.ok.inj hloop)).symm
    subst hq0 hsk
    obtain ⟨he, hq1⟩ := hjoin (Or.inr (Or.inr rfl))
    exact ⟨s, q, hq, hkind, he, by rw [hq1]; rfl⟩

/-- C23: error recovery in blocks. Under the assumptions of termination,
`parseBlockItems` returns; the loop runs to the end of the block, that is, to
the first end keyword or the end of the file; the skipped tokens attached to
the items, followed by those put in front of the end token, are exactly the
tokens the loop consumed as skipped, in their order, so none is lost. Round by
round: a token that is no end keyword and can start neither a declaration nor
a statement is consumed and appended to the skipped tokens; the next statement
or declaration parsed gets the skipped tokens collected so far in front of it
and the collection starts again empty. -/
theorem parseBlockItems_recovery (E : ParserEnv) :
    (E.WellBehaved → ∀ (rec : StatementParser) (n : Nat), Terminates E rec n →
      ∀ fuel : Nat, n < fuel → ∀ (endKind : TokenKind) (p : Parser), p.tokens.length ≤ n →
      ∃ (items : List BlockItemSyntax) (endToken : Token) (q : Parser)
        (skipped : List Token) (q0 : Parser) (endToken0 : Token),
        Parser.parseBlockItems E fuel rec endKind p = Except.ok ((items, endToken), q) ∧
        Parser.parseBlockItemsLoop E rec fuel [] [] false p =
          Except.ok ((items, skipped), q0) ∧
        (E.isEndKeyword q0.peek.kind = true ∨ q0.peek.kind = TokenKind.EndOfFile) ∧
        skippedOfItems items ++ skipped = skippedInLoop E rec fuel false p ∧
        (endToken0 = q0.peek ∨ endToken0 = (q0.expect E endKind).1) ∧
        endToken.kind = endToken0.kind ∧
        endToken.skipped =
          skipped.map (fun t => (t.kind, t.location)) ++ endToken0.skipped) ∧
    (∀ (rec : StatementParser) (fuel : Nat) (buffer : List BlockItemSyntax)
      (skipped : List Token) (error : Bool) (p : Parser),
      E.isEndKeyword p.peek.kind = false → p.peek.kind ≠ TokenKind.EndOfFile →
      E.isPortDeclaration p = false → E.isVariableDeclaration p = false →
      E.isPossibleStatement p.peek.kind = false →
      Parser.parseBlockItemsLoop E rec (fuel + 1) buffer skipped error p =
        Parser.parseBlockItemsLoop E rec fuel buffer (skipped ++ [p.peek]) true
          (if error = true then p.consume.2
            else p.consume.2.addError DiagCode.InvalidTokenInSequentialBlock
              p.peek.location)) ∧
    (∀ (rec : StatementParser) (fuel : Nat) (buffer : List BlockItemSyntax)
      (skipped : List Token) (error : Bool) (p : Parser),
      E.isEndKeyword p.peek.kind = false → p.peek.kind ≠ TokenKind.EndOfFile →
      E.isPortDeclaration p = false → E.isVariableDeclaration p = false →
      E.isPossibleStatement p.peek.kind = true →
      Parser.parseBlockItemsLoop E rec (fuel + 1) buffer skipped error p =
        rec p >>= fun v =>
          Parser.parseBlockItemsLoop E rec fuel
            (buffer ++ [BlockItemSyntax.statement skipped v.1]) [] false v.2) ∧
    (∀ (rec : StatementParser) (fuel : Nat) (buffer : List BlockItemSyntax)
      (skipped : List Token) (error : Bool) (p : Parser),
      E.isEndKeyword p.peek.kind = false → p.peek.kind ≠ TokenKind.EndOfFile →
      E.isPortDeclaration p = true →
      Parser.parseBlockItemsLoop E rec (fuel + 1) buffer skipped error p =
        Parser.parseBlockItemsLoop E rec fuel
          (buffer ++ [BlockItemSyntax.declaration skipped
            (E.parsePortDeclaration (E.parseAttributes p).1 (E.parseAttributes p).2).1]) []
          false (E.parsePortDeclaration (E.parseAttributes p).1 (E.parseAttributes p).2).2) ∧
    (∀ (rec : StatementParser) (fuel : Nat) (buffer : List BlockItemSyntax)
      (skipped : List Token) (error : Bool) (p : Parser),
      E.isEndKeyword p.peek.kind = false → p.peek.kind ≠ TokenKind.EndOfFile →
      E.isPortDeclaration p = false → E.isVariableDeclaration p = true →
      Parser.parseBlockItemsLoop E rec (fuel + 1) buffer skipped error p =
        Parser.parseBlockItemsLoop E rec fuel
          (buffer ++ [BlockItemSyntax.declaration skipped
            (E.parseVariableDeclaration (E.parseAttributes p).1 (E.parseAttributes p).2).1])
          [] false
          (E.parseVariableDeclaration (E.parseAttributes p).1
            (E.parseAttributes p).2).2) := by
  refine ⟨?_, ?_, ?_, ?_, ?_⟩
  · intro hE rec n hrec fuel hfuel endKind p hp
    obtain ⟨⟨items, endToken⟩, q, hq, -⟩ :=
      Parser.parseBlockItems_returns hE hrec fuel hfuel endKind p hp
    obtain ⟨skipped, q0, hloop, hcase⟩ := Parser.parseBlockItems_shape hq
    have hcons := Parser.parseBlockItemsLoop_skipped fuel [] [] false p items skipped q0 hloop
    have hstop := Parser.parseBlockItemsLoop_stops fuel [] [] false p items skipped q0 hloop
    have hcons2 : skippedOfItems items ++ skipped = skippedInLoop E rec fuel false p := by
      rw [hcons]
      simp [skippedOfItems]
    rcases hcase with ⟨-, -, he, -⟩ | ⟨-, he, -⟩
    · exact ⟨items, endToken, q, skipped, q0, q0.peek, hq, hloop, hstop, hcons2, Or.inl rfl,
        by rw [he]; rfl, by rw [he]; rfl⟩
    · exact ⟨items, endToken, q, skipped, q0, (q0.expect E endKind).1, hq, hloop, hstop,
        hcons2, Or.inr rfl, by rw [he]; rfl, by rw [he]; rfl⟩
  · intro rec fuel buffer skipped error p hend heof hport hvar hstmt
    exact Parser.parseBlockItemsLoop_skip E rec fuel buffer skipped error p hend heof hport
      hvar hstmt
  · intro rec fuel buffer skipped error p hend heof hport hvar hstmt
    exact Parser.parseBlockItemsLoop_statement E rec fuel buffer skipped error p hend heof
      hport hvar hstmt
  · intro rec fuel buffer skipped error p hend heof hport
    exact (Parser.parseBlockItemsLoop_declaration E rec fuel buffer skipped error p hend
      heof).1 hport
  · intro rec fuel buffer skipped error p hend heof hport hvar
    exact (Parser.parseBlockItemsLoop_declaration E rec fuel buffer skipped error p hend
      heof).2 hport hvar

/-- C23 on the block `begin ) , x ; : end`: the loop returns at `end`; `)` and
`,` are attached to the statement `x ;` and `:` to the end token, with two
diagnostics, one for each run of skipped tokens. The rounds at `)` and at `x`
are the skip round and the statement round of the claim; the declaration
rounds are shown on `begin ) T x ; end`. -/
theorem parseBlockItems_recovery_witness :
    (∃ (items : List BlockItemSyntax) (endToken : Token) (q : Parser)
        (skipped : List Token) (q0 : Parser) (endToken0 : Token),
        Parser.parseBlockItems fixtureEnv 7 (Parser.parseStatement fixtureEnv 7)
            TokenKind.EndKeyword (stateAt recoveryBlock 1) =
          Except.ok ((items, endToken), q) ∧
        Parser.parseBlockItemsLoop fixtureEnv (Parser.parseStatement fixtureEnv 7) 7 [] []
            false (stateAt recoveryBlock 1) = Except.ok ((items, skipped), q0) ∧
        (fixtureEnv.isEndKeyword q0.peek.kind = true ∨ q0.peek.kind = TokenKind.EndOfFile) ∧
        skippedOfItems items ++ skipped =
          skippedInLoop fixtureEnv (Parser.parseStatement fixtureEnv 7) 7 false
            (stateAt recoveryBlock 1) ∧
        (endToken0 = q0.peek ∨ endToken0 = (q0.expect fixtureEnv TokenKind.EndKeyword).1) ∧
        endToken.kind = endToken0.kind ∧
        endToken.skipped =
          skipped.map (fun t => (t.kind, t.location)) ++ endToken0.skipped) ∧
    Parser.parseStatement fixtureEnv 7 (stateAt recoveryBlock 0) =
      Except.ok (StatementSyntax.BlockStatement SyntaxKind.SequentialBlockStatement none []
          (tokenAt TokenKind.BeginKeyword 0) none
          [BlockItemSyntax.statement
            [tokenAt TokenKind.CloseParenthesis 1, tokenAt TokenKind.Comma 2]
            (StatementSyntax.ExpressionStatement none []
              ⟨1, [tokenAt TokenKind.Identifier 3]⟩ (tokenAt TokenKind.Semicolon 4))]
          ⟨TokenKind.EndKeyword, ⟨1, 6⟩, false, [(TokenKind.Colon, ⟨1, 5⟩)]⟩ none,
        ⟨[], ⟨1, 7⟩,
          [⟨DiagCode.InvalidTokenInSequentialBlock, DiagSite.location ⟨1, 1⟩, []⟩,
            ⟨DiagCode.InvalidTokenInSequentialBlock, DiagSite.location ⟨1, 5⟩, []⟩]⟩) ∧
    skippedInLoop fixtureEnv (Parser.parseStatement fixtureEnv 7) 7 false
        (stateAt recoveryBlock 1) =
      [tokenAt TokenKind.CloseParenthesis 1, tokenAt TokenKind.Comma 2,
        tokenAt TokenKind.Colon 5] ∧
    Parser.parseBlockItemsLoop fixtureEnv (Parser.parseStatement fixtureEnv 7) 7 [] [] false
        (stateAt recoveryBlock 1) =
      Parser.parseBlockItemsLoop fixtureEnv (Parser.parseStatement fixtureEnv 7) 6 []
        [tokenAt TokenKind.CloseParenthesis 1] true
        ((stateAt recoveryBlock 2).addError DiagCode.InvalidTokenInSequentialBlock ⟨1, 1⟩) ∧
    Parser.parseBlockItemsLoop fixtureEnv (Parser.parseStatement fixtureEnv 7) 5 []
        [tokenAt TokenKind.CloseParenthesis 1, tokenAt TokenKind.Comma 2] true
        (stateAt recoveryBlock 3) =
      (Parser.parseStatement fixtureEnv 7 (stateAt recoveryBlock 3) >>= fun v =>
        Parser.parseBlockItemsLoop fixtureEnv (Parser.parseStatement fixtureEnv 7) 4
          ([] ++ [BlockItemSyntax.statement
            [tokenAt TokenKind.CloseParenthesis 1, tokenAt TokenKind.Comma 2] v.1]) []
          false v.2) ∧
    Parser.parseBlockItemsLoop (fixtureDeclEnv true)
        (Parser.parseStatement (fixtureDeclEnv true) 7) 5 []
        [tokenAt TokenKind.CloseParenthesis 1] true (stateAt declarationBlock 2) =
      Parser.parseBlockItemsLoop (fixtureDeclEnv true)
        (Parser.parseStatement (fixtureDeclEnv true) 7) 4
        ([] ++ [BlockItemSyntax.declaration [tokenAt TokenKind.CloseParenthesis 1]
          ⟨9, [tokenAt TokenKind.Identifier 2, tokenAt TokenKind.Identifier 3,
            tokenAt TokenKind.Semicolon 4]⟩]) [] false (stateAt declarationBlock 5) ∧
    Parser.parseBlockItemsLoop (fixtureDeclEnv false)
        (Parser.parseStatement (fixtureDeclEnv false) 7) 5 []
        [tokenAt TokenKind.CloseParenthesis 1] true (stateAt declarationBlock 2) =
      Parser.parseBlockItemsLoop (fixtureDeclEnv false)
        (Parser.parseStatement (fixtureDeclEnv false) 7) 4
        ([] ++ [BlockItemSyntax.declaration [tokenAt TokenKind.CloseParenthesis 1]
          ⟨10, [tokenAt TokenKind.Identifier 2, tokenAt TokenKind.Identifier 3,
            tokenAt TokenKind.Semicolon 4]⟩]) [] false (stateAt declarationBlock 5) :=
  ⟨(parseBlockItems_recovery fixtureEnv).1 fixtureEnv_wellBehaved
      (Parser.parseStatement fixtureEnv 7) 6
      (parseStatement_terminates fixtureEnv_wellBehaved 6) 7 (by decide)
      TokenKind.EndKeyword (stateAt recoveryBlock 1) (by decide),
    rfl, rfl,
    (parseBlockItems_recovery fixtureEnv).2.1 (Parser.parseStatement fixtureEnv 7) 6 [] []
      false (stateAt recoveryBlock 1) rfl (by decide) rfl rfl rfl,
    (parseBlockItems_recovery fixtureEnv).2.2.1 (Parser.parseStatement fixtureEnv 7) 4 []
      [tokenAt TokenKind.CloseParenthesis 1, tokenAt TokenKind.Comma 2] true
      (stateAt recoveryBlock 3) rfl (by decide) rfl rfl rfl,
    (parseBlockItems_recovery (fixtureDeclEnv true)).2.2.2.1
      (Parser.parseStatement (fixtureDeclEnv true) 7) 4 []
      [tokenAt TokenKind.CloseParenthesis 1] true (stateAt declarationBlock 2) rfl
      (by decide) rfl,
    (parseBlockItems_recovery (fixtureDeclEnv false)).2.2.2.2
      (Parser.parseStatement (fixtureDeclEnv false) 7) 4 []
      [tokenAt TokenKind.CloseParenthesis 1] true (stateAt declarationBlock 2) rfl
      (by decide) rfl rfl⟩

/-! ## Assertions -/

namespace Parser

/-- The shape of what `parseConcurrentAssertion` returns: a concurrent
assertion whose kind and whose `property`/`sequence` token are fixed by the
keyword (and, for `cover`, by the token after it), and whose property spec is
parsed as a sequence exactly when that token is `sequence`. -/
theorem parseConcurrentAssertion_shape {E : ParserEnv} {rec : StatementParser}
    {l : Option NamedLabelSyntax} {a : List SyntaxNode} {p q : Parser} {s : StatementSyntax}
    (h : parseConcurrentAssertion E rec l a p = Except.ok (s, q)) :
    ∃ (kind : SyntaxKind) (propertyOrSequence openParen : Token) (closeParen : Token)
      (action : ActionBlockSyntax) (st : Parser),
      s = StatementSyntax.ConcurrentAssertionStatement kind l a p.peek propertyOrSequence
        openParen
        (parsePropertySpec E (propertyOrSequence.kind == TokenKind.SequenceKeyword) st).1
        closeParen action ∧
      ((p.peek.kind = TokenKind.AssertKeyword ∧
          kind = SyntaxKind.AssertPropertyStatement ∧
          propertyOrSequence = (p.consume.2.expect E TokenKind.PropertyKeyword).1) ∨
        (p.peek.kind = TokenKind.AssumeKeyword ∧
          kind = SyntaxKind.AssumePropertyStatement ∧
          propertyOrSequence = (p.consume.2.expect E TokenKind.PropertyKeyword).1) ∨
        (p.peek.kind = TokenKind.CoverKeyword ∧
          p.consume.2.peek.kind = TokenKind.SequenceKeyword ∧
          kind = SyntaxKind.CoverSequenceStatement ∧
          propertyOrSequence = p.consume.2.peek) ∨
        (p.peek.kind = TokenKind.CoverKeyword ∧
          p.consume.2.peek.kind ≠ TokenKind.SequenceKeyword ∧
          kind = SyntaxKind.CoverPropertyStatement ∧
          propertyOrSequence = (p.consume.2.expect E TokenKind.PropertyKeyword).1) ∨
        (p.peek.kind = TokenKind.RestrictKeyword ∧
          kind = SyntaxKind.RestrictPropertyStatement ∧
          propertyOrSequence = (p.consume.2.expect E TokenKind.PropertyKeyword).1) ∨
        (p.peek.kind = TokenKind.ExpectKeyword ∧
          kind = SyntaxKind.ExpectPropertyStatement ∧
          propertyOrSequence = Token.empty)) := by
  have hkind : p.consume.1.kind = p.peek.kind := rfl
  simp only [parseConcurrentAssertion] at h
  split at h
  · rename_i hkw
    simp only [pure_bind] at h
    obtain ⟨w, -, hk⟩ := bind_ok_inv h
    cases hk
    exact ⟨_, _, _, _, _, _, rfl, Or.inl ⟨hkind ▸ hkw, rfl, rfl⟩⟩
  · rename_i hkw
    simp only [pure_bind] at h
    obtain ⟨w, -, hk⟩ := bind_ok_inv h
    cases hk
    exact ⟨_, _, _, _, _, _, rfl, Or.inr (Or.inl ⟨hkind ▸ hkw, rfl, rfl⟩)⟩
  · rename_i hkw
    split at h
    · rename_i hseq
      simp only [pure_bind] at h
      obtain ⟨w, -, hk⟩ := bind_ok_inv h
      cases hk
      refine ⟨_, _, _, _, _, _, rfl, Or.inr (Or.inr (Or.inl ⟨hkind ▸ hkw, ?_, rfl, rfl⟩))⟩
      simpa [peekKind] using hseq
    · rename_i hseq
      simp only [pure_bind] at h
      obtain ⟨w, -, hk⟩ := bind_ok_inv h
      cases hk
      refine ⟨_, _, _, _, _, _, rfl,
        Or.inr (Or.inr (Or.inr (Or.inl ⟨hkind ▸ hkw, ?_, rfl, rfl⟩)))⟩
      simpa [peekKind] using hseq
  · rename_i hkw
    simp only [pure_bind] at h
    obtain ⟨w, -, hk⟩ := bind_ok_inv h
    cases hk
    exact ⟨_, _, _, _, _, _, rfl,
      Or.inr (Or.inr (Or.inr (Or.inr (Or.inl ⟨hkind ▸ hkw, rfl, rfl⟩))))⟩
  · rename_i hkw
    simp only [pure_bind] at h
    obtain ⟨w, -, hk⟩ := bind_ok_inv h
    cases hk
    exact ⟨_, _, _, _, _, _, rfl,
      Or.inr (Or.inr (Or.inr (Or.inr (Or.inr ⟨hkind ▸ hkw, rfl, rfl⟩))))⟩
  · cases h

/-- `parseImmediateAssertion` returns an immediate assertion of the kind
given. -/
theorem parseImmediateAssertion_shape {E : ParserEnv} {rec : StatementParser}
    {l : Option NamedLabelSyntax} {a : List SyntaxNode} {k : SyntaxKind} {p q : Parser}
    {s : StatementSyntax}
    (h : parseImmediateAssertion E rec l a k p = Except.ok (s, q)) :
    ∃ (delay : Option DeferredAssertionSyntax) (expr : ParenthesizedExpressionSyntax)
      (action : ActionBlockSyntax),
      s = StatementSyntax.ImmediateAssertionStatement k l a p.peek delay expr action := by
  simp only [parseImmediateAssertion] at h
  obtain ⟨v, -, hk⟩ := bind_ok_inv h
  cases hk
  exact ⟨_, _, _, rfl⟩

end Parser

namespace Parser

/-- The token `expect` returns, taken from the stream or a placeholder, is of
the expected kind. -/
theorem expect_kind (E : ParserEnv) (p : Parser) (kind : TokenKind) :
    (p.expect E kind).1.kind = kind := by
  by_cases h : p.peek.kind = kind
  · rw [expect_of_kind E p kind h]
    exact h
  · rw [expect_of_other E p kind h]
    rfl

/-- `parseAssertionStatement` on `assert`, `assume` or `cover`: a concurrent
assertion when the token after the keyword is `property` (for `cover`, also
`sequence`), an immediate assertion of the keyword's kind otherwise. -/
theorem parseAssertionStatement_eq (E : ParserEnv) (rec : StatementParser)
    (l : Option NamedLabelSyntax) (a : List SyntaxNode) (p : Parser) :
    (p.peek.kind = TokenKind.AssertKeyword →
      ((p.peekAt 1).kind = TokenKind.PropertyKeyword →
        parseAssertionStatement E rec l a p = parseConcurrentAssertion E rec l a p) ∧
      ((p.peekAt 1).kind ≠ TokenKind.PropertyKeyword →
        parseAssertionStatement E rec l a p =
          parseImmediateAssertion E rec l a SyntaxKind.ImmediateAssertStatement p)) ∧
    (p.peek.kind = TokenKind.AssumeKeyword →
      ((p.peekAt 1).kind = TokenKind.PropertyKeyword →
        parseAssertionStatement E rec l a p = parseConcurrentAssertion E rec l a p) ∧
      ((p.peekAt 1).kind ≠ TokenKind.PropertyKeyword →
        parseAssertionStatement E rec l a p =
          parseImmediateAssertion E rec l a SyntaxKind.ImmediateAssumeStatement p)) ∧
    (p.peek.kind = TokenKind.CoverKeyword →
      ((p.peekAt 1).kind = TokenKind.PropertyKeyword ∨
          (p.peekAt 1).kind = TokenKind.SequenceKeyword →
        parseAssertionStatement E rec l a p = parseConcurrentAssertion E rec l a p) ∧
      ((p.peekAt 1).kind ≠ TokenKind.PropertyKeyword →
          (p.peekAt 1).kind ≠ TokenKind.SequenceKeyword →
        parseAssertionStatement E rec l a p =
          parseImmediateAssertion E rec l a SyntaxKind.ImmediateCoverStatement p)) := by
  refine ⟨?_, ?_, ?_⟩
  · intro hk
    constructor
    · intro h2
      simp [parseAssertionStatement, hk, h2]
    · intro h2
      simp [parseAssertionStatement, hk, h2]
  · intro hk
    constructor
    · intro h2
      simp [parseAssertionStatement, hk, h2]
    · intro h2
      simp [parseAssertionStatement, hk, h2]
  · intro hk
    constructor
    · intro h2
      rcases h2 with h2 | h2 <;> simp [parseAssertionStatement, hk, h2]
    · intro h2 h3
      simp [parseAssertionStatement, hk, h2, h3]

end Parser

namespace Parser

/-- The expression of a property spec: `parsePropertySpec` parses it as a
sequence expression when `isSequence` is set and as a property expression
otherwise, from the state after the optional timing control and the optional
`disable iff`. -/
theorem parsePropertySpec_expr (E : ParserEnv) (isSequence : Bool) (p : Parser) :
    (parsePropertySpec E isSequence p).1.expr =
      if isSequence = true then
        (E.parseSequenceExpression 0 (propertyExpressionStart E p)).1
      else (E.parsePropertyExpression 0 (propertyExpressionStart E p)).1 := by
  unfold parsePropertySpec propertyExpressionStart
  cases isSequence <;> by_cases h1 : p.peekKind TokenKind.At = true <;>
    simp only [h1, if_true, if_false, Bool.false_eq_true] <;> split <;> rfl

/-- What `parseConcurrentAssertion` returns: the kind, and the property spec
that `parsePropertySpec` returns in the state after the keyword, the
`property` or `sequence` token and the opening parenthesis, with `isSequence`
set exactly when that token is `sequence`. -/
theorem parseConcurrentAssertion_spec {E : ParserEnv} {rec : StatementParser}
    {l : Option NamedLabelSyntax} {a : List SyntaxNode} {p q : Parser} {s : StatementSyntax}
    (h : parseConcurrentAssertion E rec l a p = Except.ok (s, q)) :
    ∃ (kind : SyntaxKind) (propertyOrSequence : Token) (st : Parser),
      s.kind = kind ∧
      s.propertySpec? =
        some (parsePropertySpec E (propertyOrSequence.kind == TokenKind.SequenceKeyword) st).1 ∧
      ((p.peek.kind = TokenKind.AssertKeyword ∧
          kind = SyntaxKind.AssertPropertyStatement ∧
          propertyOrSequence = (p.consume.2.expect E TokenKind.PropertyKeyword).1 ∧
          st = ((p.consume.2.expect E TokenKind.PropertyKeyword).2.expect E
            TokenKind.OpenParenthesis).2) ∨
        (p.peek.kind = TokenKind.AssumeKeyword ∧
          kind = SyntaxKind.AssumePropertyStatement ∧
          propertyOrSequence = (p.consume.2.expect E TokenKind.PropertyKeyword).1 ∧
          st = ((p.consume.2.expect E TokenKind.PropertyKeyword).2.expect E
            TokenKind.OpenParenthesis).2) ∨
        (p.peek.kind = TokenKind.CoverKeyword ∧
          p.consume.2.peek.kind = TokenKind.SequenceKeyword ∧
          kind = SyntaxKind.CoverSequenceStatement ∧
          propertyOrSequence = p.consume.2.peek ∧
          st = (p.consume.2.consume.2.expect E TokenKind.OpenParenthesis).2) ∨
        (p.peek.kind = TokenKind.CoverKeyword ∧
          p.consume.2.peek.kind ≠ TokenKind.SequenceKeyword ∧
          kind = SyntaxKind.CoverPropertyStatement ∧
          propertyOrSequence = (p.consume.2.expect E TokenKind.PropertyKeyword).1 ∧
          st = ((p.consume.2.expect E TokenKind.PropertyKeyword).2.expect E
            TokenKind.OpenParenthesis).2) ∨
        (p.peek.kind = TokenKind.RestrictKeyword ∧
          kind = SyntaxKind.RestrictPropertyStatement ∧
          propertyOrSequence = (p.consume.2.expect E TokenKind.PropertyKeyword).1 ∧
          st = ((p.consume.2.expect E TokenKind.PropertyKeyword).2.expect E
            TokenKind.OpenParenthesis).2) ∨
        (p.peek.kind = TokenKind.ExpectKeyword ∧
          kind = SyntaxKind.ExpectPropertyStatement ∧
          propertyOrSequence = Token.empty ∧
          st = (p.consume.2.expect E TokenKind.OpenParenthesis).2)) := by
  have hkind : p.consume.1.kind = p.peek.kind := rfl
  simp only [parseConcurrentAssertion] at h
  split at h
  · rename_i hkw
    simp only [pure_bind] at h
    obtain ⟨w, -, hk⟩ := bind_ok_inv h
    cases hk
    exact ⟨_, _, _, rfl, rfl, Or.inl ⟨hkind ▸ hkw, rfl, rfl, rfl⟩⟩
  · rename_i hkw
    simp only [pure_bind] at h
    obtain ⟨w, -, hk⟩ := bind_ok_inv h
    cases hk
    exact ⟨_, _, _, rfl, rfl, Or.inr (Or.inl ⟨hkind ▸ hkw, rfl, rfl, rfl⟩)⟩
  · rename_i hkw
    split at h
    · rename_i hseq
      simp only [pure_bind] at h
      obtain ⟨w, -, hk⟩ := bind_ok_inv h
      cases hk
      refine ⟨_, _, _, rfl, rfl, Or.inr (Or.inr (Or.inl ⟨hkind ▸ hkw, ?_, rfl, rfl, rfl⟩))⟩
      simpa [peekKind] using hseq
    · rename_i hseq
      simp only [pure_bind] at h
      obtain ⟨w, -, hk⟩ := bind_ok_inv h
      cases hk
      refine ⟨_, _, _, rfl, rfl,
        Or.inr (Or.inr (Or.inr (Or.inl ⟨hkind ▸ hkw, ?_, rfl, rfl, rfl⟩)))⟩
      simpa [peekKind] using hseq
  · rename_i hkw
    simp only [pure_bind] at h
    obtain ⟨w, -, hk⟩ := bind_ok_inv h
    cases hk
    exact ⟨_, _, _, rfl, rfl,
      Or.inr (Or.inr (Or.inr (Or.inr (Or.inl ⟨hkind ▸ hkw, rfl, rfl, rfl⟩))))⟩
  · rename_i hkw
    simp only [pure_bind] at h
    obtain ⟨w, -, hk⟩ := bind_ok_inv h
    cases hk
    exact ⟨_, _, _, rfl, rfl,
      Or.inr (Or.inr (Or.inr (Or.inr (Or.inr ⟨hkind ▸ hkw, rfl, rfl, rfl⟩))))⟩
  · cases h

end Parser

/-- The environment `assertionEnv` satisfies the assumptions of termination. -/
theorem assertionEnv_wellBehaved : assertionEnv.WellBehaved := by
  obtain ⟨h1, h2⟩ := fixtureEnv_wellBehaved
  cases h1
  constructor
  · constructor <;> assumption
  · exact h2

/-- C21: under the assumptions of termination and with more fuel than tokens,
`parseStatement` returns a statement such that, for the first token `k1` after
the label and the attributes and the token `k2` after it: `assert property`,
`assume property`, `cover property`, `cover sequence`, `restrict` and `expect`
give a concurrent assertion of kind AssertPropertyStatement,
AssumePropertyStatement, CoverPropertyStatement, CoverSequenceStatement,
RestrictPropertyStatement and ExpectPropertyStatement; `assert`, `assume` and
`cover` followed by another token give an immediate assertion of kind
ImmediateAssertStatement, ImmediateAssumeStatement and
ImmediateCoverStatement. The property spec of the concurrent assertion is what
`parsePropertySpec` returns in the state after the keyword, the `property` or
`sequence` token and the opening parenthesis, with `isSequence` set for
`cover sequence` and not set for the five others: its expression is the one
`parseSequenceExpression` returns for `cover sequence`, and the one
`parsePropertyExpression` returns for the five others. -/
theorem parseStatement_assertion (E : ParserEnv) (hE : E.WellBehaved) (fuel : Nat)
    (p : Parser) (hp : p.tokens.length ≤ fuel) :
    ∃ s q, Parser.parseStatement E (fuel + 1) p = Except.ok (s, q) ∧
      ((statementStart E p).peek.kind = TokenKind.AssertKeyword →
        ((statementStart E p).peekAt 1).kind = TokenKind.PropertyKeyword →
        s.kind = SyntaxKind.AssertPropertyStatement ∧
        ∃ spec, s.propertySpec? = some spec ∧
          spec = (Parser.parsePropertySpec E false
            (((statementStart E p).consume.2.expect E TokenKind.PropertyKeyword).2.expect E
            TokenKind.OpenParenthesis).2).1 ∧
          spec.expr = (E.parsePropertyExpression 0 (propertyExpressionStart E
            (((statementStart E p).consume.2.expect E TokenKind.PropertyKeyword).2.expect E
            TokenKind.OpenParenthesis).2)).1) ∧
      ((statementStart E p).peek.kind = TokenKind.AssumeKeyword →
        ((statementStart E p).peekAt 1).kind = TokenKind.PropertyKeyword →
        s.kind = SyntaxKind.AssumePropertyStatement ∧
        ∃ spec, s.propertySpec? = some spec ∧
          spec = (Parser.parsePropertySpec E false
            (((statementStart E p).consume.2.expect E TokenKind.PropertyKeyword).2.expect E
            TokenKind.OpenParenthesis).2).1 ∧
          spec.expr = (E.parsePropertyExpression 0 (propertyExpressionStart E
            (((statementStart E p).consume.2.expect E TokenKind.PropertyKeyword).2.expect E
            TokenKind.OpenParenthesis).2)).1) ∧
      ((statementStart E p).peek.kind = TokenKind.CoverKeyword →
        ((statementStart E p).peekAt 1).kind = TokenKind.PropertyKeyword →
        s.kind = SyntaxKind.CoverPropertyStatement ∧
        ∃ spec, s.propertySpec? = some spec ∧
          spec = (Parser.parsePropertySpec E false
            (((statementStart E p).consume.2.expect E TokenKind.PropertyKeyword).2.expect E
            TokenKind.OpenParenthesis).2).1 ∧
          spec.expr = (E.parsePropertyExpression 0 (propertyExpressionStart E
            (((statementStart E p).consume.2.expect E TokenKind.PropertyKeyword).2.expect E
            TokenKind.OpenParenthesis).2)).1) ∧
      ((statementStart E p).peek.kind = TokenKind.CoverKeyword →
        ((statementStart E p).peekAt 1).kind = TokenKind.SequenceKeyword →
        s.kind = SyntaxKind.CoverSequenceStatement ∧
        ∃ spec, s.propertySpec? = some spec ∧
          spec = (Parser.parsePropertySpec E true
            ((statementStart E p).consume.2.consume.2.expect E TokenKind.OpenParenthesis).2).1 ∧
          spec.expr = (E.parseSequenceExpression 0 (propertyExpressionStart E
            ((statementStart E p).consume.2.consume.2.expect E TokenKind.OpenParenthesis).2)).1) ∧
      ((statementStart E p).peek.kind = TokenKind.RestrictKeyword →
        s.kind = SyntaxKind.RestrictPropertyStatement ∧
        ∃ spec, s.propertySpec? = some spec ∧
          spec = (Parser.parsePropertySpec E false
            (((statementStart E p).consume.2.expect E TokenKind.PropertyKeyword).2.expect E
            TokenKind.OpenParenthesis).2).1 ∧
          spec.expr = (E.parsePropertyExpression 0 (propertyExpressionStart E
            (((statementStart E p).consume.2.expect E TokenKind.PropertyKeyword).2.expect E
            TokenKind.OpenParenthesis).2)).1) ∧
      ((statementStart E p).peek.kind = TokenKind.ExpectKeyword →
        s.kind = SyntaxKind.ExpectPropertyStatement ∧
        ∃ spec, s.propertySpec? = some spec ∧
          spec = (Parser.parsePropertySpec E false
            ((statementStart E p).consume.2.expect E TokenKind.OpenParenthesis).2).1 ∧
          spec.expr = (E.parsePropertyExpression 0 (propertyExpressionStart E
            ((statementStart E p).consume.2.expect E TokenKind.OpenParenthesis).2)).1) ∧
      ((statementStart E p).peek.kind = TokenKind.AssertKeyword →
        ((statementStart E p).peekAt 1).kind ≠ TokenKind.PropertyKeyword →
        s.kind = SyntaxKind.ImmediateAssertStatement) ∧
      ((statementStart E p).peek.kind = TokenKind.AssumeKeyword →
        ((statementStart E p).peekAt 1).kind ≠ TokenKind.PropertyKeyword →
        s.kind = SyntaxKind.ImmediateAssumeStatement) ∧
      ((statementStart E p).peek.kind = TokenKind.CoverKeyword →
        ((statementStart E p).peekAt 1).kind ≠ TokenKind.PropertyKeyword →
        ((statementStart E p).peekAt 1).kind ≠ TokenKind.SequenceKeyword →
        s.kind = SyntaxKind.ImmediateCoverStatement) := by
  obtain ⟨s, q, hq, -, -⟩ := parseStatement_terminates hE fuel p hp
  rw [Parser.parseStatement_succ] at hq
  have heq := Parser.parseAssertionStatement_eq E (Parser.parseStatement E fuel)
    (Parser.parseLabel p).1 (E.parseAttributes (Parser.parseLabel p).2).1 (statementStart E p)
  have hnot : ∀ (t : Token), t.kind = TokenKind.PropertyKeyword →
      (t.kind == TokenKind.SequenceKeyword) = false := by
    intro t ht
    rw [ht]
    rfl
  have conc : ∀ (K : SyntaxKind) (b : Bool) (ST : Parser),
      Parser.parseConcurrentAssertion E (Parser.parseStatement E fuel) (Parser.parseLabel p).1
        (E.parseAttributes (Parser.parseLabel p).2).1 (statementStart E p) =
          Except.ok (s, q) →
      (∀ kind pos st,
        (statementStart E p).peek.kind = TokenKind.AssertKeyword ∧
          kind = SyntaxKind.AssertPropertyStatement ∧
          pos = ((statementStart E p).consume.2.expect E TokenKind.PropertyKeyword).1 ∧
          st = (((statementStart E p).consume.2.expect E TokenKind.PropertyKeyword).2.expect E
            TokenKind.OpenParenthesis).2 ∨
        (statementStart E p).peek.kind = TokenKind.AssumeKeyword ∧
          kind = SyntaxKind.AssumePropertyStatement ∧
          pos = ((statementStart E p).consume.2.expect E TokenKind.PropertyKeyword).1 ∧
          st = (((statementStart E p).consume.2.expect E TokenKind.PropertyKeyword).2.expect E
            TokenKind.OpenParenthesis).2 ∨
        (statementStart E p).peek.kind = TokenKind.CoverKeyword ∧
          (statementStart E p).consume.2.peek.kind = TokenKind.SequenceKeyword ∧
          kind = SyntaxKind.CoverSequenceStatement ∧
          pos = (statementStart E p).consume.2.peek ∧
          st = ((statementStart E p).consume.2.consume.2.expect E TokenKind.OpenParenthesis).2 ∨
        (statementStart E p).peek.kind = TokenKind.CoverKeyword ∧
          (statementStart E p).consume.2.peek.kind ≠ TokenKind.SequenceKeyword ∧
          kind = SyntaxKind.CoverPropertyStatement ∧
          pos = ((statementStart E p).consume.2.expect E TokenKind.PropertyKeyword).1 ∧
          st = (((statementStart E p).consume.2.expect E TokenKind.PropertyKeyword).2.expect E
            TokenKind.OpenParenthesis).2 ∨
        (statementStart E p).peek.kind = TokenKind.RestrictKeyword ∧
          kind = SyntaxKind.RestrictPropertyStatement ∧
          pos = ((statementStart E p).consume.2.expect E TokenKind.PropertyKeyword).1 ∧
          st = (((statementStart E p).consume.2.expect E TokenKind.PropertyKeyword).2.expect E
            TokenKind.OpenParenthesis).2 ∨
        (statementStart E p).peek.kind = TokenKind.ExpectKeyword ∧
          kind = SyntaxKind.ExpectPropertyStatement ∧
          pos = Token.empty ∧
          st = ((statementStart E p).consume.2.expect E TokenKind.OpenParenthesis).2 →
        kind = K ∧ (pos.kind == TokenKind.SequenceKeyword) = b ∧ st = ST) →
      s.kind = K ∧ ∃ spec, s.propertySpec? = some spec ∧
        spec = (Parser.parsePropertySpec E b ST).1 ∧
        spec.expr =
          if b = true then (E.parseSequenceExpression 0 (propertyExpressionStart E ST)).1
          else (E.parsePropertyExpression 0 (propertyExpressionStart E ST)).1 := by
    intro K b ST hc hsel
    obtain ⟨kind, pos, st, hkind, hspec, hcase⟩ := Parser.parseConcurrentAssertion_spec hc
    obtain ⟨hk, hb, hst⟩ := hsel kind pos st hcase
    rw [hb, hst] at hspec
    exact ⟨hkind.trans hk, _, hspec, rfl, Parser.parsePropertySpec_expr E b ST⟩
  have hexp := hnot _ (Parser.expect_kind E (statementStart E p).consume.2
    TokenKind.PropertyKeyword)
  refine ⟨s, q, (Parser.parseStatement_succ E fuel p).trans hq, ?_, ?_, ?_, ?_, ?_, ?_, ?_,
    ?_, ?_⟩
  · intro hk h2
    simp only [Parser.parseStatementSwitch, hk] at hq
    rw [(heq.1 hk).1 h2] at hq
    refine conc _ false _ hq ?_
    intro kind pos st hcase
    rcases hcase with ⟨-, h, hpos, hst⟩ | ⟨h, -⟩ | ⟨h, -⟩ | ⟨h, -⟩ | ⟨h, -⟩ | ⟨h, -⟩
    · exact ⟨h, by rw [hpos]; exact hexp, hst⟩
    all_goals exact absurd (hk.symm.trans h) (by decide)
  · intro hk h2
    simp only [Parser.parseStatementSwitch, hk] at hq
    rw [(heq.2.1 hk).1 h2] at hq
    refine conc _ false _ hq ?_
    intro kind pos st hcase
    rcases hcase with ⟨h, -⟩ | ⟨-, h, hpos, hst⟩ | ⟨h, -⟩ | ⟨h, -⟩ | ⟨h, -⟩ | ⟨h, -⟩
    · exact absurd (hk.symm.trans h) (by decide)
    · exact ⟨h, by rw [hpos]; exact hexp, hst⟩
    all_goals exact absurd (hk.symm.trans h) (by decide)
  · intro hk h2
    have h2c : (statementStart E p).consume.2.peek.kind = TokenKind.PropertyKeyword := by
      rw [← Parser.peekAt_one]
      exact h2
    simp only [Parser.parseStatementSwitch, hk] at hq
    rw [(heq.2.2 hk).1 (Or.inl h2)] at hq
    refine conc _ false _ hq ?_
    intro kind pos st hcase
    rcases hcase with ⟨h, -⟩ | ⟨h, -⟩ | ⟨-, h, -⟩ | ⟨-, -, h, hpos, hst⟩ | ⟨h, -⟩ | ⟨h, -⟩
    · exact absurd (hk.symm.trans h) (by decide)
    · exact absurd (hk.symm.trans h) (by decide)
    · exact absurd (h2c.symm.trans h) (by decide)
    · exact ⟨h, by rw [hpos]; exact hexp, hst⟩
    all_goals exact absurd (hk.symm.trans h) (by decide)
  · intro hk h2
    have h2c : (statementStart E p).consume.2.peek.kind = TokenKind.SequenceKeyword := by
      rw [← Parser.peekAt_one]
      exact h2
    simp only [Parser.parseStatementSwitch, hk] at hq
    rw [(heq.2.2 hk).1 (Or.inr h2)] at hq
    refine conc _ true _ hq ?_
    intro kind pos st hcase
    rcases hcase with ⟨h, -⟩ | ⟨h, -⟩ | ⟨-, -, h, hpos, hst⟩ | ⟨-, h, -⟩ | ⟨h, -⟩ | ⟨h, -⟩
    · exact absurd (hk.symm.trans h) (by decide)
    · exact absurd (hk.symm.trans h) (by decide)
    · refine ⟨h, ?_, hst⟩
      rw [hpos, h2c]
      rfl
    · exact absurd h2c h
    all_goals exact absurd (hk.symm.trans h) (by decide)
  · intro hk
    simp only [Parser.parseStatementSwitch, hk] at hq
    refine conc _ false _ hq ?_
    intro kind pos st hcase
    rcases hcase with ⟨h, -⟩ | ⟨h, -⟩ | ⟨h, -⟩ | ⟨h, -⟩ | ⟨-, h, hpos, hst⟩ | ⟨h, -⟩
    · exact absurd (hk.symm.trans h) (by decide)
    · exact absurd (hk.symm.trans h) (by decide)
    · exact absurd (hk.symm.trans h) (by decide)
    · exact absurd (hk.symm.trans h) (by decide)
    · exact ⟨h, by rw [hpos]; exact hexp, hst⟩
    · exact absurd (hk.symm.trans h) (by decide)
  · intro hk
    simp only [Parser.parseStatementSwitch, hk] at hq
    refine conc _ false _ hq ?_
    intro kind pos st hcase
    rcases hcase with ⟨h, -⟩ | ⟨h, -⟩ | ⟨h, -⟩ | ⟨h, -⟩ | ⟨h, -⟩ | ⟨-, h, hpos, hst⟩
    · exact absurd (hk.symm.trans h) (by decide)
    · exact absurd (hk.symm.trans h) (by decide)
    · exact absurd (hk.symm.trans h) (by decide)
    · exact absurd (hk.symm.trans h) (by decide)
    · exact absurd (hk.symm.trans h) (by decide)
    · refine ⟨h, ?_, hst⟩
      rw [hpos]
      rfl
  · intro hk h2
    simp only [Parser.parseStatementSwitch, hk] at hq
    rw [(heq.1 hk).2 h2] at hq
    obtain ⟨_, _, _, rfl⟩ := Parser.parseImmediateAssertion_shape hq
    rfl
  · intro hk h2
    simp only [Parser.parseStatementSwitch, hk] at hq
    rw [(heq.2.1 hk).2 h2] at hq
    obtain ⟨_, _, _, rfl⟩ := Parser.parseImmediateAssertion_shape hq
    rfl
  · intro hk h2 h3
    simp only [Parser.parseStatementSwitch, hk] at hq
    rw [(heq.2.2 hk).2 h2 h3] at hq
    obtain ⟨_, _, _, rfl⟩ := Parser.parseImmediateAssertion_shape hq
    rfl

/-- C21 at concrete streams, in the environment that tells sequence
expressions (tag 11) and property expressions (tag 12) apart:
`assert property ( x ) ;` gives an assert-property statement and
`cover property ( x ) ;` a cover-property statement, both with `x` parsed as a
property expression; `cover sequence ( x ) ;` gives a cover-sequence statement
with `x` parsed as a sequence expression; `expect ( x ) ;` gives an
expect-property statement with `x` parsed as a property expression; and
`cover ( x ) ;` an immediate cover statement. -/
theorem parseStatement_assertion_witness :
    (∃ s q, Parser.parseStatement assertionEnv 8
        (parserOf [TokenKind.AssertKeyword, TokenKind.PropertyKeyword, TokenKind.OpenParenthesis, TokenKind.Identifier, TokenKind.CloseParenthesis, TokenKind.Semicolon]) =
          Except.ok (s, q) ∧
      s.kind = SyntaxKind.AssertPropertyStatement ∧
      ∃ spec, s.propertySpec? = some spec ∧
        spec.expr = ⟨12, [tokenAt TokenKind.Identifier 3]⟩) ∧
    (∃ s q, Parser.parseStatement assertionEnv 8
        (parserOf [TokenKind.CoverKeyword, TokenKind.PropertyKeyword, TokenKind.OpenParenthesis, TokenKind.Identifier, TokenKind.CloseParenthesis, TokenKind.Semicolon]) =
          Except.ok (s, q) ∧
      s.kind = SyntaxKind.CoverPropertyStatement ∧
      ∃ spec, s.propertySpec? = some spec ∧
        spec.expr = ⟨12, [tokenAt TokenKind.Identifier 3]⟩) ∧
    (∃ s q, Parser.parseStatement assertionEnv 8
        (parserOf [TokenKind.CoverKeyword, TokenKind.SequenceKeyword, TokenKind.OpenParenthesis, TokenKind.Identifier, TokenKind.CloseParenthesis, TokenKind.Semicolon]) =
          Except.ok (s, q) ∧
      s.kind = SyntaxKind.CoverSequenceStatement ∧
      ∃ spec, s.propertySpec? = some spec ∧
        spec.expr = ⟨11, [tokenAt TokenKind.Identifier 3]⟩) ∧
    (∃ s q, Parser.parseStatement assertionEnv 8
        (parserOf [TokenKind.ExpectKeyword, TokenKind.OpenParenthesis, TokenKind.Identifier, TokenKind.CloseParenthesis, TokenKind.Semicolon]) =
          Except.ok (s, q) ∧
      s.kind = SyntaxKind.ExpectPropertyStatement ∧
      ∃ spec, s.propertySpec? = some spec ∧
        spec.expr = ⟨12, [tokenAt TokenKind.Identifier 2]⟩) ∧
    (∃ s q, Parser.parseStatement assertionEnv 8
        (parserOf [TokenKind.CoverKeyword, TokenKind.OpenParenthesis, TokenKind.Identifier, TokenKind.CloseParenthesis, TokenKind.Semicolon]) =
          Except.ok (s, q) ∧
      s.kind = SyntaxKind.ImmediateCoverStatement) := by
  refine ⟨?_, ?_, ?_, ?_, ?_⟩
  · obtain ⟨s, q, h, hc, -⟩ :=
      parseStatement_assertion assertionEnv assertionEnv_wellBehaved 7
        (parserOf [TokenKind.AssertKeyword, TokenKind.PropertyKeyword, TokenKind.OpenParenthesis, TokenKind.Identifier, TokenKind.CloseParenthesis, TokenKind.Semicolon])
        (by decide)
    obtain ⟨hkind, spec, hspec, -, hexpr⟩ := hc rfl rfl
    exact ⟨s, q, h, hkind, spec, hspec, hexpr⟩
  · obtain ⟨s, q, h, -, -, hc, -⟩ :=
      parseStatement_assertion assertionEnv assertionEnv_wellBehaved 7
        (parserOf [TokenKind.CoverKeyword, TokenKind.PropertyKeyword, TokenKind.OpenParenthesis, TokenKind.Identifier, TokenKind.CloseParenthesis, TokenKind.Semicolon])
        (by decide)
    obtain ⟨hkind, spec, hspec, -, hexpr⟩ := hc rfl rfl
    exact ⟨s, q, h, hkind, spec, hspec, hexpr⟩
  · obtain ⟨s, q, h, -, -, -, hc, -⟩ :=
      parseStatement_assertion assertionEnv assertionEnv_wellBehaved 7
        (parserOf [TokenKind.CoverKeyword, TokenKind.SequenceKeyword, TokenKind.OpenParenthesis, TokenKind.Identifier, TokenKind.CloseParenthesis, TokenKind.Semicolon])
        (by decide)
    obtain ⟨hkind, spec, hspec, -, hexpr⟩ := hc rfl rfl
    exact ⟨s, q, h, hkind, spec, hspec, hexpr⟩
  · obtain ⟨s, q, h, -, -, -, -, -, hc, -⟩ :=
      parseStatement_assertion assertionEnv assertionEnv_wellBehaved 7
        (parserOf [TokenKind.ExpectKeyword, TokenKind.OpenParenthesis, TokenKind.Identifier, TokenKind.CloseParenthesis, TokenKind.Semicolon])
        (by decide)
    obtain ⟨hkind, spec, hspec, -, hexpr⟩ := hc rfl
    exact ⟨s, q, h, hkind, spec, hspec, hexpr⟩
  · obtain ⟨s, q, h, -, -, -, -, -, -, -, -, h9⟩ :=
      parseStatement_assertion assertionEnv assertionEnv_wellBehaved 7
        (parserOf [TokenKind.CoverKeyword, TokenKind.OpenParenthesis, TokenKind.Identifier, TokenKind.CloseParenthesis, TokenKind.Semicolon])
        (by decide)
    exact ⟨s, q, h, h9 rfl (by decide) (by decide)⟩

/-! ## parseStatement never aborts -/

/-- A result does not abort. -/
theorem neverAborts_ok {α : Type} (v : α) :
    NeverAborts (Except.ok v : Except ParseFailure α) := by
  intro e h
  cases h

/-- A returned value does not abort. -/
theorem neverAborts_pure {α : Type} (v : α) :
    NeverAborts (pure v : Except ParseFailure α) :=
  neverAborts_ok v

/-- Running out of fuel is not an abort. -/
theorem neverAborts_outOfFuel {α : Type} :
    NeverAborts (throw ParseFailure.outOfFuel : Except ParseFailure α) := by
  intro e h
  cases h
  rfl

/-- Two steps that do not abort make a sequence that does not abort. -/
theorem neverAborts_bind {α β : Type} {x : Except ParseFailure α}
    {k : α → Except ParseFailure β} (hx : NeverAborts x) (hk : ∀ v, NeverAborts (k v)) :
    NeverAborts (x >>= k) := by
  cases x with
  | error e0 =>
    intro e h
    have he : e0 = e := by simpa [bind, Except.bind] using h
    exact hx e (by rw [he])
  | ok v => exact hk v

namespace Parser

/-- `parseElseClause` does not abort. -/
theorem parseElseClause_safe {rec : StatementParser} (hrec : ∀ p, NeverAborts (rec p))
    (p : Parser) : NeverAborts (parseElseClause rec p) := by
  simp only [parseElseClause]
  repeat' first
    | exact neverAborts_pure _
    | exact hrec _
    | refine neverAborts_bind ?_ (fun _ => ?_)
    | split

/-- `parseActionBlock` does not abort. -/
theorem parseActionBlock_safe {rec : StatementParser} (hrec : ∀ p, NeverAborts (rec p))
    (p : Parser) : NeverAborts (parseActionBlock rec p) := by
  simp only [parseActionBlock]
  repeat' first
    | exact neverAborts_pure _
    | exact hrec _
    | exact parseElseClause_safe hrec _
    | refine neverAborts_bind ?_ (fun _ => ?_)
    | split

/-- `parseConditionalStatement` does not abort. -/
theorem parseConditionalStatement_safe {E : ParserEnv} {rec : StatementParser}
    (hrec : ∀ p, NeverAborts (rec p)) (l : Option NamedLabelSyntax) (a : List SyntaxNode)
    (m : Token) (p : Parser) : NeverAborts (parseConditionalStatement E rec l a m p) := by
  simp only [parseConditionalStatement]
  repeat' first
    | exact neverAborts_pure _
    | exact hrec _
    | exact parseElseClause_safe hrec _
    | refine neverAborts_bind ?_ (fun _ => ?_)

/-- `parseDefaultCaseItem` does not abort. -/
theorem parseDefaultCaseItem_safe {rec : StatementParser} (hrec : ∀ p, NeverAborts (rec p))
    (p : Parser) : NeverAborts (parseDefaultCaseItem rec p) := by
  simp only [parseDefaultCaseItem]
  repeat' first
    | exact neverAborts_pure _
    | exact hrec _
    | refine neverAborts_bind ?_ (fun _ => ?_)

/-- The loop of `case ... matches` does not abort. -/
theorem parsePatternCaseItems_safe {E : ParserEnv} {rec : StatementParser}
    (hrec : ∀ p, NeverAborts (rec p)) :
    ∀ (fuel : Nat) (itemBuffer : List CaseItemSyntax) (p : Parser),
      NeverAborts (parsePatternCaseItems E rec fuel itemBuffer p) := by
  intro fuel
  induction fuel with
  | zero => intro _ _; exact neverAborts_outOfFuel
  | succ f ih =>
    intro itemBuffer p
    simp only [parsePatternCaseItems]
    repeat' first
      | exact neverAborts_pure _
      | exact hrec _
      | exact ih _ _
      | exact parseDefaultCaseItem_safe hrec _
      | refine neverAborts_bind ?_ (fun _ => ?_)
      | split

/-- The loop of `case ... inside` does not abort. -/
theorem parseInsideCaseItems_safe {E : ParserEnv} {rec : StatementParser}
    (hrec : ∀ p, NeverAborts (rec p)) :
    ∀ (fuel : Nat) (itemBuffer : List CaseItemSyntax) (p : Parser),
      NeverAborts (parseInsideCaseItems E rec fuel itemBuffer p) := by
  intro fuel
  induction fuel with
  | zero => intro _ _; exact neverAborts_outOfFuel
  | succ f ih =>
    intro itemBuffer p
    simp only [parseInsideCaseItems]
    repeat' first
      | exact neverAborts_pure _
      | exact hrec _
      | exact ih _ _
      | exact parseDefaultCaseItem_safe hrec _
      | refine neverAborts_bind ?_ (fun _ => ?_)
      | split

/-- The loop of a normal `case` does not abort. -/
theorem parseStandardCaseItems_safe {E : ParserEnv} {rec : StatementParser}
    (hrec : ∀ p, NeverAborts (rec p)) :
    ∀ (fuel : Nat) (itemBuffer : List CaseItemSyntax) (p : Parser),
      NeverAborts (parseStandardCaseItems E rec fuel itemBuffer p) := by
  intro fuel
  induction fuel with
  | zero => intro _ _; exact neverAborts_outOfFuel
  | succ f ih =>
    intro itemBuffer p
    simp only [parseStandardCaseItems]
    repeat' first
      | exact neverAborts_pure _
      | exact hrec _
      | exact ih _ _
      | exact parseDefaultCaseItem_safe hrec _
      | refine neverAborts_bind ?_ (fun _ => ?_)
      | split

/-- `parseCaseStatement` does not abort. -/
theorem parseCaseStatement_safe {E : ParserEnv} {rec : StatementParser}
    (hrec : ∀ p, NeverAborts (rec p)) (fuel : Nat) (l : Option NamedLabelSyntax)
    (a : List SyntaxNode) (m caseKeyword : Token) (p : Parser) :
    NeverAborts (parseCaseStatement E fuel rec l a m caseKeyword p) := by
  simp only [parseCaseStatement]
  repeat' first
    | exact neverAborts_pure _
    | exact parsePatternCaseItems_safe hrec _ _ _
    | exact parseInsideCaseItems_safe hrec _ _ _
    | exact parseStandardCaseItems_safe hrec _ _ _
    | refine neverAborts_bind ?_ (fun _ => ?_)
    | split

/-- `parseLoopStatement` does not abort. -/
theorem parseLoopStatement_safe {E : ParserEnv} {rec : StatementParser}
    (hrec : ∀ p, NeverAborts (rec p)) (l : Option NamedLabelSyntax) (a : List SyntaxNode)
    (p : Parser) : NeverAborts (parseLoopStatement E rec l a p) := by
  simp only [parseLoopStatement]
  repeat' first
    | exact neverAborts_pure _
    | exact hrec _
    | refine neverAborts_bind ?_ (fun _ => ?_)

/-- `parseDoWhileStatement` does not abort. -/
theorem parseDoWhileStatement_safe {E : ParserEnv} {rec : StatementParser}
    (hrec : ∀ p, NeverAborts (rec p)) (l : Option NamedLabelSyntax) (a : List SyntaxNode)
    (p : Parser) : NeverAborts (parseDoWhileStatement E rec l a p) := by
  simp only [parseDoWhileStatement]
  repeat' first
    | exact neverAborts_pure _
    | exact hrec _
    | refine neverAborts_bind ?_ (fun _ => ?_)

/-- `parseForLoopStatement` does not abort. -/
theorem parseForLoopStatement_safe {E : ParserEnv} {rec : StatementParser}
    (hrec : ∀ p, NeverAborts (rec p)) (l : Option NamedLabelSyntax) (a : List SyntaxNode)
    (p : Parser) : NeverAborts (parseForLoopStatement E rec l a p) := by
  simp only [parseForLoopStatement]
  repeat' first
    | exact neverAborts_pure _
    | exact hrec _
    | refine neverAborts_bind ?_ (fun _ => ?_)

/-- `parseForeachLoopStatement` does not abort. -/
theorem parseForeachLoopStatement_safe {E : ParserEnv} {rec : StatementParser}
    (hrec : ∀ p, NeverAborts (rec p)) (l : Option NamedLabelSyntax) (a : List SyntaxNode)
    (p : Parser) : NeverAborts (parseForeachLoopStatement E rec l a p) := by
  simp only [parseForeachLoopStatement]
  repeat' first
    | exact neverAborts_pure _
    | exact hrec _
    | refine neverAborts_bind ?_ (fun _ => ?_)

/-- `parseWaitStatement` does not abort. -/
theorem parseWaitStatement_safe {E : ParserEnv} {rec : StatementParser}
    (hrec : ∀ p, NeverAborts (rec p)) (l : Option NamedLabelSyntax) (a : List SyntaxNode)
    (p : Parser) : NeverAborts (parseWaitStatement E rec l a p) := by
  simp only [parseWaitStatement]
  repeat' first
    | exact neverAborts_pure _
    | exact hrec _
    | refine neverAborts_bind ?_ (fun _ => ?_)
    | split

/-- `parseWaitOrderStatement` does not abort. -/
theorem parseWaitOrderStatement_safe {E : ParserEnv} {rec : StatementParser}
    (hrec : ∀ p, NeverAborts (rec p)) (l : Option NamedLabelSyntax) (a : List SyntaxNode)
    (p : Parser) : NeverAborts (parseWaitOrderStatement E rec l a p) := by
  simp only [parseWaitOrderStatement]
  repeat' first
    | exact neverAborts_pure _
    | exact parseActionBlock_safe hrec _
    | refine neverAborts_bind ?_ (fun _ => ?_)

/-- The loop of `parseRandCaseStatement` does not abort. -/
theorem parseRandCaseItems_safe {E : ParserEnv} {rec : StatementParser}
    (hrec : ∀ p, NeverAborts (rec p)) :
    ∀ (fuel : Nat) (itemBuffer : List RandCaseItemSyntax) (p : Parser),
      NeverAborts (parseRandCaseItems E rec fuel itemBuffer p) := by
  intro fuel
  induction fuel with
  | zero => intro _ _; exact neverAborts_outOfFuel
  | succ f ih =>
    intro itemBuffer p
    simp only [parseRandCaseItems]
    repeat' first
      | exact neverAborts_pure _
      | exact hrec _
      | exact ih _ _
      | refine neverAborts_bind ?_ (fun _ => ?_)
      | split

/-- `parseRandCaseStatement` does not abort. -/
theorem parseRandCaseStatement_safe {E : ParserEnv} {rec : StatementParser}
    (hrec : ∀ p, NeverAborts (rec p)) (fuel : Nat) (l : Option NamedLabelSyntax)
    (a : List SyntaxNode) (p : Parser) :
    NeverAborts (parseRandCaseStatement E fuel rec l a p) := by
  simp only [parseRandCaseStatement]
  repeat' first
    | exact neverAborts_pure _
    | exact parseRandCaseItems_safe hrec _ _ _
    | refine neverAborts_bind ?_ (fun _ => ?_)

/-- The loop of `parseBlockItems` does not abort. -/
theorem parseBlockItemsLoop_safe {E : ParserEnv} {rec : StatementParser}
    (hrec : ∀ p, NeverAborts (rec p)) :
    ∀ (fuel : Nat) (buffer : List BlockItemSyntax) (skipped : List Token) (error : Bool)
      (p : Parser), NeverAborts (parseBlockItemsLoop E rec fuel buffer skipped error p) := by
  intro fuel
  induction fuel with
  | zero => intro _ _ _ _; exact neverAborts_outOfFuel
  | succ f ih =>
    intro buffer skipped error p
    simp only [parseBlockItemsLoop]
    repeat' first
      | exact neverAborts_pure _
      | exact hrec _
      | exact ih _ _ _ _
      | refine neverAborts_bind ?_ (fun _ => ?_)
      | split

/-- `parseBlockItems` does not abort. -/
theorem parseBlockItems_safe {E : ParserEnv} {rec : StatementParser}
    (hrec : ∀ p, NeverAborts (rec p)) (fuel : Nat) (endKind : TokenKind) (p : Parser) :
    NeverAborts (parseBlockItems E fuel rec endKind p) := by
  simp only [parseBlockItems]
  refine neverAborts_bind (parseBlockItemsLoop_safe hrec _ _ _ _ _) (fun _ => ?_)
  exact neverAborts_pure _

/-- `parseBlock` does not abort. -/
theorem parseBlock_safe {E : ParserEnv} {rec : StatementParser}
    (hrec : ∀ p, NeverAborts (rec p)) (fuel : Nat) (blockKind : SyntaxKind)
    (endKind : TokenKind) (l : Option NamedLabelSyntax) (a : List SyntaxNode) (p : Parser) :
    NeverAborts (parseBlock E fuel rec blockKind endKind l a p) := by
  simp only [parseBlock]
  refine neverAborts_bind (parseBlockItems_safe hrec _ _ _) (fun _ => ?_)
  exact neverAborts_pure _

/-- `parseImmediateAssertion` does not abort. -/
theorem parseImmediateAssertion_safe {E : ParserEnv} {rec : StatementParser}
    (hrec : ∀ p, NeverAborts (rec p)) (l : Option NamedLabelSyntax) (a : List SyntaxNode)
    (k : SyntaxKind) (p : Parser) : NeverAborts (parseImmediateAssertion E rec l a k p) := by
  simp only [parseImmediateAssertion]
  refine neverAborts_bind (parseActionBlock_safe hrec _) (fun _ => ?_)
  exact neverAborts_pure _

/-- `parseConcurrentAssertion`, entered on one of its five keywords, assigns
its kind and does not abort. -/
theorem parseConcurrentAssertion_safe {E : ParserEnv} {rec : StatementParser}
    (hrec : ∀ p, NeverAborts (rec p)) (l : Option NamedLabelSyntax) (a : List SyntaxNode)
    (p : Parser)
    (hk : p.peek.kind = TokenKind.AssertKeyword ∨ p.peek.kind = TokenKind.AssumeKeyword ∨
      p.peek.kind = TokenKind.CoverKeyword ∨ p.peek.kind = TokenKind.RestrictKeyword ∨
      p.peek.kind = TokenKind.ExpectKeyword) :
    NeverAborts (parseConcurrentAssertion E rec l a p) := by
  have hkind : p.consume.1.kind = p.peek.kind := rfl
  rcases hk with h | h | h | h | h
  all_goals
    simp only [parseConcurrentAssertion, hkind, h, pure_bind]
    try split
  all_goals
    try simp only [pure_bind]
    exact neverAborts_bind (parseActionBlock_safe hrec _) (fun _ => neverAborts_pure _)

/-- `parseAssertionStatement`, entered on `assert`, `assume` or `cover`, does
not reach its `ASSERT(false)` and does not abort. -/
theorem parseAssertionStatement_safe {E : ParserEnv} {rec : StatementParser}
    (hrec : ∀ p, NeverAborts (rec p)) (l : Option NamedLabelSyntax) (a : List SyntaxNode)
    (p : Parser)
    (hk : p.peek.kind = TokenKind.AssertKeyword ∨ p.peek.kind = TokenKind.AssumeKeyword ∨
      p.peek.kind = TokenKind.CoverKeyword) :
    NeverAborts (parseAssertionStatement E rec l a p) := by
  rcases hk with h | h | h
  · simp only [parseAssertionStatement, h]
    split
    · exact parseConcurrentAssertion_safe hrec l a p (Or.inl h)
    · exact parseImmediateAssertion_safe hrec l a _ p
  · simp only [parseAssertionStatement, h]
    split
    · exact parseConcurrentAssertion_safe hrec l a p (Or.inr (Or.inl h))
    · exact parseImmediateAssertion_safe hrec l a _ p
  · simp only [parseAssertionStatement, h]
    split
    · exact parseConcurrentAssertion_safe hrec l a p (Or.inr (Or.inr (Or.inl h)))
    · exact parseImmediateAssertion_safe hrec l a _ p

/-- The switch of `parseStatement` does not abort: it enters
`parseAssertionStatement` and `parseConcurrentAssertion` only on their own
keywords. -/
theorem parseStatementSwitch_safe {E : ParserEnv} {rec : StatementParser}
    (hrec : ∀ p, NeverAborts (rec p)) (fuel : Nat) (l : Option NamedLabelSyntax)
    (a : List SyntaxNode) (p : Parser) :
    NeverAborts (parseStatementSwitch E fuel rec l a p) := by
  have hmod : NeverAborts
      (match p.consume.2.peek.kind with
        | TokenKind.IfKeyword => parseConditionalStatement E rec l a p.consume.1 p.consume.2
        | TokenKind.CaseKeyword | TokenKind.CaseXKeyword | TokenKind.CaseZKeyword =>
          parseCaseStatement E fuel rec l a p.consume.1 p.consume.2.consume.1
            p.consume.2.consume.2
        | _ => pure (parseStatementRest E l a p.consume.2)) := by
    split
    · exact parseConditionalStatement_safe hrec _ _ _ _
    · exact parseCaseStatement_safe hrec _ _ _ _ _ _
    · exact parseCaseStatement_safe hrec _ _ _ _ _ _
    · exact parseCaseStatement_safe hrec _ _ _ _ _ _
    · exact neverAborts_pure _
  cases hkk : p.peek.kind
  all_goals
    simp only [parseStatementSwitch, hkk]
    first
      | exact hmod
      | exact neverAborts_pure _
      | exact parseCaseStatement_safe hrec _ _ _ _ _ _
      | exact parseConditionalStatement_safe hrec _ _ _ _
      | exact parseLoopStatement_safe hrec _ _ _
      | exact parseDoWhileStatement_safe hrec _ _ _
      | exact parseForLoopStatement_safe hrec _ _ _
      | exact parseForeachLoopStatement_safe hrec _ _ _
      | exact parseBlock_safe hrec _ _ _ _ _ _
      | exact parseAssertionStatement_safe hrec l a p (Or.inl hkk)
      | exact parseAssertionStatement_safe hrec l a p (Or.inr (Or.inl hkk))
      | exact parseAssertionStatement_safe hrec l a p (Or.inr (Or.inr hkk))
      | exact parseConcurrentAssertion_safe hrec l a p
          (Or.inr (Or.inr (Or.inr (Or.inl hkk))))
      | exact parseConcurrentAssertion_safe hrec l a p
          (Or.inr (Or.inr (Or.inr (Or.inr hkk))))
      | exact parseWaitStatement_safe hrec _ _ _
      | exact parseWaitOrderStatement_safe hrec _ _ _
      | exact parseRandCaseStatement_safe hrec _ _ _ _
      | (refine neverAborts_bind (hrec _) (fun _ => ?_)
         exact neverAborts_pure _)

end Parser

/-- `parseStatement` fails only for lack of fuel, whatever the environment, the
fuel and the token stream. -/
theorem parseStatement_neverAborts (E : ParserEnv) :
    ∀ (fuel : Nat) (p : Parser), NeverAborts (Parser.parseStatement E fuel p) := by
  intro fuel
  induction fuel with
  | zero => intro p; exact neverAborts_outOfFuel
  | succ f ih =>
    intro p
    rw [Parser.parseStatement_succ]
    exact Parser.parseStatementSwitch_safe ih f _ _ _

/-- C24: `parseStatement` never aborts. Whatever the environment, the fuel and
the token stream, it does not fail on the `ASSERT(false)` of
`parseAssertionStatement` nor on an unassigned kind in
`parseConcurrentAssertion`: these two methods are entered only on their own
keywords, on which they do not abort. The only failure of the embedding is the
lack of fuel, and under the assumptions of termination, with more fuel than
tokens, `parseStatement` returns a statement. -/
theorem parseStatement_total (E : ParserEnv) :
    (∀ (fuel : Nat) (p : Parser) (e : ParseFailure),
      Parser.parseStatement E fuel p = Except.error e →
        e = ParseFailure.outOfFuel ∧ e ≠ ParseFailure.assertFailed ∧
          e ≠ ParseFailure.uninitializedKind) ∧
    (E.WellBehaved → ∀ (fuel : Nat) (p : Parser), p.tokens.length ≤ fuel →
      ∃ s q, Parser.parseStatement E (fuel + 1) p = Except.ok (s, q)) ∧
    (∀ (rec : StatementParser) (l : Option NamedLabelSyntax) (a : List SyntaxNode)
      (p : Parser), (∀ p0, NeverAborts (rec p0)) →
      (p.peek.kind = TokenKind.AssertKeyword ∨ p.peek.kind = TokenKind.AssumeKeyword ∨
        p.peek.kind = TokenKind.CoverKeyword →
        NeverAborts (Parser.parseAssertionStatement E rec l a p)) ∧
      (p.peek.kind = TokenKind.AssertKeyword ∨ p.peek.kind = TokenKind.AssumeKeyword ∨
        p.peek.kind = TokenKind.CoverKeyword ∨ p.peek.kind = TokenKind.RestrictKeyword ∨
        p.peek.kind = TokenKind.ExpectKeyword →
        NeverAborts (Parser.parseConcurrentAssertion E rec l a p))) := by
  refine ⟨?_, ?_, ?_⟩
  · intro fuel p e h
    have he := parseStatement_neverAborts E fuel p e h
    subst he
    exact ⟨rfl, by decide, by decide⟩
  · intro hE fuel p hp
    obtain ⟨s, q, hq, -, -⟩ := parseStatement_terminates hE fuel p hp
    exact ⟨s, q, hq⟩
  · intro rec l a p hrec
    exact ⟨Parser.parseAssertionStatement_safe hrec l a p,
      Parser.parseConcurrentAssertion_safe hrec l a p⟩

/-- C24 at concrete streams: `assert ( x ) ;` is parsed; with one unit of fuel
`if (1) begin end` fails, for lack of fuel; in the environment of the
fixtures `parseConcurrentAssertion` on `restrict property ( x ) ;` does not
abort. -/
theorem parseStatement_total_witness :
    (∃ s q, Parser.parseStatement fixtureEnv 6
        (parserOf [TokenKind.AssertKeyword, TokenKind.OpenParenthesis, TokenKind.Identifier,
          TokenKind.CloseParenthesis, TokenKind.Semicolon]) = Except.ok (s, q)) ∧
    (∃ e, Parser.parseStatement fixtureEnv 1 (stateAt scenarioS4 0) = Except.error e ∧
      e = ParseFailure.outOfFuel) ∧
    NeverAborts (Parser.parseConcurrentAssertion fixtureEnv (Parser.parseStatement fixtureEnv 3)
      none []
      (parserOf [TokenKind.RestrictKeyword, TokenKind.PropertyKeyword,
        TokenKind.OpenParenthesis, TokenKind.Identifier, TokenKind.CloseParenthesis,
        TokenKind.Semicolon])) :=
  ⟨(parseStatement_total fixtureEnv).2.1 fixtureEnv_wellBehaved 5
      (parserOf [TokenKind.AssertKeyword, TokenKind.OpenParenthesis, TokenKind.Identifier,
        TokenKind.CloseParenthesis, TokenKind.Semicolon]) (by decide),
    ⟨ParseFailure.outOfFuel, rfl,
      ((parseStatement_total fixtureEnv).1 1 (stateAt scenarioS4 0) ParseFailure.outOfFuel
        rfl).1⟩,
    ((parseStatement_total fixtureEnv).2.2 (Parser.parseStatement fixtureEnv 3) none []
      (parserOf [TokenKind.RestrictKeyword, TokenKind.PropertyKeyword,
        TokenKind.OpenParenthesis, TokenKind.Identifier, TokenKind.CloseParenthesis,
        TokenKind.Semicolon])
      (parseStatement_neverAborts fixtureEnv 3)).2 (Or.inr (Or.inr (Or.inr (Or.inl rfl))))⟩

/-! ## Dangling else -/

namespace Parser

/-- What a returned pair holds. -/
theorem pure_ok_inv {α : Type} {x : α × Parser} {s : α} {q : Parser}
    (h : (pure x : Except ParseFailure (α × Parser)) = Except.ok (s, q)) :
    x.1 = s ∧ x.2 = q := by
  cases h
  exact ⟨rfl, rfl⟩

/-- `parseConcurrentAssertion` returns no conditional statement. -/
theorem parseConcurrentAssertion_kind_ne {E : ParserEnv} {rec : StatementParser}
    {l : Option NamedLabelSyntax} {a : List SyntaxNode} {p q : Parser} {s : StatementSyntax}
    (h : parseConcurrentAssertion E rec l a p = Except.ok (s, q)) :
    s.kind ≠ SyntaxKind.ConditionalStatement := by
  obtain ⟨kind, pos, op, cp, act, st, rfl, hcase⟩ := parseConcurrentAssertion_shape h
  rcases hcase with ⟨-, hk, -⟩ | ⟨-, hk, -⟩ | ⟨-, -, hk, -⟩ | ⟨-, -, hk, -⟩ | ⟨-, hk, -⟩ |
    ⟨-, hk, -⟩ <;>
  · subst hk
    intro hc
    exact SyntaxKind.noConfusion hc

/-- `parseAssertionStatement` returns no conditional statement. -/
theorem parseAssertionStatement_kind_ne {E : ParserEnv} {rec : StatementParser}
    {l : Option NamedLabelSyntax} {a : List SyntaxNode} {p q : Parser} {s : StatementSyntax}
    (h : parseAssertionStatement E rec l a p = Except.ok (s, q)) :
    s.kind ≠ SyntaxKind.ConditionalStatement := by
  have himm : ∀ k : SyntaxKind, k ≠ SyntaxKind.ConditionalStatement →
      parseImmediateAssertion E rec l a k p = Except.ok (s, q) →
      s.kind ≠ SyntaxKind.ConditionalStatement := by
    intro k hk hi
    obtain ⟨_, _, _, rfl⟩ := parseImmediateAssertion_shape hi
    exact hk
  simp only [parseAssertionStatement] at h
  split at h
  · split at h
    · exact parseConcurrentAssertion_kind_ne h
    · exact himm _ (by decide) h
  · split at h
    · exact parseConcurrentAssertion_kind_ne h
    · exact himm _ (by decide) h
  · split at h
    · exact parseConcurrentAssertion_kind_ne h
    · exact himm _ (by decide) h
  · cases h

/-- `parseBlock`, called for a sequential or a parallel block, returns no
conditional statement. -/
theorem parseBlock_kind {E : ParserEnv} {rec : StatementParser} {fuel : Nat}
    {blockKind : SyntaxKind} {endKind : TokenKind} {l : Option NamedLabelSyntax}
    {a : List SyntaxNode} {p q : Parser} {s : StatementSyntax}
    (h : parseBlock E fuel rec blockKind endKind l a p = Except.ok (s, q)) :
    s.kind = blockKind := by
  obtain ⟨_, _, _, -, rfl, -⟩ := parseBlock_shape h
  rfl

/-- The switch of `parseStatement` returns a conditional statement only
through `parseConditionalStatement`. -/
theorem parseStatementSwitch_conditional {E : ParserEnv} {rec : StatementParser}
    {fuel : Nat} {l : Option NamedLabelSyntax} {a : List SyntaxNode} {p q : Parser}
    {s : StatementSyntax}
    (h : parseStatementSwitch E fuel rec l a p = Except.ok (s, q))
    (hs : s.kind = SyntaxKind.ConditionalStatement) :
    ∃ (m : Token) (p0 : Parser), parseConditionalStatement E rec l a m p0 = Except.ok (s, q) := by
  have hrest : ∀ p0 : Parser,
      (pure (parseStatementRest E l a p0) : Except ParseFailure (StatementSyntax × Parser)) =
        Except.ok (s, q) → False := by
    intro p0 h0
    have hk := parseStatementRest_kind E l a p0
    rw [(pure_ok_inv h0).1, hs] at hk
    rcases hk with hk | hk <;> exact absurd hk (by decide)
  have hmod : (match p.consume.2.peek.kind with
        | TokenKind.IfKeyword => parseConditionalStatement E rec l a p.consume.1 p.consume.2
        | TokenKind.CaseKeyword | TokenKind.CaseXKeyword | TokenKind.CaseZKeyword =>
          parseCaseStatement E fuel rec l a p.consume.1 p.consume.2.consume.1
            p.consume.2.consume.2
        | _ => pure (parseStatementRest E l a p.consume.2)) = Except.ok (s, q) →
      ∃ (m : Token) (p0 : Parser),
        parseConditionalStatement E rec l a m p0 = Except.ok (s, q) := by
    intro h0
    split at h0
    · exact ⟨_, _, h0⟩
    · exact absurd ((parseCaseStatement_kind h0).symm.trans hs) (by decide)
    · exact absurd ((parseCaseStatement_kind h0).symm.trans hs) (by decide)
    · exact absurd ((parseCaseStatement_kind h0).symm.trans hs) (by decide)
    · exact (hrest _ h0).elim
  cases hkk : p.peek.kind
  all_goals simp only [parseStatementSwitch, hkk] at h
  all_goals first
    | exact hmod h
    | exact ⟨_, _, h⟩
    | exact (hrest _ h).elim
    | exact absurd ((parseCaseStatement_kind h).symm.trans hs) (by decide)
    | exact absurd ((parseLoopStatement_kind h).symm.trans hs) (by decide)
    | exact absurd ((parseDoWhileStatement_kind h).symm.trans hs) (by decide)
    | exact absurd ((parseForLoopStatement_kind h).symm.trans hs) (by decide)
    | exact absurd ((parseForeachLoopStatement_kind h).symm.trans hs) (by decide)
    | exact absurd ((parseBlock_kind h).symm.trans hs) (by decide)
    | exact absurd hs (parseAssertionStatement_kind_ne h)
    | exact absurd hs (parseConcurrentAssertion_kind_ne h)
    | exact absurd ((parseWaitOrderStatement_kind h).symm.trans hs) (by decide)
    | exact absurd ((parseRandCaseStatement_kind h).symm.trans hs) (by decide)
    | exact absurd ((((congrArg StatementSyntax.kind (pure_ok_inv h).1).symm.trans
        (parseReturnStatement_kind E l a _)).symm).trans hs) (by decide)
    | exact absurd ((((congrArg StatementSyntax.kind (pure_ok_inv h).1).symm.trans
        (parseJumpStatement_kind E l a _)).symm).trans hs) (by decide)
    | exact absurd ((((congrArg StatementSyntax.kind (pure_ok_inv h).1).symm.trans
        (parseProceduralAssignStatement_kind E l a _ _)).symm).trans hs) (by decide)
    | exact absurd ((((congrArg StatementSyntax.kind (pure_ok_inv h).1).symm.trans
        (parseProceduralDeassignStatement_kind E l a _ _)).symm).trans hs) (by decide)
    | (have hk := parseDisableStatement_kind E l a p
       rw [(pure_ok_inv h).1, hs] at hk
       rcases hk with hk | hk <;> exact absurd hk (by decide))
    | (have hk := parseWaitStatement_kind h
       rw [hs] at hk
       rcases hk with hk | hk <;> exact absurd hk (by decide))
    | (obtain ⟨_, -, h⟩ := bind_ok_inv h
       cases h
       exact SyntaxKind.noConfusion hs)
    | (cases h
       exact SyntaxKind.noConfusion hs)

end Parser

namespace Parser

/-- A statement with the parts of a conditional statement is one. -/
theorem kind_of_conditionalParts {s : StatementSyntax}
    {x : StatementSyntax × Option ElseClauseSyntax} (h : s.conditionalParts? = some x) :
    s.kind = SyntaxKind.ConditionalStatement := by
  cases s <;> first | rfl | exact Option.noConfusion h

/-- `parseElseClause` returns no else clause only when the next token is not
`else`, and then it consumes nothing. -/
theorem parseElseClause_none {rec : StatementParser} {p q : Parser}
    (h : parseElseClause rec p = Except.ok (none, q)) :
    p.peek.kind ≠ TokenKind.ElseKeyword ∧ q = p := by
  simp only [parseElseClause] at h
  split at h
  · obtain ⟨v, -, hk⟩ := bind_ok_inv h
    cases hk
  · rename_i hne
    cases h
    refine ⟨?_, rfl⟩
    intro hk
    exact hne (by simp [peekKind, hk])

/-- `parseElseClause` on a token that is not `else` returns no else clause. -/
theorem parseElseClause_of_ne (rec : StatementParser) (p : Parser)
    (h : p.peek.kind ≠ TokenKind.ElseKeyword) :
    parseElseClause rec p = Except.ok (none, p) := by
  simp [parseElseClause, peekKind, h, pure, Except.pure]

/-- The parts of what `parseConditionalStatement` returns: the statement is
what the statement parser returned, and the else clause is what
`parseElseClause` returned in the state just after that statement. -/
theorem parseConditionalStatement_parts {E : ParserEnv} {rec : StatementParser}
    {l : Option NamedLabelSyntax} {a : List SyntaxNode} {m : Token} {p q : Parser}
    {s : StatementSyntax}
    (h : parseConditionalStatement E rec l a m p = Except.ok (s, q)) :
    ∃ (p4 q1 : Parser) (statement : StatementSyntax) (elseClause : Option ElseClauseSyntax),
      rec p4 = Except.ok (statement, q1) ∧
      parseElseClause rec q1 = Except.ok (elseClause, q) ∧
      s.conditionalParts? = some (statement, elseClause) := by
  simp only [parseConditionalStatement] at h
  obtain ⟨v, hv, hk⟩ := bind_ok_inv h
  obtain ⟨w, hw, hk2⟩ := bind_ok_inv hk
  cases hk2
  exact ⟨_, v.2, v.1, w.1, hv, hw, rfl⟩

end Parser

/-- After a conditional statement without an else clause the next token is not
`else`: an `else` that follows is always taken. -/
theorem parseStatement_conditional_no_else (E : ParserEnv) :
    ∀ (fuel : Nat) (p q : Parser) (s st : StatementSyntax),
      Parser.parseStatement E fuel p = Except.ok (s, q) →
      s.conditionalParts? = some (st, none) → q.peek.kind ≠ TokenKind.ElseKeyword := by
  intro fuel p q s st h hparts
  cases fuel with
  | zero => cases h
  | succ f =>
    rw [Parser.parseStatement_succ] at h
    obtain ⟨m, p0, hc⟩ :=
      Parser.parseStatementSwitch_conditional h (Parser.kind_of_conditionalParts hparts)
    obtain ⟨p4, q1, statement, elseClause, -, helse, hp2⟩ :=
      Parser.parseConditionalStatement_parts hc
    rw [hparts] at hp2
    have hnone : elseClause = none := (congrArg Prod.snd (Option.some.inj hp2)).symm
    subst hnone
    obtain ⟨hne, hq⟩ := Parser.parseElseClause_none helse
    rw [hq]
    exact hne

/-- C29, dangling else. In a conditional statement whose statement is itself a
conditional statement without an else clause, the outer conditional has no
else clause either: an `else` is attached to the innermost conditional that
can take it. On `if ( a ) if ( b ) s1 ; else s2 ;`, for every environment
whose sub-parsers read the two conditions and the two expressions and find no
attributes, the else clause is in the inner conditional and the outer
conditional has none; every token is consumed and no diagnostic is reported. -/
theorem parseStatement_dangling_else (E : ParserEnv) :
    (∀ (fuel : Nat) (p q : Parser) (s inner st : StatementSyntax)
      (elseClause : Option ElseClauseSyntax),
      Parser.parseStatement E fuel p = Except.ok (s, q) →
      s.conditionalParts? = some (inner, elseClause) →
      inner.conditionalParts? = some (st, none) → elseClause = none) ∧
    (∀ (fuel : Nat) (ea pa eb pb x1 x2 : SyntaxNode),
      E.parseAttributes (stateAt scenarioDanglingElse 0) =
        ([], stateAt scenarioDanglingElse 0) →
      E.parseSubExpression (stateAt scenarioDanglingElse 2) =
        (ea, stateAt scenarioDanglingElse 3) →
      E.parseConditionalPredicate ea TokenKind.CloseParenthesis
          (stateAt scenarioDanglingElse 3) =
        ((pa, tokenAt TokenKind.CloseParenthesis 3), stateAt scenarioDanglingElse 4) →
      E.parseAttributes (stateAt scenarioDanglingElse 4) =
        ([], stateAt scenarioDanglingElse 4) →
      E.parseSubExpression (stateAt scenarioDanglingElse 6) =
        (eb, stateAt scenarioDanglingElse 7) →
      E.parseConditionalPredicate eb TokenKind.CloseParenthesis
          (stateAt scenarioDanglingElse 7) =
        ((pb, tokenAt TokenKind.CloseParenthesis 7), stateAt scenarioDanglingElse 8) →
      E.parseAttributes (stateAt scenarioDanglingElse 8) =
        ([], stateAt scenarioDanglingElse 8) →
      E.isPossibleExpression TokenKind.Identifier = true →
      E.parseExpression (stateAt scenarioDanglingElse 8) =
        (x1, stateAt scenarioDanglingElse 9) →
      E.parseAttributes (stateAt scenarioDanglingElse 11) =
        ([], stateAt scenarioDanglingElse 11) →
      E.parseExpression (stateAt scenarioDanglingElse 11) =
        (x2, stateAt scenarioDanglingElse 12) →
      Parser.parseStatement E (fuel + 3) (stateAt scenarioDanglingElse 0) =
        Except.ok (StatementSyntax.ConditionalStatement none [] Token.empty
            (tokenAt TokenKind.IfKeyword 0) (tokenAt TokenKind.OpenParenthesis 1) pa
            (tokenAt TokenKind.CloseParenthesis 3)
            (StatementSyntax.ConditionalStatement none [] Token.empty
              (tokenAt TokenKind.IfKeyword 4) (tokenAt TokenKind.OpenParenthesis 5) pb
              (tokenAt TokenKind.CloseParenthesis 7)
              (StatementSyntax.ExpressionStatement none [] x1
                (tokenAt TokenKind.Semicolon 9))
              (some (ElseClauseSyntax.mk (tokenAt TokenKind.ElseKeyword 10)
                (StatementSyntax.ExpressionStatement none [] x2
                  (tokenAt TokenKind.Semicolon 12)))))
            none,
          stateAt scenarioDanglingElse 13)) := by
  constructor
  · intro fuel p q s inner st elseClause h hparts hinner
    cases fuel with
    | zero => cases h
    | succ f =>
      rw [Parser.parseStatement_succ] at h
      obtain ⟨m, p0, hc⟩ :=
        Parser.parseStatementSwitch_conditional h (Parser.kind_of_conditionalParts hparts)
      obtain ⟨p4, q1, statement, el, hst, helse, hp2⟩ :=
        Parser.parseConditionalStatement_parts hc
      rw [hparts] at hp2
      have h1 : inner = statement := congrArg Prod.fst (Option.some.inj hp2)
      have h2 : elseClause = el := congrArg Prod.snd (Option.some.inj hp2)
      subst h1 h2
      have hne := parseStatement_conditional_no_else E f p4 q1 inner st hst hinner
      rw [Parser.parseElseClause_of_ne _ q1 hne] at helse
      exact (congrArg Prod.fst (Except.ok.inj helse)).symm
  · intro fuel ea pa eb pb x1 x2 ha0 hsubA hpredA ha4 hsubB hpredB ha8 hpe hs1 ha11 hs2
    have hl0 : Parser.parseLabel (stateAt scenarioDanglingElse 0) =
        (none, stateAt scenarioDanglingElse 0) := rfl
    have hl4 : Parser.parseLabel (stateAt scenarioDanglingElse 4) =
        (none, stateAt scenarioDanglingElse 4) := rfl
    have hl8 : Parser.parseLabel (stateAt scenarioDanglingElse 8) =
        (none, stateAt scenarioDanglingElse 8) := rfl
    have hl11 : Parser.parseLabel (stateAt scenarioDanglingElse 11) =
        (none, stateAt scenarioDanglingElse 11) := rfl
    have stmt1 : Parser.parseStatement E (fuel + 1) (stateAt scenarioDanglingElse 8) =
        Except.ok (StatementSyntax.ExpressionStatement none [] x1
          (tokenAt TokenKind.Semicolon 9), stateAt scenarioDanglingElse 10) := by
      rw [Parser.parseStatement_succ]
      simp only [statementStart, hl8, ha8]
      simp only [stateAt, scenarioDanglingElse, List.drop, tokensFrom, tokenAt, List.length,
        Nat.reduceAdd] at hs1 ⊢
      simp [Parser.parseStatementSwitch, Parser.parseStatementRest, Parser.peek,
        Parser.peekKind, Parser.consume, Parser.expect, hs1, hpe, Parser.endOfFile, pure,
        Except.pure]
    have stmt2 : Parser.parseStatement E (fuel + 1) (stateAt scenarioDanglingElse 11) =
        Except.ok (StatementSyntax.ExpressionStatement none [] x2
          (tokenAt TokenKind.Semicolon 12), stateAt scenarioDanglingElse 13) := by
      rw [Parser.parseStatement_succ]
      simp only [statementStart, hl11, ha11]
      simp only [stateAt, scenarioDanglingElse, List.drop, tokensFrom, tokenAt, List.length,
        Nat.reduceAdd] at hs2 ⊢
      simp [Parser.parseStatementSwitch, Parser.parseStatementRest, Parser.peek,
        Parser.peekKind, Parser.consume, Parser.expect, hs2, hpe, Parser.endOfFile, pure,
        Except.pure]
    have innerIf : Parser.parseStatement E (fuel + 2) (stateAt scenarioDanglingElse 4) =
        Except.ok (StatementSyntax.ConditionalStatement none [] Token.empty
            (tokenAt TokenKind.IfKeyword 4) (tokenAt TokenKind.OpenParenthesis 5) pb
            (tokenAt TokenKind.CloseParenthesis 7)
            (StatementSyntax.ExpressionStatement none [] x1
              (tokenAt TokenKind.Semicolon 9))
            (some (ElseClauseSyntax.mk (tokenAt TokenKind.ElseKeyword 10)
              (StatementSyntax.ExpressionStatement none [] x2
                (tokenAt TokenKind.Semicolon 12)))),
          stateAt scenarioDanglingElse 13) := by
      rw [Parser.parseStatement_succ]
      simp only [statementStart, hl4, ha4]
      simp only [stateAt, scenarioDanglingElse, List.drop, tokensFrom, tokenAt, List.length,
        Nat.reduceAdd] at hsubB hpredB stmt1 stmt2 ⊢
      simp [Parser.parseStatementSwitch, Parser.parseConditionalStatement,
        Parser.parseElseClause, Parser.peek, Parser.peekKind, Parser.consume, Parser.expect,
        hsubB, hpredB, stmt1, stmt2, bind, Except.bind, pure, Except.pure, Parser.endOfFile,
        Token.empty]
    rw [Parser.parseStatement_succ]
    simp only [statementStart, hl0, ha0]
    simp only [stateAt, scenarioDanglingElse, List.drop, tokensFrom, tokenAt, List.length,
      Nat.reduceAdd] at hsubA hpredA innerIf ⊢
    simp [Parser.parseStatementSwitch, Parser.parseConditionalStatement,
      Parser.parseElseClause, Parser.peek, Parser.peekKind, Parser.consume, Parser.expect,
      hsubA, hpredA, innerIf, bind, Except.bind, pure, Except.pure, Parser.endOfFile,
      Token.empty]

/-- C29 on the environment of the fixtures: in the tree of
`if ( a ) if ( b ) s1 ;` the inner conditional has no else clause and so has
the outer one; in the tree of `if ( a ) if ( b ) s1 ; else s2 ;` the else
clause is in the inner conditional. -/
theorem parseStatement_dangling_else_witness :
    Parser.parseStatement fixtureEnv 3 (parserOf (scenarioDanglingElse.take 10)) =
      Except.ok (StatementSyntax.ConditionalStatement none [] Token.empty
          (tokenAt TokenKind.IfKeyword 0) (tokenAt TokenKind.OpenParenthesis 1)
          ⟨4, [tokenAt TokenKind.Identifier 2]⟩ (tokenAt TokenKind.CloseParenthesis 3)
          (StatementSyntax.ConditionalStatement none [] Token.empty
            (tokenAt TokenKind.IfKeyword 4) (tokenAt TokenKind.OpenParenthesis 5)
            ⟨4, [tokenAt TokenKind.Identifier 6]⟩ (tokenAt TokenKind.CloseParenthesis 7)
            (StatementSyntax.ExpressionStatement none [] ⟨1, [tokenAt TokenKind.Identifier 8]⟩
              (tokenAt TokenKind.Semicolon 9))
            none)
          none,
        ⟨[], ⟨1, 10⟩, []⟩) ∧
    ((none : Option ElseClauseSyntax) = none) ∧
    Parser.parseStatement fixtureEnv 3 (stateAt scenarioDanglingElse 0) =
      Except.ok (StatementSyntax.ConditionalStatement none [] Token.empty
          (tokenAt TokenKind.IfKeyword 0) (tokenAt TokenKind.OpenParenthesis 1)
          ⟨4, [tokenAt TokenKind.Identifier 2]⟩ (tokenAt TokenKind.CloseParenthesis 3)
          (StatementSyntax.ConditionalStatement none [] Token.empty
            (tokenAt TokenKind.IfKeyword 4) (tokenAt TokenKind.OpenParenthesis 5)
            ⟨4, [tokenAt TokenKind.Identifier 6]⟩ (tokenAt TokenKind.CloseParenthesis 7)
            (StatementSyntax.ExpressionStatement none [] ⟨1, [tokenAt TokenKind.Identifier 8]⟩
              (tokenAt TokenKind.Semicolon 9))
            (some (ElseClauseSyntax.mk (tokenAt TokenKind.ElseKeyword 10)
              (StatementSyntax.ExpressionStatement none []
                ⟨1, [tokenAt TokenKind.Identifier 11]⟩ (tokenAt TokenKind.Semicolon 12)))))
          none,
        stateAt scenarioDanglingElse 13) :=
  ⟨rfl,
    (parseStatement_dangling_else fixtureEnv).1 3
      (parserOf (scenarioDanglingElse.take 10)) ⟨[], ⟨1, 10⟩, []⟩
      (StatementSyntax.ConditionalStatement none [] Token.empty
        (tokenAt TokenKind.IfKeyword 0) (tokenAt TokenKind.OpenParenthesis 1)
        ⟨4, [tokenAt TokenKind.Identifier 2]⟩ (tokenAt TokenKind.CloseParenthesis 3)
        (StatementSyntax.ConditionalStatement none [] Token.empty
          (tokenAt TokenKind.IfKeyword 4) (tokenAt TokenKind.OpenParenthesis 5)
          ⟨4, [tokenAt TokenKind.Identifier 6]⟩ (tokenAt TokenKind.CloseParenthesis 7)
          (StatementSyntax.ExpressionStatement none [] ⟨1, [tokenAt TokenKind.Identifier 8]⟩
            (tokenAt TokenKind.Semicolon 9))
          none)
        none)
      (StatementSyntax.ConditionalStatement none [] Token.empty
        (tokenAt TokenKind.IfKeyword 4) (tokenAt TokenKind.OpenParenthesis 5)
        ⟨4, [tokenAt TokenKind.Identifier 6]⟩ (tokenAt TokenKind.CloseParenthesis 7)
        (StatementSyntax.ExpressionStatement none [] ⟨1, [tokenAt TokenKind.Identifier 8]⟩
          (tokenAt TokenKind.Semicolon 9))
        none)
      (StatementSyntax.ExpressionStatement none [] ⟨1, [tokenAt TokenKind.Identifier 8]⟩
        (tokenAt TokenKind.Semicolon 9))
      none rfl rfl rfl,
    (parseStatement_dangling_else fixtureEnv).2 0 _ _ _ _ _ _ rfl rfl rfl rfl rfl rfl rfl rfl
      rfl rfl rfl⟩

/-! ## resetFlags: idempotence and composition -/

/-- Bits of the flag word after `resetFlags`. -/
theorem testBit_resetFlags (c : BindContext) (a i : Nat) :
    (c.resetFlags a).flags.testBit i = ((c.flags.testBit i && !decide (i < 2)) || a.testBit i) := by
  show (bitmaskAndNot c.flags
    (BindFlags.InsideConcatenation ||| BindFlags.AllowDataType) ||| a).testBit i = _
  rw [Nat.testBit_or, testBit_bitmaskAndNot, testBit_nonSticky]

/-- C35: `resetFlags` is idempotent and composes. For all contexts `c` and flag
sets `a`, `b`: `c.resetFlags(a).resetFlags(a) = c.resetFlags(a)`, and
`c.resetFlags(a).resetFlags(b)` is the context of the scope of `c` whose flags
are those of `c` without the non-sticky flags, united with those of `a`
without the non-sticky flags, united with `b`. -/
theorem resetFlags_idempotent_composes (c : BindContext) (a b : Nat) :
    (c.resetFlags a).resetFlags a = c.resetFlags a ∧
      ((c.resetFlags a).resetFlags b).flags =
        bitmaskAndNot c.flags (BindFlags.InsideConcatenation ||| BindFlags.AllowDataType) |||
          bitmaskAndNot a (BindFlags.InsideConcatenation ||| BindFlags.AllowDataType) |||
          b ∧
      ((c.resetFlags a).resetFlags b).scope = c.scope := by
  refine ⟨?_, ?_, rfl⟩
  · have hs : ((c.resetFlags a).resetFlags a).scope = (c.resetFlags a).scope := rfl
    have hf : ((c.resetFlags a).resetFlags a).flags = (c.resetFlags a).flags := by
      apply Nat.eq_of_testBit_eq
      intro i
      rw [testBit_resetFlags, testBit_resetFlags]
      cases c.flags.testBit i <;> cases a.testBit i <;> cases decide (i < 2) <;> rfl
    cases h1 : (c.resetFlags a).resetFlags a
    cases h2 : c.resetFlags a
    rw [h1, h2] at hs hf
    simp only at hs hf
    rw [hs, hf]
  · apply Nat.eq_of_testBit_eq
    intro i
    rw [testBit_resetFlags, testBit_resetFlags, Nat.testBit_or, Nat.testBit_or,
      testBit_bitmaskAndNot, testBit_bitmaskAndNot, testBit_nonSticky]
    cases c.flags.testBit i <;> cases a.testBit i <;> cases decide (i < 2) <;> rfl


/-! ## The require checks: one diagnostic at most, and only on failure -/

/-- C36: every `require*` check of `BindContext` (`requireLValue`,
`requireIntegral`, `requireNoUnknowns`, `requirePositive`, `requireGtZero`,
`requireValidBitWidth` on a width) emits at most one diagnostic per call,
emits none when it returns true, and returns false whenever it emits one. A
silent failure, false without a diagnostic, never comes from `requireLValue`,
`requireNoUnknowns`, `requirePositive` or `requireValidBitWidth`; it comes from
`requireIntegral` exactly on a bad constant and from `requireGtZero` exactly
on an absent value. -/
theorem require_checks_discipline (ctx : BindContext) (expr : Expression)
    (location : SourceLocation) (cv : ConstantValue) (sv : SVInt) (v : Option Int)
    (width : Nat) (r : SourceRange) :
    (∀ res ∈ [ctx.requireLValue expr location, ctx.requireIntegral cv r,
        ctx.requireNoUnknowns sv r, ctx.requirePositive sv r, ctx.requireGtZero v r,
        ctx.requireValidBitWidth width r],
      res.2.length ≤ 1 ∧ (res.1 = true → res.2 = []) ∧ (res.2 ≠ [] → res.1 = false)) ∧
    (∀ res ∈ [ctx.requireLValue expr location, ctx.requireNoUnknowns sv r,
        ctx.requirePositive sv r, ctx.requireValidBitWidth width r],
      res ≠ (false, [])) ∧
    (ctx.requireIntegral cv r = (false, []) ↔ cv.bad = true) ∧
    (ctx.requireGtZero v r = (false, []) ↔ v = none) := by
  have hL : ctx.requireLValue expr location = (true, []) ∨
      ctx.requireLValue expr location =
        (false, [⟨DiagCode.ExpressionNotAssignable, DiagSite.location location,
          [DiagArg.range expr.sourceRange]⟩]) := by
    unfold BindContext.requireLValue BindContext.addDiagAt
    cases expr.isLValue <;> simp
  have hI : ctx.requireIntegral cv r = (true, []) ∨
      (ctx.requireIntegral cv r = (false, []) ∧ cv.bad = true) ∨
      (ctx.requireIntegral cv r =
        (false, [⟨DiagCode.ValueMustBeIntegral, DiagSite.range r, []⟩]) ∧ cv.bad = false) := by
    cases cv <;>
      simp [BindContext.requireIntegral, ConstantValue.bad, ConstantValue.isInteger,
        BindContext.addDiag]
  have hU : ctx.requireNoUnknowns sv r = (true, []) ∨
      ctx.requireNoUnknowns sv r =
        (false, [⟨DiagCode.ValueMustNotBeUnknown, DiagSite.range r, []⟩]) := by
    unfold BindContext.requireNoUnknowns BindContext.addDiag
    cases sv.hasUnknown <;> simp
  have hP : ctx.requirePositive sv r = (true, []) ∨
      ctx.requirePositive sv r =
        (false, [⟨DiagCode.ValueMustBePositive, DiagSite.range r, []⟩]) := by
    unfold BindContext.requirePositive BindContext.addDiag
    cases (sv.isSigned && sv.isNegative) <;> simp
  have hG : ctx.requireGtZero v r = (true, []) ∨
      (ctx.requireGtZero v r = (false, []) ∧ v = none) ∨
      (ctx.requireGtZero v r =
        (false, [⟨DiagCode.ValueMustBePositive, DiagSite.range r, []⟩]) ∧ v ≠ none) := by
    cases v with
    | none => exact Or.inr (Or.inl ⟨rfl, rfl⟩)
    | some n =>
      by_cases hn : n ≤ 0
      · exact Or.inr (Or.inr ⟨requireGtZero_nonpos ctx n r hn, by simp⟩)
      · exact Or.inl (requireGtZero_pos ctx n r (not_le.1 hn))
  have hW : ctx.requireValidBitWidth width r = (true, []) ∨
      ctx.requireValidBitWidth width r =
        (false, [⟨DiagCode.ValueExceedsMaxBitWidth, DiagSite.range r,
          [DiagArg.int (SVInt.MAX_BITS : Int)]⟩]) := by
    unfold BindContext.requireValidBitWidth BindContext.addDiag
    by_cases hw : width > SVInt.MAX_BITS
    · exact Or.inr (if_pos hw)
    · exact Or.inl (if_neg hw)
  refine ⟨?_, ?_, ?_, ?_⟩
  · intro res hres
    simp only [List.mem_cons, List.mem_singleton, List.not_mem_nil, or_false] at hres
    rcases hres with h | h | h | h | h | h <;> subst h
    · rcases hL with h | h <;> rw [h] <;> simp
    · rcases hI with h | ⟨h, -⟩ | ⟨h, -⟩ <;> rw [h] <;> simp
    · rcases hU with h | h <;> rw [h] <;> simp
    · rcases hP with h | h <;> rw [h] <;> simp
    · rcases hG with h | ⟨h, -⟩ | ⟨h, -⟩ <;> rw [h] <;> simp
    · rcases hW with h | h <;> rw [h] <;> simp
  · intro res hres
    simp only [List.mem_cons, List.mem_singleton, List.not_mem_nil, or_false] at hres
    rcases hres with h | h | h | h <;> subst h
    · rcases hL with h | h <;> rw [h] <;> simp
    · rcases hU with h | h <;> rw [h] <;> simp
    · rcases hP with h | h <;> rw [h] <;> simp
    · rcases hW with h | h <;> rw [h] <;> simp
  · rcases hI with h | ⟨h, hb⟩ | ⟨h, hb⟩ <;> rw [h]
    · constructor
      · intro h0
        simp at h0
      · intro hb
        cases cv <;> simp [BindContext.requireIntegral, ConstantValue.bad,
          ConstantValue.isInteger] at h hb
    · simp [hb]
    · simp [hb]
  · rcases hG with h | ⟨h, hv⟩ | ⟨h, hv⟩ <;> rw [h]
    · constructor
      · intro h0
        simp at h0
      · intro hv
        subst hv
        simp [BindContext.requireGtZero] at h
    · simp [hv]
    · simp [hv]

/-- C36 at concrete inputs: an expression that is no lvalue fails with its one
diagnostic and not silently; the bad constant and the absent value fail
silently; `requireGtZero` on 5 returns true with no diagnostic. -/
theorem require_checks_discipline_witness :
    (fixtureContext.requireLValue (constExpr none (rangeAt 0 1)) ⟨1, 0⟩).2.length ≤ 1 ∧
      fixtureContext.requireLValue (constExpr none (rangeAt 0 1)) ⟨1, 0⟩ ≠ (false, []) ∧
      fixtureContext.requireIntegral ConstantValue.badValue (rangeAt 0 1) = (false, []) ∧
      fixtureContext.requireGtZero none (rangeAt 0 1) = (false, []) ∧
      (fixtureContext.requireGtZero (some 5) (rangeAt 0 1)).2 = [] :=
  ⟨((require_checks_discipline fixtureContext (constExpr none (rangeAt 0 1)) ⟨1, 0⟩
      ConstantValue.badValue (SVInt.ofInt32 3) none 8 (rangeAt 0 1)).1 _
      (List.mem_cons_self _ _)).1,
    (require_checks_discipline fixtureContext (constExpr none (rangeAt 0 1)) ⟨1, 0⟩
      ConstantValue.badValue (SVInt.ofInt32 3) none 8 (rangeAt 0 1)).2.1 _
      (List.mem_cons_self _ _),
    (require_checks_discipline fixtureContext (constExpr none (rangeAt 0 1)) ⟨1, 0⟩
      ConstantValue.badValue (SVInt.ofInt32 3) none 8 (rangeAt 0 1)).2.2.1.2 rfl,
    (require_checks_discipline fixtureContext (constExpr none (rangeAt 0 1)) ⟨1, 0⟩
      ConstantValue.badValue (SVInt.ofInt32 3) none 8 (rangeAt 0 1)).2.2.2.2 rfl,
    ((require_checks_discipline fixtureContext (constExpr none (rangeAt 0 1)) ⟨1, 0⟩
      ConstantValue.badValue (SVInt.ofInt32 3) (some 5) 8 (rangeAt 0 1)).1 _
      (by simp)).2.1 rfl⟩


/-! ## evalInteger: the order of the checks -/

/-- C31: `evalInteger` emits at most one diagnostic per call and checks in a
fixed order. A missing constant and a bad constant give absent with no
diagnostic; a constant that is not bad and not an integer gives absent with
`ValueMustBeIntegral` alone; an integer with unknown bits gives absent with
`ValueMustNotBeUnknown` alone, so never `ValueOutOfRange`; and
`ValueOutOfRange` is emitted exactly for an integer without unknown bits that
does not convert to `int32_t`. -/
theorem evalInteger_check_order (ctx : BindContext) (e : Expression) :
    (ctx.evalInteger e).2.length ≤ 1 ∧
      (e.constant = none → ctx.evalInteger e = (none, [])) ∧
      (∀ c, e.constant = some c → c.bad = true → ctx.evalInteger e = (none, [])) ∧
      (∀ c, e.constant = some c → c.bad = false → c.isInteger = false →
        ctx.evalInteger e =
          (none, [⟨DiagCode.ValueMustBeIntegral, DiagSite.range e.sourceRange, []⟩])) ∧
      (∀ sv, e.constant = some (ConstantValue.integer sv) → sv.hasUnknown = true →
        ctx.evalInteger e =
          (none, [⟨DiagCode.ValueMustNotBeUnknown, DiagSite.range e.sourceRange, []⟩])) ∧
      (DiagCode.ValueOutOfRange ∈ codesOf (ctx.evalInteger e).2 ↔
        ∃ sv, e.constant = some (ConstantValue.integer sv) ∧ sv.hasUnknown = false ∧
          sv.as_int32 = none) := by
  cases hc : e.constant with
  | none =>
    have h : ctx.evalInteger e = (none, []) := by
      simp [BindContext.evalInteger, hc]
    simp [h, codesOf]
  | some c =>
    cases c with
    | integer sv =>
      have h := evalInteger_integer ctx e sv hc
      by_cases hu : sv.hasUnknown = true
      · simp only [hu, if_true] at h
        simp [h, codesOf, ConstantValue.bad, ConstantValue.isInteger, hu]
      · have hu0 : sv.hasUnknown = false := by simpa using hu
        cases hv : sv.as_int32 with
        | none =>
          simp only [hu0, hv] at h
          simp [h, codesOf, ConstantValue.bad, ConstantValue.isInteger, hu0, hv]
        | some w =>
          simp only [hu0, hv] at h
          simp [h, codesOf, ConstantValue.bad, ConstantValue.isInteger, hu0, hv]
    | badValue =>
      have h : ctx.evalInteger e = (none, []) := by
        simp [BindContext.evalInteger, hc, BindContext.requireIntegral, ConstantValue.bad]
      simp [h, codesOf, ConstantValue.bad]
    | real q =>
      have h : ctx.evalInteger e =
          (none, [⟨DiagCode.ValueMustBeIntegral, DiagSite.range e.sourceRange, []⟩]) := by
        simp [BindContext.evalInteger, hc, BindContext.requireIntegral, ConstantValue.bad,
          ConstantValue.isInteger, BindContext.addDiag]
      simp [h, codesOf, ConstantValue.bad]
    | null =>
      have h : ctx.evalInteger e =
          (none, [⟨DiagCode.ValueMustBeIntegral, DiagSite.range e.sourceRange, []⟩]) := by
        simp [BindContext.evalInteger, hc, BindContext.requireIntegral, ConstantValue.bad,
          ConstantValue.isInteger, BindContext.addDiag]
      simp [h, codesOf, ConstantValue.bad]

/-- C31 at concrete inputs: no constant and the bad constant are silent, a real
gives `ValueMustBeIntegral` alone, the one-bit integer `x` gives
`ValueMustNotBeUnknown` alone, and the 33-bit integer 2^32 gives
`ValueOutOfRange`. -/
theorem evalInteger_check_order_witness :
    fixtureContext.evalInteger (constExpr none (rangeAt 0 1)) = (none, []) ∧
      fixtureContext.evalInteger (constExpr (some ConstantValue.badValue) (rangeAt 0 1)) =
        (none, []) ∧
      fixtureContext.evalInteger (constExpr (some (ConstantValue.real 0)) (rangeAt 0 1)) =
        (none, [⟨DiagCode.ValueMustBeIntegral, DiagSite.range (rangeAt 0 1), []⟩]) ∧
      fixtureContext.evalInteger
          (constExpr (some (ConstantValue.integer ⟨false, [Logic.x]⟩)) (rangeAt 0 1)) =
        (none, [⟨DiagCode.ValueMustNotBeUnknown, DiagSite.range (rangeAt 0 1), []⟩]) ∧
      DiagCode.ValueOutOfRange ∈ codesOf (fixtureContext.evalInteger
        (constExpr (some (ConstantValue.integer (SVInt.ofNat 33 4294967296)))
          (rangeAt 0 1))).2 :=
  ⟨(evalInteger_check_order fixtureContext (constExpr none (rangeAt 0 1))).2.1 rfl,
    (evalInteger_check_order fixtureContext
      (constExpr (some ConstantValue.badValue) (rangeAt 0 1))).2.2.1 _ rfl rfl,
    (evalInteger_check_order fixtureContext
      (constExpr (some (ConstantValue.real 0)) (rangeAt 0 1))).2.2.2.1 _ rfl rfl rfl,
    (evalInteger_check_order fixtureContext
      (constExpr (some (ConstantValue.integer ⟨false, [Logic.x]⟩)) (rangeAt 0 1))).2.2.2.2.1
      _ rfl rfl,
    (evalInteger_check_order fixtureContext
      (constExpr (some (ConstantValue.integer (SVInt.ofNat 33 4294967296)))
        (rangeAt 0 1))).2.2.2.2.2.2 ⟨_, rfl, by decide, by decide⟩⟩


/-! ## evalDimension: queue dimensions -/

/-- A queue specifier is read as a queue dimension; its maximum size is set
when `requireGtZero` accepts the value of the clause. -/
theorem specifierDimension_queue (ctx : BindContext) (bind : Binder)
    (stx : VariableDimensionSyntax) (clause : Option ExpressionSyntax)
    (hs : stx.specifier = some (DimensionSpecifierSyntax.QueueDimensionSpecifier clause)) :
    (specifierDimension ctx bind stx).1.kind = DimensionKind.Queue ∧
      (specifierDimension ctx bind stx).1.isRange = false ∧
      (clause = none → specifierDimension ctx bind stx = ({ kind := DimensionKind.Queue }, [])) ∧
      (∀ e n, clause = some e → (ctx.evalIntegerOfSyntax bind e).1 = some n → 0 < n →
        specifierDimension ctx bind stx =
          ({ kind := DimensionKind.Queue, queueMaxSize := n.toNat },
            (bind e (ctx.resetFlags BindFlags.Constant)).2)) ∧
      (∀ e n, clause = some e → (ctx.evalIntegerOfSyntax bind e).1 = some n → n ≤ 0 →
        specifierDimension ctx bind stx =
          ({ kind := DimensionKind.Queue },
            (bind e (ctx.resetFlags BindFlags.Constant)).2 ++
              [⟨DiagCode.ValueMustBePositive, DiagSite.range e.sourceRange, []⟩])) ∧
      (∀ e, clause = some e → (ctx.evalIntegerOfSyntax bind e).1 = none →
        (specifierDimension ctx bind stx).1 = { kind := DimensionKind.Queue }) := by
  unfold specifierDimension
  rw [hs]
  cases clause with
  | none => simp [EvaluatedDimension.isRange]
  | some e0 =>
    simp only []
    refine ⟨?_, ?_, ?_, ?_, ?_, ?_⟩
    · split <;> rfl
    · split <;> rfl
    · intro h
      cases h
    · intro e n he hv hn
      cases he
      rw [evalIntegerOfSyntax_some ctx bind e0 n hv, hv, requireGtZero_pos ctx n _ hn]
      simp
    · intro e n he hv hn
      cases he
      rw [evalIntegerOfSyntax_some ctx bind e0 n hv, hv, requireGtZero_nonpos ctx n _ hn]
      simp
    · intro e he hv
      cases he
      rw [hv]
      simp [BindContext.requireGtZero]

/-- C34: a queue dimension `[$]` or `[$:N]`. The kind is Queue whether or not
the max-size clause is valid. The maximum size is set to `N` exactly when the
clause evaluates to an `int32_t` `N > 0`: then it is `N` and nothing is emitted
for the clause besides what the binder emitted, and in every other case it
keeps its default. When the clause evaluates to `N <= 0`, exactly one
`ValueMustBePositive` is emitted, at the expression of the clause, after what
the binder emitted. Without a clause nothing is emitted unless `requireRange`
is set, in which case the one diagnostic is `DimensionRequiresConstRange`,
which is emitted for every queue dimension when `requireRange` is set. -/
theorem evalDimension_queue (ctx : BindContext) (bind : Binder)
    (stx : VariableDimensionSyntax) (clause : Option ExpressionSyntax) (requireRange : Bool)
    (hs : stx.specifier = some (DimensionSpecifierSyntax.QueueDimensionSpecifier clause)) :
    (ctx.evalDimension bind stx requireRange).1.kind = DimensionKind.Queue ∧
      (∀ n : Int, 0 < n →
        ((ctx.evalDimension bind stx requireRange).1.queueMaxSize = n.toNat ↔
          ∃ e, clause = some e ∧ (ctx.evalIntegerOfSyntax bind e).1 = some n)) ∧
      ((¬ ∃ e n, clause = some e ∧ (ctx.evalIntegerOfSyntax bind e).1 = some n ∧ 0 < n) →
        (ctx.evalDimension bind stx requireRange).1.queueMaxSize =
          ({} : EvaluatedDimension).queueMaxSize) ∧
      (∀ e n, clause = some e → (ctx.evalIntegerOfSyntax bind e).1 = some n → 0 < n →
        (ctx.evalDimension bind stx requireRange).2 =
          (bind e (ctx.resetFlags BindFlags.Constant)).2 ++
            if requireRange = true then
              [⟨DiagCode.DimensionRequiresConstRange, DiagSite.range stx.sourceRange, []⟩]
            else []) ∧
      (∀ e n, clause = some e → (ctx.evalIntegerOfSyntax bind e).1 = some n → n ≤ 0 →
        (ctx.evalDimension bind stx requireRange).1.queueMaxSize =
            ({} : EvaluatedDimension).queueMaxSize ∧
          (ctx.evalDimension bind stx requireRange).2 =
            ((bind e (ctx.resetFlags BindFlags.Constant)).2 ++
              [⟨DiagCode.ValueMustBePositive, DiagSite.range e.sourceRange, []⟩]) ++
              (if requireRange = true then
                [⟨DiagCode.DimensionRequiresConstRange, DiagSite.range stx.sourceRange, []⟩]
              else []) ∧
          (codesOf (ctx.evalDimension bind stx requireRange).2).count
              DiagCode.ValueMustBePositive =
            (codesOf (bind e (ctx.resetFlags BindFlags.Constant)).2).count
              DiagCode.ValueMustBePositive + 1) ∧
      (clause = none →
        (ctx.evalDimension bind stx requireRange).1 = { kind := DimensionKind.Queue } ∧
          (ctx.evalDimension bind stx requireRange).2 =
            if requireRange = true then
              [⟨DiagCode.DimensionRequiresConstRange, DiagSite.range stx.sourceRange, []⟩]
            else []) := by
  obtain ⟨hkind, hrange, hnone, hpos, hnonpos, habsent⟩ :=
    specifierDimension_queue ctx bind stx clause hs
  have hfst : (ctx.evalDimension bind stx requireRange).1 = (specifierDimension ctx bind stx).1 := by
    rw [evalDimension_eq]
  have hsnd : (ctx.evalDimension bind stx requireRange).2 =
      (specifierDimension ctx bind stx).2 ++
        if requireRange = true then
          [⟨DiagCode.DimensionRequiresConstRange, DiagSite.range stx.sourceRange, []⟩]
        else [] := by
    rw [evalDimension_eq]
    simp [hkind, hrange]
  have hdefault : (¬ ∃ e n, clause = some e ∧ (ctx.evalIntegerOfSyntax bind e).1 = some n ∧
      0 < n) → (specifierDimension ctx bind stx).1.queueMaxSize = 0 := by
    intro hno
    cases hc : clause with
    | none => rw [hnone hc]
    | some e =>
      cases hv : (ctx.evalIntegerOfSyntax bind e).1 with
      | none => rw [habsent e hc hv]
      | some n =>
        by_cases hn : 0 < n
        · exact absurd ⟨e, n, hc, hv, hn⟩ hno
        · rw [hnonpos e n hc hv (not_lt.1 hn)]
  refine ⟨hfst ▸ hkind, ?_, ?_, ?_, ?_, ?_⟩
  · intro n hn
    rw [hfst]
    constructor
    · intro hq
      by_contra hno
      have hz : (specifierDimension ctx bind stx).1.queueMaxSize = 0 := by
        apply hdefault
        rintro ⟨e, m, hc, hv, hm⟩
        have hm2 : (specifierDimension ctx bind stx).1.queueMaxSize = m.toNat := by
          rw [hpos e m hc hv hm]
        have hmn : m = n := by
          have h1 : m.toNat = n.toNat := hm2.symm.trans hq
          omega
        exact hno ⟨e, hc, hmn ▸ hv⟩
      have : n.toNat = 0 := hq.symm.trans hz
      omega
    · rintro ⟨e, hc, hv⟩
      rw [hpos e n hc hv hn]
  · intro hno
    rw [hfst]
    exact hdefault hno
  · intro e n hc hv hn
    rw [hsnd, hpos e n hc hv hn]
  · intro e n hc hv hn
    refine ⟨?_, ?_, ?_⟩
    · rw [hfst, hnonpos e n hc hv hn]
    · rw [hsnd, hnonpos e n hc hv hn]
    · rw [hsnd, hnonpos e n hc hv hn]
      cases requireRange <;> simp [codesOf, List.count_append]
  · intro hc
    refine ⟨?_, ?_⟩
    · rw [hfst, hnone hc]
    · rw [hsnd, hnone hc]
      simp

/-- C34 at concrete inputs: `[$:8]` is a queue of maximum size 8 with no
diagnostic; `[$:0]` and `[$:-1]` are queues of default maximum size with one
`ValueMustBePositive`; `[$]` is a queue with no diagnostic, and with
`DimensionRequiresConstRange` alone when `requireRange` is set. -/
theorem evalDimension_queue_witness :
    (fixtureContext.evalDimension fixtureBinder (dimQueue (some 108)) false).1.kind =
        DimensionKind.Queue ∧
      (fixtureContext.evalDimension fixtureBinder (dimQueue (some 108)) false).1.queueMaxSize =
        8 ∧
      (fixtureContext.evalDimension fixtureBinder (dimQueue (some 108)) false).2 = [] ∧
      (fixtureContext.evalDimension fixtureBinder (dimQueue (some 100)) false).1.queueMaxSize =
        0 ∧
      (fixtureContext.evalDimension fixtureBinder (dimQueue (some 99)) false).2 =
        [⟨DiagCode.ValueMustBePositive, DiagSite.range (rangeAt 3 4), []⟩] ∧
      (fixtureContext.evalDimension fixtureBinder (dimQueue none) false).2 = [] ∧
      (fixtureContext.evalDimension fixtureBinder (dimQueue none) true).2 =
        [⟨DiagCode.DimensionRequiresConstRange, DiagSite.range (rangeAt 0 5), []⟩] :=
  ⟨(evalDimension_queue fixtureContext fixtureBinder (dimQueue (some 108)) _ false rfl).1,
    ((evalDimension_queue fixtureContext fixtureBinder (dimQueue (some 108)) _ false
      rfl).2.1 8 (by decide)).2 ⟨_, rfl, by decide⟩,
    (evalDimension_queue fixtureContext fixtureBinder (dimQueue (some 108)) _ false
      rfl).2.2.2.1 _ 8 rfl (by decide) (by decide),
    ((evalDimension_queue fixtureContext fixtureBinder (dimQueue (some 100)) _ false
      rfl).2.2.2.2.1 _ 0 rfl (by decide) (by decide)).1,
    ((evalDimension_queue fixtureContext fixtureBinder (dimQueue (some 99)) _ false
      rfl).2.2.2.2.1 _ (-1) rfl (by decide) (by decide)).2.1,
    ((evalDimension_queue fixtureContext fixtureBinder (dimQueue none) _ false
      rfl).2.2.2.2.2 rfl).2,
    ((evalDimension_queue fixtureContext fixtureBinder (dimQueue none) _ true
      rfl).2.2.2.2.2 rfl).2⟩


/-! ## Progress: every path and every loop iteration consumes a token -/

namespace Parser

end Parser

/-! ## Without a lookahead for statements the block loop can stall -/

namespace Parser

end Parser

/-- A list that extends another is the other followed by what was added. -/
theorem diagnostics_of_prefix {p q : Parser} (h : p.diagnostics <+: q.diagnostics) :
    q.diagnostics = p.diagnostics ++ q.diagnosticsSince p := by
  obtain ⟨t, ht⟩ := h
  simp [Parser.diagnosticsSince, ← ht]

/-- The expected diagnostics begin with the diagnostic of the first run. -/
theorem expectedBlockDiagnostics_head (more : List BlockItemSyntax)
    (rounds : List (Parser × Parser)) (trailing : List Token)
    (hlen : more.length = rounds.length) :
    ∃ rest, expectedBlockDiagnostics more rounds trailing =
      runDiagnostic (firstRun more trailing) ++ rest := by
  cases more with
  | nil =>
    cases rounds with
    | nil => exact ⟨[], by simp [expectedBlockDiagnostics, firstRun]⟩
    | cons r rs => simp at hlen
  | cons i is =>
    cases rounds with
    | nil => simp at hlen
    | cons r rs => exact ⟨_, rfl⟩

/-- The diagnostic of the run collected so far was reported exactly when the
error flag is set. -/
theorem drop_runDiagnostic (skipped : List Token) (error : Bool)
    (hinv : error = true ↔ skipped ≠ []) (rest : List Diagnostic) :
    (runDiagnostic skipped ++ rest).drop (if error = true then 1 else 0) = rest := by
  cases error with
  | false =>
    have hs : skipped = [] := by
      by_contra hne
      exact absurd (hinv.2 hne) (by decide)
    simp [hs, runDiagnostic]
  | true =>
    cases skipped with
    | nil => exact absurd rfl (hinv.1 rfl)
    | cons t ts => simp [runDiagnostic]

namespace Parser

/-- The diagnostics of the loop of `parseBlockItems`. From a state of the loop
in which the error flag is set exactly when skipped tokens are pending, and
when the sub-parsers only add diagnostics: the diagnostics at the end are those
at the start, then, item by item, the diagnostic of the run in front of the
item and what its sub-parsers reported, then the diagnostic of the last run;
the diagnostic of the pending run is not reported again. -/
theorem parseBlockItemsLoop_diagnostics {E : ParserEnv} {rec : StatementParser} :
    ∀ (fuel : Nat) (buffer : List BlockItemSyntax) (skipped : List Token) (error : Bool)
      (p : Parser) (items : List BlockItemSyntax) (trailing : List Token) (q : Parser),
      parseBlockItemsLoop E rec fuel buffer skipped error p =
        Except.ok ((items, trailing), q) →
      (error = true ↔ skipped ≠ []) →
      (∀ r ∈ itemRounds E rec fuel error p, r.1.diagnostics <+: r.2.diagnostics) →
      ∃ more : List BlockItemSyntax, items = buffer ++ more ∧
        more.length = (itemRounds E rec fuel error p).length ∧
        (∃ ext, firstRun more trailing = skipped ++ ext) ∧
        q.diagnostics = p.diagnostics ++
          (expectedBlockDiagnostics more (itemRounds E rec fuel error p) trailing).drop
            (if error = true then 1 else 0) := by
  intro fuel
  induction fuel with
  | zero =>
    intro buffer skipped error p items trailing q h
    cases h
  | succ f ih =>
    intro buffer skipped error p items trailing q h hinv hsub
    have hitem : ∀ (item : BlockItemSyntax) (q1 : Parser),
        item.skippedTokens = skipped →
        itemRounds E rec (f + 1) error p = (p, q1) :: itemRounds E rec f false q1 →
        parseBlockItemsLoop E rec f (buffer ++ [item]) [] false q1 =
          Except.ok ((items, trailing), q) →
        ∃ more : List BlockItemSyntax, items = buffer ++ more ∧
          more.length = (itemRounds E rec (f + 1) error p).length ∧
          (∃ ext, firstRun more trailing = skipped ++ ext) ∧
          q.diagnostics = p.diagnostics ++
            (expectedBlockDiagnostics more (itemRounds E rec (f + 1) error p) trailing).drop
              (if error = true then 1 else 0) := by
      intro item q1 hsk hrounds hloop
      rw [hrounds] at hsub ⊢
      obtain ⟨more1, hitems, hlen, -, hdiag⟩ := ih _ _ _ _ _ _ _ hloop (by simp)
        (fun r hr => hsub r (List.mem_cons_of_mem _ hr))
      have hpre := diagnostics_of_prefix (hsub (p, q1) (List.mem_cons_self _ _))
      refine ⟨item :: more1, by simp [hitems], by simp [hlen], ⟨[], by simp [firstRun, hsk]⟩, ?_⟩
      simp only [expectedBlockDiagnostics, hsk]
      rw [drop_runDiagnostic skipped error hinv, hdiag, hpre]
      simp
    by_cases hcond : (!E.isEndKeyword p.peek.kind && p.peek.kind != TokenKind.EndOfFile) = true
    · by_cases hport : E.isPortDeclaration p = true
      · simp only [parseBlockItemsLoop, hcond, hport, if_true,
          prependSkippedToDeclaration] at h
        refine hitem _ _ ?_ ?_ h
        · rfl
        · simp [itemRounds, hcond, hport]
      · by_cases hvar : E.isVariableDeclaration p = true
        · simp only [parseBlockItemsLoop, hcond, hport, hvar, if_true, if_false,
            prependSkippedToDeclaration] at h
          refine hitem _ _ ?_ ?_ h
          · rfl
          · simp [itemRounds, hcond, hport, hvar]
        · by_cases hstmt : E.isPossibleStatement p.peek.kind = true
          · simp only [parseBlockItemsLoop, hcond, hport, hvar, hstmt, if_true, if_false,
              prependSkippedToStatement] at h
            obtain ⟨v, hv, hk⟩ := bind_ok_inv h
            refine hitem _ _ ?_ ?_ hk
            · rfl
            · simp [itemRounds, hcond, hport, hvar, hstmt, hv]
          · cases error with
            | true =>
              simp only [parseBlockItemsLoop, hcond, hport, hvar, hstmt, if_true, if_false,
                Bool.not_true, Bool.false_eq_true] at h
              have hrounds : itemRounds E rec (f + 1) true p =
                  itemRounds E rec f true p.consume.2 := by
                simp [itemRounds, hcond, hport, hvar, hstmt]
              rw [hrounds] at hsub ⊢
              obtain ⟨more, hitems, hlen, ⟨ext, hfirst⟩, hdiag⟩ :=
                ih _ _ _ _ _ _ _ h (by simp) hsub
              refine ⟨more, hitems, hlen, ⟨p.consume.1 :: ext, by simp [hfirst]⟩, ?_⟩
              rw [hdiag]
              rfl
            | false =>
              simp only [parseBlockItemsLoop, hcond, hport, hvar, hstmt, if_true, if_false,
                Bool.not_false, Bool.false_eq_true] at h
              have hrounds : itemRounds E rec (f + 1) false p =
                  itemRounds E rec f true
                    (p.consume.2.addError DiagCode.InvalidTokenInSequentialBlock
                      p.consume.1.location) := by
                simp [itemRounds, hcond, hport, hvar, hstmt]
              rw [hrounds] at hsub ⊢
              obtain ⟨more, hitems, hlen, ⟨ext, hfirst⟩, hdiag⟩ :=
                ih _ _ _ _ _ _ _ h (by simp) hsub
              have hs : skipped = [] := by
                by_contra hne
                exact absurd (hinv.2 hne) (by decide)
              subst hs
              obtain ⟨rest, hrest⟩ := expectedBlockDiagnostics_head more _ trailing hlen
              refine ⟨more, hitems, hlen, ⟨p.consume.1 :: ext, by simp [hfirst]⟩, ?_⟩
              rw [hdiag, hrest, hfirst]
              simp [runDiagnostic, addError, consume]
    · simp only [parseBlockItemsLoop, hcond, if_false] at h
      cases h
      refine ⟨[], by simp, by simp [itemRounds, hcond], ⟨[], by simp [firstRun]⟩, ?_⟩
      simp only [itemRounds, hcond, if_false, expectedBlockDiagnostics]
      rw [← List.append_nil (runDiagnostic skipped), drop_runDiagnostic skipped error hinv]
      simp

end Parser

/-- The diagnostics of the loop of `parseBlockItems` when it returns and the
sub-parsers of the items only add diagnostics: those at the start followed,
item by item, by the diagnostic of the run in front of the item and by what
the sub-parsers of the item reported, and finally by the diagnostic of the run
in front of the end token. The runs are the tokens the loop skipped, in order,
and `parseBlockItems` returns the items with the last run in front of the end
token, adding at most the diagnostic of `expect` for a missing end token. -/
theorem parseBlockItemsLoop_expected (E : ParserEnv) (rec : StatementParser) (fuel : Nat)
    (p : Parser) (items : List BlockItemSyntax) (trailing : List Token) (q0 : Parser)
    (hloop : Parser.parseBlockItemsLoop E rec fuel [] [] false p =
      Except.ok ((items, trailing), q0))
    (hsub : ∀ r ∈ itemRounds E rec fuel false p, r.1.diagnostics <+: r.2.diagnostics) :
    items.length = (itemRounds E rec fuel false p).length ∧
      q0.diagnostics =
        p.diagnostics ++
          expectedBlockDiagnostics items (itemRounds E rec fuel false p) trailing ∧
      skippedOfItems items ++ trailing = skippedInLoop E rec fuel false p ∧
      (∀ endKind : TokenKind, ∃ (endToken : Token) (q : Parser),
        Parser.parseBlockItems E fuel rec endKind p = Except.ok ((items, endToken), q) ∧
        (∃ rest, endToken.skipped =
          trailing.map (fun t => (t.kind, t.location)) ++ rest) ∧
        (q.diagnostics = q0.diagnostics ∨
          q.diagnostics = q0.diagnostics ++
            [⟨E.expectedCode endKind, DiagSite.location q0.peek.location, []⟩])) := by
  obtain ⟨more, hitems, hlen, -, hdiag⟩ :=
    Parser.parseBlockItemsLoop_diagnostics fuel [] [] false p items trailing q0 hloop
      (by simp) hsub
  have hmore : more = items := by simp [hitems]
  subst hmore
  refine ⟨hlen, by simpa using hdiag, ?_, ?_⟩
  · have h := Parser.parseBlockItemsLoop_skipped fuel [] [] false p more trailing q0 hloop
    simpa [skippedOfItems] using h
  · intro endKind
    have hexpect : (q0.expect E endKind).2.diagnostics = q0.diagnostics ∨
        (q0.expect E endKind).2.diagnostics = q0.diagnostics ++
          [⟨E.expectedCode endKind, DiagSite.location q0.peek.location, []⟩] := by
      unfold Parser.expect
      split
      · exact Or.inl rfl
      · exact Or.inr rfl
    have hres : ∀ r : Token × Parser,
        (r.2.diagnostics = q0.diagnostics ∨
          r.2.diagnostics = q0.diagnostics ++
            [⟨E.expectedCode endKind, DiagSite.location q0.peek.location, []⟩]) →
        ∃ (endToken : Token) (q : Parser),
          (Except.ok ((more, (Parser.prependSkippedTokens r.1 trailing).1), r.2) :
            Except ParseFailure ((List BlockItemSyntax × Token) × Parser)) =
            Except.ok ((more, endToken), q) ∧
          (∃ rest, endToken.skipped =
            trailing.map (fun t => (t.kind, t.location)) ++ rest) ∧
          (q.diagnostics = q0.diagnostics ∨
            q.diagnostics = q0.diagnostics ++
              [⟨E.expectedCode endKind, DiagSite.location q0.peek.location, []⟩]) :=
      fun r hr => ⟨_, _, rfl, ⟨r.1.skipped, rfl⟩, hr⟩
    simp only [Parser.parseBlockItems, hloop, bind, Except.bind, pure, Except.pure]
    split
    · split
      · exact hres q0.consume (Or.inl rfl)
      · exact hres q0.consume (Or.inl rfl)
      · exact hres q0.consume (Or.inl rfl)
      · exact hres (q0.expect E endKind) hexpect
    · exact hres (q0.expect E endKind) hexpect

/-- C32: in `parseBlockItems` exactly one `InvalidTokenInSequentialBlock`
diagnostic is emitted for each maximal run of consecutive skipped tokens, at
the first token of the run, and a run after a parsed item gets a diagnostic of
its own. The runs are read off the result: the skipped tokens in front of each
item and those in front of the end token; together they are the tokens the
loop skipped, in order. Under the assumptions of termination, with more fuel
than tokens and sub-parsers of the items that only add diagnostics, the loop
returns, and the diagnostics at its end are those at its start followed, item
by item, by the diagnostic of the run in front of the item, if the run is not
empty, and by what the sub-parsers of the item reported, and finally by the
diagnostic of the run in front of the end token, if that run is not empty.
`parseBlockItems` then returns these items, with the last run in front of the
end token, and adds at most the diagnostic of `expect` for a missing end
token. In any environment the same holds of every result the loop returns. -/
theorem parseBlockItems_run_diagnostics (E : ParserEnv) :
    (E.WellBehaved → ∀ (rec : StatementParser) (n : Nat), Terminates E rec n →
      ∀ (fuel : Nat), n < fuel → ∀ (p : Parser), p.tokens.length ≤ n →
      (∀ r ∈ itemRounds E rec fuel false p, r.1.diagnostics <+: r.2.diagnostics) →
      ∃ (items : List BlockItemSyntax) (trailing : List Token) (q0 : Parser),
        Parser.parseBlockItemsLoop E rec fuel [] [] false p =
          Except.ok ((items, trailing), q0) ∧
        items.length = (itemRounds E rec fuel false p).length ∧
        q0.diagnostics =
          p.diagnostics ++
            expectedBlockDiagnostics items (itemRounds E rec fuel false p) trailing ∧
        skippedOfItems items ++ trailing = skippedInLoop E rec fuel false p ∧
        (∀ endKind : TokenKind, ∃ (endToken : Token) (q : Parser),
          Parser.parseBlockItems E fuel rec endKind p = Except.ok ((items, endToken), q) ∧
          (∃ rest, endToken.skipped =
            trailing.map (fun t => (t.kind, t.location)) ++ rest) ∧
          (q.diagnostics = q0.diagnostics ∨
            q.diagnostics = q0.diagnostics ++
              [⟨E.expectedCode endKind, DiagSite.location q0.peek.location, []⟩]))) ∧
    (∀ (rec : StatementParser) (fuel : Nat) (p : Parser) (items : List BlockItemSyntax)
      (trailing : List Token) (q0 : Parser),
      Parser.parseBlockItemsLoop E rec fuel [] [] false p =
        Except.ok ((items, trailing), q0) →
      (∀ r ∈ itemRounds E rec fuel false p, r.1.diagnostics <+: r.2.diagnostics) →
      items.length = (itemRounds E rec fuel false p).length ∧
        q0.diagnostics =
          p.diagnostics ++
            expectedBlockDiagnostics items (itemRounds E rec fuel false p) trailing ∧
        skippedOfItems items ++ trailing = skippedInLoop E rec fuel false p ∧
        (∀ endKind : TokenKind, ∃ (endToken : Token) (q : Parser),
          Parser.parseBlockItems E fuel rec endKind p = Except.ok ((items, endToken), q) ∧
          (∃ rest, endToken.skipped =
            trailing.map (fun t => (t.kind, t.location)) ++ rest) ∧
          (q.diagnostics = q0.diagnostics ∨
            q.diagnostics = q0.diagnostics ++
              [⟨E.expectedCode endKind, DiagSite.location q0.peek.location, []⟩]))) := by
  refine ⟨?_, ?_⟩
  · intro hE rec n hrec fuel hfuel p hp hsub
    obtain ⟨⟨items, trailing⟩, q0, hloop, -⟩ :=
      Parser.parseBlockItemsLoop_returns hE hrec fuel [] [] false p
        (Nat.lt_of_le_of_lt hp hfuel) hp
    exact ⟨items, trailing, q0, hloop,
      parseBlockItemsLoop_expected E rec fuel p items trailing q0 hloop hsub⟩
  · intro rec fuel p items trailing q0 hloop hsub
    exact parseBlockItemsLoop_expected E rec fuel p items trailing q0 hloop hsub

/-- The statement parser of the fixtures reports nothing on the statement of
the block `begin ) , x ; : end`: the one item round of the loop leaves the
diagnostics as they were. -/
theorem recoveryBlock_rounds :
    ∀ r ∈ itemRounds fixtureEnv (Parser.parseStatement fixtureEnv 7) 7 false
      (stateAt recoveryBlock 1), r.1.diagnostics <+: r.2.diagnostics := by
  intro r hr
  have hr2 : r ∈ [((⟨tokensFrom 3 (recoveryBlock.drop 3), ⟨1, 7⟩,
      [⟨DiagCode.InvalidTokenInSequentialBlock, DiagSite.location ⟨1, 1⟩, []⟩]⟩ : Parser),
    (⟨tokensFrom 5 (recoveryBlock.drop 5), ⟨1, 7⟩,
      [⟨DiagCode.InvalidTokenInSequentialBlock, DiagSite.location ⟨1, 1⟩, []⟩]⟩ :
        Parser))] := hr
  rw [List.mem_singleton] at hr2
  subst hr2
  exact ⟨[], rfl⟩

/-- C32 on the block `begin ) , x ; : end`: the loop returns; the run `) ,` in
front of the statement `x ;` and the run `:` in front of `end` get one
diagnostic each, at `)` and at `:`; the statement parser reported nothing. -/
theorem parseBlockItems_run_diagnostics_witness :
    (∃ (items : List BlockItemSyntax) (trailing : List Token) (q0 : Parser),
        Parser.parseBlockItemsLoop fixtureEnv (Parser.parseStatement fixtureEnv 7) 7 [] []
            false (stateAt recoveryBlock 1) = Except.ok ((items, trailing), q0) ∧
        q0.diagnostics =
          (stateAt recoveryBlock 1).diagnostics ++
            expectedBlockDiagnostics items
              (itemRounds fixtureEnv (Parser.parseStatement fixtureEnv 7) 7 false
                (stateAt recoveryBlock 1)) trailing) ∧
      [(⟨DiagCode.InvalidTokenInSequentialBlock, DiagSite.location ⟨1, 1⟩, []⟩ : Diagnostic),
          ⟨DiagCode.InvalidTokenInSequentialBlock, DiagSite.location ⟨1, 5⟩, []⟩] =
        (stateAt recoveryBlock 1).diagnostics ++
          expectedBlockDiagnostics
            [BlockItemSyntax.statement
          [tokenAt TokenKind.CloseParenthesis 1, tokenAt TokenKind.Comma 2]
          (StatementSyntax.ExpressionStatement none []
            ⟨1, [tokenAt TokenKind.Identifier 3]⟩ (tokenAt TokenKind.Semicolon 4))]
            (itemRounds fixtureEnv (Parser.parseStatement fixtureEnv 7) 7 false
              (stateAt recoveryBlock 1))
            [tokenAt TokenKind.Colon 5] ∧
      expectedBlockDiagnostics
          [BlockItemSyntax.statement
          [tokenAt TokenKind.CloseParenthesis 1, tokenAt TokenKind.Comma 2]
          (StatementSyntax.ExpressionStatement none []
            ⟨1, [tokenAt TokenKind.Identifier 3]⟩ (tokenAt TokenKind.Semicolon 4))]
          (itemRounds fixtureEnv (Parser.parseStatement fixtureEnv 7) 7 false
            (stateAt recoveryBlock 1))
          [tokenAt TokenKind.Colon 5] =
        [⟨DiagCode.InvalidTokenInSequentialBlock, DiagSite.location ⟨1, 1⟩, []⟩,
          ⟨DiagCode.InvalidTokenInSequentialBlock, DiagSite.location ⟨1, 5⟩, []⟩] ∧
      itemRounds fixtureEnv (Parser.parseStatement fixtureEnv 7) 7 false
          (stateAt recoveryBlock 1) =
        [(⟨tokensFrom 3 (recoveryBlock.drop 3), ⟨1, 7⟩,
            [⟨DiagCode.InvalidTokenInSequentialBlock, DiagSite.location ⟨1, 1⟩, []⟩]⟩,
          ⟨tokensFrom 5 (recoveryBlock.drop 5), ⟨1, 7⟩,
            [⟨DiagCode.InvalidTokenInSequentialBlock, DiagSite.location ⟨1, 1⟩, []⟩]⟩)] := by
  refine ⟨?_, ?_, rfl, rfl⟩
  · obtain ⟨items, trailing, q0, hloop, -, hdiag, -⟩ :=
      (parseBlockItems_run_diagnostics fixtureEnv).1 fixtureEnv_wellBehaved
        (Parser.parseStatement fixtureEnv 7) 6
        (parseStatement_terminates fixtureEnv_wellBehaved 6) 7 (by decide)
        (stateAt recoveryBlock 1) (by decide) recoveryBlock_rounds
    exact ⟨items, trailing, q0, hloop, hdiag⟩
  · exact ((parseBlockItems_run_diagnostics fixtureEnv).2 (Parser.parseStatement fixtureEnv 7)
      7 (stateAt recoveryBlock 1)
      [BlockItemSyntax.statement
          [tokenAt TokenKind.CloseParenthesis 1, tokenAt TokenKind.Comma 2]
          (StatementSyntax.ExpressionStatement none []
            ⟨1, [tokenAt TokenKind.Identifier 3]⟩ (tokenAt TokenKind.Semicolon 4))]
      [tokenAt TokenKind.Colon 5]
      ⟨[tokenAt TokenKind.EndKeyword 6], ⟨1, 7⟩,
        [⟨DiagCode.InvalidTokenInSequentialBlock, DiagSite.location ⟨1, 1⟩, []⟩,
          ⟨DiagCode.InvalidTokenInSequentialBlock, DiagSite.location ⟨1, 5⟩, []⟩]⟩
      rfl recoveryBlock_rounds).2.1

end Slang
